import Mathlib

/-!
# Block codec of the compactor C-DNS writer/reader (`src/blockcbordata.cpp`)

A shallow embedding of the block-level CBOR codec.  A CBOR stream is a list of
tokens (one token per CBOR item head); a decoder is a function from the tokens
still to be read to either an error or a result with the tokens left over; an
encoder is a function producing the tokens it writes.  A member function
`T::readCbor` takes the object decoded into (`self`) and returns the updated
object.

The integer types of the record fields are declared in `blockcbordata.hpp`,
which is not among the sources.  Fields are naturals holding a value of their
C++ type; storing a value read from the stream into a field keeps the value.
Where the source spells a conversion out (`static_cast<index_t>`) or does
arithmetic on machine integers (the statistics counters) the width is explicit.
-/

namespace block_cbor

/-! ## The CBOR token stream and the primitives of `CborBaseDecoder` / `CborBaseEncoder` -/

/-- One CBOR item head.  `arr none` / `map none` are the indefinite-length
headers, `brk` is the break token that ends an indefinite-length container.
The argument of an integer token of a real stream is below `2 ^ 64`. -/
inductive Tok where
  | uint (n : Nat)
  | nint (n : Nat)
  | bytes (b : List Nat)
  | text (b : List Nat)
  | arr (n : Option Nat)
  | map (n : Option Nat)
  | tag (n : Nat)
  | simple (n : Nat)
  | brk
  deriving DecidableEq, Repr

/-- The exceptions that leave a decoder.  `logic_error` is what a stream
primitive throws on an item of the wrong type, `cbor_file_format_error` is the
codec's own error and carries its message, `out_of_fuel` is the embedding's
marker for a loop that was cut off (no C++ counterpart). -/
inductive Err where
  | logic_error
  | cbor_end_of_input
  | cbor_decode_error
  | cbor_file_format_error (what : String)
  | out_of_fuel
  deriving DecidableEq, Repr

/-- Result of a decoder: the value and the tokens not yet read. -/
abbrev Res (α : Type) := Except Err (α × List Tok)

/-- Modelled from the spec: `CborBaseDecoder::read_unsigned`, a primitive of the
external reader: returns the value of an unsigned item, signals a logic error
on any other item type and end of input on an empty stream. -/
def read_unsigned : List Tok → Res Nat
  | [] => .error .cbor_end_of_input
  | .uint n :: ts => .ok (n, ts)
  | _ :: _ => .error .logic_error

/-- Modelled from the spec: `CborBaseDecoder::read_signed`: accepts an unsigned
item (value `n`) or a negative item (value `-1 - n`). -/
def read_signed : List Tok → Res Int
  | [] => .error .cbor_end_of_input
  | .uint n :: ts => .ok ((n : Int), ts)
  | .nint n :: ts => .ok (-1 - (n : Int), ts)
  | _ :: _ => .error .logic_error

/-- Modelled from the spec: `CborBaseDecoder::read_binary`. -/
def read_binary : List Tok → Res (List Nat)
  | [] => .error .cbor_end_of_input
  | .bytes b :: ts => .ok (b, ts)
  | _ :: _ => .error .logic_error

/-- Modelled from the spec: `CborBaseDecoder::readMapHeader(indef)`: returns
`(indef, n_elems)`; for an indefinite map `indef` is set and the count is 0. -/
def readMapHeader : List Tok → Res (Bool × Nat)
  | [] => .error .cbor_end_of_input
  | .map (some n) :: ts => .ok ((false, n), ts)
  | .map none :: ts => .ok ((true, 0), ts)
  | _ :: _ => .error .logic_error

/-- Modelled from the spec: `CborBaseDecoder::readArrayHeader(indef)`. -/
def readArrayHeader : List Tok → Res (Bool × Nat)
  | [] => .error .cbor_end_of_input
  | .arr (some n) :: ts => .ok ((false, n), ts)
  | .arr none :: ts => .ok ((true, 0), ts)
  | _ :: _ => .error .logic_error

/-- Pending containers of `skip`: `some n` is a container with `n` items still
to come, `none` an indefinite one waiting for its break. -/
def drop_done : List (Option Nat) → List (Option Nat)
  | some 0 :: st => drop_done st
  | st => st

/-- One item of the innermost pending container has been started. -/
def one_less : Option Nat → Option Nat
  | some n => some (n - 1)
  | none => none

/-- Worker of `skip`: reads tokens until the pending containers are complete. -/
def skip_go : List (Option Nat) → List Tok → Except Err (List Tok)
  | st, [] => if drop_done st = [] then .ok [] else .error .cbor_end_of_input
  | st, t :: ts =>
    match drop_done st with
    | [] => .ok (t :: ts)
    | top :: below =>
      match t with
      | .brk =>
        match top with
        | none => skip_go below ts
        | some _ => .error .cbor_decode_error
      | .arr k => skip_go (k :: one_less top :: below) ts
      | .map k => skip_go (k.map (2 * ·) :: one_less top :: below) ts
      | .tag _ => skip_go (some 1 :: one_less top :: below) ts
      | _ => skip_go (one_less top :: below) ts

/-- Modelled from the spec: `CborBaseDecoder::skip`: reads past one complete
data item, nested containers included. -/
def skip (ts : List Tok) : Res Unit :=
  match skip_go [some 1] ts with
  | .ok rest => .ok ((), rest)
  | .error e => .error e

/-- Modelled from the spec: `CborBaseEncoder::write` of a signed integer: a
non-negative value is an unsigned item, a negative value `v` the negative item
`-1 - v`. -/
def write_signed (v : Int) : Tok :=
  if 0 ≤ v then .uint v.toNat else .nint (-1 - v).toNat

/-- The handler `catch (const std::logic_error&) { throw
cbor_file_format_error(what); }` around a decoder body: only a logic error is
caught. -/
def catch_logic_error {α : Type} (what : String) (r : Except Err α) : Except Err α :=
  match r with
  | .error .logic_error => .error (.cbor_file_format_error what)
  | r => r

/-- The loop shared by every map and array decoder of the file:
```
while ( indef || n_elems-- > 0 )
{
    if ( indef && dec.type() == CborBaseDecoder::TYPE_BREAK )
    {
        dec.readBreak();
        break;
    }
    body
}
```
`dec.type()` of an exhausted stream signals end of input.  The first argument
bounds the number of iterations; callers pass one more than the number of tokens
left, and every body reads at least one token. -/
def container_loop {σ : Type} (body : σ → List Tok → Res σ) :
    Nat → Bool → Nat → σ → List Tok → Res σ
  | 0, _, _, _, _ => .error .out_of_fuel
  | fuel + 1, true, n_elems, s, ts =>
    match ts with
    | [] => .error .cbor_end_of_input
    | .brk :: rest => .ok (s, rest)
    | _ :: _ =>
      match body s ts with
      | .ok (s1, ts1) => container_loop body fuel true n_elems s1 ts1
      | .error e => .error e
  | fuel + 1, false, n_elems, s, ts =>
    if n_elems > 0 then
      match body s ts with
      | .ok (s1, ts1) => container_loop body fuel false (n_elems - 1) s1 ts1
      | .error e => .error e
    else .ok (s, ts)

/-- The opening of every map decoder of the file, followed by the loop:
```
bool indef;
uint64_t n_elems = dec.readMapHeader(indef);
while ( indef || n_elems-- > 0 ) ...
``` -/
def read_map {σ : Type} (body : σ → List Tok → Res σ) (s : σ) (dec : List Tok) : Res σ :=
  match readMapHeader dec with
  | .error e => .error e
  | .ok ((indef, n_elems), dec) => container_loop body (dec.length + 1) indef n_elems s dec

/-- The opening of every array decoder of the file (`dec.readArrayHeader(indef)`),
followed by the loop. -/
def read_array {σ : Type} (body : σ → List Tok → Res σ) (s : σ) (dec : List Tok) : Res σ :=
  match readArrayHeader dec with
  | .error e => .error e
  | .ok ((indef, n_elems), dec) => container_loop body (dec.length + 1) indef n_elems s dec

/-! ## Field identities and the version field mapping -/

inductive ClassTypeField where
  | type_id | class_id | unknown
  deriving DecidableEq, Repr

inductive QuestionField where
  | name_index | classtype_index | unknown
  deriving DecidableEq, Repr

inductive RRField where
  | name_index | classtype_index | ttl | rdata_index | unknown
  deriving DecidableEq, Repr

inductive QuerySignatureField where
  | server_address_index | server_port | transport_flags | qr_dns_flags | qr_sig_flags
  | query_qd_count | query_classtype_index | query_rcode | query_opcode | query_an_count
  | query_ar_count | query_ns_count | edns_version | udp_buf_size | opt_rdata_index
  | response_rcode | unknown
  deriving DecidableEq, Repr

inductive QueryResponseField where
  | time_useconds | client_address_index | client_port | transaction_id
  | query_signature_index | client_hoplimit | delay_useconds | query_name_index
  | query_size | response_size | query_extended | response_extended | unknown
  deriving DecidableEq, Repr

inductive QueryResponseExtendedField where
  | question_index | answer_index | authority_index | additional_index | unknown
  deriving DecidableEq, Repr

inductive AddressEventCountField where
  | ae_type | ae_code | ae_address_index | ae_count | unknown
  deriving DecidableEq, Repr

inductive BlockField where
  | preamble | statistics | tables | queries | address_event_counts | unknown
  deriving DecidableEq, Repr

inductive BlockPreambleField where
  | earliest_time | unknown
  deriving DecidableEq, Repr

inductive BlockTablesField where
  | ip_address | classtype | name_rdata | query_signature | question_list | question_rr
  | rr_list | rr | unknown
  deriving DecidableEq, Repr

inductive BlockStatisticsField where
  | total_packets | total_pairs | unmatched_queries | unmatched_responses
  | completely_malformed_packets | compactor_non_dns_packets
  | compactor_out_of_order_packets | compactor_missing_pairs | compactor_missing_packets
  | compactor_missing_non_dns | unknown
  deriving DecidableEq, Repr

/-- The lookups of `FileVersionFields` (declared outside the sources): wire key
to field identity, `unknown` for a key the file version does not know. -/
structure FileVersionFields where
  class_type_field : Nat → ClassTypeField
  question_field : Nat → QuestionField
  rr_field : Nat → RRField
  query_signature_field : Nat → QuerySignatureField
  query_response_field : Nat → QueryResponseField
  query_response_extended_field : Nat → QueryResponseExtendedField
  address_event_count_field : Nat → AddressEventCountField
  block_field : Nat → BlockField
  block_preamble_field : Nat → BlockPreambleField
  block_tables_field : Nat → BlockTablesField
  block_statistics_field : Nat → BlockStatisticsField

/-- The `constexpr` lookups `find_*_index` (declared outside the sources): the
wire key of a field identity in the current format version. -/
structure CurrentIndex where
  find_class_type_index : ClassTypeField → Nat
  find_question_index : QuestionField → Nat
  find_rr_index : RRField → Nat
  find_query_signature_index : QuerySignatureField → Nat
  find_query_response_index : QueryResponseField → Nat
  find_query_response_extended_index : QueryResponseExtendedField → Nat
  find_address_event_count_index : AddressEventCountField → Nat
  find_block_index : BlockField → Nat
  find_block_preamble_index : BlockPreambleField → Nat
  find_block_tables_index : BlockTablesField → Nat
  find_block_statistics_index : BlockStatisticsField → Nat

/-- The field mapping resolves every current-version key to its own identity. -/
structure Resolves (cur : CurrentIndex) (fields : FileVersionFields) : Prop where
  class_type : ∀ f, f ≠ .unknown →
    fields.class_type_field (cur.find_class_type_index f) = f
  question : ∀ f, f ≠ .unknown → fields.question_field (cur.find_question_index f) = f
  rr : ∀ f, f ≠ .unknown → fields.rr_field (cur.find_rr_index f) = f
  query_signature : ∀ f, f ≠ .unknown →
    fields.query_signature_field (cur.find_query_signature_index f) = f
  query_response : ∀ f, f ≠ .unknown →
    fields.query_response_field (cur.find_query_response_index f) = f
  query_response_extended : ∀ f, f ≠ .unknown →
    fields.query_response_extended_field (cur.find_query_response_extended_index f) = f
  address_event_count : ∀ f, f ≠ .unknown →
    fields.address_event_count_field (cur.find_address_event_count_index f) = f
  block : ∀ f, f ≠ .unknown → fields.block_field (cur.find_block_index f) = f
  block_preamble : ∀ f, f ≠ .unknown →
    fields.block_preamble_field (cur.find_block_preamble_index f) = f
  block_tables : ∀ f, f ≠ .unknown →
    fields.block_tables_field (cur.find_block_tables_index f) = f
  block_statistics : ∀ f, f ≠ .unknown →
    fields.block_statistics_field (cur.find_block_statistics_index f) = f

/-- Modelled from the spec: the bits of `QueryResponseFlags` (declared outside
the sources): distinct single bits, with `QUERY_AND_RESPONSE` the union of
`QUERY_ONLY` and `RESPONSE_ONLY`. -/
def QUERY_ONLY : Nat := 1

/-- Modelled from the spec: see `QUERY_ONLY`. -/
def RESPONSE_ONLY : Nat := 2

/-- Modelled from the spec: `QUERY_AND_RESPONSE = QUERY_ONLY|RESPONSE_ONLY`. -/
def QUERY_AND_RESPONSE : Nat := QUERY_ONLY ||| RESPONSE_ONLY

/-- Modelled from the spec: see `QUERY_ONLY`. -/
def QR_HAS_QUESTION : Nat := 4

/-- Modelled from the spec: see `QUERY_ONLY`. -/
def QUERY_HAS_OPT : Nat := 8

/-! ## Dictionary items -/

/-- The conversion `static_cast<index_t>` of a value read as `uint64_t`;
`index_bits` is the width of `index_t` (declared outside the sources). -/
def to_index_t (index_bits : Nat) (v : Nat) : Nat := v % 2 ^ index_bits

structure IndexVectorItem where
  vec : List Nat
  deriving DecidableEq, Repr

/-- Body of the loop of `IndexVectorItem::readCbor`. -/
def IndexVectorItem.read_element (index_bits : Nat) (self : IndexVectorItem)
    (dec : List Tok) : Res IndexVectorItem :=
  match read_unsigned dec with
  | .error e => .error e
  | .ok (v, dec) => .ok ({ self with vec := self.vec ++ [to_index_t index_bits v] }, dec)

/-- The function `IndexVectorItem::readCbor` without its `vec.reserve(n_elems)`,
which changes the capacity of the vector only as long as the count is not above
`max_size()`; `IndexVectorItem.readCbor_reserving` has the call. -/
def IndexVectorItem.readCbor (index_bits : Nat) (self : IndexVectorItem) (dec : List Tok) :
    Res IndexVectorItem :=
  catch_logic_error "Unexpected CBOR item reading index" <|
    read_array (IndexVectorItem.read_element index_bits) self dec

def IndexVectorItem.writeCbor (self : IndexVectorItem) : List Tok :=
  .arr (some self.vec.length) :: self.vec.map .uint

structure ClassType where
  qtype : Nat
  qclass : Nat
  deriving DecidableEq, Repr

/-- Body of the loop of `ClassType::readCbor`: one key and its value. -/
def ClassType.read_entry (fields : FileVersionFields) (self : ClassType) (dec : List Tok) :
    Res ClassType :=
  match read_unsigned dec with
  | .error e => .error e
  | .ok (key, dec) =>
    match fields.class_type_field key with
    | .type_id =>
      match read_unsigned dec with
      | .error e => .error e
      | .ok (v, dec) => .ok ({ self with qtype := v }, dec)
    | .class_id =>
      match read_unsigned dec with
      | .error e => .error e
      | .ok (v, dec) => .ok ({ self with qclass := v }, dec)
    | _ =>
      match skip dec with
      | .error e => .error e
      | .ok (_, dec) => .ok (self, dec)

def ClassType.readCbor (fields : FileVersionFields) (self : ClassType) (dec : List Tok) :
    Res ClassType :=
  catch_logic_error "Unexpected CBOR item reading ClassType" <|
    read_map (ClassType.read_entry fields) self dec

def ClassType.writeCbor (cur : CurrentIndex) (self : ClassType) : List Tok :=
  let type_index := cur.find_class_type_index .type_id
  let class_index := cur.find_class_type_index .class_id
  [.map (some 2), .uint type_index, .uint self.qtype, .uint class_index, .uint self.qclass]

structure Question where
  qname : Nat
  classtype : Nat
  deriving DecidableEq, Repr

/-- Body of the loop of `Question::readCbor`. -/
def Question.read_entry (fields : FileVersionFields) (self : Question) (dec : List Tok) :
    Res Question :=
  match read_unsigned dec with
  | .error e => .error e
  | .ok (key, dec) =>
    match fields.question_field key with
    | .name_index =>
      match read_unsigned dec with
      | .error e => .error e
      | .ok (v, dec) => .ok ({ self with qname := v }, dec)
    | .classtype_index =>
      match read_unsigned dec with
      | .error e => .error e
      | .ok (v, dec) => .ok ({ self with classtype := v }, dec)
    | _ =>
      match skip dec with
      | .error e => .error e
      | .ok (_, dec) => .ok (self, dec)

def Question.readCbor (fields : FileVersionFields) (self : Question) (dec : List Tok) :
    Res Question :=
  catch_logic_error "Unexpected CBOR item reading Question" <|
    read_map (Question.read_entry fields) self dec

def Question.writeCbor (cur : CurrentIndex) (self : Question) : List Tok :=
  let qname_index := cur.find_question_index .name_index
  let classtype_index := cur.find_question_index .classtype_index
  [.map (some 2), .uint qname_index, .uint self.qname,
   .uint classtype_index, .uint self.classtype]

structure ResourceRecord where
  name : Nat
  classtype : Nat
  ttl : Nat
  rdata : Nat
  deriving DecidableEq, Repr

/-- Body of the loop of `ResourceRecord::readCbor`. -/
def ResourceRecord.read_entry (fields : FileVersionFields) (self : ResourceRecord)
    (dec : List Tok) : Res ResourceRecord :=
  match read_unsigned dec with
  | .error e => .error e
  | .ok (key, dec) =>
    match fields.rr_field key with
    | .name_index =>
      match read_unsigned dec with
      | .error e => .error e
      | .ok (v, dec) => .ok ({ self with name := v }, dec)
    | .classtype_index =>
      match read_unsigned dec with
      | .error e => .error e
      | .ok (v, dec) => .ok ({ self with classtype := v }, dec)
    | .ttl =>
      match read_unsigned dec with
      | .error e => .error e
      | .ok (v, dec) => .ok ({ self with ttl := v }, dec)
    | .rdata_index =>
      match read_unsigned dec with
      | .error e => .error e
      | .ok (v, dec) => .ok ({ self with rdata := v }, dec)
    | _ =>
      match skip dec with
      | .error e => .error e
      | .ok (_, dec) => .ok (self, dec)

def ResourceRecord.readCbor (fields : FileVersionFields) (self : ResourceRecord)
    (dec : List Tok) : Res ResourceRecord :=
  catch_logic_error "Unexpected CBOR item reading ResourceRecord" <|
    read_map (ResourceRecord.read_entry fields) self dec

def ResourceRecord.writeCbor (cur : CurrentIndex) (self : ResourceRecord) : List Tok :=
  let name_index := cur.find_rr_index .name_index
  let classtype_index := cur.find_rr_index .classtype_index
  let ttl_index := cur.find_rr_index .ttl
  let rdata_index := cur.find_rr_index .rdata_index
  [.map (some 4), .uint name_index, .uint self.name, .uint classtype_index,
   .uint self.classtype, .uint ttl_index, .uint self.ttl, .uint rdata_index, .uint self.rdata]

structure QuerySignature where
  server_address : Nat
  server_port : Nat
  transport_flags : Nat
  dns_flags : Nat
  qr_flags : Nat
  qdcount : Nat
  query_classtype : Nat
  query_rcode : Nat
  query_opcode : Nat
  query_ancount : Nat
  query_arcount : Nat
  query_nscount : Nat
  query_edns_version : Nat
  query_edns_payload_size : Nat
  query_opt_rdata : Nat
  response_rcode : Nat
  deriving DecidableEq, Repr

/-- Body of the loop of `QuerySignature::readCbor`. -/
def QuerySignature.read_entry (fields : FileVersionFields) (self : QuerySignature)
    (dec : List Tok) : Res QuerySignature :=
  match read_unsigned dec with
  | .error e => .error e
  | .ok (key, dec) =>
    match fields.query_signature_field key with
    | .server_address_index =>
      match read_unsigned dec with
      | .error e => .error e
      | .ok (v, dec) => .ok ({ self with server_address := v }, dec)
    | .server_port =>
      match read_unsigned dec with
      | .error e => .error e
      | .ok (v, dec) => .ok ({ self with server_port := v }, dec)
    | .transport_flags =>
      match read_unsigned dec with
      | .error e => .error e
      | .ok (v, dec) => .ok ({ self with transport_flags := v }, dec)
    | .qr_dns_flags =>
      match read_unsigned dec with
      | .error e => .error e
      | .ok (v, dec) => .ok ({ self with dns_flags := v }, dec)
    | .qr_sig_flags =>
      match read_unsigned dec with
      | .error e => .error e
      | .ok (v, dec) => .ok ({ self with qr_flags := v }, dec)
    | .query_qd_count =>
      match read_unsigned dec with
      | .error e => .error e
      | .ok (v, dec) => .ok ({ self with qdcount := v }, dec)
    | .query_classtype_index =>
      match read_unsigned dec with
      | .error e => .error e
      | .ok (v, dec) => .ok ({ self with query_classtype := v }, dec)
    | .query_rcode =>
      match read_unsigned dec with
      | .error e => .error e
      | .ok (v, dec) => .ok ({ self with query_rcode := v }, dec)
    | .query_opcode =>
      match read_unsigned dec with
      | .error e => .error e
      | .ok (v, dec) => .ok ({ self with query_opcode := v }, dec)
    | .query_an_count =>
      match read_unsigned dec with
      | .error e => .error e
      | .ok (v, dec) => .ok ({ self with query_ancount := v }, dec)
    | .query_ar_count =>
      match read_unsigned dec with
      | .error e => .error e
      | .ok (v, dec) => .ok ({ self with query_arcount := v }, dec)
    | .query_ns_count =>
      match read_unsigned dec with
      | .error e => .error e
      | .ok (v, dec) => .ok ({ self with query_nscount := v }, dec)
    | .edns_version =>
      match read_unsigned dec with
      | .error e => .error e
      | .ok (v, dec) => .ok ({ self with query_edns_version := v }, dec)
    | .udp_buf_size =>
      match read_unsigned dec with
      | .error e => .error e
      | .ok (v, dec) => .ok ({ self with query_edns_payload_size := v }, dec)
    | .opt_rdata_index =>
      match read_unsigned dec with
      | .error e => .error e
      | .ok (v, dec) => .ok ({ self with query_opt_rdata := v }, dec)
    | .response_rcode =>
      match read_unsigned dec with
      | .error e => .error e
      | .ok (v, dec) => .ok ({ self with response_rcode := v }, dec)
    | _ =>
      match skip dec with
      | .error e => .error e
      | .ok (_, dec) => .ok (self, dec)

def QuerySignature.readCbor (fields : FileVersionFields) (self : QuerySignature)
    (dec : List Tok) : Res QuerySignature :=
  catch_logic_error "Unexpected CBOR item reading QuerySignature" <|
    read_map (QuerySignature.read_entry fields) self dec

def QuerySignature.writeCbor (cur : CurrentIndex) (self : QuerySignature) : List Tok :=
  let server_address_index := cur.find_query_signature_index .server_address_index
  let server_port_index := cur.find_query_signature_index .server_port
  let transport_flags_index := cur.find_query_signature_index .transport_flags
  let qr_sig_flags_index := cur.find_query_signature_index .qr_sig_flags
  let query_opcode_index := cur.find_query_signature_index .query_opcode
  let qr_dns_flags_index := cur.find_query_signature_index .qr_dns_flags
  let query_rcode_index := cur.find_query_signature_index .query_rcode
  let query_classtype_index := cur.find_query_signature_index .query_classtype_index
  let query_qd_index := cur.find_query_signature_index .query_qd_count
  let query_an_index := cur.find_query_signature_index .query_an_count
  let query_ar_index := cur.find_query_signature_index .query_ar_count
  let query_ns_index := cur.find_query_signature_index .query_ns_count
  let edns_version_index := cur.find_query_signature_index .edns_version
  let udp_buf_size_index := cur.find_query_signature_index .udp_buf_size
  let opt_rdata_index := cur.find_query_signature_index .opt_rdata_index
  let response_rcode_index := cur.find_query_signature_index .response_rcode
  [.map none,
   .uint server_address_index, .uint self.server_address,
   .uint server_port_index, .uint self.server_port,
   .uint transport_flags_index, .uint self.transport_flags,
   .uint qr_dns_flags_index, .uint self.dns_flags,
   .uint qr_sig_flags_index, .uint self.qr_flags,
   .uint query_qd_index, .uint self.qdcount]
  ++ (if self.qr_flags &&& QR_HAS_QUESTION ≠ 0 then
        [.uint query_classtype_index, .uint self.query_classtype]
      else [])
  ++ (if self.qr_flags &&& QUERY_ONLY ≠ 0 then
        [.uint query_rcode_index, .uint self.query_rcode,
         .uint query_opcode_index, .uint self.query_opcode,
         .uint query_an_index, .uint self.query_ancount,
         .uint query_ar_index, .uint self.query_arcount,
         .uint query_ns_index, .uint self.query_nscount]
        ++ (if self.qr_flags &&& QUERY_HAS_OPT ≠ 0 then
              [.uint edns_version_index, .uint self.query_edns_version,
               .uint udp_buf_size_index, .uint self.query_edns_payload_size,
               .uint opt_rdata_index, .uint self.query_opt_rdata]
            else [])
      else [])
  ++ (if self.qr_flags &&& RESPONSE_ONLY ≠ 0 then
        [.uint response_rcode_index, .uint self.response_rcode]
      else [])
  ++ [.brk]

/-- The two functions of Boost's hash library the file uses (external):
`boost::hash_value` of an integer and `boost::hash_combine(seed, v)`, which
returns the new seed. -/
structure BoostHash where
  hash_value : Nat → Nat
  hash_combine : Nat → Nat → Nat

/-- The function `hash_value(const QuerySignature&)`. -/
def QuerySignature.hash_value (boost : BoostHash) (qs : QuerySignature) : Nat :=
  let seed := boost.hash_value qs.server_address
  let seed := boost.hash_combine seed qs.server_port
  let seed := boost.hash_combine seed qs.transport_flags
  let seed := boost.hash_combine seed qs.dns_flags
  let seed := boost.hash_combine seed qs.qr_flags
  let seed := boost.hash_combine seed qs.qdcount
  let seed :=
    if qs.qr_flags &&& QR_HAS_QUESTION ≠ 0 then boost.hash_combine seed qs.query_classtype
    else seed
  let seed :=
    if qs.qr_flags &&& QUERY_ONLY ≠ 0 then
      let seed := boost.hash_combine seed qs.query_rcode
      let seed := boost.hash_combine seed qs.query_opcode
      let seed := boost.hash_combine seed qs.query_ancount
      let seed := boost.hash_combine seed qs.query_nscount
      boost.hash_combine seed qs.query_arcount
    else seed
  let seed :=
    if qs.qr_flags &&& RESPONSE_ONLY ≠ 0 then boost.hash_combine seed qs.response_rcode
    else seed
  let seed :=
    if qs.qr_flags &&& QUERY_HAS_OPT ≠ 0 then
      let seed := boost.hash_combine seed qs.query_edns_version
      let seed := boost.hash_combine seed qs.query_edns_payload_size
      boost.hash_combine seed qs.query_opt_rdata
    else seed
  seed

/-- The combining step of `boost::hash_combine` for a 64-bit `std::size_t`
and an integer value (whose `hash_value` is the value itself):
`seed ^= v + 0x9e3779b9 + (seed << 6) + (seed >> 2)`. -/
def boost_hash : BoostHash where
  hash_value := fun v => v % 2 ^ 64
  hash_combine := fun seed v =>
    seed ^^^ ((v + 0x9e3779b9 + (seed <<< 6) + (seed >>> 2)) % 2 ^ 64)

/-! ## Query/response items -/

structure QueryResponseExtraInfo where
  questions_list : Nat
  answers_list : Nat
  authority_list : Nat
  additional_list : Nat
  deriving DecidableEq, Repr

/-- Body of the loop of `readExtraInfo`. -/
def readExtraInfo_entry (fields : FileVersionFields) (res : QueryResponseExtraInfo)
    (dec : List Tok) : Res QueryResponseExtraInfo :=
  match read_unsigned dec with
  | .error e => .error e
  | .ok (key, dec) =>
    match fields.query_response_extended_field key with
    | .question_index =>
      match read_unsigned dec with
      | .error e => .error e
      | .ok (v, dec) => .ok ({ res with questions_list := v }, dec)
    | .answer_index =>
      match read_unsigned dec with
      | .error e => .error e
      | .ok (v, dec) => .ok ({ res with answers_list := v }, dec)
    | .authority_index =>
      match read_unsigned dec with
      | .error e => .error e
      | .ok (v, dec) => .ok ({ res with authority_list := v }, dec)
    | .additional_index =>
      match read_unsigned dec with
      | .error e => .error e
      | .ok (v, dec) => .ok ({ res with additional_list := v }, dec)
    | _ =>
      match skip dec with
      | .error e => .error e
      | .ok (_, dec) => .ok (res, dec)

/-- The function `readExtraInfo`; `make_unique<QueryResponseExtraInfo>()`
value-initialises the four indexes to 0.  There is no handler of its own. -/
def readExtraInfo (fields : FileVersionFields) (dec : List Tok) : Res QueryResponseExtraInfo :=
  read_map (readExtraInfo_entry fields)
    { questions_list := 0, answers_list := 0, authority_list := 0, additional_list := 0 } dec

/-- The function `writeExtraInfo`; `id` is an `int`. -/
def writeExtraInfo (cur : CurrentIndex) (id : Int) (ei : QueryResponseExtraInfo) : List Tok :=
  let questions_index := cur.find_query_response_extended_index .question_index
  let answer_index := cur.find_query_response_extended_index .answer_index
  let authority_index := cur.find_query_response_extended_index .authority_index
  let additional_index := cur.find_query_response_extended_index .additional_index
  [write_signed id, .map none]
  ++ (if ei.questions_list ≠ 0 then [.uint questions_index, .uint ei.questions_list] else [])
  ++ (if ei.answers_list ≠ 0 then [.uint answer_index, .uint ei.answers_list] else [])
  ++ (if ei.authority_list ≠ 0 then [.uint authority_index, .uint ei.authority_list] else [])
  ++ (if ei.additional_list ≠ 0 then [.uint additional_index, .uint ei.additional_list]
      else [])
  ++ [.brk]

/-- A query/response item.  `tstamp` counts ticks of
`std::chrono::system_clock` since its epoch, `response_delay` counts
microseconds, both as integers (overflow of the 64-bit count is undefined
behaviour in C++ and outside the model); the two `unique_ptr` members are
`none` when null. -/
structure QueryResponseItem where
  qr_flags : Nat
  client_address : Nat
  client_port : Nat
  hoplimit : Nat
  id : Nat
  tstamp : Int
  response_delay : Int
  qname : Nat
  signature : Nat
  query_size : Nat
  response_size : Nat
  query_extra_info : Option QueryResponseExtraInfo
  response_extra_info : Option QueryResponseExtraInfo
  deriving DecidableEq, Repr

def QueryResponseItem.clear (_self : QueryResponseItem) : QueryResponseItem :=
  { qr_flags := 0, client_port := 0, hoplimit := 0, id := 0, query_size := 0,
    response_size := 0, tstamp := 0, response_delay := 0, client_address := 0, qname := 0,
    signature := 0, query_extra_info := none, response_extra_info := none }

/-- Body of the loop of `QueryResponseItem::readCbor`.  `ticks` is the number
of `system_clock` ticks in a microsecond (the clock's period is declared by
the C++ library), so `earliest_time + microseconds(v)` is
`earliest_time + v * ticks`. -/
def QueryResponseItem.read_entry (fields : FileVersionFields) (ticks : Nat)
    (earliest_time : Int) (self : QueryResponseItem) (dec : List Tok) :
    Res QueryResponseItem :=
  match read_unsigned dec with
  | .error e => .error e
  | .ok (key, dec) =>
    match fields.query_response_field key with
    | .time_useconds =>
      match read_signed dec with
      | .error e => .error e
      | .ok (v, dec) => .ok ({ self with tstamp := earliest_time + v * (ticks : Int) }, dec)
    | .client_address_index =>
      match read_unsigned dec with
      | .error e => .error e
      | .ok (v, dec) => .ok ({ self with client_address := v }, dec)
    | .client_port =>
      match read_unsigned dec with
      | .error e => .error e
      | .ok (v, dec) => .ok ({ self with client_port := v }, dec)
    | .transaction_id =>
      match read_unsigned dec with
      | .error e => .error e
      | .ok (v, dec) => .ok ({ self with id := v }, dec)
    | .query_signature_index =>
      match read_unsigned dec with
      | .error e => .error e
      | .ok (v, dec) => .ok ({ self with signature := v }, dec)
    | .client_hoplimit =>
      match read_unsigned dec with
      | .error e => .error e
      | .ok (v, dec) =>
        .ok ({ self with hoplimit := v, qr_flags := self.qr_flags ||| QUERY_ONLY }, dec)
    | .delay_useconds =>
      match read_signed dec with
      | .error e => .error e
      | .ok (v, dec) =>
        .ok ({ self with response_delay := v,
                         qr_flags := self.qr_flags ||| QUERY_AND_RESPONSE }, dec)
    | .query_name_index =>
      match read_unsigned dec with
      | .error e => .error e
      | .ok (v, dec) =>
        .ok ({ self with qname := v, qr_flags := self.qr_flags ||| QR_HAS_QUESTION }, dec)
    | .query_size =>
      match read_unsigned dec with
      | .error e => .error e
      | .ok (v, dec) =>
        .ok ({ self with query_size := v, qr_flags := self.qr_flags ||| QUERY_ONLY }, dec)
    | .response_size =>
      match read_unsigned dec with
      | .error e => .error e
      | .ok (v, dec) =>
        .ok ({ self with response_size := v,
                         qr_flags := self.qr_flags ||| RESPONSE_ONLY }, dec)
    | .query_extended =>
      match readExtraInfo fields dec with
      | .error e => .error e
      | .ok (ei, dec) => .ok ({ self with query_extra_info := some ei }, dec)
    | .response_extended =>
      match readExtraInfo fields dec with
      | .error e => .error e
      | .ok (ei, dec) => .ok ({ self with response_extra_info := some ei }, dec)
    | _ =>
      match skip dec with
      | .error e => .error e
      | .ok (_, dec) => .ok (self, dec)

def QueryResponseItem.readCbor (fields : FileVersionFields) (ticks : Nat)
    (earliest_time : Int) (self : QueryResponseItem) (dec : List Tok) :
    Res QueryResponseItem :=
  catch_logic_error "Unexpected CBOR item reading QueryResponseItem" <|
    let self := { self with qr_flags := 0 }
    read_map (QueryResponseItem.read_entry fields ticks earliest_time) self dec

/-- The function `QueryResponseItem::writeCbor`.
`duration_cast<microseconds>` of a tick count divides by `ticks`, rounding
towards zero. -/
def QueryResponseItem.writeCbor (cur : CurrentIndex) (ticks : Nat) (earliest_time : Int)
    (self : QueryResponseItem) : List Tok :=
  let time_index := cur.find_query_response_index .time_useconds
  let client_address_index := cur.find_query_response_index .client_address_index
  let client_port_index := cur.find_query_response_index .client_port
  let transaction_id_index := cur.find_query_response_index .transaction_id
  let query_signature_index := cur.find_query_response_index .query_signature_index
  let client_hoplimit_index := cur.find_query_response_index .client_hoplimit
  let delay_index := cur.find_query_response_index .delay_useconds
  let query_name_index := cur.find_query_response_index .query_name_index
  let query_size_index := cur.find_query_response_index .query_size
  let response_size_index := cur.find_query_response_index .response_size
  let query_extended_index := cur.find_query_response_index .query_extended
  let response_extended_index := cur.find_query_response_index .response_extended
  [.map none,
   .uint time_index, write_signed ((self.tstamp - earliest_time).tdiv (ticks : Int)),
   .uint client_address_index, .uint self.client_address,
   .uint client_port_index, .uint self.client_port,
   .uint transaction_id_index, .uint self.id,
   .uint query_signature_index, .uint self.signature]
  ++ (if self.qr_flags &&& QUERY_ONLY ≠ 0 then
        [.uint client_hoplimit_index, .uint self.hoplimit]
      else [])
  ++ (if self.qr_flags &&& QUERY_AND_RESPONSE = QUERY_AND_RESPONSE then
        [.uint delay_index, write_signed self.response_delay]
      else [])
  ++ (if self.qr_flags &&& QR_HAS_QUESTION ≠ 0 then
        [.uint query_name_index, .uint self.qname]
      else [])
  ++ (if self.qr_flags &&& QUERY_ONLY ≠ 0 then
        [.uint query_size_index, .uint self.query_size]
      else [])
  ++ (if self.qr_flags &&& RESPONSE_ONLY ≠ 0 then
        [.uint response_size_index, .uint self.response_size]
      else [])
  ++ (match self.query_extra_info with
      | some ei => writeExtraInfo cur (query_extended_index : Int) ei
      | none => [])
  ++ (match self.response_extra_info with
      | some ei => writeExtraInfo cur (response_extended_index : Int) ei
      | none => [])
  ++ [.brk]

/-! ## Byte strings, addresses and address events -/

structure ByteStringItem where
  str : List Nat
  deriving DecidableEq, Repr

def ByteStringItem.readCbor (self : ByteStringItem) (dec : List Tok) : Res ByteStringItem :=
  catch_logic_error "Unexpected CBOR item reading string" <|
    match read_binary dec with
    | .error e => .error e
    | .ok (b, dec) => .ok ({ self with str := b }, dec)

def ByteStringItem.writeCbor (self : ByteStringItem) : List Tok :=
  [.bytes self.str]

/-- An address, held as its bytes in network order (the address type `IPAddress`
is external). -/
structure IPAddressItem where
  addr : List Nat
  deriving DecidableEq, Repr

/-- The function `IPAddressItem::readCbor`; `IPAddress` is the constructor of
the external address type from the bytes read, which may throw. -/
def IPAddressItem.readCbor (IPAddress : List Nat → Except Err (List Nat))
    (self : IPAddressItem) (dec : List Tok) : Res IPAddressItem :=
  catch_logic_error "Unexpected CBOR item reading IP address" <|
    match read_binary dec with
    | .error e => .error e
    | .ok (b, dec) =>
      match IPAddress b with
      | .error e => .error e
      | .ok a => .ok ({ self with addr := a }, dec)

/-- The function `IPAddressItem::writeCbor`; `asNetworkBinary` gives the bytes
held. -/
def IPAddressItem.writeCbor (self : IPAddressItem) : List Tok :=
  [.bytes self.addr]

/-- The function `hash_value(const ClassType&)`. -/
def ClassType.hash_value (boost : BoostHash) (ct : ClassType) : Nat :=
  let seed := boost.hash_value ct.qclass
  boost.hash_combine seed ct.qtype

/-- The function `hash_value(const Question&)`. -/
def Question.hash_value (boost : BoostHash) (q : Question) : Nat :=
  let seed := boost.hash_value q.qname
  boost.hash_combine seed q.classtype

/-- The function `hash_value(const ResourceRecord&)`. -/
def ResourceRecord.hash_value (boost : BoostHash) (rr : ResourceRecord) : Nat :=
  let seed := boost.hash_value rr.name
  let seed := boost.hash_combine seed rr.classtype
  let seed := boost.hash_combine seed rr.ttl
  boost.hash_combine seed rr.rdata

structure AddressEventItem where
  type : Nat
  code : Nat
  address : Nat
  deriving DecidableEq, Repr

/-- The function `hash_value(const AddressEventItem&)`. -/
def AddressEventItem.hash_value (boost : BoostHash) (aei : AddressEventItem) : Nat :=
  let seed := boost.hash_value aei.type
  let seed := boost.hash_combine seed aei.code
  boost.hash_combine seed aei.address

structure AddressEventCount where
  aei : AddressEventItem
  count : Nat
  deriving DecidableEq, Repr

/-- Body of the loop of `AddressEventCount::readCbor`. -/
def AddressEventCount.read_entry (fields : FileVersionFields) (self : AddressEventCount)
    (dec : List Tok) : Res AddressEventCount :=
  match read_unsigned dec with
  | .error e => .error e
  | .ok (key, dec) =>
    match fields.address_event_count_field key with
    | .ae_type =>
      match read_unsigned dec with
      | .error e => .error e
      | .ok (v, dec) => .ok ({ self with aei := { self.aei with type := v } }, dec)
    | .ae_code =>
      match read_unsigned dec with
      | .error e => .error e
      | .ok (v, dec) => .ok ({ self with aei := { self.aei with code := v } }, dec)
    | .ae_address_index =>
      match read_unsigned dec with
      | .error e => .error e
      | .ok (v, dec) => .ok ({ self with aei := { self.aei with address := v } }, dec)
    | .ae_count =>
      match read_unsigned dec with
      | .error e => .error e
      | .ok (v, dec) => .ok ({ self with count := v }, dec)
    | _ =>
      match skip dec with
      | .error e => .error e
      | .ok (_, dec) => .ok (self, dec)

/-- The function `AddressEventCount::readCbor`; `aei.code = 0` comes first. -/
def AddressEventCount.readCbor (fields : FileVersionFields) (self : AddressEventCount)
    (dec : List Tok) : Res AddressEventCount :=
  catch_logic_error "Unexpected CBOR item reading AddressEvent" <|
    let self := { self with aei := { self.aei with code := 0 } }
    read_map (AddressEventCount.read_entry fields) self dec

def AddressEventCount.writeCbor (cur : CurrentIndex) (self : AddressEventCount) : List Tok :=
  let type_index := cur.find_address_event_count_index .ae_type
  let code_index := cur.find_address_event_count_index .ae_code
  let address_index := cur.find_address_event_count_index .ae_address_index
  let count_index := cur.find_address_event_count_index .ae_count
  [.map none, .uint type_index, .uint self.aei.type]
  ++ (if self.aei.code ≠ 0 then [.uint code_index, .uint self.aei.code] else [])
  ++ [.uint address_index, .uint self.aei.address, .uint count_index, .uint self.count,
      .brk]

/-! ## Block data -/

/-- The ten packet counters (`PacketStatistics`, declared outside the sources),
each a 64-bit unsigned integer. -/
structure PacketStatistics where
  raw_packet_count : Nat
  qr_pair_count : Nat
  query_without_response_count : Nat
  response_without_query_count : Nat
  malformed_packet_count : Nat
  unhandled_packet_count : Nat
  out_of_order_packet_count : Nat
  output_cbor_drop_count : Nat
  output_raw_pcap_drop_count : Nat
  output_ignored_pcap_drop_count : Nat
  deriving DecidableEq, Repr

/-- Value-initialised statistics (`= {}`). -/
def PacketStatistics.zero : PacketStatistics :=
  { raw_packet_count := 0, qr_pair_count := 0, query_without_response_count := 0,
    response_without_query_count := 0, malformed_packet_count := 0,
    unhandled_packet_count := 0, out_of_order_packet_count := 0,
    output_cbor_drop_count := 0, output_raw_pcap_drop_count := 0,
    output_ignored_pcap_drop_count := 0 }

/-- Addition of 64-bit unsigned integers (`+=` on a counter). -/
def add_u64 (a b : Nat) : Nat := (a + b) % 2 ^ 64

/-- Subtraction of 64-bit unsigned integers (`-` on two counters). -/
def sub_u64 (a b : Nat) : Nat := (a + (2 ^ 64 - b % 2 ^ 64)) % 2 ^ 64

/-- The members of `BlockData`: the earliest time, the items, the two
statistics snapshots, the eight tables (each the sequence of its items) and
the address event counts (a map from event to count, held as the list of its
pairs with one pair per event). -/
structure BlockData where
  earliest_time : Int
  query_response_items : List QueryResponseItem
  start_packet_statistics : PacketStatistics
  last_packet_statistics : PacketStatistics
  ip_addresses : List IPAddressItem := []
  class_types : List ClassType := []
  names_rdatas : List ByteStringItem := []
  query_signatures : List QuerySignature := []
  questions_lists : List IndexVectorItem := []
  questions : List Question := []
  rrs_lists : List IndexVectorItem := []
  resource_records : List ResourceRecord := []
  address_event_counts : List (AddressEventItem × Nat) := []
  deriving DecidableEq, Repr

/-- Body of the loop of `BlockData::readItems`; `fresh` is the state of a
default-constructed `QueryResponseItem qri;` (the constructor is declared
outside the sources). -/
def BlockData.readItems_element (fields : FileVersionFields) (ticks : Nat)
    (fresh : QueryResponseItem) (self : BlockData) (dec : List Tok) : Res BlockData :=
  match QueryResponseItem.readCbor fields ticks self.earliest_time fresh dec with
  | .error e => .error e
  | .ok (qri, dec) =>
    .ok ({ self with query_response_items := self.query_response_items ++ [qri] }, dec)

/-- The function `BlockData::readItems` without its
`query_response_items.reserve(n_elems)`, which changes the capacity of the
vector only as long as the count is not above `max_size()`;
`BlockData.readItems_reserving` has the call.  The function has no handler of
its own. -/
def BlockData.readItems (fields : FileVersionFields) (ticks : Nat)
    (fresh : QueryResponseItem) (self : BlockData) (dec : List Tok) : Res BlockData :=
  read_array (BlockData.readItems_element fields ticks fresh) self dec

/-- Body of the loop of `BlockData::readStats`, on `last_packet_statistics`. -/
def BlockData.readStats_entry (fields : FileVersionFields) (last : PacketStatistics)
    (dec : List Tok) : Res PacketStatistics :=
  match read_unsigned dec with
  | .error e => .error e
  | .ok (key, dec) =>
    match fields.block_statistics_field key with
    | .completely_malformed_packets =>
      match read_unsigned dec with
      | .error e => .error e
      | .ok (v, dec) =>
        .ok ({ last with malformed_packet_count := add_u64 last.malformed_packet_count v }, dec)
    | .compactor_non_dns_packets =>
      match read_unsigned dec with
      | .error e => .error e
      | .ok (v, dec) =>
        .ok ({ last with unhandled_packet_count := add_u64 last.unhandled_packet_count v }, dec)
    | .compactor_out_of_order_packets =>
      match read_unsigned dec with
      | .error e => .error e
      | .ok (v, dec) =>
        .ok ({ last with
                out_of_order_packet_count := add_u64 last.out_of_order_packet_count v }, dec)
    | .total_packets =>
      match read_unsigned dec with
      | .error e => .error e
      | .ok (v, dec) =>
        .ok ({ last with raw_packet_count := add_u64 last.raw_packet_count v }, dec)
    | .compactor_missing_pairs =>
      match read_unsigned dec with
      | .error e => .error e
      | .ok (v, dec) =>
        .ok ({ last with output_cbor_drop_count := add_u64 last.output_cbor_drop_count v }, dec)
    | .unmatched_queries =>
      match read_unsigned dec with
      | .error e => .error e
      | .ok (v, dec) =>
        .ok ({ last with
                query_without_response_count :=
                  add_u64 last.query_without_response_count v }, dec)
    | .unmatched_responses =>
      match read_unsigned dec with
      | .error e => .error e
      | .ok (v, dec) =>
        .ok ({ last with
                response_without_query_count :=
                  add_u64 last.response_without_query_count v }, dec)
    | .total_pairs =>
      match read_unsigned dec with
      | .error e => .error e
      | .ok (v, dec) => .ok ({ last with qr_pair_count := add_u64 last.qr_pair_count v }, dec)
    | .compactor_missing_packets =>
      match read_unsigned dec with
      | .error e => .error e
      | .ok (v, dec) =>
        .ok ({ last with
                output_raw_pcap_drop_count := add_u64 last.output_raw_pcap_drop_count v }, dec)
    | .compactor_missing_non_dns =>
      match read_unsigned dec with
      | .error e => .error e
      | .ok (v, dec) =>
        .ok ({ last with
                output_ignored_pcap_drop_count :=
                  add_u64 last.output_ignored_pcap_drop_count v }, dec)
    | _ =>
      match skip dec with
      | .error e => .error e
      | .ok (_, dec) => .ok (last, dec)

/-- The function `BlockData::readStats`.  The reset of
`start_packet_statistics` comes first and stays when the decode fails later;
a failed decode returns no block here. -/
def BlockData.readStats (fields : FileVersionFields) (self : BlockData) (dec : List Tok) :
    Res BlockData :=
  let self := { self with start_packet_statistics := PacketStatistics.zero }
  match read_map (BlockData.readStats_entry fields) self.last_packet_statistics dec with
  | .error e => .error e
  | .ok (last, dec) => .ok ({ self with last_packet_statistics := last }, dec)

def BlockData.writeStats (cur : CurrentIndex) (self : BlockData) : List Tok :=
  let total_packets_index := cur.find_block_statistics_index .total_packets
  let total_pairs_index := cur.find_block_statistics_index .total_pairs
  let unmatched_queries_index := cur.find_block_statistics_index .unmatched_queries
  let unmatched_responses_index := cur.find_block_statistics_index .unmatched_responses
  let malformed_packets_index :=
    cur.find_block_statistics_index .completely_malformed_packets
  let non_dns_packets_index := cur.find_block_statistics_index .compactor_non_dns_packets
  let out_of_order_packets_index :=
    cur.find_block_statistics_index .compactor_out_of_order_packets
  let missing_pairs_index := cur.find_block_statistics_index .compactor_missing_pairs
  let missing_packets_index := cur.find_block_statistics_index .compactor_missing_packets
  let missing_non_dns_index := cur.find_block_statistics_index .compactor_missing_non_dns
  let last := self.last_packet_statistics
  let start := self.start_packet_statistics
  [.map none,
   .uint total_packets_index, .uint (sub_u64 last.raw_packet_count start.raw_packet_count),
   .uint total_pairs_index, .uint (sub_u64 last.qr_pair_count start.qr_pair_count),
   .uint unmatched_queries_index,
   .uint (sub_u64 last.query_without_response_count start.query_without_response_count),
   .uint unmatched_responses_index,
   .uint (sub_u64 last.response_without_query_count start.response_without_query_count),
   .uint malformed_packets_index,
   .uint (sub_u64 last.malformed_packet_count start.malformed_packet_count),
   .uint non_dns_packets_index,
   .uint (sub_u64 last.unhandled_packet_count start.unhandled_packet_count),
   .uint out_of_order_packets_index,
   .uint (sub_u64 last.out_of_order_packet_count start.out_of_order_packet_count),
   .uint missing_pairs_index,
   .uint (sub_u64 last.output_cbor_drop_count start.output_cbor_drop_count),
   .uint missing_packets_index,
   .uint (sub_u64 last.output_raw_pcap_drop_count start.output_raw_pcap_drop_count),
   .uint missing_non_dns_index,
   .uint (sub_u64 last.output_ignored_pcap_drop_count start.output_ignored_pcap_drop_count),
   .brk]

def BlockData.writeItems (cur : CurrentIndex) (ticks : Nat) (self : BlockData) : List Tok :=
  .arr (some self.query_response_items.length) ::
    self.query_response_items.flatMap
      (QueryResponseItem.writeCbor cur ticks self.earliest_time)

/-! ## Wire containers as data

The inputs of the decoders, described from the outside: a container is a header,
the token groups of its entries and, in the indefinite form, a break. -/

/-- The tokens of a map with the given entries (each a key followed by its
value), in the definite or the indefinite form. -/
def wire_map (indef : Bool) (entries : List (List Tok)) : List Tok :=
  if indef then .map none :: (entries.flatten ++ [.brk])
  else .map (some entries.length) :: entries.flatten

/-- The tokens of an array with the given items, in the definite or the
indefinite form. -/
def wire_array (indef : Bool) (items : List (List Tok)) : List Tok :=
  if indef then .arr none :: (items.flatten ++ [.brk])
  else .arr (some items.length) :: items.flatten

/-- A token group that the reader takes for one complete data item. -/
def Skippable (ts : List Tok) : Prop := ∀ rest, skip (ts ++ rest) = .ok ((), rest)

/-- The value of an entry of a map whose known keys all carry unsigned
integers, as it stands on the wire: an unsigned integer or some other item. -/
inductive WireValue where
  | unsigned (v : Nat)
  | other (ts : List Tok)
  deriving DecidableEq, Repr

/-- An entry of such a map: the wire key and the value. -/
abbrev WireEntry := Nat × WireValue

def WireValue.toks : WireValue → List Tok
  | .unsigned v => [.uint v]
  | .other ts => ts

def WireEntry.toks (e : WireEntry) : List Tok := .uint e.1 :: e.2.toks

/-- An entry of an extended-info map has the type its key asks for: an
unsigned integer under each of the four known keys, one complete item of any
kind under a key the mapping does not know. -/
def ExtEntry.WellTyped (fields : FileVersionFields) (e : WireEntry) : Prop :=
  match fields.query_response_extended_field e.1, e.2 with
  | .unknown, v => Skippable v.toks
  | _, .unsigned _ => True
  | _, .other _ => False

/-- What a well-typed entry of an extended-info map stands for. -/
def ExtEntry.apply (fields : FileVersionFields) (res : QueryResponseExtraInfo)
    (e : WireEntry) : QueryResponseExtraInfo :=
  match fields.query_response_extended_field e.1, e.2 with
  | .question_index, .unsigned v => { res with questions_list := v }
  | .answer_index, .unsigned v => { res with answers_list := v }
  | .authority_index, .unsigned v => { res with authority_list := v }
  | .additional_index, .unsigned v => { res with additional_list := v }
  | _, _ => res

/-- The extended info a list of entries stands for. -/
def ext_of_entries (fields : FileVersionFields) (es : List WireEntry) :
    QueryResponseExtraInfo :=
  es.foldl (ExtEntry.apply fields)
    { questions_list := 0, answers_list := 0, authority_list := 0, additional_list := 0 }

/-- The value of an entry of a query/response map as it stands on the wire. -/
inductive QRValue where
  | unsigned (v : Nat)
  | signed (v : Int)
  | extra (indef : Bool) (entries : List WireEntry)
  | other (ts : List Tok)
  deriving DecidableEq, Repr

/-- An entry of a query/response map: the wire key and the value. -/
abbrev QREntry := Nat × QRValue

def QRValue.toks : QRValue → List Tok
  | .unsigned v => [.uint v]
  | .signed v => [write_signed v]
  | .extra indef entries => wire_map indef (entries.map WireEntry.toks)
  | .other ts => ts

def QREntry.toks (e : QREntry) : List Tok := .uint e.1 :: e.2.toks

/-- An entry of a query/response map has the type its key asks for: a signed
integer for the time offset and the delay, a well-typed extended-info map for
the two extended keys, an unsigned integer for the other known keys, one
complete item of any kind under a key the mapping does not know. -/
def QREntry.WellTyped (fields : FileVersionFields) (e : QREntry) : Prop :=
  match fields.query_response_field e.1, e.2 with
  | .unknown, v => Skippable v.toks
  | .time_useconds, .signed _ => True
  | .delay_useconds, .signed _ => True
  | .query_extended, .extra _ es => ∀ x ∈ es, ExtEntry.WellTyped fields x
  | .response_extended, .extra _ es => ∀ x ∈ es, ExtEntry.WellTyped fields x
  | .client_address_index, .unsigned _ => True
  | .client_port, .unsigned _ => True
  | .transaction_id, .unsigned _ => True
  | .query_signature_index, .unsigned _ => True
  | .client_hoplimit, .unsigned _ => True
  | .query_name_index, .unsigned _ => True
  | .query_size, .unsigned _ => True
  | .response_size, .unsigned _ => True
  | _, _ => False

/-- The flag bits the presence of a key stands for. -/
def flag_of_field : QueryResponseField → Nat
  | .client_hoplimit => QUERY_ONLY
  | .delay_useconds => QUERY_AND_RESPONSE
  | .query_name_index => QR_HAS_QUESTION
  | .query_size => QUERY_ONLY
  | .response_size => RESPONSE_ONLY
  | _ => 0

/-- What a well-typed entry of a query/response map stands for. -/
def QREntry.apply (fields : FileVersionFields) (ticks : Nat) (earliest_time : Int)
    (self : QueryResponseItem) (e : QREntry) : QueryResponseItem :=
  let self :=
    { self with qr_flags := self.qr_flags ||| flag_of_field (fields.query_response_field e.1) }
  match fields.query_response_field e.1, e.2 with
  | .time_useconds, .signed v => { self with tstamp := earliest_time + v * (ticks : Int) }
  | .delay_useconds, .signed v => { self with response_delay := v }
  | .query_extended, .extra _ es => { self with query_extra_info := some (ext_of_entries fields es) }
  | .response_extended, .extra _ es =>
    { self with response_extra_info := some (ext_of_entries fields es) }
  | .client_address_index, .unsigned v => { self with client_address := v }
  | .client_port, .unsigned v => { self with client_port := v }
  | .transaction_id, .unsigned v => { self with id := v }
  | .query_signature_index, .unsigned v => { self with signature := v }
  | .client_hoplimit, .unsigned v => { self with hoplimit := v }
  | .query_name_index, .unsigned v => { self with qname := v }
  | .query_size, .unsigned v => { self with query_size := v }
  | .response_size, .unsigned v => { self with response_size := v }
  | _, _ => self

/-- The item a list of entries stands for, decoded over `self`. -/
def item_of_entries (fields : FileVersionFields) (ticks : Nat) (earliest_time : Int)
    (self : QueryResponseItem) (es : List QREntry) : QueryResponseItem :=
  es.foldl (QREntry.apply fields ticks earliest_time) { self with qr_flags := 0 }

/-- The flags that the set of keys of a query/response map stands for:
`QUERY_ONLY` if the hoplimit key or the query-size key occurs,
`QUERY_AND_RESPONSE` if the delay key occurs, `QR_HAS_QUESTION` if the
query-name key occurs, `RESPONSE_ONLY` if the response-size key occurs. -/
def flags_of_keys (keys : List QueryResponseField) : Nat :=
  (if .client_hoplimit ∈ keys ∨ .query_size ∈ keys then QUERY_ONLY else 0)
  ||| (if .delay_useconds ∈ keys then QUERY_AND_RESPONSE else 0)
  ||| (if .query_name_index ∈ keys then QR_HAS_QUESTION else 0)
  ||| (if .response_size ∈ keys then RESPONSE_ONLY else 0)

/-- The entries of the map that `writeExtraInfo` writes. -/
def ext_entries (cur : CurrentIndex) (ei : QueryResponseExtraInfo) : List WireEntry :=
  (if ei.questions_list ≠ 0 then
    [(cur.find_query_response_extended_index .question_index, .unsigned ei.questions_list)]
   else [])
  ++ (if ei.answers_list ≠ 0 then
        [(cur.find_query_response_extended_index .answer_index, .unsigned ei.answers_list)]
      else [])
  ++ (if ei.authority_list ≠ 0 then
        [(cur.find_query_response_extended_index .authority_index, .unsigned ei.authority_list)]
      else [])
  ++ (if ei.additional_list ≠ 0 then
        [(cur.find_query_response_extended_index .additional_index,
          .unsigned ei.additional_list)]
      else [])

/-- The keys of the map that `QueryResponseItem::writeCbor` writes, in the
order of writing. -/
def qr_written_fields (self : QueryResponseItem) : List QueryResponseField :=
  [.time_useconds, .client_address_index, .client_port, .transaction_id,
   .query_signature_index]
  ++ (if self.qr_flags &&& QUERY_ONLY ≠ 0 then [.client_hoplimit] else [])
  ++ (if self.qr_flags &&& QUERY_ONLY ≠ 0 ∧ self.qr_flags &&& RESPONSE_ONLY ≠ 0 then
        [.delay_useconds]
      else [])
  ++ (if self.qr_flags &&& QR_HAS_QUESTION ≠ 0 then [.query_name_index] else [])
  ++ (if self.qr_flags &&& QUERY_ONLY ≠ 0 then [.query_size] else [])
  ++ (if self.qr_flags &&& RESPONSE_ONLY ≠ 0 then [.response_size] else [])
  ++ (if self.query_extra_info.isSome then [.query_extended] else [])
  ++ (if self.response_extra_info.isSome then [.response_extended] else [])

/-- The value that `QueryResponseItem::writeCbor` writes under a key. -/
def qr_written_value (cur : CurrentIndex) (ticks : Nat) (earliest_time : Int)
    (self : QueryResponseItem) : QueryResponseField → QRValue
  | .time_useconds => .signed ((self.tstamp - earliest_time).tdiv (ticks : Int))
  | .client_address_index => .unsigned self.client_address
  | .client_port => .unsigned self.client_port
  | .transaction_id => .unsigned self.id
  | .query_signature_index => .unsigned self.signature
  | .client_hoplimit => .unsigned self.hoplimit
  | .delay_useconds => .signed self.response_delay
  | .query_name_index => .unsigned self.qname
  | .query_size => .unsigned self.query_size
  | .response_size => .unsigned self.response_size
  | .query_extended =>
    match self.query_extra_info with
    | some ei => .extra true (ext_entries cur ei)
    | none => .other []
  | .response_extended =>
    match self.response_extra_info with
    | some ei => .extra true (ext_entries cur ei)
    | none => .other []
  | .unknown => .other []

/-- The entries of the map that `QueryResponseItem::writeCbor` writes. -/
def qr_entries (cur : CurrentIndex) (ticks : Nat) (earliest_time : Int)
    (self : QueryResponseItem) : List QREntry :=
  (qr_written_fields self).map fun f =>
    (cur.find_query_response_index f, qr_written_value cur ticks earliest_time self f)

/-- A sample key table for the examples: the key of a field is its position in
its enumeration. -/
def sample_index : CurrentIndex where
  find_class_type_index := fun
    | .type_id => 0
    | .class_id => 1
    | .unknown => 2
  find_question_index := fun
    | .name_index => 0
    | .classtype_index => 1
    | .unknown => 2
  find_rr_index := fun
    | .name_index => 0
    | .classtype_index => 1
    | .ttl => 2
    | .rdata_index => 3
    | .unknown => 4
  find_query_signature_index := fun
    | .server_address_index => 0
    | .server_port => 1
    | .transport_flags => 2
    | .qr_dns_flags => 3
    | .qr_sig_flags => 4
    | .query_qd_count => 5
    | .query_classtype_index => 6
    | .query_rcode => 7
    | .query_opcode => 8
    | .query_an_count => 9
    | .query_ar_count => 10
    | .query_ns_count => 11
    | .edns_version => 12
    | .udp_buf_size => 13
    | .opt_rdata_index => 14
    | .response_rcode => 15
    | .unknown => 16
  find_query_response_index := fun
    | .time_useconds => 0
    | .client_address_index => 1
    | .client_port => 2
    | .transaction_id => 3
    | .query_signature_index => 4
    | .client_hoplimit => 5
    | .delay_useconds => 6
    | .query_name_index => 7
    | .query_size => 8
    | .response_size => 9
    | .query_extended => 10
    | .response_extended => 11
    | .unknown => 12
  find_query_response_extended_index := fun
    | .question_index => 0
    | .answer_index => 1
    | .authority_index => 2
    | .additional_index => 3
    | .unknown => 4
  find_address_event_count_index := fun
    | .ae_type => 0
    | .ae_code => 1
    | .ae_address_index => 2
    | .ae_count => 3
    | .unknown => 4
  find_block_index := fun
    | .preamble => 0
    | .statistics => 1
    | .tables => 2
    | .queries => 3
    | .address_event_counts => 4
    | .unknown => 5
  find_block_preamble_index := fun
    | .earliest_time => 0
    | .unknown => 1
  find_block_tables_index := fun
    | .ip_address => 0
    | .classtype => 1
    | .name_rdata => 2
    | .query_signature => 3
    | .question_list => 4
    | .question_rr => 5
    | .rr_list => 6
    | .rr => 7
    | .unknown => 8
  find_block_statistics_index := fun
    | .total_packets => 0
    | .total_pairs => 1
    | .unmatched_queries => 2
    | .unmatched_responses => 3
    | .completely_malformed_packets => 4
    | .compactor_non_dns_packets => 5
    | .compactor_out_of_order_packets => 6
    | .compactor_missing_pairs => 7
    | .compactor_missing_packets => 8
    | .compactor_missing_non_dns => 9
    | .unknown => 10

/-- The field mapping that reads the keys of `sample_index`; any other key is
unknown. -/
def sample_fields : FileVersionFields where
  class_type_field := fun
    | 0 => .type_id
    | 1 => .class_id
    | _ => .unknown
  question_field := fun
    | 0 => .name_index
    | 1 => .classtype_index
    | _ => .unknown
  rr_field := fun
    | 0 => .name_index
    | 1 => .classtype_index
    | 2 => .ttl
    | 3 => .rdata_index
    | _ => .unknown
  query_signature_field := fun
    | 0 => .server_address_index
    | 1 => .server_port
    | 2 => .transport_flags
    | 3 => .qr_dns_flags
    | 4 => .qr_sig_flags
    | 5 => .query_qd_count
    | 6 => .query_classtype_index
    | 7 => .query_rcode
    | 8 => .query_opcode
    | 9 => .query_an_count
    | 10 => .query_ar_count
    | 11 => .query_ns_count
    | 12 => .edns_version
    | 13 => .udp_buf_size
    | 14 => .opt_rdata_index
    | 15 => .response_rcode
    | _ => .unknown
  query_response_field := fun
    | 0 => .time_useconds
    | 1 => .client_address_index
    | 2 => .client_port
    | 3 => .transaction_id
    | 4 => .query_signature_index
    | 5 => .client_hoplimit
    | 6 => .delay_useconds
    | 7 => .query_name_index
    | 8 => .query_size
    | 9 => .response_size
    | 10 => .query_extended
    | 11 => .response_extended
    | _ => .unknown
  query_response_extended_field := fun
    | 0 => .question_index
    | 1 => .answer_index
    | 2 => .authority_index
    | 3 => .additional_index
    | _ => .unknown
  address_event_count_field := fun
    | 0 => .ae_type
    | 1 => .ae_code
    | 2 => .ae_address_index
    | 3 => .ae_count
    | _ => .unknown
  block_field := fun
    | 0 => .preamble
    | 1 => .statistics
    | 2 => .tables
    | 3 => .queries
    | 4 => .address_event_counts
    | _ => .unknown
  block_preamble_field := fun
    | 0 => .earliest_time
    | _ => .unknown
  block_tables_field := fun
    | 0 => .ip_address
    | 1 => .classtype
    | 2 => .name_rdata
    | 3 => .query_signature
    | 4 => .question_list
    | 5 => .question_rr
    | 6 => .rr_list
    | 7 => .rr
    | _ => .unknown
  block_statistics_field := fun
    | 0 => .total_packets
    | 1 => .total_pairs
    | 2 => .unmatched_queries
    | 3 => .unmatched_responses
    | 4 => .completely_malformed_packets
    | 5 => .compactor_non_dns_packets
    | 6 => .compactor_out_of_order_packets
    | 7 => .compactor_missing_pairs
    | 8 => .compactor_missing_packets
    | 9 => .compactor_missing_non_dns
    | _ => .unknown

/-- Modelled from the spec: a default-initialised `QuerySignature` (its
constructor is declared outside the sources): every member is 0. -/
def QuerySignature.default_initialised : QuerySignature :=
  { server_address := 0, server_port := 0, transport_flags := 0, dns_flags := 0,
    qr_flags := 0, qdcount := 0, query_classtype := 0, query_rcode := 0, query_opcode := 0,
    query_ancount := 0, query_arcount := 0, query_nscount := 0, query_edns_version := 0,
    query_edns_payload_size := 0, query_opt_rdata := 0, response_rcode := 0 }

/-- A signature of a query with a question and an OPT record, and its response. -/
def sample_signature : QuerySignature :=
  { server_address := 1, server_port := 53, transport_flags := 2, dns_flags := 17,
    qr_flags := QUERY_ONLY ||| RESPONSE_ONLY ||| QR_HAS_QUESTION ||| QUERY_HAS_OPT,
    qdcount := 1, query_classtype := 2, query_rcode := 0, query_opcode := 0,
    query_ancount := 0, query_arcount := 1, query_nscount := 0, query_edns_version := 0,
    query_edns_payload_size := 4096, query_opt_rdata := 3, response_rcode := 3 }

/-- A signature with no flag set whose `query_rcode` is 5. -/
def signature_rcode_without_query : QuerySignature :=
  { QuerySignature.default_initialised with query_rcode := 5 }

/-- A signature with `QUERY_HAS_OPT` set, `QUERY_ONLY` clear and all three EDNS
members non-zero. -/
def signature_opt_without_query : QuerySignature :=
  { QuerySignature.default_initialised with
    qr_flags := QUERY_HAS_OPT, query_edns_version := 1, query_edns_payload_size := 4096,
    query_opt_rdata := 3 }

/-- An item of a query without response: hoplimit and query size are carried,
there is no response size, no delay and no extended info. -/
def sample_query_item : QueryResponseItem :=
  { qr_flags := QUERY_ONLY, client_address := 1, client_port := 5353, hoplimit := 64,
    id := 4660, tstamp := 1000000000000007000, response_delay := 0, qname := 0,
    signature := 2, query_size := 40, response_size := 0, query_extra_info := none,
    response_extra_info := none }

/-- An item whose members all differ from those of `sample_query_item`, with
every flag bit set. -/
def sample_stale_item : QueryResponseItem :=
  { qr_flags := 255, client_address := 9, client_port := 9, hoplimit := 9, id := 9,
    tstamp := 9, response_delay := 9, qname := 9, signature := 9, query_size := 9,
    response_size := 9, query_extra_info := none, response_extra_info := none }

/-- A query/response map in the keys of `sample_index`: a negative time offset,
hoplimit, query size and an entry under a key that the mapping does not know. -/
def sample_query_map : List QREntry :=
  [(0, .signed (-5)), (8, .unsigned 40), (99, .other [.arr (some 1), .uint 7]),
   (5, .unsigned 64)]

/-- The ten statistics keys in the order in which `writeStats` writes them. -/
def statistics_fields : List BlockStatisticsField :=
  [.total_packets, .total_pairs, .unmatched_queries, .unmatched_responses,
   .completely_malformed_packets, .compactor_non_dns_packets,
   .compactor_out_of_order_packets, .compactor_missing_pairs, .compactor_missing_packets,
   .compactor_missing_non_dns]

/-- The counter a statistics key stands for: total packets is the raw packet
count, total pairs the pair count, and so on down the two lists. -/
def PacketStatistics.counter (st : PacketStatistics) : BlockStatisticsField → Nat
  | .total_packets => st.raw_packet_count
  | .total_pairs => st.qr_pair_count
  | .unmatched_queries => st.query_without_response_count
  | .unmatched_responses => st.response_without_query_count
  | .completely_malformed_packets => st.malformed_packet_count
  | .compactor_non_dns_packets => st.unhandled_packet_count
  | .compactor_out_of_order_packets => st.out_of_order_packet_count
  | .compactor_missing_pairs => st.output_cbor_drop_count
  | .compactor_missing_packets => st.output_raw_pcap_drop_count
  | .compactor_missing_non_dns => st.output_ignored_pcap_drop_count
  | .unknown => 0

/-- An entry of a statistics map has the type its key asks for: an unsigned
integer under each of the ten known keys, one complete item of any kind under
a key the mapping does not know. -/
def StatEntry.WellTyped (fields : FileVersionFields) (e : WireEntry) : Prop :=
  match fields.block_statistics_field e.1, e.2 with
  | .unknown, v => Skippable v.toks
  | _, .unsigned _ => True
  | _, .other _ => False

/-- What a well-typed entry of a statistics map stands for: its value added to
the counter of its key. -/
def StatEntry.apply (fields : FileVersionFields) (last : PacketStatistics) (e : WireEntry) :
    PacketStatistics :=
  match fields.block_statistics_field e.1, e.2 with
  | .completely_malformed_packets, .unsigned v =>
    { last with malformed_packet_count := add_u64 last.malformed_packet_count v }
  | .compactor_non_dns_packets, .unsigned v =>
    { last with unhandled_packet_count := add_u64 last.unhandled_packet_count v }
  | .compactor_out_of_order_packets, .unsigned v =>
    { last with out_of_order_packet_count := add_u64 last.out_of_order_packet_count v }
  | .total_packets, .unsigned v =>
    { last with raw_packet_count := add_u64 last.raw_packet_count v }
  | .compactor_missing_pairs, .unsigned v =>
    { last with output_cbor_drop_count := add_u64 last.output_cbor_drop_count v }
  | .unmatched_queries, .unsigned v =>
    { last with query_without_response_count := add_u64 last.query_without_response_count v }
  | .unmatched_responses, .unsigned v =>
    { last with response_without_query_count := add_u64 last.response_without_query_count v }
  | .total_pairs, .unsigned v =>
    { last with qr_pair_count := add_u64 last.qr_pair_count v }
  | .compactor_missing_packets, .unsigned v =>
    { last with output_raw_pcap_drop_count := add_u64 last.output_raw_pcap_drop_count v }
  | .compactor_missing_non_dns, .unsigned v =>
    { last with output_ignored_pcap_drop_count := add_u64 last.output_ignored_pcap_drop_count v }
  | _, _ => last

/-- The deltas that a statistics map carries for the counter of `f`, in the
order of the map. -/
def deltas_for (fields : FileVersionFields) (f : BlockStatisticsField) (es : List WireEntry) :
    List Nat :=
  es.filterMap fun e =>
    if fields.block_statistics_field e.1 = f then
      match e.2 with
      | .unsigned v => some v
      | .other _ => none
    else none

/-- A block whose running totals count 100 raw packets at its start and 150 at
its end. -/
def sample_block : BlockData :=
  { earliest_time := 0, query_response_items := [],
    start_packet_statistics := { PacketStatistics.zero with raw_packet_count := 100 },
    last_packet_statistics :=
      { PacketStatistics.zero with raw_packet_count := 150, qr_pair_count := 20 } }

/-- A block with nothing in it. -/
def empty_block : BlockData :=
  { earliest_time := 0, query_response_items := [],
    start_packet_statistics := PacketStatistics.zero,
    last_packet_statistics := PacketStatistics.zero }

/-- A query/response map on the wire: its form (indefinite or definite) and
its entries. -/
abbrev QRMap := Bool × List QREntry

def QRMap.toks (m : QRMap) : List Tok := wire_map m.1 (m.2.map QREntry.toks)

/-- Two query/response maps in the keys of `sample_index`, the first in the
definite and the second in the indefinite form. -/
def sample_query_maps : List QRMap :=
  [(false, sample_query_map), (true, [(0, .signed 7), (9, .unsigned 120)])]

/-! ## Reading a block -/

/-- Modelled from the spec: `CborBaseDecoder::read_time`, a primitive of the
external reader: an absolute time is an array of two unsigned integers,
seconds and microseconds since the epoch; the result counts clock ticks.
Any other shape signals a logic error. -/
def read_time (ticks : Nat) (dec : List Tok) : Res Int :=
  match readArrayHeader dec with
  | .error e => .error e
  | .ok ((indef, n_elems), dec) =>
    if indef || n_elems != 2 then .error .logic_error
    else
      match read_unsigned dec with
      | .error e => .error e
      | .ok (secs, dec) =>
        match read_unsigned dec with
        | .error e => .error e
        | .ok (usecs, dec) => .ok ((((secs * 1000000 + usecs) * ticks : Nat) : Int), dec)

/-- Body of the loop of `HeaderList<T>::readCbor`. -/
def HeaderList.read_item {T : Type} (item_readCbor : T → List Tok → Res T) (fresh : T)
    (self : List T) (dec : List Tok) : Res (List T) :=
  match item_readCbor fresh dec with
  | .error e => .error e
  | .ok (item, dec) => .ok (self ++ [item], dec)

/-- Modelled from the spec: `HeaderList<T>::readCbor`, the decoder of a table
(a template of the header, which is not among the sources): a definite- or
indefinite-length array whose items are decoded by `T::readCbor`, each into a
default-constructed `T`, and appended to the table. -/
def HeaderList.readCbor {T : Type} (item_readCbor : T → List Tok → Res T) (fresh : T)
    (self : List T) (dec : List Tok) : Res (List T) :=
  read_array (HeaderList.read_item item_readCbor fresh) self dec

/-- What the table decoders take from outside the sources: the width of
`index_t`, the constructor of the external address type, and the states of a
default-constructed `ClassType`, `QuerySignature`, `Question` and
`ResourceRecord`. -/
structure TableEnv where
  index_bits : Nat
  IPAddress : List Nat → Except Err (List Nat)
  fresh_class_type : ClassType
  fresh_query_signature : QuerySignature
  fresh_question : Question
  fresh_resource_record : ResourceRecord

/-- Body of the loop of `BlockData::readBlockPreamble`. -/
def BlockData.readBlockPreamble_entry (fields : FileVersionFields) (ticks : Nat)
    (self : BlockData) (dec : List Tok) : Res BlockData :=
  match read_unsigned dec with
  | .error e => .error e
  | .ok (key, dec) =>
    match fields.block_preamble_field key with
    | .earliest_time =>
      match read_time ticks dec with
      | .error e => .error e
      | .ok (t, dec) => .ok ({ self with earliest_time := t }, dec)
    | _ =>
      match skip dec with
      | .error e => .error e
      | .ok (_, dec) => .ok (self, dec)

/-- The function `BlockData::readBlockPreamble`; it has no handler. -/
def BlockData.readBlockPreamble (fields : FileVersionFields) (ticks : Nat) (self : BlockData)
    (dec : List Tok) : Res BlockData :=
  read_map (BlockData.readBlockPreamble_entry fields ticks) self dec

/-- Body of the loop of `BlockData::readHeaders`.  A default-constructed
`IPAddressItem`, `ByteStringItem` or `IndexVectorItem` is empty. -/
def BlockData.readHeaders_entry (fields : FileVersionFields) (env : TableEnv)
    (self : BlockData) (dec : List Tok) : Res BlockData :=
  match read_unsigned dec with
  | .error e => .error e
  | .ok (key, dec) =>
    match fields.block_tables_field key with
    | .ip_address =>
      match HeaderList.readCbor (IPAddressItem.readCbor env.IPAddress) { addr := [] }
          self.ip_addresses dec with
      | .error e => .error e
      | .ok (t, dec) => .ok ({ self with ip_addresses := t }, dec)
    | .classtype =>
      match HeaderList.readCbor (ClassType.readCbor fields) env.fresh_class_type
          self.class_types dec with
      | .error e => .error e
      | .ok (t, dec) => .ok ({ self with class_types := t }, dec)
    | .name_rdata =>
      match HeaderList.readCbor ByteStringItem.readCbor { str := [] }
          self.names_rdatas dec with
      | .error e => .error e
      | .ok (t, dec) => .ok ({ self with names_rdatas := t }, dec)
    | .query_signature =>
      match HeaderList.readCbor (QuerySignature.readCbor fields) env.fresh_query_signature
          self.query_signatures dec with
      | .error e => .error e
      | .ok (t, dec) => .ok ({ self with query_signatures := t }, dec)
    | .question_list =>
      match HeaderList.readCbor (IndexVectorItem.readCbor env.index_bits) { vec := [] }
          self.questions_lists dec with
      | .error e => .error e
      | .ok (t, dec) => .ok ({ self with questions_lists := t }, dec)
    | .question_rr =>
      match HeaderList.readCbor (Question.readCbor fields) env.fresh_question
          self.questions dec with
      | .error e => .error e
      | .ok (t, dec) => .ok ({ self with questions := t }, dec)
    | .rr_list =>
      match HeaderList.readCbor (IndexVectorItem.readCbor env.index_bits) { vec := [] }
          self.rrs_lists dec with
      | .error e => .error e
      | .ok (t, dec) => .ok ({ self with rrs_lists := t }, dec)
    | .rr =>
      match HeaderList.readCbor (ResourceRecord.readCbor fields) env.fresh_resource_record
          self.resource_records dec with
      | .error e => .error e
      | .ok (t, dec) => .ok ({ self with resource_records := t }, dec)
    | _ =>
      match skip dec with
      | .error e => .error e
      | .ok (_, dec) => .ok (self, dec)

/-- The function `BlockData::readHeaders`; it has no handler. -/
def BlockData.readHeaders (fields : FileVersionFields) (env : TableEnv) (self : BlockData)
    (dec : List Tok) : Res BlockData :=
  read_map (BlockData.readHeaders_entry fields env) self dec

/-- The assignment `address_event_counts[key] = count`: the count of an event
already in the map is replaced, a new event is added. -/
def assign_count (m : List (AddressEventItem × Nat)) (key : AddressEventItem) (count : Nat) :
    List (AddressEventItem × Nat) :=
  if m.any (fun p => p.1 = key) then m.map (fun p => if p.1 = key then (key, count) else p)
  else m ++ [(key, count)]

/-- Body of the loop of `BlockData::readAddressEventCounts`;
`AddressEventCount aec = {}` is all zero. -/
def BlockData.readAddressEventCounts_element (fields : FileVersionFields) (self : BlockData)
    (dec : List Tok) : Res BlockData :=
  match AddressEventCount.readCbor fields
      { aei := { type := 0, code := 0, address := 0 }, count := 0 } dec with
  | .error e => .error e
  | .ok (aec, dec) =>
    .ok ({ self with
            address_event_counts := assign_count self.address_event_counts aec.aei aec.count },
         dec)

/-- The function `BlockData::readAddressEventCounts`; it has no handler. -/
def BlockData.readAddressEventCounts (fields : FileVersionFields) (self : BlockData)
    (dec : List Tok) : Res BlockData :=
  read_array (BlockData.readAddressEventCounts_element fields) self dec

/-- Body of the loop of `BlockData::readCbor`. -/
def BlockData.readCbor_entry (fields : FileVersionFields) (ticks : Nat)
    (fresh : QueryResponseItem) (env : TableEnv) (self : BlockData) (dec : List Tok) :
    Res BlockData :=
  match read_unsigned dec with
  | .error e => .error e
  | .ok (key, dec) =>
    match fields.block_field key with
    | .preamble => BlockData.readBlockPreamble fields ticks self dec
    | .tables => BlockData.readHeaders fields env self dec
    | .statistics => BlockData.readStats fields self dec
    | .queries => BlockData.readItems fields ticks fresh self dec
    | .address_event_counts => BlockData.readAddressEventCounts fields self dec
    | _ =>
      match skip dec with
      | .error e => .error e
      | .ok (_, dec) => .ok (self, dec)

/-- The function `BlockData::readCbor`; it has no handler. -/
def BlockData.readCbor (fields : FileVersionFields) (ticks : Nat) (fresh : QueryResponseItem)
    (env : TableEnv) (self : BlockData) (dec : List Tok) : Res BlockData :=
  read_map (BlockData.readCbor_entry fields ticks fresh env) self dec

/-- Table decoders for the examples: a 32-bit `index_t`, an address constructor
that takes any bytes, and all-zero default items. -/
def sample_env : TableEnv :=
  { index_bits := 32
    IPAddress := fun b => .ok b
    fresh_class_type := { qtype := 0, qclass := 0 }
    fresh_query_signature := QuerySignature.default_initialised
    fresh_question := { qname := 0, classtype := 0 }
    fresh_resource_record := { name := 0, classtype := 0, ttl := 0, rdata := 0 } }

/-! ## Maps of unsigned values as data -/

/-- An entry of a ClassType map has the type its key asks for: an unsigned
integer under a known key, one complete item of any kind under a key the
mapping does not know.  The same holds for the maps of the other structures
below. -/
def ClassTypeEntry.WellTyped (fields : FileVersionFields) (e : WireEntry) : Prop :=
  match fields.class_type_field e.1, e.2 with
  | .unknown, v => Skippable v.toks
  | _, .unsigned _ => True
  | _, .other _ => False

/-- What a well-typed entry of a ClassType map stands for. -/
def ClassTypeEntry.apply (fields : FileVersionFields) (self : ClassType) (e : WireEntry) :
    ClassType :=
  match fields.class_type_field e.1, e.2 with
  | .type_id, .unsigned v => { self with qtype := v }
  | .class_id, .unsigned v => { self with qclass := v }
  | _, _ => self

def QuestionEntry.WellTyped (fields : FileVersionFields) (e : WireEntry) : Prop :=
  match fields.question_field e.1, e.2 with
  | .unknown, v => Skippable v.toks
  | _, .unsigned _ => True
  | _, .other _ => False

/-- What a well-typed entry of a Question map stands for. -/
def QuestionEntry.apply (fields : FileVersionFields) (self : Question) (e : WireEntry) :
    Question :=
  match fields.question_field e.1, e.2 with
  | .name_index, .unsigned v => { self with qname := v }
  | .classtype_index, .unsigned v => { self with classtype := v }
  | _, _ => self

def RREntry.WellTyped (fields : FileVersionFields) (e : WireEntry) : Prop :=
  match fields.rr_field e.1, e.2 with
  | .unknown, v => Skippable v.toks
  | _, .unsigned _ => True
  | _, .other _ => False

/-- What a well-typed entry of a ResourceRecord map stands for. -/
def RREntry.apply (fields : FileVersionFields) (self : ResourceRecord) (e : WireEntry) :
    ResourceRecord :=
  match fields.rr_field e.1, e.2 with
  | .name_index, .unsigned v => { self with name := v }
  | .classtype_index, .unsigned v => { self with classtype := v }
  | .ttl, .unsigned v => { self with ttl := v }
  | .rdata_index, .unsigned v => { self with rdata := v }
  | _, _ => self

def SignatureEntry.WellTyped (fields : FileVersionFields) (e : WireEntry) : Prop :=
  match fields.query_signature_field e.1, e.2 with
  | .unknown, v => Skippable v.toks
  | _, .unsigned _ => True
  | _, .other _ => False

/-- What a well-typed entry of a QuerySignature map stands for. -/
def SignatureEntry.apply (fields : FileVersionFields) (self : QuerySignature)
    (e : WireEntry) : QuerySignature :=
  match fields.query_signature_field e.1, e.2 with
  | .server_address_index, .unsigned v => { self with server_address := v }
  | .server_port, .unsigned v => { self with server_port := v }
  | .transport_flags, .unsigned v => { self with transport_flags := v }
  | .qr_dns_flags, .unsigned v => { self with dns_flags := v }
  | .qr_sig_flags, .unsigned v => { self with qr_flags := v }
  | .query_qd_count, .unsigned v => { self with qdcount := v }
  | .query_classtype_index, .unsigned v => { self with query_classtype := v }
  | .query_rcode, .unsigned v => { self with query_rcode := v }
  | .query_opcode, .unsigned v => { self with query_opcode := v }
  | .query_an_count, .unsigned v => { self with query_ancount := v }
  | .query_ar_count, .unsigned v => { self with query_arcount := v }
  | .query_ns_count, .unsigned v => { self with query_nscount := v }
  | .edns_version, .unsigned v => { self with query_edns_version := v }
  | .udp_buf_size, .unsigned v => { self with query_edns_payload_size := v }
  | .opt_rdata_index, .unsigned v => { self with query_opt_rdata := v }
  | .response_rcode, .unsigned v => { self with response_rcode := v }
  | _, _ => self

def AddressEventEntry.WellTyped (fields : FileVersionFields) (e : WireEntry) : Prop :=
  match fields.address_event_count_field e.1, e.2 with
  | .unknown, v => Skippable v.toks
  | _, .unsigned _ => True
  | _, .other _ => False

/-- What a well-typed entry of an AddressEventCount map stands for. -/
def AddressEventEntry.apply (fields : FileVersionFields) (self : AddressEventCount)
    (e : WireEntry) : AddressEventCount :=
  match fields.address_event_count_field e.1, e.2 with
  | .ae_type, .unsigned v => { self with aei := { self.aei with type := v } }
  | .ae_code, .unsigned v => { self with aei := { self.aei with code := v } }
  | .ae_address_index, .unsigned v => { self with aei := { self.aei with address := v } }
  | .ae_count, .unsigned v => { self with count := v }
  | _, _ => self

/-- A second field mapping for the examples, standing for another format
version: it knows the ClassType keys 10 and 11 where `sample_fields` knows 0
and 1. -/
def sample_fields_v2 : FileVersionFields :=
  { sample_fields with
    class_type_field := fun
      | 10 => .type_id
      | 11 => .class_id
      | _ => .unknown }

/-! ## Error kinds -/

/-- The result is not the codec's own format error. -/
def NoFormatError {α : Type} (r : Except Err α) : Prop :=
  ∀ w, r ≠ .error (.cbor_file_format_error w)

/-- How the result of a decoder with the handler relates to the body of its
`try` block: the result is never the raw logic error; a logic error of the
body comes out as the format error with the message `what`; and a format
error that comes out carries the message `what`. -/
def RewrapsLogicError {α : Type} (what : String) (body result : Except Err α) : Prop :=
  result ≠ .error .logic_error
  ∧ (body = .error .logic_error → result = .error (.cbor_file_format_error what))
  ∧ ∀ w, result = .error (.cbor_file_format_error w) → w = what

/-! ## Blocks as data -/

/-- The value of an entry of a preamble map as it stands on the wire: an
absolute time (seconds and microseconds) or some other item. -/
inductive PreambleValue where
  | time (secs usecs : Nat)
  | other (ts : List Tok)
  deriving DecidableEq, Repr

abbrev PreambleEntry := Nat × PreambleValue

def PreambleValue.toks : PreambleValue → List Tok
  | .time secs usecs => [.arr (some 2), .uint secs, .uint usecs]
  | .other ts => ts

def PreambleEntry.toks (e : PreambleEntry) : List Tok := .uint e.1 :: e.2.toks

/-- An entry of a preamble map has the type its key asks for. -/
def PreambleEntry.WellTyped (fields : FileVersionFields) (e : PreambleEntry) : Prop :=
  match fields.block_preamble_field e.1, e.2 with
  | .unknown, v => Skippable v.toks
  | .earliest_time, .time _ _ => True
  | _, _ => False

/-- The time, in clock ticks, that seconds and microseconds stand for. -/
def time_of (ticks secs usecs : Nat) : Int := (((secs * 1000000 + usecs) * ticks : Nat) : Int)

/-- What a well-typed entry of a preamble map stands for. -/
def PreambleEntry.apply (fields : FileVersionFields) (ticks : Nat) (self : BlockData)
    (e : PreambleEntry) : BlockData :=
  match fields.block_preamble_field e.1, e.2 with
  | .earliest_time, .time secs usecs => { self with earliest_time := time_of ticks secs usecs }
  | _, _ => self

/-- A map of unsigned values on the wire: its form and its entries. -/
abbrev WireMap := Bool × List WireEntry

def WireMap.toks (m : WireMap) : List Tok := wire_map m.1 (m.2.map WireEntry.toks)

/-- An array of unsigned integers on the wire: its form and its items. -/
abbrev WireIndexes := Bool × List Nat

def WireIndexes.toks (v : WireIndexes) : List Tok := wire_array v.1 (v.2.map fun x => [.uint x])

/-- The value of an entry of a tables map as it stands on the wire: an array of
byte strings, of maps of unsigned values or of arrays of unsigned integers, or
some other item. -/
inductive TableValue where
  | byte_strings (indef : Bool) (items : List (List Nat))
  | maps (indef : Bool) (items : List WireMap)
  | index_vectors (indef : Bool) (items : List WireIndexes)
  | other (ts : List Tok)
  deriving DecidableEq, Repr

abbrev TableEntry := Nat × TableValue

def TableValue.toks : TableValue → List Tok
  | .byte_strings indef items => wire_array indef (items.map fun b => [.bytes b])
  | .maps indef items => wire_array indef (items.map WireMap.toks)
  | .index_vectors indef items => wire_array indef (items.map WireIndexes.toks)
  | .other ts => ts

def TableEntry.toks (e : TableEntry) : List Tok := .uint e.1 :: e.2.toks

/-- An entry of a tables map has the type its key asks for: byte strings for
the addresses (each accepted by the address constructor) and for the names,
maps of the right kind for class types, signatures, questions and resource
records, arrays of indexes for the two kinds of lists. -/
def TableEntry.WellTyped (fields : FileVersionFields) (env : TableEnv) (e : TableEntry) :
    Prop :=
  match fields.block_tables_field e.1, e.2 with
  | .unknown, v => Skippable v.toks
  | .ip_address, .byte_strings _ items => ∀ b ∈ items, ∃ a, env.IPAddress b = .ok a
  | .name_rdata, .byte_strings _ _ => True
  | .classtype, .maps _ items => ∀ m ∈ items, ∀ x ∈ m.2, ClassTypeEntry.WellTyped fields x
  | .query_signature, .maps _ items =>
    ∀ m ∈ items, ∀ x ∈ m.2, SignatureEntry.WellTyped fields x
  | .question_rr, .maps _ items => ∀ m ∈ items, ∀ x ∈ m.2, QuestionEntry.WellTyped fields x
  | .rr, .maps _ items => ∀ m ∈ items, ∀ x ∈ m.2, RREntry.WellTyped fields x
  | .question_list, .index_vectors _ _ => True
  | .rr_list, .index_vectors _ _ => True
  | _, _ => False

/-- The address item a byte string stands for. -/
def address_of (env : TableEnv) (b : List Nat) : IPAddressItem :=
  match env.IPAddress b with
  | .ok a => { addr := a }
  | .error _ => { addr := [] }

/-- What a well-typed entry of a tables map stands for: its items, decoded,
behind those the table already holds. -/
def TableEntry.apply (fields : FileVersionFields) (env : TableEnv) (self : BlockData)
    (e : TableEntry) : BlockData :=
  match fields.block_tables_field e.1, e.2 with
  | .ip_address, .byte_strings _ items =>
    { self with ip_addresses := self.ip_addresses ++ items.map (address_of env) }
  | .name_rdata, .byte_strings _ items =>
    { self with names_rdatas := self.names_rdatas ++ items.map (fun b => { str := b }) }
  | .classtype, .maps _ items =>
    { self with
      class_types := self.class_types
        ++ items.map (fun m => m.2.foldl (ClassTypeEntry.apply fields) env.fresh_class_type) }
  | .query_signature, .maps _ items =>
    { self with
      query_signatures := self.query_signatures
        ++ items.map (fun m =>
            m.2.foldl (SignatureEntry.apply fields) env.fresh_query_signature) }
  | .question_rr, .maps _ items =>
    { self with
      questions := self.questions
        ++ items.map (fun m => m.2.foldl (QuestionEntry.apply fields) env.fresh_question) }
  | .rr, .maps _ items =>
    { self with
      resource_records := self.resource_records
        ++ items.map (fun m => m.2.foldl (RREntry.apply fields) env.fresh_resource_record) }
  | .question_list, .index_vectors _ items =>
    { self with
      questions_lists := self.questions_lists
        ++ items.map (fun v => { vec := v.2.map (to_index_t env.index_bits) }) }
  | .rr_list, .index_vectors _ items =>
    { self with
      rrs_lists := self.rrs_lists
        ++ items.map (fun v => { vec := v.2.map (to_index_t env.index_bits) }) }
  | _, _ => self

/-- The address event count a map stands for. -/
def address_event_of (fields : FileVersionFields) (m : WireMap) : AddressEventCount :=
  m.2.foldl (AddressEventEntry.apply fields)
    { aei := { type := 0, code := 0, address := 0 }, count := 0 }

/-- The value of an entry of a block map as it stands on the wire. -/
inductive BlockValue where
  | preamble (indef : Bool) (entries : List PreambleEntry)
  | statistics (indef : Bool) (entries : List WireEntry)
  | tables (indef : Bool) (entries : List TableEntry)
  | queries (indef : Bool) (maps : List QRMap)
  | address_events (indef : Bool) (maps : List WireMap)
  | other (ts : List Tok)
  deriving DecidableEq, Repr

abbrev BlockEntry := Nat × BlockValue

def BlockValue.toks : BlockValue → List Tok
  | .preamble indef entries => wire_map indef (entries.map PreambleEntry.toks)
  | .statistics indef entries => wire_map indef (entries.map WireEntry.toks)
  | .tables indef entries => wire_map indef (entries.map TableEntry.toks)
  | .queries indef maps => wire_array indef (maps.map QRMap.toks)
  | .address_events indef maps => wire_array indef (maps.map WireMap.toks)
  | .other ts => ts

def BlockEntry.toks (e : BlockEntry) : List Tok := .uint e.1 :: e.2.toks

/-- An entry of a block map has the type its key asks for. -/
def BlockEntry.WellTyped (fields : FileVersionFields) (env : TableEnv) (e : BlockEntry) :
    Prop :=
  match fields.block_field e.1, e.2 with
  | .unknown, v => Skippable v.toks
  | .preamble, .preamble _ es => ∀ x ∈ es, PreambleEntry.WellTyped fields x
  | .statistics, .statistics _ es => ∀ x ∈ es, StatEntry.WellTyped fields x
  | .tables, .tables _ es => ∀ x ∈ es, TableEntry.WellTyped fields env x
  | .queries, .queries _ ms => ∀ m ∈ ms, ∀ x ∈ m.2, QREntry.WellTyped fields x
  | .address_event_counts, .address_events _ ms =>
    ∀ m ∈ ms, ∀ x ∈ m.2, AddressEventEntry.WellTyped fields x
  | _, _ => False

/-- What a well-typed entry of a block map stands for. -/
def BlockEntry.apply (fields : FileVersionFields) (ticks : Nat) (fresh : QueryResponseItem)
    (env : TableEnv) (self : BlockData) (e : BlockEntry) : BlockData :=
  match fields.block_field e.1, e.2 with
  | .preamble, .preamble _ es => es.foldl (PreambleEntry.apply fields ticks) self
  | .statistics, .statistics _ es =>
    { self with
      start_packet_statistics := PacketStatistics.zero
      last_packet_statistics := es.foldl (StatEntry.apply fields) self.last_packet_statistics }
  | .tables, .tables _ es => es.foldl (TableEntry.apply fields env) self
  | .queries, .queries _ ms =>
    { self with
      query_response_items := self.query_response_items
        ++ ms.map (fun m => item_of_entries fields ticks self.earliest_time fresh m.2) }
  | .address_event_counts, .address_events _ ms =>
    { self with
      address_event_counts :=
        ms.foldl (fun counts m =>
            assign_count counts (address_event_of fields m).aei (address_event_of fields m).count)
          self.address_event_counts }
  | _, _ => self

/-- A block map in the keys of `sample_index`: preamble (earliest time 1000 s),
statistics, tables (one class type, one question list), two queries, one
address event count, and an entry under a key the mapping does not know. -/
def sample_block_map : List BlockEntry :=
  [(0, .preamble false [(0, .time 1000 0)]),
   (1, .statistics true [(0, .unsigned 50)]),
   (2, .tables false
        [(1, .maps false [(false, [(0, .unsigned 28), (1, .unsigned 1)])]),
         (4, .index_vectors true [(false, [1, 2])])]),
   (3, .queries false sample_query_maps),
   (4, .address_events true [(false, [(0, .unsigned 2), (2, .unsigned 5), (3, .unsigned 11)])]),
   (77, .other [.text [104, 105]])]

/-! ## The order of the entries of a block -/

/-- A preamble entry of a block map in the keys of `sample_index`: earliest
time 1000 s. -/
def sample_preamble_entry : BlockEntry := (0, .preamble false [(0, .time 1000 0)])

/-- A queries entry of a block map in the keys of `sample_index`: one item,
5 microseconds after the earliest time. -/
def sample_queries_entry : BlockEntry := (3, .queries false [(false, [(0, .signed 5)])])

/-- The time stamps of the items of a block. -/
def BlockData.tstamps (self : BlockData) : List Int :=
  self.query_response_items.map (fun qri => qri.tstamp)

/-! ## Errors of the stream -/

/-- The two errors by which a stream primitive reports a broken stream: the
end of the input and a malformed item. -/
def StreamError (e : Err) : Prop := e = .cbor_end_of_input ∨ e = .cbor_decode_error

/-- A decoder with a handler around its body fails with a stream error exactly
when the body does, and with the same one. -/
def PassesStreamErrors {α : Type} (body decoder : Except Err α) : Prop :=
  ∀ e, StreamError e → (decoder = .error e ↔ body = .error e)

/-- The stream errors met while a container is read leave its decoder as they
are.  `groups` are the token groups of the entries read so far and `after` is
what they have been decoded to.  An exhausted stream, at the header, behind the
entries of an indefinite container or before the last entry of a definite one,
is the end-of-input error of the decoder; and when the body of the loop fails
on the next tokens `bad` with a stream error, the decoder fails with that
error, in the definite and in the indefinite form. -/
def ErrorsReachCaller {α σ : Type} (decoder : List Tok → Except Err α)
    (header : Option Nat → Tok) (body : σ → List Tok → Res σ) (groups : List (List Tok))
    (after : σ) : Prop :=
  decoder [] = .error .cbor_end_of_input
  ∧ decoder (header none :: groups.flatten) = .error .cbor_end_of_input
  ∧ (∀ n, groups.length < n →
      decoder (header (some n) :: groups.flatten) = .error .cbor_end_of_input)
  ∧ ∀ bad e, StreamError e → body after bad = .error e →
      (∀ n, groups.length < n →
        decoder (header (some n) :: (groups.flatten ++ bad)) = .error e)
      ∧ ((∃ t ts, bad = t :: ts ∧ t ≠ .brk) →
        decoder (header none :: (groups.flatten ++ bad)) = .error e)

/-- A decoder rejects every truncation of the tokens `toks`: on each proper
prefix of them it fails with the end-of-input error. -/
def RejectsTruncated {α : Type} (decoder : List Tok → Except Err α) (toks : List Tok) :
    Prop :=
  ∀ p, p <+: toks → p ≠ toks → decoder p = .error .cbor_end_of_input

/-! ## Extended info: what is written -/

/-- The four list indexes of an extended info, each with the key under which
it is written, in the order question, answer, authority, additional. -/
def ext_index_pairs (cur : CurrentIndex) (ei : QueryResponseExtraInfo) : List (Nat × Nat) :=
  [(cur.find_query_response_extended_index .question_index, ei.questions_list),
   (cur.find_query_response_extended_index .answer_index, ei.answers_list),
   (cur.find_query_response_extended_index .authority_index, ei.authority_list),
   (cur.find_query_response_extended_index .additional_index, ei.additional_list)]

/-- An extended info with indexes 3, 0, 0 and 7. -/
def sample_extra_info : QueryResponseExtraInfo :=
  { questions_list := 3, answers_list := 0, authority_list := 0, additional_list := 7 }

/-! ## Query signatures: what is written -/

/-- The members of a signature that are written, each with the identity of its
key, group by group: six always, the query class/type under
`QR_HAS_QUESTION`, five query members under `QUERY_ONLY`, the three EDNS
members under `QUERY_ONLY` and `QUERY_HAS_OPT` together, the response rcode
under `RESPONSE_ONLY`. -/
def signature_written (x : QuerySignature) : List (QuerySignatureField × Nat) :=
  [(.server_address_index, x.server_address), (.server_port, x.server_port),
   (.transport_flags, x.transport_flags), (.qr_dns_flags, x.dns_flags),
   (.qr_sig_flags, x.qr_flags), (.query_qd_count, x.qdcount)]
  ++ (if x.qr_flags &&& QR_HAS_QUESTION ≠ 0 then
        [(.query_classtype_index, x.query_classtype)]
      else [])
  ++ (if x.qr_flags &&& QUERY_ONLY ≠ 0 then
        [(.query_rcode, x.query_rcode), (.query_opcode, x.query_opcode),
         (.query_an_count, x.query_ancount), (.query_ar_count, x.query_arcount),
         (.query_ns_count, x.query_nscount)]
      else [])
  ++ (if x.qr_flags &&& QUERY_ONLY ≠ 0 ∧ x.qr_flags &&& QUERY_HAS_OPT ≠ 0 then
        [(.edns_version, x.query_edns_version), (.udp_buf_size, x.query_edns_payload_size),
         (.opt_rdata_index, x.query_opt_rdata)]
      else [])
  ++ (if x.qr_flags &&& RESPONSE_ONLY ≠ 0 then [(.response_rcode, x.response_rcode)] else [])

/-! ## Query signatures: what is hashed -/

/-- The members of a signature that enter its hash, in the order in which
`hash_value` combines them. -/
def hashed_members (qs : QuerySignature) : List Nat :=
  [qs.server_address, qs.server_port, qs.transport_flags, qs.dns_flags, qs.qr_flags,
   qs.qdcount]
  ++ (if qs.qr_flags &&& QR_HAS_QUESTION ≠ 0 then [qs.query_classtype] else [])
  ++ (if qs.qr_flags &&& QUERY_ONLY ≠ 0 then
        [qs.query_rcode, qs.query_opcode, qs.query_ancount, qs.query_nscount,
         qs.query_arcount]
      else [])
  ++ (if qs.qr_flags &&& RESPONSE_ONLY ≠ 0 then [qs.response_rcode] else [])
  ++ (if qs.qr_flags &&& QUERY_HAS_OPT ≠ 0 then
        [qs.query_edns_version, qs.query_edns_payload_size, qs.query_opt_rdata]
      else [])

/-- Two signatures agree in the members meaningful under their flags: the
same flags, the same server address, server port, transport flags, DNS flags
and qdcount, the same query class/type when `QR_HAS_QUESTION` is set, the same
five query members when `QUERY_ONLY` is set, the same response rcode when
`RESPONSE_ONLY` is set, the same three EDNS members when `QUERY_HAS_OPT` is
set. -/
def MeaningfulAgree (a b : QuerySignature) : Prop :=
  a.qr_flags = b.qr_flags
  ∧ a.server_address = b.server_address ∧ a.server_port = b.server_port
  ∧ a.transport_flags = b.transport_flags ∧ a.dns_flags = b.dns_flags
  ∧ a.qdcount = b.qdcount
  ∧ (a.qr_flags &&& QR_HAS_QUESTION ≠ 0 → a.query_classtype = b.query_classtype)
  ∧ (a.qr_flags &&& QUERY_ONLY ≠ 0 →
      a.query_rcode = b.query_rcode ∧ a.query_opcode = b.query_opcode
      ∧ a.query_ancount = b.query_ancount ∧ a.query_nscount = b.query_nscount
      ∧ a.query_arcount = b.query_arcount)
  ∧ (a.qr_flags &&& RESPONSE_ONLY ≠ 0 → a.response_rcode = b.response_rcode)
  ∧ (a.qr_flags &&& QUERY_HAS_OPT ≠ 0 →
      a.query_edns_version = b.query_edns_version
      ∧ a.query_edns_payload_size = b.query_edns_payload_size
      ∧ a.query_opt_rdata = b.query_opt_rdata)

/-- The sample signature with its flags cut down to `QR_HAS_QUESTION`: the
query, response and EDNS members it holds are no longer meaningful. -/
def sample_question_signature : QuerySignature :=
  { sample_signature with qr_flags := QR_HAS_QUESTION }

/-- The same signature with other values in every member that is not
meaningful under `QR_HAS_QUESTION`. -/
def sample_question_signature_other : QuerySignature :=
  { sample_question_signature with
    query_rcode := 9, query_opcode := 9, query_ancount := 9, query_arcount := 9,
    query_nscount := 9, query_edns_version := 9, query_edns_payload_size := 9,
    query_opt_rdata := 9, response_rcode := 9 }

/-! ## Statistics maps -/

/-- The statistics map with the value `d f` under the key of each of the ten
statistics fields `f`, in the order in which `writeStats` writes them. -/
def stats_map (cur : CurrentIndex) (d : BlockStatisticsField → Nat) : List Tok :=
  wire_map true (statistics_fields.map fun f =>
    [.uint (cur.find_block_statistics_index f), .uint (d f)])

/-- The running totals with `d f` added to the counter of each field `f`. -/
def PacketStatistics.add (st : PacketStatistics) (d : BlockStatisticsField → Nat) :
    PacketStatistics :=
  { raw_packet_count := add_u64 st.raw_packet_count (d .total_packets),
    qr_pair_count := add_u64 st.qr_pair_count (d .total_pairs),
    query_without_response_count :=
      add_u64 st.query_without_response_count (d .unmatched_queries),
    response_without_query_count :=
      add_u64 st.response_without_query_count (d .unmatched_responses),
    malformed_packet_count :=
      add_u64 st.malformed_packet_count (d .completely_malformed_packets),
    unhandled_packet_count := add_u64 st.unhandled_packet_count (d .compactor_non_dns_packets),
    out_of_order_packet_count :=
      add_u64 st.out_of_order_packet_count (d .compactor_out_of_order_packets),
    output_cbor_drop_count := add_u64 st.output_cbor_drop_count (d .compactor_missing_pairs),
    output_raw_pcap_drop_count :=
      add_u64 st.output_raw_pcap_drop_count (d .compactor_missing_packets),
    output_ignored_pcap_drop_count :=
      add_u64 st.output_ignored_pcap_drop_count (d .compactor_missing_non_dns) }

/-- The statistics are 64-bit counters: each is below 2^64. -/
def PacketStatistics.InRange (st : PacketStatistics) : Prop :=
  ∀ f, st.counter f < 2 ^ 64

/-- The difference `last - start` of the two snapshots of a block, counter by
counter, in 64-bit unsigned arithmetic. -/
def BlockData.stats_delta (self : BlockData) (f : BlockStatisticsField) : Nat :=
  sub_u64 (self.last_packet_statistics.counter f) (self.start_packet_statistics.counter f)

/-- A block that has counted 40 raw packets and 7 pairs so far. -/
def sample_target_block : BlockData :=
  { empty_block with
    last_packet_statistics :=
      { PacketStatistics.zero with raw_packet_count := 40, qr_pair_count := 7 } }

/-- A block whose running totals at its start are those of
`sample_target_block` and that counted 50 raw packets and 20 pairs more. -/
def sample_writer_block : BlockData :=
  { empty_block with
    start_packet_statistics :=
      { PacketStatistics.zero with raw_packet_count := 40, qr_pair_count := 7 },
    last_packet_statistics :=
      { PacketStatistics.zero with raw_packet_count := 90, qr_pair_count := 27 } }

/-! ## The mapping from address events to counts -/

/-- The count that the mapping holds for an event, if any. -/
def lookup_count (m : List (AddressEventItem × Nat)) (key : AddressEventItem) : Option Nat :=
  (m.find? (fun p => p.1 = key)).map Prod.snd

/-- The count of the last occurrence of an event in a sequence of address
event counts, if it occurs. -/
def last_count (events : List AddressEventCount) (key : AddressEventItem) : Option Nat :=
  (events.reverse.find? (fun a => a.aei = key)).map AddressEventCount.count

/-- Three address event maps in the keys of `sample_index`: the event
(2, 0, 5) with count 5, the event (3, 1, 6) with count 4, and the event
(2, 0, 5) again with count 7. -/
def sample_event_maps : List WireMap :=
  [(false, [(0, .unsigned 2), (2, .unsigned 5), (3, .unsigned 5)]),
   (true, [(0, .unsigned 3), (1, .unsigned 1), (2, .unsigned 6), (3, .unsigned 4)]),
   (false, [(3, .unsigned 7), (0, .unsigned 2), (2, .unsigned 5)])]

/-- A block that holds the count 100 for the event (2, 0, 5) and the count 9
for the event (1, 0, 1). -/
def sample_events_block : BlockData :=
  { empty_block with
    address_event_counts :=
      [({ type := 2, code := 0, address := 5 }, 100), ({ type := 1, code := 0, address := 1 }, 9)] }

/-! ## Items as the decoder leaves them -/

/-- The flags of an item cover its conditional members: the flags hold only the
three bits the decoder derives, and a member whose flag test fails holds the
value `clear` gives it. -/
def QueryResponseItem.FlagsCover (s : QueryResponseItem) : Prop :=
  s.qr_flags < 8
  ∧ (s.qr_flags &&& QUERY_ONLY = 0 → s.hoplimit = 0 ∧ s.query_size = 0)
  ∧ (¬ (s.qr_flags &&& QUERY_ONLY ≠ 0 ∧ s.qr_flags &&& RESPONSE_ONLY ≠ 0) →
      s.response_delay = 0)
  ∧ (s.qr_flags &&& QR_HAS_QUESTION = 0 → s.qname = 0)
  ∧ (s.qr_flags &&& RESPONSE_ONLY = 0 → s.response_size = 0)

/-- The time stamp of an item lies a whole number of microseconds from the
earliest time. -/
def QueryResponseItem.Aligned (ticks : Nat) (earliest_time : Int) (s : QueryResponseItem) :
    Prop :=
  (ticks : Int) ∣ s.tstamp - earliest_time

/-- A list of entries carries the time offset key. -/
def HasTimeKey (fields : FileVersionFields) (es : List QREntry) : Prop :=
  ∃ e ∈ es, fields.query_response_field e.1 = .time_useconds

/-! ## Termination -/

/-- A decoder result advances from the input `dec`: it is not the marker of a
loop cut off, and when it is a value the tokens left are a proper suffix of
`dec`, so at least one token was read. -/
def Advances {α : Type} (dec : List Tok) (r : Res α) : Prop :=
  r ≠ .error .out_of_fuel
  ∧ ∀ v rest, r = .ok (v, rest) → rest <:+ dec ∧ rest.length < dec.length

/-- A decoder terminates on every token stream: every result advances from its
input. -/
def Terminates {α : Type} (decoder : List Tok → Res α) : Prop :=
  ∀ dec, Advances dec (decoder dec)

/-- A container decoder ends in an error, one of the C++ exceptions, when a
definite header announces more entries than there are tokens behind it, and
when an indefinite header is followed by tokens without any break. -/
def EndsInError {α : Type} (decoder : List Tok → Res α) (header : Option Nat → Tok) : Prop :=
  (∀ n ts, ts.length < n → ∃ e, decoder (header (some n) :: ts) = .error e ∧ e ≠ .out_of_fuel)
  ∧ (∀ ts, Tok.brk ∉ ts → ∃ e, decoder (header none :: ts) = .error e ∧ e ≠ .out_of_fuel)

/-! ## Writing a block -/

/-- Modelled from the spec: `HeaderList<T>::writeCbor`, the encoder of a table
(a template of the header, which is not among the sources): an array of the
items in table order, each written by `T::writeCbor`, in the definite or the
indefinite form. -/
def HeaderList.writeCbor {T : Type} (indef : Bool) (item_writeCbor : T → List Tok)
    (self : List T) : List Tok :=
  wire_array indef (self.map item_writeCbor)

/-- What the block encoder takes from outside the sources: the tokens that the
time primitive `enc.write(earliest_time)` of the external writer emits for a
time point, and the form in which each table is written. -/
structure EncoderEnv where
  write_time : Int → List Tok
  table_indef : BlockTablesField → Bool

/-- The function `BlockData::writeHeaders`. -/
def BlockData.writeHeaders (cur : CurrentIndex) (wenv : EncoderEnv) (self : BlockData) :
    List Tok :=
  let ipaddress_index := cur.find_block_tables_index .ip_address
  let classtype_index := cur.find_block_tables_index .classtype
  let name_rdata_index := cur.find_block_tables_index .name_rdata
  let query_signature_index := cur.find_block_tables_index .query_signature
  let question_list_index := cur.find_block_tables_index .question_list
  let question_rr_index := cur.find_block_tables_index .question_rr
  let rr_list_index := cur.find_block_tables_index .rr_list
  let rr_index := cur.find_block_tables_index .rr
  [.map none]
  ++ .uint ipaddress_index ::
      HeaderList.writeCbor (wenv.table_indef .ip_address) IPAddressItem.writeCbor
        self.ip_addresses
  ++ .uint classtype_index ::
      HeaderList.writeCbor (wenv.table_indef .classtype) (ClassType.writeCbor cur)
        self.class_types
  ++ .uint name_rdata_index ::
      HeaderList.writeCbor (wenv.table_indef .name_rdata) ByteStringItem.writeCbor
        self.names_rdatas
  ++ .uint query_signature_index ::
      HeaderList.writeCbor (wenv.table_indef .query_signature) (QuerySignature.writeCbor cur)
        self.query_signatures
  ++ .uint question_list_index ::
      HeaderList.writeCbor (wenv.table_indef .question_list) IndexVectorItem.writeCbor
        self.questions_lists
  ++ .uint question_rr_index ::
      HeaderList.writeCbor (wenv.table_indef .question_rr) (Question.writeCbor cur)
        self.questions
  ++ .uint rr_list_index ::
      HeaderList.writeCbor (wenv.table_indef .rr_list) IndexVectorItem.writeCbor
        self.rrs_lists
  ++ .uint rr_index ::
      HeaderList.writeCbor (wenv.table_indef .rr) (ResourceRecord.writeCbor cur)
        self.resource_records
  ++ [.brk]

/-- The function `BlockData::writeAddressEventCounts`: the pairs of the map in
its order, each written as an `AddressEventCount`. -/
def BlockData.writeAddressEventCounts (cur : CurrentIndex) (self : BlockData) : List Tok :=
  .arr (some self.address_event_counts.length) ::
    self.address_event_counts.flatMap fun aeci =>
      AddressEventCount.writeCbor cur { aei := aeci.1, count := aeci.2 }

/-- The function `BlockData::writeCbor`. -/
def BlockData.writeCbor (cur : CurrentIndex) (ticks : Nat) (wenv : EncoderEnv)
    (self : BlockData) : List Tok :=
  let preamble_index := cur.find_block_index .preamble
  let statistics_index := cur.find_block_index .statistics
  let tables_index := cur.find_block_index .tables
  let queries_index := cur.find_block_index .queries
  let aec_index := cur.find_block_index .address_event_counts
  let earliest_time_index := cur.find_block_preamble_index .earliest_time
  [.map none]
  ++ [.uint preamble_index, .map (some 1), .uint earliest_time_index]
  ++ wenv.write_time self.earliest_time
  ++ .uint statistics_index :: self.writeStats cur
  ++ .uint tables_index :: self.writeHeaders cur wenv
  ++ .uint queries_index :: self.writeItems cur ticks
  ++ .uint aec_index :: self.writeAddressEventCounts cur
  ++ [.brk]

/-- Body of the loop of `map_keys`: an unsigned key, then one item read past. -/
def map_keys_entry (keys : List Nat) (dec : List Tok) : Res (List Nat) :=
  match read_unsigned dec with
  | .error e => .error e
  | .ok (key, dec) =>
    match skip dec with
    | .error e => .error e
    | .ok (_, dec) => .ok (keys ++ [key], dec)

/-- The keys of the entries of a map, in stream order, read with the
primitives of the decoder: the map header, then per entry the key and a `skip`
over the value, up to the end of the map. -/
def map_keys (dec : List Tok) : Res (List Nat) := read_map map_keys_entry [] dec

/-- The preamble that `BlockData::writeCbor` writes: a definite map with the
earliest time as its one entry. -/
def written_preamble (cur : CurrentIndex) (wenv : EncoderEnv) (self : BlockData) : List Tok :=
  wire_map false
    [.uint (cur.find_block_preamble_index .earliest_time)
      :: wenv.write_time self.earliest_time]

/-- The five entries of the map that `BlockData::writeCbor` writes, each a key
followed by its value. -/
def written_block_entries (cur : CurrentIndex) (ticks : Nat) (wenv : EncoderEnv)
    (self : BlockData) : List (Nat × List Tok) :=
  [(cur.find_block_index .preamble, written_preamble cur wenv self),
   (cur.find_block_index .statistics, self.writeStats cur),
   (cur.find_block_index .tables, self.writeHeaders cur wenv),
   (cur.find_block_index .queries, self.writeItems cur ticks),
   (cur.find_block_index .address_event_counts, self.writeAddressEventCounts cur)]

/-- The time primitive of the examples: an array of seconds and microseconds,
the form `read_time` takes. -/
def sample_write_time (ticks : Nat) (t : Int) : List Tok :=
  [.arr (some 2), .uint ((t / ticks).toNat / 1000000), .uint ((t / ticks).toNat % 1000000)]

/-- An encoder for the examples: `sample_write_time` at 1000 ticks per
microsecond, the tables in the definite form except for the two tables of
index lists. -/
def sample_encoder : EncoderEnv :=
  { write_time := sample_write_time 1000
    table_indef := fun
      | .question_list => true
      | .rr_list => true
      | _ => false }

/-- A block for the examples: earliest time 1000 s, the item
`sample_query_item`, two raw packets counted, one address, one class/type pair,
one name, one list of question indices and one address event with count 5. -/
def sample_full_block : BlockData :=
  { earliest_time := 1000000000000000000
    query_response_items := [sample_query_item]
    start_packet_statistics := PacketStatistics.zero
    last_packet_statistics := { PacketStatistics.zero with raw_packet_count := 2 }
    ip_addresses := [{ addr := [192, 0, 2, 1] }]
    class_types := [{ qtype := 1, qclass := 1 }]
    names_rdatas := [{ str := [3, 119, 119, 119] }]
    questions_lists := [{ vec := [0] }]
    address_event_counts := [({ type := 2, code := 0, address := 0 }, 5)] }

/-! ## Decoding into a target that holds contents -/

/-- The items that `readItems` makes of the array `writeItems` wrote for the
block `x`, when the target block has the earliest time `earliest_time` and a
default-constructed item is `fresh`: one item per item of `x`, in order. -/
def items_read_back (cur : CurrentIndex) (fields : FileVersionFields) (ticks : Nat)
    (earliest_time : Int) (fresh : QueryResponseItem) (x : BlockData) :
    List QueryResponseItem :=
  x.query_response_items.map fun q =>
    item_of_entries fields ticks earliest_time fresh (qr_entries cur ticks x.earliest_time q)

/-- A block that holds one item, all of whose members differ from those of
`sample_query_item`, and has the earliest time of `sample_full_block`. -/
def sample_held_block : BlockData :=
  { empty_block with
    earliest_time := 1000000000000000000
    query_response_items :=
      [{ sample_stale_item with qr_flags := 2, tstamp := 1000000000000009000 }] }

/-! ## The decoders that reserve

`IndexVectorItem::readCbor` and `BlockData::readItems` call `reserve(n_elems)`
on a definite header before their loop.  The definitions above leave the call
out; the definitions of this section have it, and with it the functions that
reach the two decoders: `BlockData::readHeaders` and `BlockData::readCbor`. -/

/-- The call `v.reserve(n_elems)` on a `std::vector` whose `max_size()` is
`max_size`: above it the call throws `std::length_error`, which is a
`std::logic_error`; up to it the call changes the capacity only.  A failure of
the allocation itself has no counterpart here. -/
def reserve (max_size n_elems : Nat) : Except Err Unit :=
  if n_elems > max_size then .error .logic_error else .ok ()

/-- The opening of the two array decoders that reserve, followed by the loop:
```
bool indef;
uint64_t n_elems = dec.readArrayHeader(indef);
if ( !indef )
    v.reserve(n_elems);
while ( indef || n_elems-- > 0 ) ...
``` -/
def read_array_reserving {σ : Type} (max_size : Nat) (body : σ → List Tok → Res σ) (s : σ)
    (dec : List Tok) : Res σ :=
  match readArrayHeader dec with
  | .error e => .error e
  | .ok ((indef, n_elems), dec) =>
    match (if indef then .ok () else reserve max_size n_elems) with
    | .error e => .error e
    | .ok _ => container_loop body (dec.length + 1) indef n_elems s dec

/-- The values of `max_size()` of the two vectors that the decoders reserve
(declared by the C++ library): `std::vector<index_t>` and
`std::vector<QueryResponseItem>`. -/
structure MaxSize where
  index_vector : Nat
  query_response_items : Nat

/-- The function `IndexVectorItem::readCbor` with its `vec.reserve(n_elems)`:
the `std::length_error` of `reserve` is thrown inside the `try` block, so the
handler turns it into the format error. -/
def IndexVectorItem.readCbor_reserving (max_size index_bits : Nat) (self : IndexVectorItem)
    (dec : List Tok) : Res IndexVectorItem :=
  catch_logic_error "Unexpected CBOR item reading index" <|
    read_array_reserving max_size (IndexVectorItem.read_element index_bits) self dec

/-- The function `BlockData::readItems` with its
`query_response_items.reserve(n_elems)`; it has no handler, so the
`std::length_error` of `reserve` leaves it as it is. -/
def BlockData.readItems_reserving (max_size : Nat) (fields : FileVersionFields) (ticks : Nat)
    (fresh : QueryResponseItem) (self : BlockData) (dec : List Tok) : Res BlockData :=
  read_array_reserving max_size (BlockData.readItems_element fields ticks fresh) self dec

/-- Body of the loop of `BlockData::readHeaders`, the items of the two tables
of index lists read by `IndexVectorItem::readCbor` with its `reserve`. -/
def BlockData.readHeaders_entry_reserving (lim : MaxSize) (fields : FileVersionFields)
    (env : TableEnv) (self : BlockData) (dec : List Tok) : Res BlockData :=
  match read_unsigned dec with
  | .error e => .error e
  | .ok (key, dec) =>
    match fields.block_tables_field key with
    | .ip_address =>
      match HeaderList.readCbor (IPAddressItem.readCbor env.IPAddress) { addr := [] }
          self.ip_addresses dec with
      | .error e => .error e
      | .ok (t, dec) => .ok ({ self with ip_addresses := t }, dec)
    | .classtype =>
      match HeaderList.readCbor (ClassType.readCbor fields) env.fresh_class_type
          self.class_types dec with
      | .error e => .error e
      | .ok (t, dec) => .ok ({ self with class_types := t }, dec)
    | .name_rdata =>
      match HeaderList.readCbor ByteStringItem.readCbor { str := [] }
          self.names_rdatas dec with
      | .error e => .error e
      | .ok (t, dec) => .ok ({ self with names_rdatas := t }, dec)
    | .query_signature =>
      match HeaderList.readCbor (QuerySignature.readCbor fields) env.fresh_query_signature
          self.query_signatures dec with
      | .error e => .error e
      | .ok (t, dec) => .ok ({ self with query_signatures := t }, dec)
    | .question_list =>
      match HeaderList.readCbor
          (IndexVectorItem.readCbor_reserving lim.index_vector env.index_bits) { vec := [] }
          self.questions_lists dec with
      | .error e => .error e
      | .ok (t, dec) => .ok ({ self with questions_lists := t }, dec)
    | .question_rr =>
      match HeaderList.readCbor (Question.readCbor fields) env.fresh_question
          self.questions dec with
      | .error e => .error e
      | .ok (t, dec) => .ok ({ self with questions := t }, dec)
    | .rr_list =>
      match HeaderList.readCbor
          (IndexVectorItem.readCbor_reserving lim.index_vector env.index_bits) { vec := [] }
          self.rrs_lists dec with
      | .error e => .error e
      | .ok (t, dec) => .ok ({ self with rrs_lists := t }, dec)
    | .rr =>
      match HeaderList.readCbor (ResourceRecord.readCbor fields) env.fresh_resource_record
          self.resource_records dec with
      | .error e => .error e
      | .ok (t, dec) => .ok ({ self with resource_records := t }, dec)
    | _ =>
      match skip dec with
      | .error e => .error e
      | .ok (_, dec) => .ok (self, dec)

/-- The function `BlockData::readHeaders` over the decoders that reserve. -/
def BlockData.readHeaders_reserving (lim : MaxSize) (fields : FileVersionFields)
    (env : TableEnv) (self : BlockData) (dec : List Tok) : Res BlockData :=
  read_map (BlockData.readHeaders_entry_reserving lim fields env) self dec

/-- Body of the loop of `BlockData::readCbor` over the decoders that reserve. -/
def BlockData.readCbor_entry_reserving (lim : MaxSize) (fields : FileVersionFields)
    (ticks : Nat) (fresh : QueryResponseItem) (env : TableEnv) (self : BlockData)
    (dec : List Tok) : Res BlockData :=
  match read_unsigned dec with
  | .error e => .error e
  | .ok (key, dec) =>
    match fields.block_field key with
    | .preamble => BlockData.readBlockPreamble fields ticks self dec
    | .tables => BlockData.readHeaders_reserving lim fields env self dec
    | .statistics => BlockData.readStats fields self dec
    | .queries =>
      BlockData.readItems_reserving lim.query_response_items fields ticks fresh self dec
    | .address_event_counts => BlockData.readAddressEventCounts fields self dec
    | _ =>
      match skip dec with
      | .error e => .error e
      | .ok (_, dec) => .ok (self, dec)

/-- The function `BlockData::readCbor` over the decoders that reserve; it has
no handler. -/
def BlockData.readCbor_reserving (lim : MaxSize) (fields : FileVersionFields) (ticks : Nat)
    (fresh : QueryResponseItem) (env : TableEnv) (self : BlockData) (dec : List Tok) :
    Res BlockData :=
  read_map (BlockData.readCbor_entry_reserving lim fields ticks fresh env) self dec

/-- The stream errors met while an array is read by a decoder that reserves
leave the decoder as they are: the statement of `ErrorsReachCaller` for the
definite counts that `reserve` accepts, those up to `max_size`. -/
def ErrorsReachCallerWithin {α σ : Type} (max_size : Nat)
    (decoder : List Tok → Except Err α) (header : Option Nat → Tok)
    (body : σ → List Tok → Res σ) (groups : List (List Tok)) (after : σ) : Prop :=
  decoder [] = .error .cbor_end_of_input
  ∧ decoder (header none :: groups.flatten) = .error .cbor_end_of_input
  ∧ (∀ n, groups.length < n → n ≤ max_size →
      decoder (header (some n) :: groups.flatten) = .error .cbor_end_of_input)
  ∧ ∀ bad e, StreamError e → body after bad = .error e →
      (∀ n, groups.length < n → n ≤ max_size →
        decoder (header (some n) :: (groups.flatten ++ bad)) = .error e)
      ∧ ((∃ t ts, bad = t :: ts ∧ t ≠ .brk) →
        decoder (header none :: (groups.flatten ++ bad)) = .error e)

/-- The arrays of an entry of a tables map that are read with a `reserve`
announce counts that `reserve` accepts: under the key of the question lists
and under the key of the RR lists every definite array of indexes has at most
`max_size` items. -/
def TableEntry.Within (max_size : Nat) (fields : FileVersionFields) (e : TableEntry) : Prop :=
  match fields.block_tables_field e.1, e.2 with
  | .question_list, .index_vectors _ items =>
    ∀ v ∈ items, v.1 = false → v.2.length ≤ max_size
  | .rr_list, .index_vectors _ items => ∀ v ∈ items, v.1 = false → v.2.length ≤ max_size
  | _, _ => True

/-- The arrays of an entry of a block map that are read with a `reserve`
announce counts that `reserve` accepts: the index lists of the tables, and a
definite array of queries has at most `max_size` items. -/
def BlockEntry.Within (lim : MaxSize) (fields : FileVersionFields) (e : BlockEntry) : Prop :=
  match fields.block_field e.1, e.2 with
  | .tables, .tables _ es => ∀ x ∈ es, TableEntry.Within lim.index_vector fields x
  | .queries, .queries indef ms => indef = false → ms.length ≤ lim.query_response_items
  | _, _ => True

/-- Limits for the examples: those of a 64-bit C++ library for items of 4 and
of 128 bytes. -/
def sample_limits : MaxSize :=
  { index_vector := 2305843009213693951, query_response_items := 72057594037927935 }

end block_cbor

namespace block_cbor

/-! ## The container loop -/

theorem length_le_flatten {ε : Type} (tok : ε → List Tok) (es : List ε)
    (hne : ∀ e ∈ es, tok e ≠ []) : es.length ≤ ((es.map tok).flatten).length := by
  induction es with
  | nil => simp
  | cons e es ih =>
    have h1 : tok e ≠ [] := hne e (List.mem_cons_self _ _)
    have h2 := ih (fun x hx => hne x (List.mem_cons_of_mem _ hx))
    have h3 : 0 < (tok e).length := List.length_pos.mpr h1
    simp only [List.map_cons, List.flatten_cons, List.length_append, List.length_cons]
    omega

/-- A definite container of `es.length` entries: the loop runs the body once per
entry and stops right after the last one. -/
theorem container_loop_definite {σ ε : Type} (body : σ → List Tok → Res σ) (f : σ → ε → σ)
    (tok : ε → List Tok) (es : List ε)
    (hbody : ∀ e ∈ es, ∀ s rest, body s (tok e ++ rest) = .ok (f s e, rest))
    (fuel : Nat) (hfuel : es.length < fuel) (s : σ) (rest : List Tok) :
    container_loop body fuel false es.length s ((es.map tok).flatten ++ rest)
      = .ok (es.foldl f s, rest) := by
  induction es generalizing fuel s with
  | nil =>
    cases fuel with
    | zero => omega
    | succ n => simp [container_loop]
  | cons e es ih =>
    cases fuel with
    | zero => omega
    | succ n =>
      have h1 := hbody e (List.mem_cons_self _ _) s ((es.map tok).flatten ++ rest)
      have h2 := ih (fun x hx => hbody x (List.mem_cons_of_mem _ hx)) n
        (by simp only [List.length_cons] at hfuel; omega) (f s e)
      simp only [container_loop, List.length_cons, List.map_cons, List.flatten_cons,
        List.append_assoc, Nat.succ_pos, if_true, h1, Nat.add_sub_cancel, gt_iff_lt,
        List.foldl_cons]
      exact h2

/-- An indefinite container: the loop runs the body once per entry and reads
the break. -/
theorem container_loop_indefinite {σ ε : Type} (body : σ → List Tok → Res σ)
    (f : σ → ε → σ) (tok : ε → List Tok) (es : List ε)
    (hbody : ∀ e ∈ es, ∀ s rest, body s (tok e ++ rest) = .ok (f s e, rest))
    (hne : ∀ e ∈ es, ∃ t ts, tok e = t :: ts ∧ t ≠ .brk)
    (fuel : Nat) (hfuel : es.length < fuel) (n_elems : Nat) (s : σ) (rest : List Tok) :
    container_loop body fuel true n_elems s ((es.map tok).flatten ++ .brk :: rest)
      = .ok (es.foldl f s, rest) := by
  induction es generalizing fuel s with
  | nil =>
    cases fuel with
    | zero => omega
    | succ n => simp [container_loop]
  | cons e es ih =>
    cases fuel with
    | zero => omega
    | succ n =>
      have h1 := hbody e (List.mem_cons_self _ _) s ((es.map tok).flatten ++ .brk :: rest)
      have h2 := ih (fun x hx => hbody x (List.mem_cons_of_mem _ hx))
        (fun x hx => hne x (List.mem_cons_of_mem _ hx)) n
        (by simp only [List.length_cons] at hfuel; omega) (f s e)
      obtain ⟨t, ts, ht, hb⟩ := hne e (List.mem_cons_self _ _)
      simp only [List.map_cons, List.flatten_cons, List.append_assoc, List.foldl_cons]
      rw [ht] at h1 ⊢
      simp only [List.cons_append] at h1 ⊢
      cases t with
      | brk => exact absurd rfl hb
      | _ => simp only [container_loop, h1]; exact h2

/-- Reading the header of a map and running the loop over its entries, for
both forms of the map. -/
theorem read_wire_map {σ ε : Type} (body : σ → List Tok → Res σ) (f : σ → ε → σ)
    (tok : ε → List Tok) (es : List ε)
    (hbody : ∀ e ∈ es, ∀ s rest, body s (tok e ++ rest) = .ok (f s e, rest))
    (hne : ∀ e ∈ es, ∃ t ts, tok e = t :: ts ∧ t ≠ .brk)
    (indef : Bool) (s : σ) (rest : List Tok) :
    read_map body s (wire_map indef (es.map tok) ++ rest) = .ok (es.foldl f s, rest) := by
  unfold read_map
  have hlen := length_le_flatten tok es (fun e he => by
    obtain ⟨t, ts, ht, _⟩ := hne e he
    simp [ht])
  cases indef with
  | true =>
    simp only [wire_map, if_true, List.cons_append, List.append_assoc, List.singleton_append,
      readMapHeader]
    exact container_loop_indefinite body f tok es hbody hne _
      (by simp only [List.length_append, List.length_cons]; omega) _ s rest
  | false =>
    simp only [wire_map, Bool.false_eq_true, if_false, List.cons_append, readMapHeader,
      List.length_map]
    exact container_loop_definite body f tok es hbody _
      (by simp only [List.length_append]; omega) s rest

/-- Reading the header of an array and running the loop over its items. -/
theorem read_wire_array {σ ε : Type} (body : σ → List Tok → Res σ) (f : σ → ε → σ)
    (tok : ε → List Tok) (es : List ε)
    (hbody : ∀ e ∈ es, ∀ s rest, body s (tok e ++ rest) = .ok (f s e, rest))
    (hne : ∀ e ∈ es, ∃ t ts, tok e = t :: ts ∧ t ≠ .brk)
    (indef : Bool) (s : σ) (rest : List Tok) :
    read_array body s (wire_array indef (es.map tok) ++ rest) = .ok (es.foldl f s, rest) := by
  unfold read_array
  have hlen := length_le_flatten tok es (fun e he => by
    obtain ⟨t, ts, ht, _⟩ := hne e he
    simp [ht])
  cases indef with
  | true =>
    simp only [wire_array, if_true, List.cons_append, List.append_assoc,
      List.singleton_append, readArrayHeader]
    exact container_loop_indefinite body f tok es hbody hne _
      (by simp only [List.length_append, List.length_cons]; omega) _ s rest
  | false =>
    simp only [wire_array, Bool.false_eq_true, if_false, List.cons_append, readArrayHeader,
      List.length_map]
    exact container_loop_definite body f tok es hbody _
      (by simp only [List.length_append]; omega) s rest

/-! ## Extended info -/

theorem skip_go_done (st : List (Option Nat)) (h : drop_done st = []) (ts : List Tok) :
    skip_go st ts = .ok ts := by
  cases ts with
  | nil => simp [skip_go, h]
  | cons t ts => simp [skip_go, h]

theorem skippable_uint (v : Nat) : Skippable [.uint v] := by
  intro rest
  simp [skip, skip_go, drop_done, one_less, skip_go_done]

theorem skippable_write_signed (v : Int) : Skippable [write_signed v] := by
  intro rest
  unfold write_signed
  split <;> simp [skip, skip_go, drop_done, one_less, skip_go_done]

theorem read_signed_write_signed (v : Int) (rest : List Tok) :
    read_signed (write_signed v :: rest) = .ok (v, rest) := by
  unfold write_signed
  split
  · rename_i h
    simp [read_signed, Int.toNat_of_nonneg h]
  · rename_i h
    have h2 : (0 : Int) ≤ -1 - v := by omega
    simp only [read_signed, Int.toNat_of_nonneg h2]
    congr 2
    omega

theorem readExtraInfo_entry_toks (fields : FileVersionFields) (e : WireEntry)
    (he : ExtEntry.WellTyped fields e) (s : QueryResponseExtraInfo) (rest : List Tok) :
    readExtraInfo_entry fields s (e.toks ++ rest) = .ok (ExtEntry.apply fields s e, rest) := by
  obtain ⟨key, v⟩ := e
  unfold ExtEntry.WellTyped at he
  simp only [readExtraInfo_entry, WireEntry.toks, ExtEntry.apply, List.cons_append,
    read_unsigned]
  cases hf : fields.query_response_extended_field key <;> cases v <;>
    simp_all [WireValue.toks, read_unsigned, Skippable]

theorem wire_entry_toks_head (e : WireEntry) : ∃ t ts, e.toks = t :: ts ∧ t ≠ .brk :=
  ⟨.uint e.1, e.2.toks, rfl, by simp⟩

theorem readExtraInfo_wire_map (fields : FileVersionFields) (indef : Bool)
    (es : List WireEntry) (hes : ∀ e ∈ es, ExtEntry.WellTyped fields e) (rest : List Tok) :
    readExtraInfo fields (wire_map indef (es.map WireEntry.toks) ++ rest)
      = .ok (ext_of_entries fields es, rest) :=
  read_wire_map (readExtraInfo_entry fields) (ExtEntry.apply fields) WireEntry.toks es
    (fun e he s rest => readExtraInfo_entry_toks fields e (hes e he) s rest)
    (fun e _ => wire_entry_toks_head e) indef _ rest

/-! ## Query/response items -/

theorem query_response_entry_toks (fields : FileVersionFields) (ticks : Nat)
    (earliest_time : Int) (e : QREntry) (he : QREntry.WellTyped fields e)
    (s : QueryResponseItem) (rest : List Tok) :
    QueryResponseItem.read_entry fields ticks earliest_time s (e.toks ++ rest)
      = .ok (QREntry.apply fields ticks earliest_time s e, rest) := by
  obtain ⟨key, v⟩ := e
  unfold QREntry.WellTyped at he
  simp only [QueryResponseItem.read_entry, QREntry.toks, QREntry.apply, List.cons_append,
    read_unsigned]
  cases hf : fields.query_response_field key <;> cases v <;>
    simp_all [QRValue.toks, read_unsigned, Skippable, flag_of_field, readExtraInfo_wire_map,
      read_signed_write_signed]

theorem qr_toks_head (e : QREntry) : ∃ t ts, e.toks = t :: ts ∧ t ≠ .brk :=
  ⟨.uint e.1, e.2.toks, rfl, by simp⟩

/-- Decoding a well-typed query/response map, in either form, gives the item
its entries stand for and stops right behind the map. -/
theorem query_response_wire_map (fields : FileVersionFields) (ticks : Nat)
    (earliest_time : Int) (self : QueryResponseItem) (indef : Bool) (es : List QREntry)
    (hes : ∀ e ∈ es, QREntry.WellTyped fields e) (rest : List Tok) :
    QueryResponseItem.readCbor fields ticks earliest_time self
        (wire_map indef (es.map QREntry.toks) ++ rest)
      = .ok (item_of_entries fields ticks earliest_time self es, rest) := by
  unfold QueryResponseItem.readCbor item_of_entries
  simp only []
  rw [read_wire_map (QueryResponseItem.read_entry fields ticks earliest_time)
    (QREntry.apply fields ticks earliest_time) QREntry.toks es
    (fun e he s rest => query_response_entry_toks fields ticks earliest_time e
      (hes e he) s rest)
    (fun e _ => qr_toks_head e) indef _ rest]
  rfl

theorem apply_qr_flags (fields : FileVersionFields) (ticks : Nat) (earliest_time : Int)
    (s : QueryResponseItem) (e : QREntry) :
    (QREntry.apply fields ticks earliest_time s e).qr_flags
      = s.qr_flags ||| flag_of_field (fields.query_response_field e.1) := by
  obtain ⟨key, v⟩ := e
  unfold QREntry.apply
  cases fields.query_response_field key <;> cases v <;> rfl

theorem foldl_qr_flags (fields : FileVersionFields) (ticks : Nat) (earliest_time : Int)
    (es : List QREntry) (s : QueryResponseItem) :
    (es.foldl (QREntry.apply fields ticks earliest_time) s).qr_flags
      = es.foldl (fun acc e => acc ||| flag_of_field (fields.query_response_field e.1))
          s.qr_flags := by
  induction es generalizing s with
  | nil => rfl
  | cons e es ih => simp only [List.foldl_cons, ih, apply_qr_flags]

theorem flags_of_keys_cons (k : QueryResponseField) (ks : List QueryResponseField) :
    flags_of_keys (k :: ks) = flag_of_field k ||| flags_of_keys ks := by
  unfold flags_of_keys
  by_cases h1 : QueryResponseField.client_hoplimit ∈ ks <;>
  by_cases h2 : QueryResponseField.query_size ∈ ks <;>
  by_cases h3 : QueryResponseField.delay_useconds ∈ ks <;>
  by_cases h4 : QueryResponseField.query_name_index ∈ ks <;>
  by_cases h5 : QueryResponseField.response_size ∈ ks <;>
  cases k <;>
  simp [h1, h2, h3, h4, h5, flag_of_field, QUERY_ONLY, RESPONSE_ONLY, QUERY_AND_RESPONSE,
    QR_HAS_QUESTION]

theorem foldl_or_flags (ks : List QueryResponseField) (a : Nat) :
    ks.foldl (fun acc k => acc ||| flag_of_field k) a = a ||| flags_of_keys ks := by
  induction ks generalizing a with
  | nil => simp [flags_of_keys]
  | cons k ks ih =>
    simp only [List.foldl_cons, ih, flags_of_keys_cons, Nat.lor_assoc]

/-- The flags of the item a list of entries stands for are those of its set
of keys. -/
theorem item_of_entries_qr_flags (fields : FileVersionFields) (ticks : Nat)
    (earliest_time : Int) (self : QueryResponseItem) (es : List QREntry) :
    (item_of_entries fields ticks earliest_time self es).qr_flags
      = flags_of_keys (es.map fun e => fields.query_response_field e.1) := by
  unfold item_of_entries
  rw [foldl_qr_flags]
  have h := foldl_or_flags (es.map fun e => fields.query_response_field e.1) 0
  rw [List.foldl_map] at h
  simpa using h

/-! ## What the writers of a query/response item emit -/

theorem write_signed_natCast (n : Nat) : write_signed (n : Int) = .uint n := by
  simp [write_signed]

theorem and_mod_two_pow (x m k : Nat) (h : m < 2 ^ k) : x &&& m = (x % 2 ^ k) &&& m := by
  apply Nat.eq_of_testBit_eq
  intro i
  simp only [Nat.testBit_and, Nat.testBit_mod_two_pow]
  by_cases hi : i < k
  · simp [hi]
  · have hm : m.testBit i = false := by
      apply Nat.testBit_lt_two_pow
      exact lt_of_lt_of_le h (Nat.pow_le_pow_right (by norm_num) (by omega))
    simp [hm]

theorem and_three_eq (x : Nat) :
    x &&& QUERY_AND_RESPONSE = QUERY_AND_RESPONSE
      ↔ x &&& QUERY_ONLY ≠ 0 ∧ x &&& RESPONSE_ONLY ≠ 0 := by
  have e3 : QUERY_AND_RESPONSE = 3 := rfl
  have e1 : QUERY_ONLY = 1 := rfl
  have e2 : RESPONSE_ONLY = 2 := rfl
  rw [e3, e1, e2, and_mod_two_pow x 3 2 (by norm_num), and_mod_two_pow x 1 2 (by norm_num),
    and_mod_two_pow x 2 2 (by norm_num)]
  have h : x % 2 ^ 2 < 4 := Nat.mod_lt _ (by norm_num)
  generalize x % 2 ^ 2 = r at h
  interval_cases r <;> decide

theorem writeExtraInfo_eq (cur : CurrentIndex) (id : Nat) (ei : QueryResponseExtraInfo) :
    writeExtraInfo cur (id : Int) ei
      = .uint id :: wire_map true ((ext_entries cur ei).map WireEntry.toks) := by
  unfold writeExtraInfo ext_entries wire_map
  simp only [write_signed_natCast]
  split_ifs <;> simp [WireEntry.toks, WireValue.toks]

theorem query_response_written (cur : CurrentIndex) (ticks : Nat)
    (earliest_time : Int) (x : QueryResponseItem) :
    QueryResponseItem.writeCbor cur ticks earliest_time x
      = wire_map true ((qr_entries cur ticks earliest_time x).map QREntry.toks) := by
  unfold QueryResponseItem.writeCbor qr_entries qr_written_fields wire_map
  simp only [writeExtraInfo_eq, and_three_eq]
  cases hq : x.query_extra_info <;> cases hr : x.response_extra_info <;>
    simp only [List.map_append, List.flatten_append, apply_ite (List.map _),
      apply_ite List.flatten, List.map_cons, List.map_nil, List.flatten_cons,
      List.flatten_nil, List.append_nil, QREntry.toks, QRValue.toks, qr_written_value,
      List.cons_append, List.nil_append, List.append_assoc, if_true, Option.isSome_some,
      Option.isSome_none, Bool.false_eq_true, if_false, hq, hr, List.singleton_append]

theorem ext_entries_well_typed (cur : CurrentIndex) (fields : FileVersionFields)
    (h : Resolves cur fields) (ei : QueryResponseExtraInfo) :
    ∀ e ∈ ext_entries cur ei, ExtEntry.WellTyped fields e := by
  intro e he
  unfold ext_entries at he
  simp only [List.mem_append] at he
  rcases he with ((he | he) | he) | he <;>
    · split_ifs at he
      · simp only [List.mem_singleton] at he
        subst he
        simp [ExtEntry.WellTyped, h.query_response_extended]
      · simp at he

theorem ext_of_ext_entries (cur : CurrentIndex) (fields : FileVersionFields)
    (h : Resolves cur fields) (ei : QueryResponseExtraInfo) :
    ext_of_entries fields (ext_entries cur ei) = ei := by
  obtain ⟨a, b, c, d⟩ := ei
  unfold ext_of_entries ext_entries
  by_cases ha : a = 0 <;> by_cases hb : b = 0 <;> by_cases hc : c = 0 <;>
    by_cases hd : d = 0 <;>
    simp [ha, hb, hc, hd, ExtEntry.apply, h.query_response_extended]

theorem qr_written_fields_known (x : QueryResponseItem) :
    ∀ f ∈ qr_written_fields x, f ≠ .unknown := by
  intro f hf
  unfold qr_written_fields at hf
  simp only [List.mem_append, List.mem_cons, List.mem_singleton] at hf
  rcases hf with ((((((hf | hf) | hf) | hf) | hf) | hf) | hf) | hf
  · rcases hf with hf | hf | hf | hf | hf | hf <;> simp_all
  all_goals
    split_ifs at hf <;> simp_all

theorem mem_written_query_extended (x : QueryResponseItem)
    (hf : QueryResponseField.query_extended ∈ qr_written_fields x) :
    ∃ ei, x.query_extra_info = some ei := by
  unfold qr_written_fields at hf
  simp only [List.mem_append, List.mem_cons, List.mem_singleton] at hf
  cases hq : x.query_extra_info with
  | some ei => exact ⟨ei, rfl⟩
  | none =>
    rw [hq] at hf
    rcases hf with ((((((hf | hf) | hf) | hf) | hf) | hf) | hf) | hf
    · rcases hf with hf | hf | hf | hf | hf | hf <;> simp_all
    all_goals
      split_ifs at hf <;> simp_all

theorem mem_written_response_extended (x : QueryResponseItem)
    (hf : QueryResponseField.response_extended ∈ qr_written_fields x) :
    ∃ ei, x.response_extra_info = some ei := by
  unfold qr_written_fields at hf
  simp only [List.mem_append, List.mem_cons, List.mem_singleton] at hf
  cases hq : x.response_extra_info with
  | some ei => exact ⟨ei, rfl⟩
  | none =>
    rw [hq] at hf
    rcases hf with ((((((hf | hf) | hf) | hf) | hf) | hf) | hf) | hf
    · rcases hf with hf | hf | hf | hf | hf | hf <;> simp_all
    all_goals
      split_ifs at hf <;> simp_all

theorem qr_entries_well_typed (cur : CurrentIndex) (fields : FileVersionFields)
    (h : Resolves cur fields) (ticks : Nat) (earliest_time : Int) (x : QueryResponseItem) :
    ∀ e ∈ qr_entries cur ticks earliest_time x, QREntry.WellTyped fields e := by
  intro e he
  unfold qr_entries at he
  obtain ⟨f, hf, rfl⟩ := List.mem_map.mp he
  have hk := qr_written_fields_known x f hf
  unfold QREntry.WellTyped
  simp only [h.query_response f hk]
  cases f
  case query_extended =>
    obtain ⟨ei, hei⟩ := mem_written_query_extended x hf
    simp only [qr_written_value, hei]
    exact ext_entries_well_typed cur fields h ei
  case response_extended =>
    obtain ⟨ei, hei⟩ := mem_written_response_extended x hf
    simp only [qr_written_value, hei]
    exact ext_entries_well_typed cur fields h ei
  all_goals simp_all [qr_written_value]

/-- Decoding what `writeCbor` wrote gives the item that the written entries
stand for. -/
theorem query_response_round_trip (cur : CurrentIndex)
    (fields : FileVersionFields) (h : Resolves cur fields) (ticks : Nat)
    (earliest_time : Int) (x self : QueryResponseItem) (rest : List Tok) :
    QueryResponseItem.readCbor fields ticks earliest_time self
        (QueryResponseItem.writeCbor cur ticks earliest_time x ++ rest)
      = .ok (item_of_entries fields ticks earliest_time self
          (qr_entries cur ticks earliest_time x), rest) := by
  rw [query_response_written]
  exact query_response_wire_map fields ticks earliest_time self true _
    (qr_entries_well_typed cur fields h ticks earliest_time x) rest

theorem qr_entries_fields (cur : CurrentIndex) (fields : FileVersionFields)
    (h : Resolves cur fields) (ticks : Nat) (earliest_time : Int) (x : QueryResponseItem) :
    (qr_entries cur ticks earliest_time x).map (fun e => fields.query_response_field e.1)
      = qr_written_fields x := by
  unfold qr_entries
  rw [List.map_map]
  conv_rhs => rw [← List.map_id (qr_written_fields x)]
  apply List.map_congr_left
  intro f hf
  simp [h.query_response f (qr_written_fields_known x f hf)]

/-- The flags that stand for the keys `writeCbor` writes: the three bits that
drive the encoding. -/
theorem flags_of_written_fields (x : QueryResponseItem) :
    flags_of_keys (qr_written_fields x)
      = x.qr_flags &&& (QUERY_ONLY ||| RESPONSE_ONLY ||| QR_HAS_QUESTION) := by
  have c1 : QUERY_ONLY = 1 := rfl
  have c2 : RESPONSE_ONLY = 2 := rfl
  have c3 : QUERY_AND_RESPONSE = 3 := rfl
  have c4 : QR_HAS_QUESTION = 4 := rfl
  have c7 : (1 ||| 2 ||| 4 : Nat) = 7 := by decide
  have e1 := and_mod_two_pow x.qr_flags 1 3 (by norm_num)
  have e2 := and_mod_two_pow x.qr_flags 2 3 (by norm_num)
  have e4 := and_mod_two_pow x.qr_flags 4 3 (by norm_num)
  have e7 := and_mod_two_pow x.qr_flags 7 3 (by norm_num)
  have hr : x.qr_flags % 2 ^ 3 < 8 := Nat.mod_lt _ (by norm_num)
  unfold flags_of_keys qr_written_fields
  simp only [c1, c2, c3, c4, c7]
  rw [e1, e2, e4, e7]
  generalize x.qr_flags % 2 ^ 3 = r at hr
  cases x.query_extra_info <;> cases x.response_extra_info <;>
    interval_cases r <;> simp <;> decide

/-! ## The sample mapping -/

theorem sample_resolves : Resolves sample_index sample_fields where
  class_type := by intro f _; cases f <;> rfl
  question := by intro f _; cases f <;> rfl
  rr := by intro f _; cases f <;> rfl
  query_signature := by intro f _; cases f <;> rfl
  query_response := by intro f _; cases f <;> rfl
  query_response_extended := by intro f _; cases f <;> rfl
  address_event_count := by intro f _; cases f <;> rfl
  block := by intro f _; cases f <;> rfl
  block_preamble := by intro f _; cases f <;> rfl
  block_tables := by intro f _; cases f <;> rfl
  block_statistics := by intro f _; cases f <;> rfl

/-! ## Dictionary items: decode after encode -/

theorem class_type_round_trip (cur : CurrentIndex) (fields : FileVersionFields)
    (h : Resolves cur fields) (x self : ClassType) (rest : List Tok) :
    ClassType.readCbor fields self (ClassType.writeCbor cur x ++ rest) = .ok (x, rest) := by
  simp [ClassType.readCbor, ClassType.writeCbor, ClassType.read_entry, read_map, readMapHeader,
    container_loop, read_unsigned, h.class_type, catch_logic_error]

theorem question_round_trip (cur : CurrentIndex) (fields : FileVersionFields)
    (h : Resolves cur fields) (x self : Question) (rest : List Tok) :
    Question.readCbor fields self (Question.writeCbor cur x ++ rest) = .ok (x, rest) := by
  simp [Question.readCbor, Question.writeCbor, Question.read_entry, read_map, readMapHeader,
    container_loop, read_unsigned, h.question, catch_logic_error]

theorem resource_record_round_trip (cur : CurrentIndex) (fields : FileVersionFields)
    (h : Resolves cur fields) (x self : ResourceRecord) (rest : List Tok) :
    ResourceRecord.readCbor fields self (ResourceRecord.writeCbor cur x ++ rest)
      = .ok (x, rest) := by
  simp [ResourceRecord.readCbor, ResourceRecord.writeCbor, ResourceRecord.read_entry, read_map,
    readMapHeader, container_loop, read_unsigned, h.rr, catch_logic_error]

/-- C1: for every ClassType, Question and ResourceRecord `x` and every field
mapping that resolves the current-version keys to their own identities,
decoding the output of `writeCbor x` succeeds, stops right behind the map and
yields `x` itself (equal in every field), whatever object `self` is decoded
into. -/
theorem C1_dictionary_round_trip (cur : CurrentIndex) (fields : FileVersionFields)
    (h : Resolves cur fields) :
    (∀ (x self : ClassType) (rest : List Tok),
      ClassType.readCbor fields self (ClassType.writeCbor cur x ++ rest) = .ok (x, rest))
    ∧ (∀ (x self : Question) (rest : List Tok),
      Question.readCbor fields self (Question.writeCbor cur x ++ rest) = .ok (x, rest))
    ∧ (∀ (x self : ResourceRecord) (rest : List Tok),
      ResourceRecord.readCbor fields self (ResourceRecord.writeCbor cur x ++ rest)
        = .ok (x, rest)) :=
  ⟨class_type_round_trip cur fields h, question_round_trip cur fields h,
    resource_record_round_trip cur fields h⟩

/-- C1 at the sample mapping: a ClassType, a Question and a ResourceRecord
decoded over objects with other contents. -/
theorem C1_dictionary_round_trip_witness :
    Resolves sample_index sample_fields
    ∧ ClassType.readCbor sample_fields { qtype := 9, qclass := 9 }
        (ClassType.writeCbor sample_index { qtype := 28, qclass := 1 } ++ [.brk])
      = .ok ({ qtype := 28, qclass := 1 }, [.brk])
    ∧ Question.readCbor sample_fields { qname := 7, classtype := 7 }
        (Question.writeCbor sample_index { qname := 3, classtype := 2 } ++ [])
      = .ok ({ qname := 3, classtype := 2 }, [])
    ∧ ResourceRecord.readCbor sample_fields { name := 5, classtype := 5, ttl := 5, rdata := 5 }
        (ResourceRecord.writeCbor sample_index
          { name := 1, classtype := 2, ttl := 3600, rdata := 4 } ++ [])
      = .ok ({ name := 1, classtype := 2, ttl := 3600, rdata := 4 }, []) :=
  ⟨sample_resolves,
    (C1_dictionary_round_trip sample_index sample_fields sample_resolves).1 _ _ _,
    (C1_dictionary_round_trip sample_index sample_fields sample_resolves).2.1 _ _ _,
    (C1_dictionary_round_trip sample_index sample_fields sample_resolves).2.2 _ _ _⟩

/-! ## Query signatures -/

/-- Decoding what `QuerySignature::writeCbor` wrote: the members written are
those of `x`, the members left out keep what the object decoded into held. -/
theorem query_signature_round_trip (cur : CurrentIndex) (fields : FileVersionFields)
    (h : Resolves cur fields) (x self : QuerySignature) (rest : List Tok) :
    QuerySignature.readCbor fields self (QuerySignature.writeCbor cur x ++ rest)
      = .ok ({ server_address := x.server_address, server_port := x.server_port,
               transport_flags := x.transport_flags, dns_flags := x.dns_flags,
               qr_flags := x.qr_flags, qdcount := x.qdcount,
               query_classtype :=
                 if x.qr_flags &&& QR_HAS_QUESTION ≠ 0 then x.query_classtype
                 else self.query_classtype,
               query_rcode :=
                 if x.qr_flags &&& QUERY_ONLY ≠ 0 then x.query_rcode else self.query_rcode,
               query_opcode :=
                 if x.qr_flags &&& QUERY_ONLY ≠ 0 then x.query_opcode else self.query_opcode,
               query_ancount :=
                 if x.qr_flags &&& QUERY_ONLY ≠ 0 then x.query_ancount
                 else self.query_ancount,
               query_arcount :=
                 if x.qr_flags &&& QUERY_ONLY ≠ 0 then x.query_arcount
                 else self.query_arcount,
               query_nscount :=
                 if x.qr_flags &&& QUERY_ONLY ≠ 0 then x.query_nscount
                 else self.query_nscount,
               query_edns_version :=
                 if x.qr_flags &&& QUERY_ONLY ≠ 0 ∧ x.qr_flags &&& QUERY_HAS_OPT ≠ 0 then
                   x.query_edns_version
                 else self.query_edns_version,
               query_edns_payload_size :=
                 if x.qr_flags &&& QUERY_ONLY ≠ 0 ∧ x.qr_flags &&& QUERY_HAS_OPT ≠ 0 then
                   x.query_edns_payload_size
                 else self.query_edns_payload_size,
               query_opt_rdata :=
                 if x.qr_flags &&& QUERY_ONLY ≠ 0 ∧ x.qr_flags &&& QUERY_HAS_OPT ≠ 0 then
                   x.query_opt_rdata
                 else self.query_opt_rdata,
               response_rcode :=
                 if x.qr_flags &&& RESPONSE_ONLY ≠ 0 then x.response_rcode
                 else self.response_rcode }, rest) := by
  by_cases hH : x.qr_flags &&& QR_HAS_QUESTION = 0 <;>
  by_cases hQ : x.qr_flags &&& QUERY_ONLY = 0 <;>
  by_cases hO : x.qr_flags &&& QUERY_HAS_OPT = 0 <;>
  by_cases hR : x.qr_flags &&& RESPONSE_ONLY = 0 <;>
  simp [QuerySignature.readCbor, QuerySignature.writeCbor, QuerySignature.read_entry,
    read_map, readMapHeader, container_loop, read_unsigned, h.query_signature,
    catch_logic_error, hH, hQ, hO, hR]

/-- C2 (as stated) fails: a default-initialised signature whose `query_rcode`
is set to 5 while no flag is set is written without its `query_rcode`, and
decoding that output into a default-initialised signature yields
`query_rcode` 0, a value different from the one encoded. -/
theorem C2_inapplicable_member_not_restored :
    QuerySignature.readCbor sample_fields QuerySignature.default_initialised
        (QuerySignature.writeCbor sample_index signature_rcode_without_query)
      = .ok (QuerySignature.default_initialised, [])
    ∧ signature_rcode_without_query ≠ QuerySignature.default_initialised
    ∧ signature_rcode_without_query.query_rcode = 5
    ∧ QuerySignature.default_initialised.query_rcode = 0 :=
  ⟨rfl, by decide, rfl, rfl⟩

/-- C2 (amended): for every signature `x`, decoding `writeCbor x` with a mapping
that resolves the current keys succeeds, stops right behind the map and
yields a signature equal to `x` in the six members always written, in
`query_classtype` when `QR_HAS_QUESTION` is set, in the five query members
when `QUERY_ONLY` is set, in the three EDNS members when `QUERY_ONLY` and
`QUERY_HAS_OPT` are both set, and in `response_rcode` when `RESPONSE_ONLY` is
set; a member whose flag is clear (for the EDNS members: `QUERY_HAS_OPT`
clear) keeps the value of the object decoded into. -/
theorem C2_signature_round_trip_applicable (cur : CurrentIndex) (fields : FileVersionFields)
    (h : Resolves cur fields) (x self : QuerySignature) (rest : List Tok) :
    ∃ y, QuerySignature.readCbor fields self (QuerySignature.writeCbor cur x ++ rest)
        = .ok (y, rest)
      ∧ y.server_address = x.server_address ∧ y.server_port = x.server_port
      ∧ y.transport_flags = x.transport_flags ∧ y.dns_flags = x.dns_flags
      ∧ y.qr_flags = x.qr_flags ∧ y.qdcount = x.qdcount
      ∧ (x.qr_flags &&& QR_HAS_QUESTION ≠ 0 → y.query_classtype = x.query_classtype)
      ∧ (x.qr_flags &&& QR_HAS_QUESTION = 0 → y.query_classtype = self.query_classtype)
      ∧ (x.qr_flags &&& QUERY_ONLY ≠ 0 →
          y.query_rcode = x.query_rcode ∧ y.query_opcode = x.query_opcode
          ∧ y.query_ancount = x.query_ancount ∧ y.query_arcount = x.query_arcount
          ∧ y.query_nscount = x.query_nscount)
      ∧ (x.qr_flags &&& QUERY_ONLY = 0 →
          y.query_rcode = self.query_rcode ∧ y.query_opcode = self.query_opcode
          ∧ y.query_ancount = self.query_ancount ∧ y.query_arcount = self.query_arcount
          ∧ y.query_nscount = self.query_nscount)
      ∧ (x.qr_flags &&& QUERY_ONLY ≠ 0 ∧ x.qr_flags &&& QUERY_HAS_OPT ≠ 0 →
          y.query_edns_version = x.query_edns_version
          ∧ y.query_edns_payload_size = x.query_edns_payload_size
          ∧ y.query_opt_rdata = x.query_opt_rdata)
      ∧ (x.qr_flags &&& QUERY_HAS_OPT = 0 →
          y.query_edns_version = self.query_edns_version
          ∧ y.query_edns_payload_size = self.query_edns_payload_size
          ∧ y.query_opt_rdata = self.query_opt_rdata)
      ∧ (x.qr_flags &&& RESPONSE_ONLY ≠ 0 → y.response_rcode = x.response_rcode)
      ∧ (x.qr_flags &&& RESPONSE_ONLY = 0 → y.response_rcode = self.response_rcode) := by
  refine ⟨_, query_signature_round_trip cur fields h x self rest, rfl, rfl, rfl, rfl,
    rfl, rfl, ?_, ?_, ?_, ?_, ?_, ?_, ?_, ?_⟩
  · intro hf; simp [hf]
  · intro hf; simp [hf]
  · intro hf; simp [hf]
  · intro hf; simp [hf]
  · intro hf; simp [hf.1, hf.2]
  · intro hf; simp [hf]
  · intro hf; simp [hf]
  · intro hf; simp [hf]

/-- C2 (amended) at the sample mapping: a signature with all four flags set,
decoded into a default-initialised signature, comes back equal in every
member. -/
theorem C2_signature_round_trip_applicable_witness :
    Resolves sample_index sample_fields
    ∧ sample_signature.qr_flags &&& QR_HAS_QUESTION ≠ 0
    ∧ sample_signature.qr_flags &&& QUERY_ONLY ≠ 0
    ∧ sample_signature.qr_flags &&& QUERY_HAS_OPT ≠ 0
    ∧ sample_signature.qr_flags &&& RESPONSE_ONLY ≠ 0
    ∧ ∃ y, QuerySignature.readCbor sample_fields QuerySignature.default_initialised
          (QuerySignature.writeCbor sample_index sample_signature ++ []) = .ok (y, [])
        ∧ y.qr_flags = sample_signature.qr_flags
        ∧ y.query_classtype = sample_signature.query_classtype
        ∧ y.query_arcount = sample_signature.query_arcount
        ∧ y.query_edns_payload_size = sample_signature.query_edns_payload_size
        ∧ y.response_rcode = sample_signature.response_rcode :=
  ⟨sample_resolves, by decide, by decide, by decide, by decide,
    match C2_signature_round_trip_applicable sample_index sample_fields sample_resolves
        sample_signature QuerySignature.default_initialised [] with
    | ⟨y, hy, _, _, _, _, hfl, _, hct, _, hq, _, he, _, hr, _⟩ =>
      ⟨y, hy, hfl, hct (by decide), (hq (by decide)).2.2.2.1,
        (he ⟨by decide, by decide⟩).2.1, hr (by decide)⟩⟩

/-- The hash of a signature survives encoding and decoding whenever
`QUERY_HAS_OPT` is not set without `QUERY_ONLY`, for any hash combiner. -/
theorem query_signature_hash_round_trip (boost : BoostHash) (cur : CurrentIndex)
    (fields : FileVersionFields) (h : Resolves cur fields) (x self : QuerySignature)
    (rest : List Tok)
    (hopt : x.qr_flags &&& QUERY_HAS_OPT ≠ 0 → x.qr_flags &&& QUERY_ONLY ≠ 0) :
    ∃ y, QuerySignature.readCbor fields self (QuerySignature.writeCbor cur x ++ rest)
        = .ok (y, rest)
      ∧ QuerySignature.hash_value boost y = QuerySignature.hash_value boost x := by
  refine ⟨_, query_signature_round_trip cur fields h x self rest, ?_⟩
  unfold QuerySignature.hash_value
  by_cases hH : x.qr_flags &&& QR_HAS_QUESTION = 0 <;>
  by_cases hQ : x.qr_flags &&& QUERY_ONLY = 0 <;>
  by_cases hO : x.qr_flags &&& QUERY_HAS_OPT = 0 <;>
  by_cases hR : x.qr_flags &&& RESPONSE_ONLY = 0 <;>
  simp_all

/-- C3: the code at the failing input.  A signature with `QUERY_HAS_OPT` set,
`QUERY_ONLY` clear and non-zero EDNS members is written without its EDNS
members; decoded into a default-initialised signature it has EDNS members 0,
and its hash (Boost's combiner) differs from the hash of the original. -/
theorem C3_hash_changes_for_opt_without_query :
    ∃ y, QuerySignature.readCbor sample_fields QuerySignature.default_initialised
          (QuerySignature.writeCbor sample_index signature_opt_without_query) = .ok (y, [])
      ∧ y.query_opt_rdata = 0
      ∧ QuerySignature.hash_value boost_hash y
          ≠ QuerySignature.hash_value boost_hash signature_opt_without_query :=
  ⟨_, rfl, rfl, by decide⟩

/-! ## Query/response items: flags, keys and time -/

theorem apply_tstamp_frame (fields : FileVersionFields) (ticks : Nat) (earliest_time : Int)
    (s : QueryResponseItem) (e : QREntry)
    (he : fields.query_response_field e.1 ≠ .time_useconds) :
    (QREntry.apply fields ticks earliest_time s e).tstamp = s.tstamp := by
  obtain ⟨key, v⟩ := e
  unfold QREntry.apply
  cases hf : fields.query_response_field key <;> cases v <;> simp_all

theorem foldl_tstamp_frame (fields : FileVersionFields) (ticks : Nat) (earliest_time : Int)
    (es : List QREntry) (hes : ∀ e ∈ es, fields.query_response_field e.1 ≠ .time_useconds)
    (s : QueryResponseItem) :
    (es.foldl (QREntry.apply fields ticks earliest_time) s).tstamp = s.tstamp := by
  induction es generalizing s with
  | nil => rfl
  | cons e es ih =>
    rw [List.foldl_cons, ih (fun x hx => hes x (List.mem_cons_of_mem _ hx)),
      apply_tstamp_frame fields ticks earliest_time s e (hes e (List.mem_cons_self _ _))]

/-- The fields `writeCbor` writes after the time offset. -/
theorem qr_written_fields_cons (x : QueryResponseItem) :
    ∃ tl, qr_written_fields x = .time_useconds :: tl ∧ ∀ f ∈ tl, f ≠ .time_useconds
      ∧ f ≠ .unknown := by
  refine ⟨(qr_written_fields x).tail, rfl, ?_⟩
  intro f hf
  unfold qr_written_fields at hf
  simp only [List.cons_append, List.tail_cons, List.nil_append] at hf
  cases f
  case time_useconds => exfalso; split_ifs at hf <;> simp at hf
  case unknown => exfalso; split_ifs at hf <;> simp at hf
  all_goals simp

/-- The time stamp decoded from what `writeCbor` wrote. -/
theorem item_of_qr_entries_tstamp (cur : CurrentIndex) (fields : FileVersionFields)
    (h : Resolves cur fields) (ticks : Nat) (earliest_time : Int)
    (x self : QueryResponseItem) :
    (item_of_entries fields ticks earliest_time self
        (qr_entries cur ticks earliest_time x)).tstamp
      = earliest_time + (x.tstamp - earliest_time).tdiv (ticks : Int) * (ticks : Int) := by
  obtain ⟨tl, htl, hmem⟩ := qr_written_fields_cons x
  unfold item_of_entries qr_entries
  rw [htl, List.map_cons, List.foldl_cons, foldl_tstamp_frame]
  · simp [QREntry.apply, h.query_response, qr_written_value]
  · intro e he
    obtain ⟨f, hf, rfl⟩ := List.mem_map.mp he
    simp only [h.query_response f (hmem f hf).2]
    exact (hmem f hf).1

/-- C4: an item whose flags contain only bits among `QUERY_ONLY`,
`RESPONSE_ONLY` and `QR_HAS_QUESTION` decodes back from the output of
`writeCbor` with the same flags; an item with flags `QUERY_ONLY` comes back
with `QUERY_ONLY` and not with `QUERY_AND_RESPONSE`. -/
theorem C4_flags_round_trip (cur : CurrentIndex) (fields : FileVersionFields)
    (h : Resolves cur fields) (ticks : Nat) (earliest_time : Int)
    (x self : QueryResponseItem) (rest : List Tok)
    (hx : x.qr_flags &&& (QUERY_ONLY ||| RESPONSE_ONLY ||| QR_HAS_QUESTION) = x.qr_flags) :
    ∃ y, QueryResponseItem.readCbor fields ticks earliest_time self
          (QueryResponseItem.writeCbor cur ticks earliest_time x ++ rest) = .ok (y, rest)
      ∧ y.qr_flags = x.qr_flags
      ∧ (x.qr_flags = QUERY_ONLY → y.qr_flags = QUERY_ONLY ∧ y.qr_flags ≠ QUERY_AND_RESPONSE) := by
  refine ⟨_, query_response_round_trip cur fields h ticks earliest_time x self rest,
    ?_, ?_⟩
  · rw [item_of_entries_qr_flags, qr_entries_fields cur fields h, flags_of_written_fields, hx]
  · intro hq
    rw [item_of_entries_qr_flags, qr_entries_fields cur fields h, flags_of_written_fields, hx,
      hq]
    exact ⟨rfl, by decide⟩

/-- C4 at the sample mapping: the item of a query without response, decoded
over an item that had every flag set. -/
theorem C4_flags_round_trip_witness :
    Resolves sample_index sample_fields
    ∧ sample_query_item.qr_flags &&& (QUERY_ONLY ||| RESPONSE_ONLY ||| QR_HAS_QUESTION)
        = sample_query_item.qr_flags
    ∧ ∃ y, QueryResponseItem.readCbor sample_fields 1000 1000000000000000000
            sample_stale_item
            (QueryResponseItem.writeCbor sample_index 1000 1000000000000000000
              sample_query_item ++ []) = .ok (y, [])
        ∧ y.qr_flags = QUERY_ONLY ∧ y.qr_flags ≠ QUERY_AND_RESPONSE :=
  ⟨sample_resolves, by decide,
    match C4_flags_round_trip sample_index sample_fields sample_resolves 1000
        1000000000000000000 sample_query_item sample_stale_item [] (by decide) with
    | ⟨y, hy, _, hq⟩ => ⟨y, hy, hq rfl⟩⟩

/-- C5: `QueryResponseItem::writeCbor` emits an indefinite-length map (header,
entries, break) whose keys are, in this order, those of time, client address,
client port, transaction id and signature index, then hoplimit iff
`QUERY_ONLY` is set, delay iff `QUERY_ONLY` and `RESPONSE_ONLY` are both set,
query name iff `QR_HAS_QUESTION` is set, query size iff `QUERY_ONLY` is set,
response size iff `RESPONSE_ONLY` is set, query-extended iff
`query_extra_info` is present and response-extended iff
`response_extra_info` is present; every entry is one key followed by one
well-typed value; and `qr_flags` is not written: changing `qr_flags` without
changing the three tests changes nothing in the output. -/
theorem C5_written_key_sequence (cur : CurrentIndex) (ticks : Nat) (earliest_time : Int)
    (x : QueryResponseItem) :
    QueryResponseItem.writeCbor cur ticks earliest_time x
      = .map none ::
          (((qr_entries cur ticks earliest_time x).map QREntry.toks).flatten ++ [.brk])
    ∧ (qr_entries cur ticks earliest_time x).map Prod.fst
      = (([.time_useconds, .client_address_index, .client_port, .transaction_id,
            .query_signature_index]
          ++ (if x.qr_flags &&& QUERY_ONLY ≠ 0 then [.client_hoplimit] else [])
          ++ (if x.qr_flags &&& QUERY_ONLY ≠ 0 ∧ x.qr_flags &&& RESPONSE_ONLY ≠ 0 then
                [.delay_useconds]
              else [])
          ++ (if x.qr_flags &&& QR_HAS_QUESTION ≠ 0 then [.query_name_index] else [])
          ++ (if x.qr_flags &&& QUERY_ONLY ≠ 0 then [.query_size] else [])
          ++ (if x.qr_flags &&& RESPONSE_ONLY ≠ 0 then [.response_size] else [])
          ++ (if x.query_extra_info.isSome then [.query_extended] else [])
          ++ (if x.response_extra_info.isSome then [.response_extended] else []) :
          List QueryResponseField).map cur.find_query_response_index)
    ∧ (∀ fields, Resolves cur fields →
        ∀ e ∈ qr_entries cur ticks earliest_time x, QREntry.WellTyped fields e)
    ∧ (∀ flags : Nat,
        (flags &&& QUERY_ONLY ≠ 0 ↔ x.qr_flags &&& QUERY_ONLY ≠ 0) →
        (flags &&& RESPONSE_ONLY ≠ 0 ↔ x.qr_flags &&& RESPONSE_ONLY ≠ 0) →
        (flags &&& QR_HAS_QUESTION ≠ 0 ↔ x.qr_flags &&& QR_HAS_QUESTION ≠ 0) →
        QueryResponseItem.writeCbor cur ticks earliest_time { x with qr_flags := flags }
          = QueryResponseItem.writeCbor cur ticks earliest_time x) := by
  refine ⟨?_, ?_, ?_, ?_⟩
  · rw [query_response_written]
    rfl
  · unfold qr_entries
    rw [List.map_map]
    rfl
  · intro fields h
    exact qr_entries_well_typed cur fields h ticks earliest_time x
  · intro flags h1 h2 h3
    unfold QueryResponseItem.writeCbor
    simp only [and_three_eq, h1, h2, h3]

/-- C5 at the sample mapping: the item of a query without response is written
as the seven entries time, client address, client port, transaction id,
signature, hoplimit and query size, and setting the further flag bit
`QUERY_HAS_OPT` changes nothing in the output. -/
theorem C5_written_key_sequence_witness :
    QueryResponseItem.writeCbor sample_index 1000 1000000000000000000 sample_query_item
      = [.map none, .uint 0, .uint 7, .uint 1, .uint 1, .uint 2, .uint 5353, .uint 3,
         .uint 4660, .uint 4, .uint 2, .uint 5, .uint 64, .uint 8, .uint 40, .brk]
    ∧ (qr_entries sample_index 1000 1000000000000000000 sample_query_item).map Prod.fst
      = [0, 1, 2, 3, 4, 5, 8]
    ∧ QueryResponseItem.writeCbor sample_index 1000 1000000000000000000
        { sample_query_item with qr_flags := QUERY_ONLY ||| QUERY_HAS_OPT }
      = QueryResponseItem.writeCbor sample_index 1000 1000000000000000000 sample_query_item :=
  ⟨by decide,
    (C5_written_key_sequence sample_index 1000 1000000000000000000 sample_query_item).2.1.trans
      (by decide),
    (C5_written_key_sequence sample_index 1000 1000000000000000000 sample_query_item).2.2.2
      (QUERY_ONLY ||| QUERY_HAS_OPT) (by decide) (by decide) (by decide)⟩

/-- C6: reading a well-typed query/response map, in the definite or the
indefinite form, succeeds and leaves in `qr_flags` exactly the bitwise OR of
`QUERY_ONLY` if the hoplimit key or the query-size key occurs,
`QUERY_AND_RESPONSE` if the delay key occurs, `QR_HAS_QUESTION` if the
query-name key occurs and `RESPONSE_ONLY` if the response-size key occurs:
a function of the set of keys, not of the flags the item had before, of the
order of the keys, of the values or of any other key. -/
theorem C6_flags_from_keys (fields : FileVersionFields) (ticks : Nat) (earliest_time : Int)
    (self : QueryResponseItem) (indef : Bool) (es : List QREntry) (rest : List Tok)
    (hes : ∀ e ∈ es, QREntry.WellTyped fields e) :
    ∃ y, QueryResponseItem.readCbor fields ticks earliest_time self
          (wire_map indef (es.map QREntry.toks) ++ rest) = .ok (y, rest)
      ∧ y.qr_flags = flags_of_keys (es.map fun e => fields.query_response_field e.1) :=
  ⟨_, query_response_wire_map fields ticks earliest_time self indef es hes rest,
    item_of_entries_qr_flags fields ticks earliest_time self es⟩

theorem sample_query_map_well_typed :
    ∀ e ∈ sample_query_map, QREntry.WellTyped sample_fields e := by
  intro e he
  simp only [sample_query_map, List.mem_cons, List.mem_singleton, List.not_mem_nil,
    or_false] at he
  rcases he with rfl | rfl | rfl | rfl
  · exact True.intro
  · exact True.intro
  · intro rest
    simp [QRValue.toks, skip, skip_go, drop_done, one_less, skip_go_done]
  · exact True.intro

/-- C6 at the sample mapping: a definite map with a time offset, a query size,
an unknown key and a hoplimit, read into an item that had every flag set,
leaves `qr_flags = QUERY_ONLY`. -/
theorem C6_flags_from_keys_witness :
    (∀ e ∈ sample_query_map, QREntry.WellTyped sample_fields e)
    ∧ wire_map false (sample_query_map.map QREntry.toks)
      = [.map (some 4), .uint 0, .nint 4, .uint 8, .uint 40, .uint 99, .arr (some 1),
         .uint 7, .uint 5, .uint 64]
    ∧ ∃ y, QueryResponseItem.readCbor sample_fields 1000 0 sample_stale_item
            (wire_map false (sample_query_map.map QREntry.toks) ++ [.brk])
          = .ok (y, [.brk])
        ∧ y.qr_flags = QUERY_ONLY :=
  ⟨sample_query_map_well_typed, by decide,
    match C6_flags_from_keys sample_fields 1000 0 sample_stale_item false sample_query_map
        [.brk] sample_query_map_well_typed with
    | ⟨y, hy, hf⟩ => ⟨y, hy, hf.trans (by decide)⟩⟩

/-- C7: when the item's time stamp `s` and the earliest time `t` differ by a
whole number of microseconds, `writeCbor` writes under the time key the signed
number of microseconds from `t` to `s`, and `readCbor` with the same `t`
reconstructs `s` exactly.  Times are counted in clock ticks, `ticks` to the
microsecond. -/
theorem C7_time_round_trip (cur : CurrentIndex) (fields : FileVersionFields)
    (h : Resolves cur fields) (ticks : Nat) (t s : Int) (x self : QueryResponseItem)
    (rest : List Tok) (hs : x.tstamp = s) (hdiv : (ticks : Int) ∣ s - t) :
    (∃ off tl, QueryResponseItem.writeCbor cur ticks t x
          = .map none :: .uint (cur.find_query_response_index .time_useconds)
              :: write_signed off :: tl
        ∧ off * (ticks : Int) = s - t)
    ∧ ∃ y, QueryResponseItem.readCbor fields ticks t self
          (QueryResponseItem.writeCbor cur ticks t x ++ rest) = .ok (y, rest)
        ∧ y.tstamp = s := by
  have hmul : (x.tstamp - t).tdiv (ticks : Int) * (ticks : Int) = s - t := by
    rw [hs]
    exact Int.tdiv_mul_cancel hdiv
  refine ⟨⟨(x.tstamp - t).tdiv (ticks : Int),
      (QueryResponseItem.writeCbor cur ticks t x).drop 3, ?_, hmul⟩, _,
    query_response_round_trip cur fields h ticks t x self rest, ?_⟩
  · unfold QueryResponseItem.writeCbor
    simp only [List.cons_append, List.drop_succ_cons, List.drop_zero]
  · rw [item_of_qr_entries_tstamp cur fields h, hmul]
    omega

/-- C7 at the sample mapping, with a nanosecond clock: an item stamped 7
microseconds after the earliest time and one stamped 3 microseconds before
it. -/
theorem C7_time_round_trip_witness :
    Resolves sample_index sample_fields
    ∧ ((1000 : Nat) : Int) ∣ 1000000000000007000 - 1000000000000000000
    ∧ ((1000 : Nat) : Int) ∣ 999999999999997000 - 1000000000000000000
    ∧ (∃ y, QueryResponseItem.readCbor sample_fields 1000 1000000000000000000
            sample_stale_item
            (QueryResponseItem.writeCbor sample_index 1000 1000000000000000000
              sample_query_item ++ []) = .ok (y, [])
        ∧ y.tstamp = 1000000000000007000)
    ∧ (∃ y, QueryResponseItem.readCbor sample_fields 1000 1000000000000000000
            sample_stale_item
            (QueryResponseItem.writeCbor sample_index 1000 1000000000000000000
              { sample_query_item with tstamp := 999999999999997000 } ++ []) = .ok (y, [])
        ∧ y.tstamp = 999999999999997000) :=
  ⟨sample_resolves, by decide, by decide,
    (C7_time_round_trip sample_index sample_fields sample_resolves 1000 1000000000000000000
      1000000000000007000 sample_query_item sample_stale_item [] rfl (by decide)).2,
    (C7_time_round_trip sample_index sample_fields sample_resolves 1000 1000000000000000000
      999999999999997000 { sample_query_item with tstamp := 999999999999997000 }
      sample_stale_item [] rfl (by decide)).2⟩

/-! ## Statistics -/

theorem sub_u64_of_le (a b : Nat) (hab : b ≤ a) (ha : a < 2 ^ 64) : sub_u64 a b = a - b := by
  unfold sub_u64
  have hb : b % 2 ^ 64 = b := Nat.mod_eq_of_lt (by omega)
  rw [hb]
  have h1 : a + (2 ^ 64 - b) = (a - b) + 2 ^ 64 := by omega
  rw [h1, Nat.add_mod_right]
  exact Nat.mod_eq_of_lt (by omega)

/-- C8: `BlockData::writeStats` emits an indefinite map with, for each of the
ten statistics keys in order, the key followed by `last - start` (unsigned
64-bit subtraction) of the counter that key stands for; when the counter did
not go down the value is the difference itself. -/
theorem C8_stats_written_as_delta (cur : CurrentIndex) (self : BlockData) :
    BlockData.writeStats cur self
      = wire_map true (statistics_fields.map fun f =>
          [.uint (cur.find_block_statistics_index f),
           .uint (sub_u64 (self.last_packet_statistics.counter f)
                          (self.start_packet_statistics.counter f))])
    ∧ ∀ f, self.start_packet_statistics.counter f ≤ self.last_packet_statistics.counter f →
        self.last_packet_statistics.counter f < 2 ^ 64 →
        sub_u64 (self.last_packet_statistics.counter f)
            (self.start_packet_statistics.counter f)
          = self.last_packet_statistics.counter f - self.start_packet_statistics.counter f :=
  ⟨rfl, fun _ hle hlt => sub_u64_of_le _ _ hle hlt⟩

/-- C8 at the sample mapping: start raw 100 and last raw 150 write 50 under the
total-packets key (key 0), and the pair count 20 under the total-pairs key. -/
theorem C8_stats_written_as_delta_witness :
    sample_block.start_packet_statistics.raw_packet_count = 100
    ∧ sample_block.last_packet_statistics.raw_packet_count = 150
    ∧ sample_index.find_block_statistics_index .total_packets = 0
    ∧ BlockData.writeStats sample_index sample_block
      = [.map none, .uint 0, .uint 50, .uint 1, .uint 20, .uint 2, .uint 0, .uint 3, .uint 0,
         .uint 4, .uint 0, .uint 5, .uint 0, .uint 6, .uint 0, .uint 7, .uint 0, .uint 8,
         .uint 0, .uint 9, .uint 0, .brk]
    ∧ sub_u64 (sample_block.last_packet_statistics.counter .total_packets)
          (sample_block.start_packet_statistics.counter .total_packets) = 150 - 100 :=
  ⟨rfl, rfl, rfl, (C8_stats_written_as_delta sample_index sample_block).1.trans (by decide),
    (C8_stats_written_as_delta sample_index sample_block).2 .total_packets (by decide)
      (by decide)⟩

theorem stats_entry_toks (fields : FileVersionFields) (e : WireEntry)
    (he : StatEntry.WellTyped fields e) (s : PacketStatistics) (rest : List Tok) :
    BlockData.readStats_entry fields s (e.toks ++ rest)
      = .ok (StatEntry.apply fields s e, rest) := by
  obtain ⟨key, v⟩ := e
  unfold StatEntry.WellTyped at he
  simp only [BlockData.readStats_entry, WireEntry.toks, StatEntry.apply, List.cons_append,
    read_unsigned]
  cases hf : fields.block_statistics_field key <;> cases v <;>
    simp_all [WireValue.toks, read_unsigned, Skippable]

/-- Reading a well-typed statistics map, in either form: the start statistics
are reset, the entries are applied to the running totals in order. -/
theorem stats_wire_map (fields : FileVersionFields) (self : BlockData)
    (indef : Bool) (es : List WireEntry) (hes : ∀ e ∈ es, StatEntry.WellTyped fields e)
    (rest : List Tok) :
    BlockData.readStats fields self (wire_map indef (es.map WireEntry.toks) ++ rest)
      = .ok ({ self with
                start_packet_statistics := PacketStatistics.zero,
                last_packet_statistics :=
                  es.foldl (StatEntry.apply fields) self.last_packet_statistics }, rest) := by
  unfold BlockData.readStats
  simp only []
  rw [read_wire_map (BlockData.readStats_entry fields) (StatEntry.apply fields)
    WireEntry.toks es
    (fun e he s rest => stats_entry_toks fields e (hes e he) s rest)
    (fun e _ => wire_entry_toks_head e) indef _ rest]

theorem stat_apply_counter (fields : FileVersionFields) (f : BlockStatisticsField)
    (hf : f ≠ .unknown) (last : PacketStatistics) (e : WireEntry) :
    (StatEntry.apply fields last e).counter f
      = (deltas_for fields f [e]).foldl add_u64 (last.counter f) := by
  obtain ⟨key, v⟩ := e
  unfold StatEntry.apply deltas_for
  cases hk : fields.block_statistics_field key <;> cases v <;> cases f <;>
    simp_all [PacketStatistics.counter]

theorem stat_foldl_counter (fields : FileVersionFields) (f : BlockStatisticsField)
    (hf : f ≠ .unknown) (es : List WireEntry) (last : PacketStatistics) :
    (es.foldl (StatEntry.apply fields) last).counter f
      = (deltas_for fields f es).foldl add_u64 (last.counter f) := by
  induction es generalizing last with
  | nil => rfl
  | cons e es ih =>
    rw [List.foldl_cons, ih, stat_apply_counter fields f hf]
    have happ : deltas_for fields f (e :: es)
        = deltas_for fields f [e] ++ deltas_for fields f es := by
      unfold deltas_for
      rw [← List.filterMap_append]
      rfl
    rw [happ, List.foldl_append]

theorem foldl_add_u64 (ds : List Nat) (a : Nat) :
    ds.foldl add_u64 a = if ds = [] then a else (a + ds.sum) % 2 ^ 64 := by
  induction ds generalizing a with
  | nil => rfl
  | cons d ds ih =>
    rw [List.foldl_cons, ih]
    by_cases hds : ds = []
    · subst hds
      simp [add_u64]
    · simp only [hds, if_false, List.sum_cons, add_u64, reduceCtorEq]
      rw [Nat.mod_add_mod, Nat.add_assoc]

/-- C9: reading a well-typed statistics map, in either form, succeeds and adds
to each counter of `last_packet_statistics` the deltas found under its key
(64-bit unsigned addition), leaving a counter whose key is absent unchanged;
hence two consecutive maps carrying `d1` and then `d2` for a counter, read
against a running total of 0, give `d1` and then `d1 + d2` (the counter's
range permitting). -/
theorem C9_stats_accumulate (fields : FileVersionFields) (self : BlockData) (indef : Bool)
    (es : List WireEntry) (rest : List Tok)
    (hes : ∀ e ∈ es, StatEntry.WellTyped fields e) :
    (∃ b, BlockData.readStats fields self (wire_map indef (es.map WireEntry.toks) ++ rest)
          = .ok (b, rest)
      ∧ ∀ f, f ≠ .unknown →
          b.last_packet_statistics.counter f
            = if deltas_for fields f es = [] then self.last_packet_statistics.counter f
              else (self.last_packet_statistics.counter f + (deltas_for fields f es).sum)
                % 2 ^ 64)
    ∧ ∀ (indef2 : Bool) (es2 : List WireEntry) (rest2 : List Tok) (f : BlockStatisticsField)
        (d1 d2 : Nat),
        (∀ e ∈ es2, StatEntry.WellTyped fields e) → f ≠ .unknown →
        self.last_packet_statistics.counter f = 0 →
        deltas_for fields f es = [d1] → deltas_for fields f es2 = [d2] → d1 + d2 < 2 ^ 64 →
        ∃ b1 b2,
          BlockData.readStats fields self (wire_map indef (es.map WireEntry.toks) ++ rest)
            = .ok (b1, rest)
          ∧ BlockData.readStats fields b1
              (wire_map indef2 (es2.map WireEntry.toks) ++ rest2) = .ok (b2, rest2)
          ∧ b1.last_packet_statistics.counter f = d1
          ∧ b2.last_packet_statistics.counter f = d1 + d2 := by
  refine ⟨⟨_, stats_wire_map fields self indef es hes rest, ?_⟩, ?_⟩
  · intro f hf
    simp only [stat_foldl_counter fields f hf, foldl_add_u64]
  · intro indef2 es2 rest2 f d1 d2 hes2 hf h0 hd1 hd2 hlt
    refine ⟨_, _, stats_wire_map fields self indef es hes rest,
      stats_wire_map fields _ indef2 es2 hes2 rest2, ?_, ?_⟩
    · simp only [stat_foldl_counter fields f hf, foldl_add_u64, hd1, h0]
      simp only [reduceCtorEq, if_false, List.sum_cons, List.sum_nil, Nat.zero_add,
        Nat.add_zero]
      exact Nat.mod_eq_of_lt (by omega)
    · simp only [stat_foldl_counter fields f hf, foldl_add_u64, hd1, hd2, h0]
      simp only [reduceCtorEq, if_false, List.sum_cons, List.sum_nil, Nat.zero_add,
        Nat.add_zero, Nat.mod_add_mod]
      exact Nat.mod_eq_of_lt (by omega)

theorem sample_stat_maps_well_typed :
    (∀ e ∈ ([(0, .unsigned 50)] : List WireEntry), StatEntry.WellTyped sample_fields e)
    ∧ ∀ e ∈ ([(77, .other [.text [104, 105]]), (0, .unsigned 30)] : List WireEntry),
        StatEntry.WellTyped sample_fields e := by
  constructor
  · intro e he
    simp only [List.mem_singleton] at he
    subst he
    exact True.intro
  · intro e he
    simp only [List.mem_cons, List.mem_singleton, List.not_mem_nil, or_false] at he
    rcases he with rfl | rfl
    · intro rest
      simp [WireValue.toks, skip, skip_go, drop_done, one_less, skip_go_done]
    · exact True.intro

/-- C9 at the sample mapping: two consecutive statistics maps with raw-packet
deltas 50 and 30 (the second in the indefinite form, with an unknown key in
front), read against an initially-zero running total, give 50 and then 80;
the pair count, whose key is absent, stays 0. -/
theorem C9_stats_accumulate_witness :
    (∀ e ∈ ([(0, .unsigned 50)] : List WireEntry), StatEntry.WellTyped sample_fields e)
    ∧ (∀ e ∈ ([(77, .other [.text [104, 105]]), (0, .unsigned 30)] : List WireEntry),
        StatEntry.WellTyped sample_fields e)
    ∧ ∃ b1 b2,
        BlockData.readStats sample_fields empty_block
            (wire_map false (([(0, .unsigned 50)] : List WireEntry).map WireEntry.toks) ++ [])
          = .ok (b1, [])
        ∧ BlockData.readStats sample_fields b1
            (wire_map true
              (([(77, .other [.text [104, 105]]), (0, .unsigned 30)] : List WireEntry).map
                WireEntry.toks) ++ [])
          = .ok (b2, [])
        ∧ b1.last_packet_statistics.counter .total_packets = 50
        ∧ b2.last_packet_statistics.counter .total_packets = 50 + 30 :=
  ⟨sample_stat_maps_well_typed.1, sample_stat_maps_well_typed.2,
    (C9_stats_accumulate sample_fields empty_block false [(0, .unsigned 50)] []
      sample_stat_maps_well_typed.1).2 true
      [(77, .other [.text [104, 105]]), (0, .unsigned 30)] [] .total_packets 50 30
      sample_stat_maps_well_typed.2 (by decide) rfl (by decide) (by decide) (by decide)⟩

/-! ## Arrays: index vectors and the items of a block -/

theorem foldl_push_index (index_bits : Nat) (xs : List Nat) (s : IndexVectorItem) :
    xs.foldl (fun (s : IndexVectorItem) x =>
        { s with vec := s.vec ++ [to_index_t index_bits x] }) s
      = { vec := s.vec ++ xs.map (to_index_t index_bits) } := by
  induction xs generalizing s with
  | nil => simp
  | cons x xs ih => simp [List.foldl_cons, ih, List.append_assoc]

/-- Reading an array of unsigned integers, in either form, appends them
(converted to `index_t`) to the vector. -/
theorem index_vector_wire_array (index_bits : Nat) (self : IndexVectorItem)
    (indef : Bool) (xs : List Nat) (rest : List Tok) :
    IndexVectorItem.readCbor index_bits self
        (wire_array indef (xs.map fun x => [.uint x]) ++ rest)
      = .ok ({ vec := self.vec ++ xs.map (to_index_t index_bits) }, rest) := by
  unfold IndexVectorItem.readCbor
  rw [read_wire_array (IndexVectorItem.read_element index_bits)
    (fun (s : IndexVectorItem) x => { s with vec := s.vec ++ [to_index_t index_bits x] })
    (fun x => [.uint x]) xs
    (fun x _ s rest => by simp [IndexVectorItem.read_element, read_unsigned])
    (fun x _ => ⟨.uint x, [], rfl, by simp⟩) indef self rest, foldl_push_index]
  rfl

theorem map_to_index_t_of_lt (index_bits : Nat) (xs : List Nat)
    (hxs : ∀ x ∈ xs, x < 2 ^ index_bits) : xs.map (to_index_t index_bits) = xs := by
  conv_rhs => rw [← List.map_id xs]
  apply List.map_congr_left
  intro x hx
  exact Nat.mod_eq_of_lt (hxs x hx)

theorem foldl_push_item (fields : FileVersionFields) (ticks : Nat)
    (fresh : QueryResponseItem) (ms : List QRMap) (s : BlockData) :
    ms.foldl (fun (s : BlockData) (m : QRMap) =>
        { s with query_response_items := s.query_response_items
            ++ [item_of_entries fields ticks s.earliest_time fresh m.2] }) s
      = { s with query_response_items := s.query_response_items
            ++ ms.map (fun m => item_of_entries fields ticks s.earliest_time fresh m.2) } := by
  induction ms generalizing s with
  | nil => simp
  | cons m ms ih => simp [List.foldl_cons, ih, List.append_assoc]

/-- Reading an array of well-typed query/response maps, in either form,
appends the items they stand for to the items of the block. -/
theorem items_wire_array (fields : FileVersionFields) (ticks : Nat)
    (fresh : QueryResponseItem) (self : BlockData) (indef : Bool) (ms : List QRMap)
    (hms : ∀ m ∈ ms, ∀ e ∈ m.2, QREntry.WellTyped fields e) (rest : List Tok) :
    BlockData.readItems fields ticks fresh self (wire_array indef (ms.map QRMap.toks) ++ rest)
      = .ok ({ self with query_response_items := self.query_response_items
                ++ ms.map (fun m =>
                    item_of_entries fields ticks self.earliest_time fresh m.2) }, rest) := by
  unfold BlockData.readItems
  rw [read_wire_array (BlockData.readItems_element fields ticks fresh)
    (fun (s : BlockData) (m : QRMap) =>
      { s with query_response_items := s.query_response_items
          ++ [item_of_entries fields ticks s.earliest_time fresh m.2] })
    QRMap.toks ms
    (fun m hm s rest => by
      simp only [BlockData.readItems_element, QRMap.toks]
      rw [query_response_wire_map fields ticks s.earliest_time fresh m.1 m.2
        (hms m hm) rest])
    (fun m _ => by
      obtain ⟨indef, es⟩ := m
      cases indef
      · exact ⟨_, _, rfl, by simp⟩
      · exact ⟨_, _, rfl, by simp⟩) indef self rest, foldl_push_item]

/-- C10: a definite-length array of `N` indices and the indefinite-length array
of the same indices followed by a break are read by
`IndexVectorItem::readCbor`, into an empty item, as the same sequence: the
original indices in their order; and `BlockData::readItems` reads a definite
and an indefinite array of the same well-typed query/response maps, into a
block without items, as the same sequence of items, one per map in order. -/
theorem C10_definite_indefinite_equivalent (index_bits : Nat) (xs : List Nat)
    (fields : FileVersionFields) (ticks : Nat) (fresh : QueryResponseItem)
    (self : BlockData) (ms : List QRMap) (rest : List Tok)
    (hxs : ∀ x ∈ xs, x < 2 ^ index_bits)
    (hms : ∀ m ∈ ms, ∀ e ∈ m.2, QREntry.WellTyped fields e)
    (hself : self.query_response_items = []) :
    (IndexVectorItem.readCbor index_bits { vec := [] }
          (wire_array false (xs.map fun x => [.uint x]) ++ rest) = .ok ({ vec := xs }, rest)
      ∧ IndexVectorItem.readCbor index_bits { vec := [] }
          (wire_array true (xs.map fun x => [.uint x]) ++ rest) = .ok ({ vec := xs }, rest))
    ∧ (BlockData.readItems fields ticks fresh self
          (wire_array false (ms.map QRMap.toks) ++ rest)
        = .ok ({ self with
                  query_response_items :=
                    ms.map (fun m =>
                      item_of_entries fields ticks self.earliest_time fresh m.2) }, rest)
      ∧ BlockData.readItems fields ticks fresh self
          (wire_array true (ms.map QRMap.toks) ++ rest)
        = .ok ({ self with
                  query_response_items :=
                    ms.map (fun m =>
                      item_of_entries fields ticks self.earliest_time fresh m.2) }, rest)) := by
  refine ⟨⟨?_, ?_⟩, ?_, ?_⟩
  · rw [index_vector_wire_array, map_to_index_t_of_lt index_bits xs hxs,
      List.nil_append]
  · rw [index_vector_wire_array, map_to_index_t_of_lt index_bits xs hxs,
      List.nil_append]
  · rw [items_wire_array fields ticks fresh self false ms hms, hself,
      List.nil_append]
  · rw [items_wire_array fields ticks fresh self true ms hms, hself,
      List.nil_append]

theorem sample_query_maps_well_typed :
    ∀ m ∈ sample_query_maps, ∀ e ∈ m.2, QREntry.WellTyped sample_fields e := by
  intro m hm
  simp only [sample_query_maps, List.mem_cons, List.mem_singleton, List.not_mem_nil,
    or_false] at hm
  rcases hm with rfl | rfl
  · exact sample_query_map_well_typed
  · intro e he
    simp only [List.mem_cons, List.mem_singleton, List.not_mem_nil, or_false] at he
    rcases he with rfl | rfl
    · exact True.intro
    · exact True.intro

/-- C10 at the sample mapping: the indices 3, 1, 2 (32-bit `index_t`) and two
query/response maps, each array in both forms. -/
theorem C10_definite_indefinite_equivalent_witness :
    (∀ x ∈ [3, 1, 2], x < 2 ^ 32)
    ∧ (∀ m ∈ sample_query_maps, ∀ e ∈ m.2, QREntry.WellTyped sample_fields e)
    ∧ empty_block.query_response_items = []
    ∧ IndexVectorItem.readCbor 32 { vec := [] } ([.arr (some 3), .uint 3, .uint 1, .uint 2] ++ [])
        = .ok ({ vec := [3, 1, 2] }, [])
    ∧ IndexVectorItem.readCbor 32 { vec := [] } ([.arr none, .uint 3, .uint 1, .uint 2, .brk] ++ [])
        = .ok ({ vec := [3, 1, 2] }, [])
    ∧ ∃ b, BlockData.readItems sample_fields 1000 sample_stale_item empty_block
            (wire_array false (sample_query_maps.map QRMap.toks) ++ []) = .ok (b, [])
        ∧ BlockData.readItems sample_fields 1000 sample_stale_item empty_block
            (wire_array true (sample_query_maps.map QRMap.toks) ++ []) = .ok (b, [])
        ∧ b.query_response_items.map (fun q => q.qr_flags) = [QUERY_ONLY, RESPONSE_ONLY] :=
  ⟨by decide, sample_query_maps_well_typed, rfl,
    (C10_definite_indefinite_equivalent 32 [3, 1, 2] sample_fields 1000 sample_stale_item
      empty_block sample_query_maps [] (by decide) sample_query_maps_well_typed rfl).1.1,
    (C10_definite_indefinite_equivalent 32 [3, 1, 2] sample_fields 1000 sample_stale_item
      empty_block sample_query_maps [] (by decide) sample_query_maps_well_typed rfl).1.2,
    { empty_block with
      query_response_items :=
        sample_query_maps.map (fun m =>
          item_of_entries sample_fields 1000 empty_block.earliest_time sample_stale_item m.2) },
    (C10_definite_indefinite_equivalent 32 [3, 1, 2] sample_fields 1000 sample_stale_item
      empty_block sample_query_maps [] (by decide) sample_query_maps_well_typed rfl).2.1,
    (C10_definite_indefinite_equivalent 32 [3, 1, 2] sample_fields 1000 sample_stale_item
      empty_block sample_query_maps [] (by decide) sample_query_maps_well_typed rfl).2.2,
    by decide⟩

/-! ## Maps of unsigned values: what the decoders make of them -/

theorem class_type_entry_toks (fields : FileVersionFields) (e : WireEntry)
    (he : ClassTypeEntry.WellTyped fields e) (s : ClassType) (rest : List Tok) :
    ClassType.read_entry fields s (e.toks ++ rest)
      = .ok (ClassTypeEntry.apply fields s e, rest) := by
  obtain ⟨key, v⟩ := e
  unfold ClassTypeEntry.WellTyped at he
  simp only [ClassType.read_entry, WireEntry.toks, ClassTypeEntry.apply, List.cons_append,
    read_unsigned]
  cases hf : fields.class_type_field key <;> cases v <;>
    simp_all [WireValue.toks, read_unsigned, Skippable]

theorem class_type_wire_map (fields : FileVersionFields) (self : ClassType) (indef : Bool)
    (es : List WireEntry) (hes : ∀ e ∈ es, ClassTypeEntry.WellTyped fields e)
    (rest : List Tok) :
    ClassType.readCbor fields self (wire_map indef (es.map WireEntry.toks) ++ rest)
      = .ok (es.foldl (ClassTypeEntry.apply fields) self, rest) := by
  unfold ClassType.readCbor
  rw [read_wire_map (ClassType.read_entry fields) (ClassTypeEntry.apply fields)
    WireEntry.toks es
    (fun e he s rest => class_type_entry_toks fields e (hes e he) s rest)
    (fun e _ => wire_entry_toks_head e) indef _ rest]
  rfl

theorem question_entry_toks (fields : FileVersionFields) (e : WireEntry)
    (he : QuestionEntry.WellTyped fields e) (s : Question) (rest : List Tok) :
    Question.read_entry fields s (e.toks ++ rest)
      = .ok (QuestionEntry.apply fields s e, rest) := by
  obtain ⟨key, v⟩ := e
  unfold QuestionEntry.WellTyped at he
  simp only [Question.read_entry, WireEntry.toks, QuestionEntry.apply, List.cons_append,
    read_unsigned]
  cases hf : fields.question_field key <;> cases v <;>
    simp_all [WireValue.toks, read_unsigned, Skippable]

theorem question_wire_map (fields : FileVersionFields) (self : Question) (indef : Bool)
    (es : List WireEntry) (hes : ∀ e ∈ es, QuestionEntry.WellTyped fields e)
    (rest : List Tok) :
    Question.readCbor fields self (wire_map indef (es.map WireEntry.toks) ++ rest)
      = .ok (es.foldl (QuestionEntry.apply fields) self, rest) := by
  unfold Question.readCbor
  rw [read_wire_map (Question.read_entry fields) (QuestionEntry.apply fields)
    WireEntry.toks es
    (fun e he s rest => question_entry_toks fields e (hes e he) s rest)
    (fun e _ => wire_entry_toks_head e) indef _ rest]
  rfl

theorem rr_entry_toks (fields : FileVersionFields) (e : WireEntry)
    (he : RREntry.WellTyped fields e) (s : ResourceRecord) (rest : List Tok) :
    ResourceRecord.read_entry fields s (e.toks ++ rest)
      = .ok (RREntry.apply fields s e, rest) := by
  obtain ⟨key, v⟩ := e
  unfold RREntry.WellTyped at he
  simp only [ResourceRecord.read_entry, WireEntry.toks, RREntry.apply, List.cons_append,
    read_unsigned]
  cases hf : fields.rr_field key <;> cases v <;>
    simp_all [WireValue.toks, read_unsigned, Skippable]

theorem rr_wire_map (fields : FileVersionFields) (self : ResourceRecord) (indef : Bool)
    (es : List WireEntry) (hes : ∀ e ∈ es, RREntry.WellTyped fields e) (rest : List Tok) :
    ResourceRecord.readCbor fields self (wire_map indef (es.map WireEntry.toks) ++ rest)
      = .ok (es.foldl (RREntry.apply fields) self, rest) := by
  unfold ResourceRecord.readCbor
  rw [read_wire_map (ResourceRecord.read_entry fields) (RREntry.apply fields)
    WireEntry.toks es
    (fun e he s rest => rr_entry_toks fields e (hes e he) s rest)
    (fun e _ => wire_entry_toks_head e) indef _ rest]
  rfl

theorem signature_entry_toks (fields : FileVersionFields) (e : WireEntry)
    (he : SignatureEntry.WellTyped fields e) (s : QuerySignature) (rest : List Tok) :
    QuerySignature.read_entry fields s (e.toks ++ rest)
      = .ok (SignatureEntry.apply fields s e, rest) := by
  obtain ⟨key, v⟩ := e
  unfold SignatureEntry.WellTyped at he
  simp only [QuerySignature.read_entry, WireEntry.toks, SignatureEntry.apply,
    List.cons_append, read_unsigned]
  cases hf : fields.query_signature_field key <;> cases v <;>
    simp_all [WireValue.toks, read_unsigned, Skippable]

theorem signature_wire_map (fields : FileVersionFields) (self : QuerySignature)
    (indef : Bool) (es : List WireEntry) (hes : ∀ e ∈ es, SignatureEntry.WellTyped fields e)
    (rest : List Tok) :
    QuerySignature.readCbor fields self (wire_map indef (es.map WireEntry.toks) ++ rest)
      = .ok (es.foldl (SignatureEntry.apply fields) self, rest) := by
  unfold QuerySignature.readCbor
  rw [read_wire_map (QuerySignature.read_entry fields) (SignatureEntry.apply fields)
    WireEntry.toks es
    (fun e he s rest => signature_entry_toks fields e (hes e he) s rest)
    (fun e _ => wire_entry_toks_head e) indef _ rest]
  rfl

theorem address_event_entry_toks (fields : FileVersionFields) (e : WireEntry)
    (he : AddressEventEntry.WellTyped fields e) (s : AddressEventCount) (rest : List Tok) :
    AddressEventCount.read_entry fields s (e.toks ++ rest)
      = .ok (AddressEventEntry.apply fields s e, rest) := by
  obtain ⟨key, v⟩ := e
  unfold AddressEventEntry.WellTyped at he
  simp only [AddressEventCount.read_entry, WireEntry.toks, AddressEventEntry.apply,
    List.cons_append, read_unsigned]
  cases hf : fields.address_event_count_field key <;> cases v <;>
    simp_all [WireValue.toks, read_unsigned, Skippable]

theorem address_event_wire_map (fields : FileVersionFields) (self : AddressEventCount)
    (indef : Bool) (es : List WireEntry)
    (hes : ∀ e ∈ es, AddressEventEntry.WellTyped fields e) (rest : List Tok) :
    AddressEventCount.readCbor fields self (wire_map indef (es.map WireEntry.toks) ++ rest)
      = .ok (es.foldl (AddressEventEntry.apply fields)
          { self with aei := { self.aei with code := 0 } }, rest) := by
  unfold AddressEventCount.readCbor
  simp only []
  rw [read_wire_map (AddressEventCount.read_entry fields) (AddressEventEntry.apply fields)
    WireEntry.toks es
    (fun e he s rest => address_event_entry_toks fields e (hes e he) s rest)
    (fun e _ => wire_entry_toks_head e) indef _ rest]
  rfl

theorem skippable_text (b : List Nat) : Skippable [.text b] := by
  intro rest
  simp [skip, skip_go, drop_done, one_less, skip_go_done]

/-- C11: in a well-typed Question map, in the definite or the indefinite form,
an entry under a key the field mapping does not know, with any value that is
one complete item, inserted at any position, changes nothing: decoding
succeeds with and without the entry, stops right behind the map, and gives
the same Question (same `qname`, same `classtype`). -/
theorem C11_unknown_question_key_skipped (fields : FileVersionFields) (self : Question)
    (indef : Bool) (es1 es2 : List WireEntry) (key : Nat) (value : List Tok)
    (rest : List Tok)
    (h1 : ∀ e ∈ es1, QuestionEntry.WellTyped fields e)
    (h2 : ∀ e ∈ es2, QuestionEntry.WellTyped fields e)
    (hkey : fields.question_field key = .unknown) (hvalue : Skippable value) :
    ∃ y, Question.readCbor fields self
          (wire_map indef ((es1 ++ es2).map WireEntry.toks) ++ rest) = .ok (y, rest)
      ∧ Question.readCbor fields self
          (wire_map indef ((es1 ++ (key, .other value) :: es2).map WireEntry.toks) ++ rest)
        = .ok (y, rest) := by
  have hnew : QuestionEntry.WellTyped fields (key, .other value) := by
    unfold QuestionEntry.WellTyped
    simp only [hkey]
    exact hvalue
  have hall : ∀ e ∈ es1 ++ es2, QuestionEntry.WellTyped fields e := by
    intro e he
    rcases List.mem_append.mp he with he | he
    · exact h1 e he
    · exact h2 e he
  have hall2 : ∀ e ∈ es1 ++ (key, .other value) :: es2, QuestionEntry.WellTyped fields e := by
    intro e he
    rcases List.mem_append.mp he with he | he
    · exact h1 e he
    · rcases List.mem_cons.mp he with he | he
      · rw [he]; exact hnew
      · exact h2 e he
  refine ⟨_, question_wire_map fields self indef _ hall rest, ?_⟩
  rw [question_wire_map fields self indef _ hall2 rest]
  have hskip : ∀ s, QuestionEntry.apply fields s (key, .other value) = s := by
    intro s
    simp [QuestionEntry.apply, hkey]
  simp only [List.foldl_append, List.foldl_cons, hskip]

/-- C11 at the sample mapping: the key 9999 with a text value between a
name-index entry and a classtype-index entry, in both forms of the map. -/
theorem C11_unknown_question_key_skipped_witness :
    sample_fields.question_field 9999 = .unknown
    ∧ Skippable [.text [110, 101, 119]]
    ∧ Question.readCbor sample_fields { qname := 7, classtype := 7 }
        [.map (some 3), .uint 0, .uint 3, .uint 9999, .text [110, 101, 119], .uint 1, .uint 2]
      = .ok ({ qname := 3, classtype := 2 }, [])
    ∧ Question.readCbor sample_fields { qname := 7, classtype := 7 }
        [.map (some 2), .uint 0, .uint 3, .uint 1, .uint 2]
      = .ok ({ qname := 3, classtype := 2 }, [])
    ∧ ∃ y, Question.readCbor sample_fields { qname := 7, classtype := 7 }
          (wire_map true (([(0, .unsigned 3)] ++ [(1, .unsigned 2)] : List WireEntry).map
            WireEntry.toks) ++ [.uint 5]) = .ok (y, [.uint 5])
        ∧ Question.readCbor sample_fields { qname := 7, classtype := 7 }
            (wire_map true
              (([(0, .unsigned 3)] ++ (9999, .other [.text [110, 101, 119]])
                  :: [(1, .unsigned 2)] : List WireEntry).map WireEntry.toks) ++ [.uint 5])
          = .ok (y, [.uint 5]) :=
  ⟨rfl, skippable_text _, rfl, rfl,
    C11_unknown_question_key_skipped sample_fields { qname := 7, classtype := 7 } true
      [(0, .unsigned 3)] [(1, .unsigned 2)] 9999 [.text [110, 101, 119]] [.uint 5]
      (by intro e he; simp only [List.mem_singleton] at he; subst he; exact True.intro)
      (by intro e he; simp only [List.mem_singleton] at he; subst he; exact True.intro)
      rfl (skippable_text _)⟩

theorem address_event_apply_code (fields : FileVersionFields) (s : AddressEventCount)
    (e : WireEntry) (he : fields.address_event_count_field e.1 ≠ .ae_code) :
    (AddressEventEntry.apply fields s e).aei.code = s.aei.code := by
  obtain ⟨key, v⟩ := e
  unfold AddressEventEntry.apply
  cases hf : fields.address_event_count_field key <;> cases v <;> simp_all

theorem address_event_foldl_code (fields : FileVersionFields) (es : List WireEntry)
    (hes : ∀ e ∈ es, fields.address_event_count_field e.1 ≠ .ae_code)
    (s : AddressEventCount) :
    (es.foldl (AddressEventEntry.apply fields) s).aei.code = s.aei.code := by
  induction es generalizing s with
  | nil => rfl
  | cons e es ih =>
    rw [List.foldl_cons, ih (fun x hx => hes x (List.mem_cons_of_mem _ hx)),
      address_event_apply_code fields s e (hes e (List.mem_cons_self _ _))]

/-- C12: reading a well-typed AddressEventCount map that has no code key, in
either form, succeeds and leaves `aei.code == 0`, whatever `aei.code` the
object decoded into held. -/
theorem C12_code_defaults_to_zero (fields : FileVersionFields) (self : AddressEventCount)
    (indef : Bool) (es : List WireEntry) (rest : List Tok)
    (hes : ∀ e ∈ es, AddressEventEntry.WellTyped fields e)
    (hcode : ∀ e ∈ es, fields.address_event_count_field e.1 ≠ .ae_code) :
    ∃ y, AddressEventCount.readCbor fields self
          (wire_map indef (es.map WireEntry.toks) ++ rest) = .ok (y, rest)
      ∧ y.aei.code = 0 :=
  ⟨_, address_event_wire_map fields self indef es hes rest,
    address_event_foldl_code fields es hcode _⟩

theorem sample_address_event_well_typed :
    ∀ e ∈ ([(0, .unsigned 2), (2, .unsigned 5), (3, .unsigned 11)] : List WireEntry),
      AddressEventEntry.WellTyped sample_fields e := by
  intro e he
  simp only [List.mem_cons, List.mem_singleton, List.not_mem_nil, or_false] at he
  rcases he with rfl | rfl | rfl <;> exact True.intro

/-- C12 at the sample mapping: a map with type, address index and count, read
into an object whose code was 7. -/
theorem C12_code_defaults_to_zero_witness :
    (∀ e ∈ ([(0, .unsigned 2), (2, .unsigned 5), (3, .unsigned 11)] : List WireEntry),
        AddressEventEntry.WellTyped sample_fields e)
    ∧ (∀ e ∈ ([(0, .unsigned 2), (2, .unsigned 5), (3, .unsigned 11)] : List WireEntry),
        sample_fields.address_event_count_field e.1 ≠ .ae_code)
    ∧ AddressEventCount.readCbor sample_fields
        { aei := { type := 9, code := 7, address := 9 }, count := 9 }
        [.map (some 3), .uint 0, .uint 2, .uint 2, .uint 5, .uint 3, .uint 11]
      = .ok ({ aei := { type := 2, code := 0, address := 5 }, count := 11 }, [])
    ∧ ∃ y, AddressEventCount.readCbor sample_fields
          { aei := { type := 9, code := 7, address := 9 }, count := 9 }
          (wire_map true
            (([(0, .unsigned 2), (2, .unsigned 5), (3, .unsigned 11)] : List WireEntry).map
              WireEntry.toks) ++ []) = .ok (y, [])
        ∧ y.aei.code = 0 :=
  ⟨sample_address_event_well_typed, by decide, rfl,
    C12_code_defaults_to_zero sample_fields
      { aei := { type := 9, code := 7, address := 9 }, count := 9 } true
      [(0, .unsigned 2), (2, .unsigned 5), (3, .unsigned 11)] []
      sample_address_event_well_typed (by decide)⟩

/-- C13: for every (qtype, qclass) pair and any two field mappings with their
own wire keys for the type and the class, decoding the map written under the
keys of the first mapping with the first mapping and the map written under
the keys of the second with the second gives the same ClassType, the pair
itself; in either form of the map and whatever the objects decoded into. -/
theorem C13_class_type_version_tolerant (F1 F2 : FileVersionFields) (t1 c1 t2 c2 : Nat)
    (qtype qclass : Nat) (self1 self2 : ClassType) (indef1 indef2 : Bool)
    (rest1 rest2 : List Tok)
    (ht1 : F1.class_type_field t1 = .type_id) (hc1 : F1.class_type_field c1 = .class_id)
    (ht2 : F2.class_type_field t2 = .type_id) (hc2 : F2.class_type_field c2 = .class_id) :
    ClassType.readCbor F1 self1
        (wire_map indef1 [[.uint t1, .uint qtype], [.uint c1, .uint qclass]] ++ rest1)
      = .ok ({ qtype := qtype, qclass := qclass }, rest1)
    ∧ ClassType.readCbor F2 self2
        (wire_map indef2 [[.uint t2, .uint qtype], [.uint c2, .uint qclass]] ++ rest2)
      = .ok ({ qtype := qtype, qclass := qclass }, rest2) := by
  constructor
  · cases indef1 <;>
      simp [ClassType.readCbor, ClassType.read_entry, wire_map, read_map, readMapHeader,
        container_loop, read_unsigned, ht1, hc1, catch_logic_error]
  · cases indef2 <;>
      simp [ClassType.readCbor, ClassType.read_entry, wire_map, read_map, readMapHeader,
        container_loop, read_unsigned, ht2, hc2, catch_logic_error]

/-- C13 at two sample mappings, one with the keys 0 and 1 and one with the keys
10 and 11: the pair (28, 1) comes back from both encodings. -/
theorem C13_class_type_version_tolerant_witness :
    sample_fields.class_type_field 0 = .type_id
    ∧ sample_fields.class_type_field 1 = .class_id
    ∧ sample_fields_v2.class_type_field 10 = .type_id
    ∧ sample_fields_v2.class_type_field 11 = .class_id
    ∧ ClassType.readCbor sample_fields { qtype := 0, qclass := 0 }
        (wire_map false [[.uint 0, .uint 28], [.uint 1, .uint 1]] ++ [])
      = .ok ({ qtype := 28, qclass := 1 }, [])
    ∧ ClassType.readCbor sample_fields_v2 { qtype := 5, qclass := 5 }
        (wire_map true [[.uint 10, .uint 28], [.uint 11, .uint 1]] ++ [])
      = .ok ({ qtype := 28, qclass := 1 }, []) :=
  ⟨rfl, rfl, rfl, rfl,
    (C13_class_type_version_tolerant sample_fields sample_fields_v2 0 1 10 11 28 1
      { qtype := 0, qclass := 0 } { qtype := 5, qclass := 5 } false true [] [] rfl rfl rfl
      rfl).1,
    (C13_class_type_version_tolerant sample_fields sample_fields_v2 0 1 10 11 28 1
      { qtype := 0, qclass := 0 } { qtype := 5, qclass := 5 } false true [] [] rfl rfl rfl
      rfl).2⟩

/-! ## Error kinds -/

theorem skip_go_no_format (ts : List Tok) (st : List (Option Nat)) :
    NoFormatError (skip_go st ts) := by
  induction ts generalizing st with
  | nil =>
    intro w
    unfold skip_go
    split <;> simp
  | cons t ts ih =>
    intro w
    unfold skip_go
    split
    · simp
    · split
      · split
        · exact ih _ w
        · simp
      · exact ih _ w
      · exact ih _ w
      · exact ih _ w
      · exact ih _ w

theorem skip_no_format (ts : List Tok) : NoFormatError (skip ts) := by
  intro w h
  unfold skip at h
  split at h
  · simp at h
  · rename_i e he
    simp only [Except.error.injEq] at h
    subst h
    exact skip_go_no_format ts _ w he

theorem read_unsigned_no_format (ts : List Tok) : NoFormatError (read_unsigned ts) := by
  intro w
  unfold read_unsigned
  split <;> simp

theorem read_signed_no_format (ts : List Tok) : NoFormatError (read_signed ts) := by
  intro w
  unfold read_signed
  split <;> simp

theorem read_binary_no_format (ts : List Tok) : NoFormatError (read_binary ts) := by
  intro w
  unfold read_binary
  split <;> simp

theorem container_loop_no_format {σ : Type} (body : σ → List Tok → Res σ)
    (hbody : ∀ s ts, NoFormatError (body s ts)) (fuel : Nat) (indef : Bool) (n_elems : Nat)
    (s : σ) (ts : List Tok) : NoFormatError (container_loop body fuel indef n_elems s ts) := by
  induction fuel generalizing n_elems s ts with
  | zero =>
    intro w
    simp [container_loop]
  | succ fuel ih =>
    intro w
    cases indef with
    | true =>
      cases ts with
      | nil => simp [container_loop]
      | cons t ts =>
        cases t <;> simp only [container_loop]
        case brk => simp
        all_goals
          split
          · exact ih _ _ _ w
          · rename_i e he
            intro h
            simp only [Except.error.injEq] at h
            subst h
            exact hbody _ _ w he
    | false =>
      simp only [container_loop]
      split
      · split
        · exact ih _ _ _ w
        · rename_i e he
          intro h
          simp only [Except.error.injEq] at h
          subst h
          exact hbody _ _ w he
      · simp

theorem readMapHeader_no_format (ts : List Tok) : NoFormatError (readMapHeader ts) := by
  intro w
  unfold readMapHeader
  split <;> simp

theorem readArrayHeader_no_format (ts : List Tok) : NoFormatError (readArrayHeader ts) := by
  intro w
  unfold readArrayHeader
  split <;> simp

theorem read_map_no_format {σ : Type} (body : σ → List Tok → Res σ)
    (hbody : ∀ s ts, NoFormatError (body s ts)) (s : σ) (ts : List Tok) :
    NoFormatError (read_map body s ts) := by
  intro w
  unfold read_map
  split
  · rename_i e he
    intro h
    simp only [Except.error.injEq] at h
    subst h
    exact readMapHeader_no_format ts w he
  · exact container_loop_no_format body hbody _ _ _ _ _ w

theorem read_array_no_format {σ : Type} (body : σ → List Tok → Res σ)
    (hbody : ∀ s ts, NoFormatError (body s ts)) (s : σ) (ts : List Tok) :
    NoFormatError (read_array body s ts) := by
  intro w
  unfold read_array
  split
  · rename_i e he
    intro h
    simp only [Except.error.injEq] at h
    subst h
    exact readArrayHeader_no_format ts w he
  · exact container_loop_no_format body hbody _ _ _ _ _ w

theorem class_type_entry_no_format (fields : FileVersionFields) (s : ClassType)
    (ts : List Tok) : NoFormatError (ClassType.read_entry fields s ts) := by
  intro w h
  have h1 := read_unsigned_no_format
  have h2 := skip_no_format
  unfold NoFormatError at h1 h2
  unfold ClassType.read_entry at h
  repeat' split at h
  all_goals simp_all

theorem question_entry_no_format (fields : FileVersionFields) (s : Question)
    (ts : List Tok) : NoFormatError (Question.read_entry fields s ts) := by
  intro w h
  have h1 := read_unsigned_no_format
  have h2 := skip_no_format
  unfold NoFormatError at h1 h2
  unfold Question.read_entry at h
  repeat' split at h
  all_goals simp_all

theorem rr_entry_no_format (fields : FileVersionFields) (s : ResourceRecord)
    (ts : List Tok) : NoFormatError (ResourceRecord.read_entry fields s ts) := by
  intro w h
  have h1 := read_unsigned_no_format
  have h2 := skip_no_format
  unfold NoFormatError at h1 h2
  unfold ResourceRecord.read_entry at h
  repeat' split at h
  all_goals simp_all

theorem signature_entry_no_format (fields : FileVersionFields) (s : QuerySignature)
    (ts : List Tok) : NoFormatError (QuerySignature.read_entry fields s ts) := by
  intro w h
  have h1 := read_unsigned_no_format
  have h2 := skip_no_format
  unfold NoFormatError at h1 h2
  unfold QuerySignature.read_entry at h
  repeat' split at h
  all_goals simp_all

theorem address_event_entry_no_format (fields : FileVersionFields) (s : AddressEventCount)
    (ts : List Tok) : NoFormatError (AddressEventCount.read_entry fields s ts) := by
  intro w h
  have h1 := read_unsigned_no_format
  have h2 := skip_no_format
  unfold NoFormatError at h1 h2
  unfold AddressEventCount.read_entry at h
  repeat' split at h
  all_goals simp_all

theorem index_element_no_format (index_bits : Nat) (s : IndexVectorItem) (ts : List Tok) :
    NoFormatError (IndexVectorItem.read_element index_bits s ts) := by
  intro w h
  have h1 := read_unsigned_no_format
  unfold NoFormatError at h1
  unfold IndexVectorItem.read_element at h
  repeat' split at h
  all_goals simp_all

theorem extra_info_entry_no_format (fields : FileVersionFields) (s : QueryResponseExtraInfo)
    (ts : List Tok) : NoFormatError (readExtraInfo_entry fields s ts) := by
  intro w h
  have h1 := read_unsigned_no_format
  have h2 := skip_no_format
  unfold NoFormatError at h1 h2
  unfold readExtraInfo_entry at h
  repeat' split at h
  all_goals simp_all

theorem extra_info_no_format (fields : FileVersionFields) (ts : List Tok) :
    NoFormatError (readExtraInfo fields ts) :=
  read_map_no_format _ (extra_info_entry_no_format fields) _ ts

theorem query_response_entry_no_format (fields : FileVersionFields) (ticks : Nat)
    (earliest_time : Int) (s : QueryResponseItem) (ts : List Tok) :
    NoFormatError (QueryResponseItem.read_entry fields ticks earliest_time s ts) := by
  intro w h
  have h1 := read_unsigned_no_format
  have h2 := skip_no_format
  have h3 := read_signed_no_format
  have h4 := extra_info_no_format fields
  unfold NoFormatError at h1 h2 h3 h4
  unfold QueryResponseItem.read_entry at h
  repeat' split at h
  all_goals simp_all

/-- What the handler does to the result of the body of the `try` block. -/
theorem catch_rewraps {α : Type} (what : String) (body : Except Err α)
    (hbody : NoFormatError body) :
    RewrapsLogicError what body (catch_logic_error what body) := by
  refine ⟨?_, ?_, ?_⟩
  · unfold catch_logic_error
    split <;> simp_all
  · intro h
    rw [h]
    rfl
  · intro w h
    unfold catch_logic_error at h
    split at h
    · simp only [Except.error.injEq, Err.cbor_file_format_error.injEq] at h
      exact h.symm
    · exact absurd h (hbody w)

/-- The handler lets every error but the logic error through as it is. -/
theorem catch_passes {α : Type} (what : String) (body : Except Err α) (e : Err)
    (he : e = .cbor_end_of_input ∨ e = .cbor_decode_error) :
    catch_logic_error what body = .error e ↔ body = .error e := by
  unfold catch_logic_error
  rcases he with rfl | rfl <;> split <;> simp_all

/-- C14: for each of the nine structures, on every input: `readCbor` never
fails with the raw logic error; whenever the body of its `try` block (a
stream primitive in it, also inside the nested extended-info maps of a
QueryResponseItem) signals a logic error, `readCbor` fails with the format
error carrying the structure's own message; and a format error that leaves
`readCbor` carries that message.  The last part is not stated for
IPAddressItem, whose external address constructor is free to throw anything.
The closing examples are a wrong item type at the header, at a key, at a
value and inside a nested extended-info map. -/
theorem C14_logic_error_rewrapped (fields : FileVersionFields) (index_bits ticks : Nat)
    (earliest_time : Int) (IPAddress : List Nat → Except Err (List Nat)) (dec : List Tok) :
    (∀ self : IndexVectorItem,
      RewrapsLogicError "Unexpected CBOR item reading index"
        (read_array (IndexVectorItem.read_element index_bits) self dec)
        (IndexVectorItem.readCbor index_bits self dec))
    ∧ (∀ self : ByteStringItem,
        ByteStringItem.readCbor self dec ≠ .error .logic_error
        ∧ (read_binary dec = .error .logic_error →
            ByteStringItem.readCbor self dec
              = .error (.cbor_file_format_error "Unexpected CBOR item reading string"))
        ∧ ∀ w, ByteStringItem.readCbor self dec = .error (.cbor_file_format_error w) →
            w = "Unexpected CBOR item reading string")
    ∧ (∀ self : IPAddressItem,
        IPAddressItem.readCbor IPAddress self dec ≠ .error .logic_error
        ∧ (read_binary dec = .error .logic_error →
            IPAddressItem.readCbor IPAddress self dec
              = .error (.cbor_file_format_error "Unexpected CBOR item reading IP address")))
    ∧ (∀ self : ClassType,
        RewrapsLogicError "Unexpected CBOR item reading ClassType"
          (read_map (ClassType.read_entry fields) self dec)
          (ClassType.readCbor fields self dec))
    ∧ (∀ self : Question,
        RewrapsLogicError "Unexpected CBOR item reading Question"
          (read_map (Question.read_entry fields) self dec)
          (Question.readCbor fields self dec))
    ∧ (∀ self : ResourceRecord,
        RewrapsLogicError "Unexpected CBOR item reading ResourceRecord"
          (read_map (ResourceRecord.read_entry fields) self dec)
          (ResourceRecord.readCbor fields self dec))
    ∧ (∀ self : QuerySignature,
        RewrapsLogicError "Unexpected CBOR item reading QuerySignature"
          (read_map (QuerySignature.read_entry fields) self dec)
          (QuerySignature.readCbor fields self dec))
    ∧ (∀ self : QueryResponseItem,
        RewrapsLogicError "Unexpected CBOR item reading QueryResponseItem"
          (read_map (QueryResponseItem.read_entry fields ticks earliest_time)
            { self with qr_flags := 0 } dec)
          (QueryResponseItem.readCbor fields ticks earliest_time self dec))
    ∧ (∀ self : AddressEventCount,
        RewrapsLogicError "Unexpected CBOR item reading AddressEvent"
          (read_map (AddressEventCount.read_entry fields)
            { self with aei := { self.aei with code := 0 } } dec)
          (AddressEventCount.readCbor fields self dec))
    ∧ IndexVectorItem.readCbor 32 { vec := [] } [.arr (some 2), .uint 1, .text [120]]
        = .error (.cbor_file_format_error "Unexpected CBOR item reading index")
    ∧ ClassType.readCbor sample_fields { qtype := 0, qclass := 0 } [.arr (some 2), .uint 0]
        = .error (.cbor_file_format_error "Unexpected CBOR item reading ClassType")
    ∧ Question.readCbor sample_fields { qname := 0, classtype := 0 }
          [.map (some 1), .text [120], .uint 0]
        = .error (.cbor_file_format_error "Unexpected CBOR item reading Question")
    ∧ QueryResponseItem.readCbor sample_fields 1000 0 sample_stale_item
          [.map none, .uint 5, .nint 3, .brk]
        = .error (.cbor_file_format_error "Unexpected CBOR item reading QueryResponseItem")
    ∧ QueryResponseItem.readCbor sample_fields 1000 0 sample_stale_item
          [.map (some 1), .uint 10, .map (some 1), .uint 0, .bytes [1]]
        = .error (.cbor_file_format_error "Unexpected CBOR item reading QueryResponseItem")
    ∧ AddressEventCount.readCbor sample_fields
          { aei := { type := 0, code := 0, address := 0 }, count := 0 }
          [.map (some 1), .uint 3, .text [120]]
        = .error (.cbor_file_format_error "Unexpected CBOR item reading AddressEvent") := by
  refine ⟨?_, ?_, ?_, ?_, ?_, ?_, ?_, ?_, ?_, rfl, rfl, rfl, rfl, rfl, rfl⟩
  · intro self
    exact catch_rewraps _ _ (read_array_no_format _ (index_element_no_format index_bits) _ _)
  · intro self
    have hb : NoFormatError (match read_binary dec with
        | .error e => (.error e : Res ByteStringItem)
        | .ok (b, dec) => .ok ({ self with str := b }, dec)) := by
      intro w h
      have h1 := read_binary_no_format
      unfold NoFormatError at h1
      split at h <;> simp_all
    have hc := catch_rewraps "Unexpected CBOR item reading string" _ hb
    refine ⟨hc.1, ?_, hc.2.2⟩
    intro hl
    unfold ByteStringItem.readCbor
    rw [hl]
    rfl
  · intro self
    refine ⟨?_, ?_⟩
    · unfold IPAddressItem.readCbor catch_logic_error
      split <;> simp_all
    · intro hl
      unfold IPAddressItem.readCbor
      rw [hl]
      rfl
  · intro self
    exact catch_rewraps _ _ (read_map_no_format _ (class_type_entry_no_format fields) _ _)
  · intro self
    exact catch_rewraps _ _ (read_map_no_format _ (question_entry_no_format fields) _ _)
  · intro self
    exact catch_rewraps _ _ (read_map_no_format _ (rr_entry_no_format fields) _ _)
  · intro self
    exact catch_rewraps _ _ (read_map_no_format _ (signature_entry_no_format fields) _ _)
  · intro self
    exact catch_rewraps _ _
      (read_map_no_format _ (query_response_entry_no_format fields ticks earliest_time) _ _)
  · intro self
    exact catch_rewraps _ _
      (read_map_no_format _ (address_event_entry_no_format fields) _ _)

/-! ## The block level has no handler -/

/-- C15: the code at the failing inputs.  A wrong item type at block level
reaches the caller of `BlockData::readCbor` as the raw logic error: a text
string as a key of the block map, of the preamble map, of the tables map and
of the statistics map, a text string as a statistics counter, and an unsigned
integer as the earliest time.  A wrong item type inside a nested structure of
the same block (an item of the queries array) comes out as the format error. -/
theorem C15_block_level_logic_error_escapes :
    BlockData.readCbor sample_fields 1000 sample_stale_item sample_env empty_block
        [.map (some 1), .text [120], .uint 0] = .error .logic_error
    ∧ BlockData.readCbor sample_fields 1000 sample_stale_item sample_env empty_block
        [.map (some 1), .uint 0, .map (some 1), .text [120], .uint 0] = .error .logic_error
    ∧ BlockData.readCbor sample_fields 1000 sample_stale_item sample_env empty_block
        [.map (some 1), .uint 2, .map (some 1), .text [120], .uint 0] = .error .logic_error
    ∧ BlockData.readCbor sample_fields 1000 sample_stale_item sample_env empty_block
        [.map (some 1), .uint 1, .map (some 1), .text [120], .uint 0] = .error .logic_error
    ∧ BlockData.readCbor sample_fields 1000 sample_stale_item sample_env empty_block
        [.map (some 1), .uint 1, .map (some 1), .uint 0, .text [120]] = .error .logic_error
    ∧ BlockData.readCbor sample_fields 1000 sample_stale_item sample_env empty_block
        [.map (some 1), .uint 0, .map (some 1), .uint 0, .uint 5] = .error .logic_error
    ∧ BlockData.readCbor sample_fields 1000 sample_stale_item sample_env empty_block
        [.map (some 1), .uint 3, .arr (some 1), .map (some 1), .uint 5, .text [120]]
      = .error (.cbor_file_format_error "Unexpected CBOR item reading QueryResponseItem") :=
  ⟨rfl, rfl, rfl, rfl, rfl, rfl, rfl⟩

/-! ## The hash of a signature -/

/-- C17 (as stated) fails: the default-initialised signature and the signature
that differs from it only in `query_rcode` (5 against 0, with `QUERY_ONLY`
clear) are different values with the same hash. -/
theorem C17_inapplicable_member_not_hashed :
    QuerySignature.hash_value boost_hash signature_rcode_without_query
      = QuerySignature.hash_value boost_hash QuerySignature.default_initialised
    ∧ signature_rcode_without_query ≠ QuerySignature.default_initialised
    ∧ signature_rcode_without_query.qr_flags &&& QUERY_ONLY = 0
    ∧ signature_rcode_without_query.query_rcode
        ≠ QuerySignature.default_initialised.query_rcode :=
  ⟨by decide, by decide, by decide, by decide⟩

/-- C17 (amended): two signatures with the same `qr_flags` that are equal in
the members always hashed and in every member applicable under those flags
(`query_classtype` under `QR_HAS_QUESTION`, the five query members under
`QUERY_ONLY`, `response_rcode` under `RESPONSE_ONLY`, the three EDNS members
under `QUERY_HAS_OPT`) have the same hash, whatever their other members
hold. -/
theorem C17_hash_of_applicable_members (boost : BoostHash) (a b : QuerySignature)
    (hflags : a.qr_flags = b.qr_flags)
    (haddr : a.server_address = b.server_address) (hport : a.server_port = b.server_port)
    (htr : a.transport_flags = b.transport_flags) (hdns : a.dns_flags = b.dns_flags)
    (hqd : a.qdcount = b.qdcount)
    (hquestion : a.qr_flags &&& QR_HAS_QUESTION ≠ 0 → a.query_classtype = b.query_classtype)
    (hquery : a.qr_flags &&& QUERY_ONLY ≠ 0 →
      a.query_rcode = b.query_rcode ∧ a.query_opcode = b.query_opcode
      ∧ a.query_ancount = b.query_ancount ∧ a.query_nscount = b.query_nscount
      ∧ a.query_arcount = b.query_arcount)
    (hresponse : a.qr_flags &&& RESPONSE_ONLY ≠ 0 → a.response_rcode = b.response_rcode)
    (hopt : a.qr_flags &&& QUERY_HAS_OPT ≠ 0 →
      a.query_edns_version = b.query_edns_version
      ∧ a.query_edns_payload_size = b.query_edns_payload_size
      ∧ a.query_opt_rdata = b.query_opt_rdata) :
    QuerySignature.hash_value boost a = QuerySignature.hash_value boost b := by
  unfold QuerySignature.hash_value
  rw [← hflags, ← haddr, ← hport, ← htr, ← hdns, ← hqd]
  by_cases hH : a.qr_flags &&& QR_HAS_QUESTION = 0 <;>
  by_cases hQ : a.qr_flags &&& QUERY_ONLY = 0 <;>
  by_cases hO : a.qr_flags &&& QUERY_HAS_OPT = 0 <;>
  by_cases hR : a.qr_flags &&& RESPONSE_ONLY = 0 <;>
  simp_all

/-- C17 (amended) at the two signatures of the counterexample: they agree in
every applicable member, so their hashes agree. -/
theorem C17_hash_of_applicable_members_witness :
    QuerySignature.hash_value boost_hash signature_rcode_without_query
      = QuerySignature.hash_value boost_hash QuerySignature.default_initialised :=
  C17_hash_of_applicable_members boost_hash signature_rcode_without_query
    QuerySignature.default_initialised rfl rfl rfl rfl rfl rfl
    (fun h => absurd (by decide) h) (fun h => absurd (by decide) h)
    (fun h => absurd (by decide) h) (fun h => absurd (by decide) h)

/-! ## The flags of a signature -/

/-- C20 (as stated) fails on all three counts: the map written for the sample
signature holds its flags (15) under the signature-flags key (4); decoding a
map with that key stores the value in `qr_flags`; and two signatures that
differ only in `qr_flags` are written differently. -/
theorem C20_flags_are_a_member :
    QuerySignature.writeCbor sample_index sample_signature
      = [.map none, .uint 0, .uint 1, .uint 1, .uint 53, .uint 2, .uint 2, .uint 3, .uint 17,
         .uint 4, .uint 15, .uint 5, .uint 1, .uint 6, .uint 2, .uint 7, .uint 0, .uint 8,
         .uint 0, .uint 9, .uint 0, .uint 10, .uint 1, .uint 11, .uint 0, .uint 12, .uint 0,
         .uint 13, .uint 4096, .uint 14, .uint 3, .uint 15, .uint 3, .brk]
    ∧ sample_index.find_query_signature_index .qr_sig_flags = 4
    ∧ sample_signature.qr_flags = 15
    ∧ QuerySignature.readCbor sample_fields QuerySignature.default_initialised
        [.map (some 1), .uint 4, .uint 9]
      = .ok ({ QuerySignature.default_initialised with qr_flags := 9 }, [])
    ∧ QuerySignature.writeCbor sample_index
        { QuerySignature.default_initialised with qr_flags := QUERY_ONLY }
      ≠ QuerySignature.writeCbor sample_index QuerySignature.default_initialised :=
  ⟨by decide, rfl, rfl, rfl, by decide⟩

/-- C20 (amended): the flags that drive the conditional encoding are the
member `qr_flags` of the signature itself.  `writeCbor` takes the signature
alone and always writes `qr_flags` under the signature-flags key, as the
fifth entry of the map; `readCbor` stores the value it finds under that key
in `qr_flags`; and decoding what `writeCbor` wrote gives back the flags of
the signature written, whatever the object decoded into. -/
theorem C20_flags_written_and_read (cur : CurrentIndex) (fields : FileVersionFields)
    (h : Resolves cur fields) (x self : QuerySignature) (key v : Nat) (indef : Bool)
    (rest : List Tok) (hkey : fields.query_signature_field key = .qr_sig_flags) :
    (∃ tl, QuerySignature.writeCbor cur x
        = .map none
          :: .uint (cur.find_query_signature_index .server_address_index)
          :: .uint x.server_address
          :: .uint (cur.find_query_signature_index .server_port) :: .uint x.server_port
          :: .uint (cur.find_query_signature_index .transport_flags)
          :: .uint x.transport_flags
          :: .uint (cur.find_query_signature_index .qr_dns_flags) :: .uint x.dns_flags
          :: .uint (cur.find_query_signature_index .qr_sig_flags) :: .uint x.qr_flags :: tl)
    ∧ QuerySignature.readCbor fields self (wire_map indef [[.uint key, .uint v]] ++ rest)
        = .ok ({ self with qr_flags := v }, rest)
    ∧ ∃ y, QuerySignature.readCbor fields self (QuerySignature.writeCbor cur x ++ rest)
          = .ok (y, rest)
        ∧ y.qr_flags = x.qr_flags := by
  refine ⟨⟨(QuerySignature.writeCbor cur x).drop 11, ?_⟩, ?_,
    _, query_signature_round_trip cur fields h x self rest, rfl⟩
  · unfold QuerySignature.writeCbor
    simp only [List.cons_append, List.drop_succ_cons, List.drop_zero]
  · cases indef <;>
      simp [QuerySignature.readCbor, QuerySignature.read_entry, wire_map, read_map,
        readMapHeader, container_loop, read_unsigned, hkey, catch_logic_error]

/-- C20 (amended) at the sample mapping: the sample signature is written with
its flags 15 under key 4 and decodes back with flags 15. -/
theorem C20_flags_written_and_read_witness :
    Resolves sample_index sample_fields
    ∧ sample_fields.query_signature_field 4 = .qr_sig_flags
    ∧ QuerySignature.readCbor sample_fields sample_signature
        (wire_map true [[.uint 4, .uint 9]] ++ [])
      = .ok ({ sample_signature with qr_flags := 9 }, [])
    ∧ ∃ y, QuerySignature.readCbor sample_fields QuerySignature.default_initialised
          (QuerySignature.writeCbor sample_index sample_signature ++ []) = .ok (y, [])
        ∧ y.qr_flags = 15 :=
  ⟨sample_resolves, rfl,
    (C20_flags_written_and_read sample_index sample_fields sample_resolves sample_signature
      sample_signature 4 9 true [] rfl).2.1,
    (C20_flags_written_and_read sample_index sample_fields sample_resolves sample_signature
      QuerySignature.default_initialised 4 9 true [] rfl).2.2⟩

/-! ## Blocks: what the decoders make of them -/

theorem read_time_toks (ticks secs usecs : Nat) (rest : List Tok) :
    read_time ticks ((PreambleValue.time secs usecs).toks ++ rest)
      = .ok (time_of ticks secs usecs, rest) := by
  simp [read_time, PreambleValue.toks, readArrayHeader, read_unsigned, time_of]

theorem preamble_entry_toks (fields : FileVersionFields) (ticks : Nat) (e : PreambleEntry)
    (he : PreambleEntry.WellTyped fields e) (s : BlockData) (rest : List Tok) :
    BlockData.readBlockPreamble_entry fields ticks s (e.toks ++ rest)
      = .ok (PreambleEntry.apply fields ticks s e, rest) := by
  obtain ⟨key, v⟩ := e
  unfold PreambleEntry.WellTyped at he
  simp only [BlockData.readBlockPreamble_entry, PreambleEntry.toks, PreambleEntry.apply,
    List.cons_append, read_unsigned]
  cases hf : fields.block_preamble_field key <;> cases v <;>
    simp_all [read_time_toks, Skippable]

theorem preamble_toks_head (e : PreambleEntry) : ∃ t ts, e.toks = t :: ts ∧ t ≠ .brk :=
  ⟨.uint e.1, e.2.toks, rfl, by simp⟩

/-- Reading a well-typed preamble map, in either form. -/
theorem preamble_wire_map (fields : FileVersionFields) (ticks : Nat) (self : BlockData)
    (indef : Bool) (es : List PreambleEntry)
    (hes : ∀ e ∈ es, PreambleEntry.WellTyped fields e) (rest : List Tok) :
    BlockData.readBlockPreamble fields ticks self
        (wire_map indef (es.map PreambleEntry.toks) ++ rest)
      = .ok (es.foldl (PreambleEntry.apply fields ticks) self, rest) :=
  read_wire_map (BlockData.readBlockPreamble_entry fields ticks)
    (PreambleEntry.apply fields ticks) PreambleEntry.toks es
    (fun e he s rest => preamble_entry_toks fields ticks e (hes e he) s rest)
    (fun e _ => preamble_toks_head e) indef self rest

theorem foldl_push_decoded {ε T : Type} (decode : ε → T) (es : List ε) (s : List T) :
    es.foldl (fun (s : List T) e => s ++ [decode e]) s = s ++ es.map decode := by
  induction es generalizing s with
  | nil => simp
  | cons e es ih => simp [List.foldl_cons, ih, List.append_assoc]

/-- Reading a table: an array, in either form, of items that the item decoder
accepts; the decoded items are appended to the table. -/
theorem header_list_wire_array {ε T : Type} (item_readCbor : T → List Tok → Res T)
    (fresh : T) (tok : ε → List Tok) (decode : ε → T) (es : List ε)
    (hitem : ∀ e ∈ es, ∀ rest, item_readCbor fresh (tok e ++ rest) = .ok (decode e, rest))
    (hne : ∀ e ∈ es, ∃ t ts, tok e = t :: ts ∧ t ≠ .brk)
    (indef : Bool) (self : List T) (rest : List Tok) :
    HeaderList.readCbor item_readCbor fresh self (wire_array indef (es.map tok) ++ rest)
      = .ok (self ++ es.map decode, rest) := by
  unfold HeaderList.readCbor
  rw [read_wire_array (HeaderList.read_item item_readCbor fresh)
    (fun (s : List T) e => s ++ [decode e]) tok es
    (fun e he s rest => by simp [HeaderList.read_item, hitem e he rest])
    hne indef self rest, foldl_push_decoded]

theorem wire_map_head (indef : Bool) (groups : List (List Tok)) :
    ∃ t ts, wire_map indef groups = t :: ts ∧ t ≠ .brk := by
  cases indef
  · exact ⟨_, _, rfl, by simp⟩
  · exact ⟨_, _, rfl, by simp⟩

theorem wire_array_head (indef : Bool) (groups : List (List Tok)) :
    ∃ t ts, wire_array indef groups = t :: ts ∧ t ≠ .brk := by
  cases indef
  · exact ⟨_, _, rfl, by simp⟩
  · exact ⟨_, _, rfl, by simp⟩

theorem byte_string_toks (self : ByteStringItem) (b : List Nat) (rest : List Tok) :
    ByteStringItem.readCbor self ([.bytes b] ++ rest) = .ok ({ str := b }, rest) := by
  simp [ByteStringItem.readCbor, read_binary, catch_logic_error]

theorem ip_address_toks (env : TableEnv) (self : IPAddressItem) (b : List Nat)
    (hb : ∃ a, env.IPAddress b = .ok a) (rest : List Tok) :
    IPAddressItem.readCbor env.IPAddress self ([.bytes b] ++ rest)
      = .ok (address_of env b, rest) := by
  obtain ⟨a, ha⟩ := hb
  simp [IPAddressItem.readCbor, read_binary, catch_logic_error, ha, address_of]

theorem table_entry_toks (fields : FileVersionFields) (env : TableEnv) (e : TableEntry)
    (he : TableEntry.WellTyped fields env e) (s : BlockData) (rest : List Tok) :
    BlockData.readHeaders_entry fields env s (e.toks ++ rest)
      = .ok (TableEntry.apply fields env s e, rest) := by
  obtain ⟨key, v⟩ := e
  unfold TableEntry.WellTyped at he
  simp only [BlockData.readHeaders_entry, TableEntry.toks, TableEntry.apply,
    List.cons_append, read_unsigned]
  cases hf : fields.block_tables_field key <;> cases v <;>
    simp only [hf] at he ⊢ <;> try exact he.elim
  case ip_address.byte_strings indef items =>
    simp only [TableValue.toks]
    rw [header_list_wire_array (IPAddressItem.readCbor env.IPAddress) { addr := [] }
      (fun b => [.bytes b]) (address_of env) items
      (fun b hb rest => ip_address_toks env _ b (he b hb) rest)
      (fun b _ => ⟨_, _, rfl, by simp⟩)]
  case name_rdata.byte_strings indef items =>
    simp only [TableValue.toks]
    rw [header_list_wire_array ByteStringItem.readCbor { str := [] }
      (fun b => [.bytes b]) (fun b => { str := b }) items
      (fun b _ rest => byte_string_toks _ b rest)
      (fun b _ => ⟨_, _, rfl, by simp⟩)]
  case classtype.maps indef items =>
    simp only [TableValue.toks]
    rw [header_list_wire_array (ClassType.readCbor fields) env.fresh_class_type
      WireMap.toks (fun m => m.2.foldl (ClassTypeEntry.apply fields) env.fresh_class_type)
      items
      (fun m hm rest => class_type_wire_map fields _ m.1 m.2 (he m hm) rest)
      (fun m _ => wire_map_head _ _)]
  case query_signature.maps indef items =>
    simp only [TableValue.toks]
    rw [header_list_wire_array (QuerySignature.readCbor fields) env.fresh_query_signature
      WireMap.toks
      (fun m => m.2.foldl (SignatureEntry.apply fields) env.fresh_query_signature) items
      (fun m hm rest => signature_wire_map fields _ m.1 m.2 (he m hm) rest)
      (fun m _ => wire_map_head _ _)]
  case question_rr.maps indef items =>
    simp only [TableValue.toks]
    rw [header_list_wire_array (Question.readCbor fields) env.fresh_question
      WireMap.toks (fun m => m.2.foldl (QuestionEntry.apply fields) env.fresh_question)
      items
      (fun m hm rest => question_wire_map fields _ m.1 m.2 (he m hm) rest)
      (fun m _ => wire_map_head _ _)]
  case rr.maps indef items =>
    simp only [TableValue.toks]
    rw [header_list_wire_array (ResourceRecord.readCbor fields) env.fresh_resource_record
      WireMap.toks (fun m => m.2.foldl (RREntry.apply fields) env.fresh_resource_record)
      items
      (fun m hm rest => rr_wire_map fields _ m.1 m.2 (he m hm) rest)
      (fun m _ => wire_map_head _ _)]
  case question_list.index_vectors indef items =>
    simp only [TableValue.toks]
    rw [header_list_wire_array (IndexVectorItem.readCbor env.index_bits) { vec := [] }
      WireIndexes.toks (fun v => { vec := v.2.map (to_index_t env.index_bits) }) items
      (fun v _ rest => by
        simp only [WireIndexes.toks]
        rw [index_vector_wire_array]
        rfl)
      (fun v _ => wire_array_head _ _)]
  case rr_list.index_vectors indef items =>
    simp only [TableValue.toks]
    rw [header_list_wire_array (IndexVectorItem.readCbor env.index_bits) { vec := [] }
      WireIndexes.toks (fun v => { vec := v.2.map (to_index_t env.index_bits) }) items
      (fun v _ rest => by
        simp only [WireIndexes.toks]
        rw [index_vector_wire_array]
        rfl)
      (fun v _ => wire_array_head _ _)]
  all_goals
    simp only [Skippable] at he
    simp [he]

theorem table_toks_head (e : TableEntry) : ∃ t ts, e.toks = t :: ts ∧ t ≠ .brk :=
  ⟨.uint e.1, e.2.toks, rfl, by simp⟩

/-- Reading a well-typed tables map, in either form. -/
theorem headers_wire_map (fields : FileVersionFields) (env : TableEnv) (self : BlockData)
    (indef : Bool) (es : List TableEntry)
    (hes : ∀ e ∈ es, TableEntry.WellTyped fields env e) (rest : List Tok) :
    BlockData.readHeaders fields env self (wire_map indef (es.map TableEntry.toks) ++ rest)
      = .ok (es.foldl (TableEntry.apply fields env) self, rest) :=
  read_wire_map (BlockData.readHeaders_entry fields env) (TableEntry.apply fields env)
    TableEntry.toks es
    (fun e he s rest => table_entry_toks fields env e (hes e he) s rest)
    (fun e _ => table_toks_head e) indef self rest

theorem foldl_assign_counts (fields : FileVersionFields) (ms : List WireMap) (s : BlockData) :
    ms.foldl (fun (s : BlockData) (m : WireMap) =>
        { s with
          address_event_counts :=
            assign_count s.address_event_counts (address_event_of fields m).aei
              (address_event_of fields m).count }) s
      = { s with
          address_event_counts :=
            ms.foldl (fun counts m =>
                assign_count counts (address_event_of fields m).aei
                  (address_event_of fields m).count)
              s.address_event_counts } := by
  induction ms generalizing s with
  | nil => rfl
  | cons m ms ih => simp [List.foldl_cons, ih]

/-- Reading an array of well-typed AddressEventCount maps, in either form:
each count is assigned to its event, in the order of the array. -/
theorem address_events_wire_array (fields : FileVersionFields) (self : BlockData)
    (indef : Bool) (ms : List WireMap)
    (hms : ∀ m ∈ ms, ∀ e ∈ m.2, AddressEventEntry.WellTyped fields e) (rest : List Tok) :
    BlockData.readAddressEventCounts fields self
        (wire_array indef (ms.map WireMap.toks) ++ rest)
      = .ok ({ self with
                address_event_counts :=
                  ms.foldl (fun counts m =>
                      assign_count counts (address_event_of fields m).aei
                        (address_event_of fields m).count)
                    self.address_event_counts }, rest) := by
  unfold BlockData.readAddressEventCounts
  rw [read_wire_array (BlockData.readAddressEventCounts_element fields)
    (fun (s : BlockData) (m : WireMap) =>
      { s with
        address_event_counts :=
          assign_count s.address_event_counts (address_event_of fields m).aei
            (address_event_of fields m).count })
    WireMap.toks ms
    (fun m hm s rest => by
      simp only [BlockData.readAddressEventCounts_element, WireMap.toks]
      rw [address_event_wire_map fields _ m.1 m.2 (hms m hm) rest]
      rfl)
    (fun m _ => wire_map_head _ _) indef self rest, foldl_assign_counts]

theorem block_entry_toks (fields : FileVersionFields) (ticks : Nat)
    (fresh : QueryResponseItem) (env : TableEnv) (e : BlockEntry)
    (he : BlockEntry.WellTyped fields env e) (s : BlockData) (rest : List Tok) :
    BlockData.readCbor_entry fields ticks fresh env s (e.toks ++ rest)
      = .ok (BlockEntry.apply fields ticks fresh env s e, rest) := by
  obtain ⟨key, v⟩ := e
  unfold BlockEntry.WellTyped at he
  simp only [BlockData.readCbor_entry, BlockEntry.toks, BlockEntry.apply, List.cons_append,
    read_unsigned]
  cases hf : fields.block_field key <;> cases v <;>
    simp only [hf] at he ⊢ <;> try exact he.elim
  case preamble.preamble indef es =>
    exact preamble_wire_map fields ticks s indef es he rest
  case statistics.statistics indef es =>
    exact stats_wire_map fields s indef es he rest
  case tables.tables indef es =>
    exact headers_wire_map fields env s indef es he rest
  case queries.queries indef ms =>
    exact items_wire_array fields ticks fresh s indef ms he rest
  case address_event_counts.address_events indef ms =>
    exact address_events_wire_array fields s indef ms he rest
  all_goals
    simp only [Skippable] at he
    simp [he]

theorem block_toks_head (e : BlockEntry) : ∃ t ts, e.toks = t :: ts ∧ t ≠ .brk :=
  ⟨.uint e.1, e.2.toks, rfl, by simp⟩

/-- Reading a well-typed block map, in either form: the entries are applied to
the block in the order of the map. -/
theorem block_wire_map (fields : FileVersionFields) (ticks : Nat)
    (fresh : QueryResponseItem) (env : TableEnv) (self : BlockData) (indef : Bool)
    (es : List BlockEntry) (hes : ∀ e ∈ es, BlockEntry.WellTyped fields env e)
    (rest : List Tok) :
    BlockData.readCbor fields ticks fresh env self
        (wire_map indef (es.map BlockEntry.toks) ++ rest)
      = .ok (es.foldl (BlockEntry.apply fields ticks fresh env) self, rest) :=
  read_wire_map (BlockData.readCbor_entry fields ticks fresh env)
    (BlockEntry.apply fields ticks fresh env) BlockEntry.toks es
    (fun e he s rest => block_entry_toks fields ticks fresh env e (hes e he) s rest)
    (fun e _ => block_toks_head e) indef self rest

theorem sample_block_map_well_typed :
    ∀ e ∈ sample_block_map, BlockEntry.WellTyped sample_fields sample_env e := by
  intro e he
  simp only [sample_block_map, List.mem_cons, List.mem_singleton, List.not_mem_nil,
    or_false] at he
  rcases he with rfl | rfl | rfl | rfl | rfl | rfl
  · intro x hx
    simp only [List.mem_singleton] at hx
    subst hx
    exact True.intro
  · intro x hx
    simp only [List.mem_singleton] at hx
    subst hx
    exact True.intro
  · intro x hx
    simp only [List.mem_cons, List.mem_singleton, List.not_mem_nil, or_false] at hx
    rcases hx with rfl | rfl
    · intro m hm y hy
      simp only [List.mem_singleton] at hm
      subst hm
      simp only [List.mem_cons, List.mem_singleton, List.not_mem_nil, or_false] at hy
      rcases hy with rfl | rfl <;> exact True.intro
    · exact True.intro
  · exact sample_query_maps_well_typed
  · intro m hm
    simp only [List.mem_singleton] at hm
    subst hm
    exact sample_address_event_well_typed
  · exact skippable_text _

/-- C19: every map and array decoder of the file, after decoding a well-typed
container, stands exactly at the end of the container.  A definite-length
container is its header and its entries: the decoder stops right behind the
last entry, whatever follows (also a break, which is left unread).  An
indefinite-length container is its header, its entries and its break: the
decoder reads the break and stops right behind it.  The tokens `rest` that
follow the container come back untouched and the decoded value does not
depend on them. -/
theorem C19_decoders_stop_at_container_end (fields : FileVersionFields)
    (index_bits ticks : Nat) (earliest_time : Int) (fresh : QueryResponseItem)
    (env : TableEnv) (indef : Bool) (rest : List Tok) :
    (∀ groups : List (List Tok),
      wire_map false groups = .map (some groups.length) :: groups.flatten
      ∧ wire_map true groups = .map none :: (groups.flatten ++ [.brk])
      ∧ wire_array false groups = .arr (some groups.length) :: groups.flatten
      ∧ wire_array true groups = .arr none :: (groups.flatten ++ [.brk]))
    ∧ (∀ (self : IndexVectorItem) (xs : List Nat),
        IndexVectorItem.readCbor index_bits self
            (wire_array indef (xs.map fun x => [.uint x]) ++ rest)
          = .ok ({ vec := self.vec ++ xs.map (to_index_t index_bits) }, rest))
    ∧ (∀ (self : ClassType) (es : List WireEntry),
        (∀ e ∈ es, ClassTypeEntry.WellTyped fields e) →
        ClassType.readCbor fields self (wire_map indef (es.map WireEntry.toks) ++ rest)
          = .ok (es.foldl (ClassTypeEntry.apply fields) self, rest))
    ∧ (∀ (self : Question) (es : List WireEntry),
        (∀ e ∈ es, QuestionEntry.WellTyped fields e) →
        Question.readCbor fields self (wire_map indef (es.map WireEntry.toks) ++ rest)
          = .ok (es.foldl (QuestionEntry.apply fields) self, rest))
    ∧ (∀ (self : ResourceRecord) (es : List WireEntry),
        (∀ e ∈ es, RREntry.WellTyped fields e) →
        ResourceRecord.readCbor fields self (wire_map indef (es.map WireEntry.toks) ++ rest)
          = .ok (es.foldl (RREntry.apply fields) self, rest))
    ∧ (∀ (self : QuerySignature) (es : List WireEntry),
        (∀ e ∈ es, SignatureEntry.WellTyped fields e) →
        QuerySignature.readCbor fields self (wire_map indef (es.map WireEntry.toks) ++ rest)
          = .ok (es.foldl (SignatureEntry.apply fields) self, rest))
    ∧ (∀ es : List WireEntry,
        (∀ e ∈ es, ExtEntry.WellTyped fields e) →
        readExtraInfo fields (wire_map indef (es.map WireEntry.toks) ++ rest)
          = .ok (ext_of_entries fields es, rest))
    ∧ (∀ (self : QueryResponseItem) (es : List QREntry),
        (∀ e ∈ es, QREntry.WellTyped fields e) →
        QueryResponseItem.readCbor fields ticks earliest_time self
            (wire_map indef (es.map QREntry.toks) ++ rest)
          = .ok (item_of_entries fields ticks earliest_time self es, rest))
    ∧ (∀ (self : AddressEventCount) (es : List WireEntry),
        (∀ e ∈ es, AddressEventEntry.WellTyped fields e) →
        AddressEventCount.readCbor fields self
            (wire_map indef (es.map WireEntry.toks) ++ rest)
          = .ok (es.foldl (AddressEventEntry.apply fields)
              { self with aei := { self.aei with code := 0 } }, rest))
    ∧ (∀ (self : BlockData) (es : List PreambleEntry),
        (∀ e ∈ es, PreambleEntry.WellTyped fields e) →
        BlockData.readBlockPreamble fields ticks self
            (wire_map indef (es.map PreambleEntry.toks) ++ rest)
          = .ok (es.foldl (PreambleEntry.apply fields ticks) self, rest))
    ∧ (∀ (self : BlockData) (es : List TableEntry),
        (∀ e ∈ es, TableEntry.WellTyped fields env e) →
        BlockData.readHeaders fields env self
            (wire_map indef (es.map TableEntry.toks) ++ rest)
          = .ok (es.foldl (TableEntry.apply fields env) self, rest))
    ∧ (∀ (self : BlockData) (es : List WireEntry),
        (∀ e ∈ es, StatEntry.WellTyped fields e) →
        BlockData.readStats fields self (wire_map indef (es.map WireEntry.toks) ++ rest)
          = .ok ({ self with
                    start_packet_statistics := PacketStatistics.zero,
                    last_packet_statistics :=
                      es.foldl (StatEntry.apply fields) self.last_packet_statistics },
                 rest))
    ∧ (∀ (self : BlockData) (ms : List QRMap),
        (∀ m ∈ ms, ∀ e ∈ m.2, QREntry.WellTyped fields e) →
        BlockData.readItems fields ticks fresh self
            (wire_array indef (ms.map QRMap.toks) ++ rest)
          = .ok ({ self with
                    query_response_items := self.query_response_items
                      ++ ms.map (fun m =>
                          item_of_entries fields ticks self.earliest_time fresh m.2) },
                 rest))
    ∧ (∀ (self : BlockData) (ms : List WireMap),
        (∀ m ∈ ms, ∀ e ∈ m.2, AddressEventEntry.WellTyped fields e) →
        BlockData.readAddressEventCounts fields self
            (wire_array indef (ms.map WireMap.toks) ++ rest)
          = .ok ({ self with
                    address_event_counts :=
                      ms.foldl (fun counts m =>
                          assign_count counts (address_event_of fields m).aei
                            (address_event_of fields m).count)
                        self.address_event_counts }, rest))
    ∧ (∀ (self : BlockData) (es : List BlockEntry),
        (∀ e ∈ es, BlockEntry.WellTyped fields env e) →
        BlockData.readCbor fields ticks fresh env self
            (wire_map indef (es.map BlockEntry.toks) ++ rest)
          = .ok (es.foldl (BlockEntry.apply fields ticks fresh env) self, rest)) :=
  ⟨fun _ => ⟨rfl, rfl, rfl, rfl⟩,
    fun self xs => index_vector_wire_array index_bits self indef xs rest,
    fun self es hes => class_type_wire_map fields self indef es hes rest,
    fun self es hes => question_wire_map fields self indef es hes rest,
    fun self es hes => rr_wire_map fields self indef es hes rest,
    fun self es hes => signature_wire_map fields self indef es hes rest,
    fun es hes => readExtraInfo_wire_map fields indef es hes rest,
    fun self es hes => query_response_wire_map fields ticks earliest_time self indef es hes rest,
    fun self es hes => address_event_wire_map fields self indef es hes rest,
    fun self es hes => preamble_wire_map fields ticks self indef es hes rest,
    fun self es hes => headers_wire_map fields env self indef es hes rest,
    fun self es hes => stats_wire_map fields self indef es hes rest,
    fun self ms hms => items_wire_array fields ticks fresh self indef ms hms rest,
    fun self ms hms => address_events_wire_array fields self indef ms hms rest,
    fun self es hes => block_wire_map fields ticks fresh env self indef es hes rest⟩

/-- C19 at the sample mapping.  A definite Question map followed by a break
and an integer: the decoder stops in front of the break.  The same map in the
indefinite form followed by a second break: the decoder reads the map's own
break and stops in front of the second.  The sample block in the definite
form followed by a break, and in the indefinite form followed by an
integer. -/
theorem C19_decoders_stop_at_container_end_witness :
    Question.readCbor sample_fields { qname := 0, classtype := 0 }
        ([.map (some 2), .uint 0, .uint 3, .uint 1, .uint 2] ++ [.brk, .uint 7])
      = .ok ({ qname := 3, classtype := 2 }, [.brk, .uint 7])
    ∧ Question.readCbor sample_fields { qname := 0, classtype := 0 }
        ([.map none, .uint 0, .uint 3, .uint 1, .uint 2, .brk] ++ [.brk])
      = .ok ({ qname := 3, classtype := 2 }, [.brk])
    ∧ (∀ e ∈ sample_block_map, BlockEntry.WellTyped sample_fields sample_env e)
    ∧ BlockData.readCbor sample_fields 1000 sample_stale_item sample_env empty_block
        (wire_map false (sample_block_map.map BlockEntry.toks) ++ [.brk])
      = .ok (sample_block_map.foldl
          (BlockEntry.apply sample_fields 1000 sample_stale_item sample_env) empty_block,
          [.brk])
    ∧ BlockData.readCbor sample_fields 1000 sample_stale_item sample_env empty_block
        (wire_map true (sample_block_map.map BlockEntry.toks) ++ [.uint 7])
      = .ok (sample_block_map.foldl
          (BlockEntry.apply sample_fields 1000 sample_stale_item sample_env) empty_block,
          [.uint 7]) :=
  ⟨(C19_decoders_stop_at_container_end sample_fields 32 1000 0 sample_stale_item sample_env
      false [.brk, .uint 7]).2.2.2.1 { qname := 0, classtype := 0 }
      [(0, .unsigned 3), (1, .unsigned 2)]
      (by intro e he
          simp only [List.mem_cons, List.mem_singleton, List.not_mem_nil, or_false] at he
          rcases he with rfl | rfl <;> exact True.intro),
    (C19_decoders_stop_at_container_end sample_fields 32 1000 0 sample_stale_item sample_env
      true [.brk]).2.2.2.1 { qname := 0, classtype := 0 }
      [(0, .unsigned 3), (1, .unsigned 2)]
      (by intro e he
          simp only [List.mem_cons, List.mem_singleton, List.not_mem_nil, or_false] at he
          rcases he with rfl | rfl <;> exact True.intro),
    sample_block_map_well_typed,
    (C19_decoders_stop_at_container_end sample_fields 32 1000 0 sample_stale_item sample_env
      false [.brk]).2.2.2.2.2.2.2.2.2.2.2.2.2.2 empty_block sample_block_map
      sample_block_map_well_typed,
    (C19_decoders_stop_at_container_end sample_fields 32 1000 0 sample_stale_item sample_env
      true [.uint 7]).2.2.2.2.2.2.2.2.2.2.2.2.2.2 empty_block sample_block_map
      sample_block_map_well_typed⟩

/-! ## The earliest time and the items of a block -/

theorem preamble_apply_items (fields : FileVersionFields) (ticks : Nat) (s : BlockData)
    (e : PreambleEntry) :
    (PreambleEntry.apply fields ticks s e).query_response_items = s.query_response_items := by
  obtain ⟨key, v⟩ := e
  unfold PreambleEntry.apply
  cases fields.block_preamble_field key <;> cases v <;> rfl

theorem preamble_foldl_items (fields : FileVersionFields) (ticks : Nat)
    (es : List PreambleEntry) (s : BlockData) :
    (es.foldl (PreambleEntry.apply fields ticks) s).query_response_items
      = s.query_response_items := by
  induction es generalizing s with
  | nil => rfl
  | cons e es ih => rw [List.foldl_cons, ih, preamble_apply_items]

theorem preamble_apply_frame (fields : FileVersionFields) (ticks : Nat) (s : BlockData)
    (e : PreambleEntry) (he : fields.block_preamble_field e.1 ≠ .earliest_time) :
    (PreambleEntry.apply fields ticks s e).earliest_time = s.earliest_time := by
  obtain ⟨key, v⟩ := e
  unfold PreambleEntry.apply
  cases hf : fields.block_preamble_field key <;> cases v <;> simp_all

theorem preamble_foldl_frame (fields : FileVersionFields) (ticks : Nat)
    (es : List PreambleEntry)
    (hes : ∀ e ∈ es, fields.block_preamble_field e.1 ≠ .earliest_time) (s : BlockData) :
    (es.foldl (PreambleEntry.apply fields ticks) s).earliest_time = s.earliest_time := by
  induction es generalizing s with
  | nil => rfl
  | cons e es ih =>
    rw [List.foldl_cons, ih (fun x hx => hes x (List.mem_cons_of_mem _ hx)),
      preamble_apply_frame fields ticks s e (hes e (List.mem_cons_self _ _))]

/-- The earliest time a preamble leaves in the block: that of its last
earliest-time entry. -/
theorem preamble_foldl_earliest_time (fields : FileVersionFields) (ticks : Nat)
    (psa psb : List PreambleEntry) (kt secs usecs : Nat)
    (hkt : fields.block_preamble_field kt = .earliest_time)
    (hpsb : ∀ e ∈ psb, fields.block_preamble_field e.1 ≠ .earliest_time) (s : BlockData) :
    ((psa ++ (kt, .time secs usecs) :: psb).foldl (PreambleEntry.apply fields ticks)
        s).earliest_time
      = time_of ticks secs usecs := by
  rw [List.foldl_append, List.foldl_cons, preamble_foldl_frame fields ticks psb hpsb]
  simp [PreambleEntry.apply, hkt]

theorem table_apply_frame (fields : FileVersionFields) (env : TableEnv) (s : BlockData)
    (e : TableEntry) :
    (TableEntry.apply fields env s e).earliest_time = s.earliest_time
    ∧ (TableEntry.apply fields env s e).query_response_items = s.query_response_items := by
  obtain ⟨key, v⟩ := e
  unfold TableEntry.apply
  cases fields.block_tables_field key <;> cases v <;> exact ⟨rfl, rfl⟩

theorem table_foldl_frame (fields : FileVersionFields) (env : TableEnv)
    (es : List TableEntry) (s : BlockData) :
    (es.foldl (TableEntry.apply fields env) s).earliest_time = s.earliest_time
    ∧ (es.foldl (TableEntry.apply fields env) s).query_response_items
        = s.query_response_items := by
  induction es generalizing s with
  | nil => exact ⟨rfl, rfl⟩
  | cons e es ih =>
    rw [List.foldl_cons, (ih _).1, (ih _).2, (table_apply_frame fields env s e).1,
      (table_apply_frame fields env s e).2]
    exact ⟨rfl, rfl⟩

theorem block_apply_earliest_time (fields : FileVersionFields) (ticks : Nat)
    (fresh : QueryResponseItem) (env : TableEnv) (s : BlockData) (e : BlockEntry)
    (he : fields.block_field e.1 ≠ .preamble) :
    (BlockEntry.apply fields ticks fresh env s e).earliest_time = s.earliest_time := by
  obtain ⟨key, v⟩ := e
  unfold BlockEntry.apply
  cases hf : fields.block_field key <;> cases v <;>
    simp_all [(table_foldl_frame fields env _ s).1]

theorem block_foldl_earliest_time (fields : FileVersionFields) (ticks : Nat)
    (fresh : QueryResponseItem) (env : TableEnv) (es : List BlockEntry)
    (hes : ∀ e ∈ es, fields.block_field e.1 ≠ .preamble) (s : BlockData) :
    (es.foldl (BlockEntry.apply fields ticks fresh env) s).earliest_time
      = s.earliest_time := by
  induction es generalizing s with
  | nil => rfl
  | cons e es ih =>
    rw [List.foldl_cons, ih (fun x hx => hes x (List.mem_cons_of_mem _ hx)),
      block_apply_earliest_time fields ticks fresh env s e (hes e (List.mem_cons_self _ _))]

theorem block_apply_items (fields : FileVersionFields) (ticks : Nat)
    (fresh : QueryResponseItem) (env : TableEnv) (s : BlockData) (e : BlockEntry) :
    ∃ post, (BlockEntry.apply fields ticks fresh env s e).query_response_items
      = s.query_response_items ++ post := by
  obtain ⟨key, v⟩ := e
  refine ⟨((BlockEntry.apply fields ticks fresh env s (key, v)).query_response_items).drop
    s.query_response_items.length, ?_⟩
  unfold BlockEntry.apply
  cases hf : fields.block_field key <;> cases v <;>
    simp [preamble_foldl_items, (table_foldl_frame fields env _ s).2]

theorem block_foldl_items (fields : FileVersionFields) (ticks : Nat)
    (fresh : QueryResponseItem) (env : TableEnv) (es : List BlockEntry) (s : BlockData) :
    ∃ post, (es.foldl (BlockEntry.apply fields ticks fresh env) s).query_response_items
      = s.query_response_items ++ post := by
  induction es generalizing s with
  | nil => exact ⟨[], by simp⟩
  | cons e es ih =>
    obtain ⟨p1, h1⟩ := block_apply_items fields ticks fresh env s e
    obtain ⟨p2, h2⟩ := ih (BlockEntry.apply fields ticks fresh env s e)
    exact ⟨p1 ++ p2, by rw [List.foldl_cons, h2, h1, List.append_assoc]⟩

/-- The time stamp of the item a map stands for: the time the map is resolved
against plus the offset of its last time entry. -/
theorem item_of_entries_tstamp (fields : FileVersionFields) (ticks : Nat)
    (earliest_time : Int) (self : QueryResponseItem) (ma mb : List QREntry) (k : Nat)
    (off : Int) (hk : fields.query_response_field k = .time_useconds)
    (hmb : ∀ e ∈ mb, fields.query_response_field e.1 ≠ .time_useconds) :
    (item_of_entries fields ticks earliest_time self (ma ++ (k, .signed off) :: mb)).tstamp
      = earliest_time + off * (ticks : Int) := by
  unfold item_of_entries
  rw [List.foldl_append, List.foldl_cons, foldl_tstamp_frame fields ticks earliest_time mb hmb]
  simp [QREntry.apply, hk]

/-! ## The order of the entries of a block -/

theorem block_apply_queries_items (fields : FileVersionFields) (ticks : Nat)
    (fresh : QueryResponseItem) (env : TableEnv) (s : BlockData) (kq : Nat) (iq : Bool)
    (ms : List QRMap) (hkq : fields.block_field kq = .queries) :
    (BlockEntry.apply fields ticks fresh env s (kq, .queries iq ms)).query_response_items
      = s.query_response_items
        ++ ms.map (fun m => item_of_entries fields ticks s.earliest_time fresh m.2) := by
  simp [BlockEntry.apply, hkq]

/-- C18, counterexample: the result depends on the order of the top-level keys.
A block map whose queries array comes before its preamble (earliest time
1000 s, at 1000 ticks per microsecond) decodes without error, but its item,
5 microseconds after the earliest time, gets the time stamp 5000: the offset
over the earliest time the block held before, 0, not over the preamble's
1000000000000, so the time stamp is not the block's earliest time plus the
offset.  The same two entries with the preamble first give 1000000005000. -/
theorem C18_queries_before_preamble :
    wire_map false ([sample_queries_entry, sample_preamble_entry].map BlockEntry.toks)
      = [.map (some 2),
          .uint 3, .arr (some 1), .map (some 1), .uint 0, .uint 5,
          .uint 0, .map (some 1), .uint 0, .arr (some 2), .uint 1000, .uint 0]
    ∧ wire_map false ([sample_preamble_entry, sample_queries_entry].map BlockEntry.toks)
      = [.map (some 2),
          .uint 0, .map (some 1), .uint 0, .arr (some 2), .uint 1000, .uint 0,
          .uint 3, .arr (some 1), .map (some 1), .uint 0, .uint 5]
    ∧ (∃ b, BlockData.readCbor sample_fields 1000 sample_stale_item sample_env empty_block
          (wire_map false ([sample_queries_entry, sample_preamble_entry].map BlockEntry.toks))
        = .ok (b, [])
      ∧ b.earliest_time = 1000000000000 ∧ b.tstamps = [5000]
      ∧ b.tstamps ≠ [b.earliest_time + 5 * 1000])
    ∧ (∃ b, BlockData.readCbor sample_fields 1000 sample_stale_item sample_env empty_block
          (wire_map false ([sample_preamble_entry, sample_queries_entry].map BlockEntry.toks))
        = .ok (b, [])
      ∧ b.earliest_time = 1000000000000 ∧ b.tstamps = [1000000005000]) :=
  ⟨by decide, by decide, ⟨_, rfl, by decide, by decide, by decide⟩,
    ⟨_, rfl, by decide, by decide⟩⟩

/-- C18, amended: `BlockData::readCbor` accepts the top-level keys in any
order, applying the entries one after the other, and the items of a queries
array are resolved against the earliest time the block holds when the array is
read.  So for a block map of well-typed entries in which a preamble (carrying
an earliest time, the last one being `secs`, `usecs`) comes before a queries
array, with no other preamble between the two, the decode succeeds, the items
of that array are those of its maps resolved against the preamble's earliest
time, and the time stamp of every such item with a time offset is the
preamble's earliest time plus the offset (in clock ticks). -/
theorem C18_items_resolved_against_preceding_preamble (fields : FileVersionFields)
    (ticks : Nat) (fresh : QueryResponseItem) (env : TableEnv) (self : BlockData)
    (indef : Bool) (rest : List Tok) (es1 es2 es3 : List BlockEntry) (kp kq kt : Nat)
    (ip iq : Bool) (psa psb : List PreambleEntry) (secs usecs : Nat) (ms : List QRMap)
    (hwt : ∀ e ∈ es1 ++ (kp, .preamble ip (psa ++ (kt, .time secs usecs) :: psb)) :: es2
        ++ (kq, .queries iq ms) :: es3, BlockEntry.WellTyped fields env e)
    (hkp : fields.block_field kp = .preamble)
    (hkt : fields.block_preamble_field kt = .earliest_time)
    (hpsb : ∀ e ∈ psb, fields.block_preamble_field e.1 ≠ .earliest_time)
    (hes2 : ∀ e ∈ es2, fields.block_field e.1 ≠ .preamble)
    (hkq : fields.block_field kq = .queries) :
    ∃ b pre post,
      BlockData.readCbor fields ticks fresh env self
          (wire_map indef
              ((es1 ++ (kp, .preamble ip (psa ++ (kt, .time secs usecs) :: psb)) :: es2
                ++ (kq, .queries iq ms) :: es3).map BlockEntry.toks) ++ rest)
        = .ok (b, rest)
      ∧ b.query_response_items
        = pre ++ ms.map (fun m =>
            item_of_entries fields ticks (time_of ticks secs usecs) fresh m.2) ++ post
      ∧ ∀ m ∈ ms, ∀ (ma mb : List QREntry) (k : Nat) (off : Int),
          m.2 = ma ++ (k, .signed off) :: mb →
          fields.query_response_field k = .time_useconds →
          (∀ e ∈ mb, fields.query_response_field e.1 ≠ .time_useconds) →
          (item_of_entries fields ticks (time_of ticks secs usecs) fresh m.2).tstamp
            = time_of ticks secs usecs + off * (ticks : Int) := by
  have hread := block_wire_map fields ticks fresh env self indef _ hwt rest
  have htime : ((es2.foldl (BlockEntry.apply fields ticks fresh env)
      (BlockEntry.apply fields ticks fresh env
        (es1.foldl (BlockEntry.apply fields ticks fresh env) self)
        (kp, .preamble ip (psa ++ (kt, .time secs usecs) :: psb)))).earliest_time)
      = time_of ticks secs usecs := by
    rw [block_foldl_earliest_time fields ticks fresh env es2 hes2]
    simp only [BlockEntry.apply, hkp]
    exact preamble_foldl_earliest_time fields ticks psa psb kt secs usecs hkt hpsb _
  obtain ⟨post, hpost⟩ := block_foldl_items fields ticks fresh env es3
    (BlockEntry.apply fields ticks fresh env
      (es2.foldl (BlockEntry.apply fields ticks fresh env)
        (BlockEntry.apply fields ticks fresh env
          (es1.foldl (BlockEntry.apply fields ticks fresh env) self)
          (kp, .preamble ip (psa ++ (kt, .time secs usecs) :: psb))))
      (kq, .queries iq ms))
  refine ⟨_, (es2.foldl (BlockEntry.apply fields ticks fresh env)
      (BlockEntry.apply fields ticks fresh env
        (es1.foldl (BlockEntry.apply fields ticks fresh env) self)
        (kp, .preamble ip (psa ++ (kt, .time secs usecs) :: psb)))).query_response_items,
    post, hread, ?_, ?_⟩
  · rw [List.foldl_append, List.foldl_cons, List.foldl_append, List.foldl_cons, hpost]
    rw [block_apply_queries_items fields ticks fresh env _ kq iq ms hkq, htime]
  · intro m _ ma mb k off hm hk hmb
    rw [hm]
    exact item_of_entries_tstamp fields ticks _ fresh ma mb k off hk hmb

/-- C18 at the sample mapping: an indefinite block map with an unknown key, a
preamble (earliest time 1000 s, then an unknown preamble key), a statistics
map and the two sample queries, followed by an integer.  The decode stops in
front of the integer and the items of the array are resolved against
1000 s. -/
theorem C18_items_resolved_against_preceding_preamble_witness :
    sample_fields.block_field 0 = .preamble
    ∧ sample_fields.block_preamble_field 0 = .earliest_time
    ∧ sample_fields.block_field 3 = .queries
    ∧ ∃ b pre post,
      BlockData.readCbor sample_fields 1000 sample_stale_item sample_env empty_block
          (wire_map true
              (List.map BlockEntry.toks
                ([(77, .other [.text [104, 105]])]
                  ++ (0, .preamble true ([] ++ (0, .time 1000 0) :: [(5, .other [.uint 1])]))
                    :: [(1, .statistics true [(0, .unsigned 50)])]
                  ++ (3, .queries false sample_query_maps) :: []))
            ++ [.uint 7])
        = .ok (b, [.uint 7])
      ∧ b.query_response_items
        = pre ++ sample_query_maps.map (fun m =>
            item_of_entries sample_fields 1000 (time_of 1000 1000 0) sample_stale_item m.2)
          ++ post
      ∧ ∀ m ∈ sample_query_maps, ∀ (ma mb : List QREntry) (k : Nat) (off : Int),
          m.2 = ma ++ (k, .signed off) :: mb →
          sample_fields.query_response_field k = .time_useconds →
          (∀ e ∈ mb, sample_fields.query_response_field e.1 ≠ .time_useconds) →
          (item_of_entries sample_fields 1000 (time_of 1000 1000 0) sample_stale_item
              m.2).tstamp
            = time_of 1000 1000 0 + off * ((1000 : Nat) : Int) :=
  ⟨rfl, rfl, rfl,
    C18_items_resolved_against_preceding_preamble sample_fields 1000 sample_stale_item
      sample_env empty_block true [.uint 7] [(77, .other [.text [104, 105]])]
      [(1, .statistics true [(0, .unsigned 50)])] [] 0 3 0 true false []
      [(5, .other [.uint 1])] 1000 0 sample_query_maps
      (by
        intro e he
        simp only [List.singleton_append, List.nil_append, List.cons_append, List.mem_cons,
          List.mem_singleton, List.not_mem_nil, or_false] at he
        rcases he with rfl | rfl | rfl | rfl
        · exact skippable_text _
        · intro x hx
          simp only [List.mem_cons, List.mem_singleton, List.not_mem_nil, or_false] at hx
          rcases hx with rfl | rfl
          · exact True.intro
          · exact skippable_uint _
        · intro x hx
          simp only [List.mem_singleton] at hx
          subst hx
          exact True.intro
        · exact sample_query_maps_well_typed)
      rfl rfl
      (by
        intro e he
        simp only [List.mem_singleton] at he
        subst he
        decide)
      (by
        intro e he
        simp only [List.mem_singleton] at he
        subst he
        decide)
      rfl⟩

/-! ## Errors of the stream -/

/-- A definite container with more entries announced than the stream holds in
full: the error of the body on the next entry is the error of the loop. -/
theorem container_loop_definite_error {σ ε : Type} (body : σ → List Tok → Res σ)
    (f : σ → ε → σ) (tok : ε → List Tok) (es : List ε)
    (hbody : ∀ e ∈ es, ∀ s rest, body s (tok e ++ rest) = .ok (f s e, rest))
    (fuel : Nat) (hfuel : es.length < fuel) (n_elems : Nat) (hn : es.length < n_elems)
    (s : σ) (bad : List Tok) (err : Err) (hbad : body (es.foldl f s) bad = .error err) :
    container_loop body fuel false n_elems s ((es.map tok).flatten ++ bad) = .error err := by
  induction es generalizing fuel n_elems s with
  | nil =>
    cases fuel with
    | zero => omega
    | succ k =>
      simp only [List.foldl_nil] at hbad
      simp only [List.length_nil] at hn
      simp [container_loop, hn, hbad]
  | cons e es ih =>
    cases fuel with
    | zero => omega
    | succ k =>
      have h1 := hbody e (List.mem_cons_self _ _) s ((es.map tok).flatten ++ bad)
      simp only [List.length_cons] at hn hfuel
      have h2 := ih (fun x hx => hbody x (List.mem_cons_of_mem _ hx)) k (by omega)
        (n_elems - 1) (by omega) (f s e) hbad
      have hpos : n_elems > 0 := by omega
      simp only [container_loop, List.map_cons, List.flatten_cons, List.append_assoc, hpos,
        if_true, h1]
      exact h2

/-- An indefinite container: the error of the body on the next entry is the
error of the loop. -/
theorem container_loop_indefinite_error {σ ε : Type} (body : σ → List Tok → Res σ)
    (f : σ → ε → σ) (tok : ε → List Tok) (es : List ε)
    (hbody : ∀ e ∈ es, ∀ s rest, body s (tok e ++ rest) = .ok (f s e, rest))
    (hne : ∀ e ∈ es, ∃ t ts, tok e = t :: ts ∧ t ≠ .brk)
    (fuel : Nat) (hfuel : es.length < fuel) (n_elems : Nat) (s : σ) (bad : List Tok)
    (err : Err) (hbad : body (es.foldl f s) bad = .error err)
    (hb : ∃ t ts, bad = t :: ts ∧ t ≠ .brk) :
    container_loop body fuel true n_elems s ((es.map tok).flatten ++ bad) = .error err := by
  induction es generalizing fuel s with
  | nil =>
    cases fuel with
    | zero => omega
    | succ k =>
      obtain ⟨t, ts, ht, hnb⟩ := hb
      subst ht
      simp only [List.foldl_nil] at hbad
      simp only [List.map_nil, List.flatten_nil, List.nil_append]
      cases t with
      | brk => exact absurd rfl hnb
      | _ => simp only [container_loop, hbad]
  | cons e es ih =>
    cases fuel with
    | zero => omega
    | succ k =>
      have h1 := hbody e (List.mem_cons_self _ _) s ((es.map tok).flatten ++ bad)
      have h2 := ih (fun x hx => hbody x (List.mem_cons_of_mem _ hx))
        (fun x hx => hne x (List.mem_cons_of_mem _ hx)) k
        (by simp only [List.length_cons] at hfuel; omega) (f s e) hbad
      obtain ⟨t, ts, ht, hnb⟩ := hne e (List.mem_cons_self _ _)
      simp only [List.map_cons, List.flatten_cons, List.append_assoc]
      rw [ht] at h1 ⊢
      simp only [List.cons_append] at h1 ⊢
      cases t with
      | brk => exact absurd rfl hnb
      | _ => simp only [container_loop, h1]; exact h2

/-- An indefinite container whose break is missing: the loop fails with the
end-of-input error. -/
theorem container_loop_indefinite_eoi {σ ε : Type} (body : σ → List Tok → Res σ)
    (f : σ → ε → σ) (tok : ε → List Tok) (es : List ε)
    (hbody : ∀ e ∈ es, ∀ s rest, body s (tok e ++ rest) = .ok (f s e, rest))
    (hne : ∀ e ∈ es, ∃ t ts, tok e = t :: ts ∧ t ≠ .brk)
    (fuel : Nat) (hfuel : es.length < fuel) (n_elems : Nat) (s : σ) :
    container_loop body fuel true n_elems s (es.map tok).flatten
      = .error .cbor_end_of_input := by
  induction es generalizing fuel s with
  | nil =>
    cases fuel with
    | zero => omega
    | succ k => simp [container_loop]
  | cons e es ih =>
    cases fuel with
    | zero => omega
    | succ k =>
      have h1 := hbody e (List.mem_cons_self _ _) s (es.map tok).flatten
      have h2 := ih (fun x hx => hbody x (List.mem_cons_of_mem _ hx))
        (fun x hx => hne x (List.mem_cons_of_mem _ hx)) k
        (by simp only [List.length_cons] at hfuel; omega) (f s e)
      obtain ⟨t, ts, ht, hnb⟩ := hne e (List.mem_cons_self _ _)
      simp only [List.map_cons, List.flatten_cons]
      rw [ht] at h1 ⊢
      simp only [List.cons_append] at h1 ⊢
      cases t with
      | brk => exact absurd rfl hnb
      | _ => simp only [container_loop, h1]; exact h2

theorem read_map_errors_reach_caller {σ ε : Type} (body : σ → List Tok → Res σ)
    (f : σ → ε → σ) (tok : ε → List Tok) (es : List ε)
    (hbody : ∀ e ∈ es, ∀ s rest, body s (tok e ++ rest) = .ok (f s e, rest))
    (hne : ∀ e ∈ es, ∃ t ts, tok e = t :: ts ∧ t ≠ .brk)
    (hempty : ∀ s, body s [] = .error .cbor_end_of_input) (s : σ) :
    ErrorsReachCaller (read_map body s) Tok.map body (es.map tok) (es.foldl f s) := by
  have hlen := length_le_flatten tok es (fun e he => by
    obtain ⟨t, ts, ht, _⟩ := hne e he
    simp [ht])
  have hdef : ∀ bad err, body (es.foldl f s) bad = .error err → ∀ n, (es.map tok).length < n →
      read_map body s (.map (some n) :: ((es.map tok).flatten ++ bad)) = .error err := by
    intro bad err hbad n hn
    simp only [read_map, readMapHeader]
    exact container_loop_definite_error body f tok es hbody _
      (by simp only [List.length_append]; omega) n (by simpa using hn) s bad err hbad
  refine ⟨rfl, ?_, ?_, ?_⟩
  · simp only [read_map, readMapHeader]
    exact container_loop_indefinite_eoi body f tok es hbody hne _ (by omega) _ s
  · intro n hn
    have h := hdef [] _ (hempty _) n hn
    simpa using h
  · intro bad err _ hbad
    refine ⟨hdef bad err hbad, ?_⟩
    intro hb
    simp only [read_map, readMapHeader]
    exact container_loop_indefinite_error body f tok es hbody hne _
      (by simp only [List.length_append]; omega) _ s bad err hbad hb

theorem read_array_errors_reach_caller {σ ε : Type} (body : σ → List Tok → Res σ)
    (f : σ → ε → σ) (tok : ε → List Tok) (es : List ε)
    (hbody : ∀ e ∈ es, ∀ s rest, body s (tok e ++ rest) = .ok (f s e, rest))
    (hne : ∀ e ∈ es, ∃ t ts, tok e = t :: ts ∧ t ≠ .brk)
    (hempty : ∀ s, body s [] = .error .cbor_end_of_input) (s : σ) :
    ErrorsReachCaller (read_array body s) Tok.arr body (es.map tok) (es.foldl f s) := by
  have hlen := length_le_flatten tok es (fun e he => by
    obtain ⟨t, ts, ht, _⟩ := hne e he
    simp [ht])
  have hdef : ∀ bad err, body (es.foldl f s) bad = .error err → ∀ n, (es.map tok).length < n →
      read_array body s (.arr (some n) :: ((es.map tok).flatten ++ bad)) = .error err := by
    intro bad err hbad n hn
    simp only [read_array, readArrayHeader]
    exact container_loop_definite_error body f tok es hbody _
      (by simp only [List.length_append]; omega) n (by simpa using hn) s bad err hbad
  refine ⟨rfl, ?_, ?_, ?_⟩
  · simp only [read_array, readArrayHeader]
    exact container_loop_indefinite_eoi body f tok es hbody hne _ (by omega) _ s
  · intro n hn
    have h := hdef [] _ (hempty _) n hn
    simpa using h
  · intro bad err _ hbad
    refine ⟨hdef bad err hbad, ?_⟩
    intro hb
    simp only [read_array, readArrayHeader]
    exact container_loop_indefinite_error body f tok es hbody hne _
      (by simp only [List.length_append]; omega) _ s bad err hbad hb

/-- What holds of a decoder holds of every decoder that fails with the stream
errors of the first. -/
theorem errors_reach_caller_of_errors {α β σ : Type} (inner : List Tok → Except Err β)
    (decoder : List Tok → Except Err α) (header : Option Nat → Tok)
    (body : σ → List Tok → Res σ) (groups : List (List Tok)) (after : σ)
    (h : ∀ dec e, StreamError e → inner dec = .error e → decoder dec = .error e)
    (hinner : ErrorsReachCaller inner header body groups after) :
    ErrorsReachCaller decoder header body groups after := by
  obtain ⟨h1, h2, h3, h4⟩ := hinner
  refine ⟨h _ _ (Or.inl rfl) h1, h _ _ (Or.inl rfl) h2,
    fun n hn => h _ _ (Or.inl rfl) (h3 n hn), ?_⟩
  intro bad e he hbad
  exact ⟨fun n hn => h _ _ he ((h4 bad e he hbad).1 n hn),
    fun hb => h _ _ he ((h4 bad e he hbad).2 hb)⟩

theorem passes_stream_errors {α : Type} (what : String) (body : Except Err α) :
    PassesStreamErrors body (catch_logic_error what body) :=
  fun e he => catch_passes what body e he

theorem catch_errors_reach_caller {α σ : Type} (what : String)
    (inner : List Tok → Except Err α) (header : Option Nat → Tok)
    (body : σ → List Tok → Res σ) (groups : List (List Tok)) (after : σ)
    (hinner : ErrorsReachCaller inner header body groups after) :
    ErrorsReachCaller (fun dec => catch_logic_error what (inner dec)) header body groups
      after :=
  errors_reach_caller_of_errors inner _ header body groups after
    (fun dec e he h => (catch_passes what (inner dec) e he).2 h) hinner

theorem index_vector_errors (index_bits : Nat) (self : IndexVectorItem) (xs : List Nat) :
    ErrorsReachCaller (IndexVectorItem.readCbor index_bits self) Tok.arr
      (IndexVectorItem.read_element index_bits) (xs.map fun x => [.uint x])
      { vec := self.vec ++ xs.map (to_index_t index_bits) } := by
  have h := catch_errors_reach_caller "Unexpected CBOR item reading index" _ _ _ _ _
    (read_array_errors_reach_caller (IndexVectorItem.read_element index_bits)
      (fun (s : IndexVectorItem) x => { s with vec := s.vec ++ [to_index_t index_bits x] })
      (fun x => [.uint x]) xs
      (fun x _ s rest => by simp [IndexVectorItem.read_element, read_unsigned])
      (fun x _ => ⟨.uint x, [], rfl, by simp⟩) (fun _ => rfl) self)
  rw [foldl_push_index] at h
  exact h

theorem class_type_errors (fields : FileVersionFields) (self : ClassType)
    (es : List WireEntry) (hes : ∀ e ∈ es, ClassTypeEntry.WellTyped fields e) :
    ErrorsReachCaller (ClassType.readCbor fields self) Tok.map (ClassType.read_entry fields)
      (es.map WireEntry.toks) (es.foldl (ClassTypeEntry.apply fields) self) :=
  catch_errors_reach_caller "Unexpected CBOR item reading ClassType" _ _ _ _ _
    (read_map_errors_reach_caller (ClassType.read_entry fields) (ClassTypeEntry.apply fields)
      WireEntry.toks es (fun e he s rest => class_type_entry_toks fields e (hes e he) s rest)
      (fun e _ => wire_entry_toks_head e) (fun _ => rfl) self)

theorem question_errors (fields : FileVersionFields) (self : Question)
    (es : List WireEntry) (hes : ∀ e ∈ es, QuestionEntry.WellTyped fields e) :
    ErrorsReachCaller (Question.readCbor fields self) Tok.map (Question.read_entry fields)
      (es.map WireEntry.toks) (es.foldl (QuestionEntry.apply fields) self) :=
  catch_errors_reach_caller "Unexpected CBOR item reading Question" _ _ _ _ _
    (read_map_errors_reach_caller (Question.read_entry fields) (QuestionEntry.apply fields)
      WireEntry.toks es (fun e he s rest => question_entry_toks fields e (hes e he) s rest)
      (fun e _ => wire_entry_toks_head e) (fun _ => rfl) self)

theorem rr_errors (fields : FileVersionFields) (self : ResourceRecord)
    (es : List WireEntry) (hes : ∀ e ∈ es, RREntry.WellTyped fields e) :
    ErrorsReachCaller (ResourceRecord.readCbor fields self) Tok.map
      (ResourceRecord.read_entry fields) (es.map WireEntry.toks)
      (es.foldl (RREntry.apply fields) self) :=
  catch_errors_reach_caller "Unexpected CBOR item reading ResourceRecord" _ _ _ _ _
    (read_map_errors_reach_caller (ResourceRecord.read_entry fields) (RREntry.apply fields)
      WireEntry.toks es (fun e he s rest => rr_entry_toks fields e (hes e he) s rest)
      (fun e _ => wire_entry_toks_head e) (fun _ => rfl) self)

theorem signature_errors (fields : FileVersionFields) (self : QuerySignature)
    (es : List WireEntry) (hes : ∀ e ∈ es, SignatureEntry.WellTyped fields e) :
    ErrorsReachCaller (QuerySignature.readCbor fields self) Tok.map
      (QuerySignature.read_entry fields) (es.map WireEntry.toks)
      (es.foldl (SignatureEntry.apply fields) self) :=
  catch_errors_reach_caller "Unexpected CBOR item reading QuerySignature" _ _ _ _ _
    (read_map_errors_reach_caller (QuerySignature.read_entry fields)
      (SignatureEntry.apply fields) WireEntry.toks es
      (fun e he s rest => signature_entry_toks fields e (hes e he) s rest)
      (fun e _ => wire_entry_toks_head e) (fun _ => rfl) self)

theorem extra_info_errors (fields : FileVersionFields) (es : List WireEntry)
    (hes : ∀ e ∈ es, ExtEntry.WellTyped fields e) :
    ErrorsReachCaller (readExtraInfo fields) Tok.map (readExtraInfo_entry fields)
      (es.map WireEntry.toks) (ext_of_entries fields es) :=
  read_map_errors_reach_caller (readExtraInfo_entry fields) (ExtEntry.apply fields)
    WireEntry.toks es (fun e he s rest => readExtraInfo_entry_toks fields e (hes e he) s rest)
    (fun e _ => wire_entry_toks_head e) (fun _ => rfl) _

theorem query_response_errors (fields : FileVersionFields) (ticks : Nat)
    (earliest_time : Int) (self : QueryResponseItem) (es : List QREntry)
    (hes : ∀ e ∈ es, QREntry.WellTyped fields e) :
    ErrorsReachCaller (QueryResponseItem.readCbor fields ticks earliest_time self) Tok.map
      (QueryResponseItem.read_entry fields ticks earliest_time) (es.map QREntry.toks)
      (item_of_entries fields ticks earliest_time self es) :=
  catch_errors_reach_caller "Unexpected CBOR item reading QueryResponseItem" _ _ _ _ _
    (read_map_errors_reach_caller (QueryResponseItem.read_entry fields ticks earliest_time)
      (QREntry.apply fields ticks earliest_time) QREntry.toks es
      (fun e he s rest => query_response_entry_toks fields ticks earliest_time e
        (hes e he) s rest)
      (fun e _ => qr_toks_head e) (fun _ => rfl) { self with qr_flags := 0 })

theorem address_event_errors (fields : FileVersionFields) (self : AddressEventCount)
    (es : List WireEntry) (hes : ∀ e ∈ es, AddressEventEntry.WellTyped fields e) :
    ErrorsReachCaller (AddressEventCount.readCbor fields self) Tok.map
      (AddressEventCount.read_entry fields) (es.map WireEntry.toks)
      (es.foldl (AddressEventEntry.apply fields)
        { self with aei := { self.aei with code := 0 } }) :=
  catch_errors_reach_caller "Unexpected CBOR item reading AddressEvent" _ _ _ _ _
    (read_map_errors_reach_caller (AddressEventCount.read_entry fields)
      (AddressEventEntry.apply fields) WireEntry.toks es
      (fun e he s rest => address_event_entry_toks fields e (hes e he) s rest)
      (fun e _ => wire_entry_toks_head e) (fun _ => rfl)
      { self with aei := { self.aei with code := 0 } })

theorem preamble_errors (fields : FileVersionFields) (ticks : Nat) (self : BlockData)
    (es : List PreambleEntry) (hes : ∀ e ∈ es, PreambleEntry.WellTyped fields e) :
    ErrorsReachCaller (BlockData.readBlockPreamble fields ticks self) Tok.map
      (BlockData.readBlockPreamble_entry fields ticks) (es.map PreambleEntry.toks)
      (es.foldl (PreambleEntry.apply fields ticks) self) :=
  read_map_errors_reach_caller (BlockData.readBlockPreamble_entry fields ticks)
    (PreambleEntry.apply fields ticks) PreambleEntry.toks es
    (fun e he s rest => preamble_entry_toks fields ticks e (hes e he) s rest)
    (fun e _ => preamble_toks_head e) (fun _ => rfl) self

theorem headers_errors (fields : FileVersionFields) (env : TableEnv) (self : BlockData)
    (es : List TableEntry) (hes : ∀ e ∈ es, TableEntry.WellTyped fields env e) :
    ErrorsReachCaller (BlockData.readHeaders fields env self) Tok.map
      (BlockData.readHeaders_entry fields env) (es.map TableEntry.toks)
      (es.foldl (TableEntry.apply fields env) self) :=
  read_map_errors_reach_caller (BlockData.readHeaders_entry fields env)
    (TableEntry.apply fields env) TableEntry.toks es
    (fun e he s rest => table_entry_toks fields env e (hes e he) s rest)
    (fun e _ => table_toks_head e) (fun _ => rfl) self

theorem stats_errors (fields : FileVersionFields) (self : BlockData) (es : List WireEntry)
    (hes : ∀ e ∈ es, StatEntry.WellTyped fields e) :
    ErrorsReachCaller (BlockData.readStats fields self) Tok.map
      (BlockData.readStats_entry fields) (es.map WireEntry.toks)
      (es.foldl (StatEntry.apply fields) self.last_packet_statistics) :=
  errors_reach_caller_of_errors
    (read_map (BlockData.readStats_entry fields) self.last_packet_statistics) _ _ _ _ _
    (fun dec e _ h => by
      unfold BlockData.readStats
      simp only []
      rw [h])
    (read_map_errors_reach_caller (BlockData.readStats_entry fields) (StatEntry.apply fields)
      WireEntry.toks es (fun e he s rest => stats_entry_toks fields e (hes e he) s rest)
      (fun e _ => wire_entry_toks_head e) (fun _ => rfl) self.last_packet_statistics)

theorem items_errors (fields : FileVersionFields) (ticks : Nat) (fresh : QueryResponseItem)
    (self : BlockData) (ms : List QRMap)
    (hms : ∀ m ∈ ms, ∀ e ∈ m.2, QREntry.WellTyped fields e) :
    ErrorsReachCaller (BlockData.readItems fields ticks fresh self) Tok.arr
      (BlockData.readItems_element fields ticks fresh) (ms.map QRMap.toks)
      { self with
        query_response_items := self.query_response_items
          ++ ms.map (fun m => item_of_entries fields ticks self.earliest_time fresh m.2) } := by
  have h := read_array_errors_reach_caller (BlockData.readItems_element fields ticks fresh)
    (fun (s : BlockData) (m : QRMap) =>
      { s with query_response_items := s.query_response_items
          ++ [item_of_entries fields ticks s.earliest_time fresh m.2] })
    QRMap.toks ms
    (fun m hm s rest => by
      simp only [BlockData.readItems_element, QRMap.toks]
      rw [query_response_wire_map fields ticks s.earliest_time fresh m.1 m.2
        (hms m hm) rest])
    (fun m _ => wire_map_head _ _) (fun _ => rfl) self
  rw [foldl_push_item] at h
  exact h

theorem address_events_errors (fields : FileVersionFields) (self : BlockData)
    (ms : List WireMap) (hms : ∀ m ∈ ms, ∀ e ∈ m.2, AddressEventEntry.WellTyped fields e) :
    ErrorsReachCaller (BlockData.readAddressEventCounts fields self) Tok.arr
      (BlockData.readAddressEventCounts_element fields) (ms.map WireMap.toks)
      { self with
        address_event_counts :=
          ms.foldl (fun counts m =>
              assign_count counts (address_event_of fields m).aei
                (address_event_of fields m).count)
            self.address_event_counts } := by
  have h := read_array_errors_reach_caller (BlockData.readAddressEventCounts_element fields)
    (fun (s : BlockData) (m : WireMap) =>
      { s with
        address_event_counts :=
          assign_count s.address_event_counts (address_event_of fields m).aei
            (address_event_of fields m).count })
    WireMap.toks ms
    (fun m hm s rest => by
      simp only [BlockData.readAddressEventCounts_element, WireMap.toks]
      rw [address_event_wire_map fields _ m.1 m.2 (hms m hm) rest]
      rfl)
    (fun m _ => wire_map_head _ _) (fun _ => rfl) self
  rw [foldl_assign_counts] at h
  exact h

/-! ## Truncated streams -/

theorem skip_go_truncated (p : List Tok) (st : List (Option Nat)) (q : List Tok)
    (hq : q ≠ []) (h : skip_go st (p ++ q) = .ok []) :
    skip_go st p = .error .cbor_end_of_input := by
  induction p generalizing st with
  | nil =>
    obtain ⟨t, ts, rfl⟩ := List.exists_cons_of_ne_nil hq
    simp only [List.nil_append] at h
    unfold skip_go at h ⊢
    split at h
    · simp at h
    · rename_i top below hd
      simp [hd]
  | cons t p ih =>
    simp only [List.cons_append] at h
    unfold skip_go at h ⊢
    split at h
    · simp at h
    · rename_i top below hd
      cases t with
      | brk =>
        cases top with
        | none => exact ih _ h
        | some n => simp at h
      | _ => exact ih _ h

/-- One complete item cut short: `skip` fails with the end-of-input error. -/
theorem skip_truncated (ts : List Tok) (hts : Skippable ts) :
    RejectsTruncated skip ts := by
  intro p hp hne
  obtain ⟨q, hq⟩ := hp
  have hq0 : q ≠ [] := by
    intro h0
    subst h0
    simp only [List.append_nil] at hq
    exact hne hq
  have h := hts []
  rw [List.append_nil, ← hq] at h
  unfold skip at h ⊢
  split at h
  · rename_i r hr
    simp only [Except.ok.injEq, Prod.mk.injEq, true_and] at h
    subst h
    rw [skip_go_truncated p _ q hq0 hr]
  · simp at h

theorem prefix_append_cases (p a b : List Tok) (hp : p <+: a ++ b) :
    (p <+: a ∧ p ≠ a) ∨ ∃ r, p = a ++ r ∧ r <+: b := by
  obtain ⟨t, ht⟩ := hp
  rcases List.append_eq_append_iff.mp ht with ⟨a1, h1, h2⟩ | ⟨c1, h1, h2⟩
  · cases a1 with
    | nil =>
      right
      exact ⟨[], by simpa using h1.symm, List.nil_prefix⟩
    | cons x xs =>
      left
      refine ⟨⟨x :: xs, h1.symm⟩, ?_⟩
      intro h
      rw [h] at h1
      have := congrArg List.length h1
      simp at this
  · right
    exact ⟨c1, h1, ⟨t, h2.symm⟩⟩

/-- A proper prefix of the tokens of a list of entries: some entries in full
and a proper prefix of the next. -/
theorem prefix_flatten_cases {ε : Type} (tok : ε → List Tok) (es : List ε) (p : List Tok)
    (hp : p <+: (es.map tok).flatten) (hne : p ≠ (es.map tok).flatten) :
    ∃ es1 e es2 q, es = es1 ++ e :: es2 ∧ p = (es1.map tok).flatten ++ q
      ∧ q <+: tok e ∧ q ≠ tok e := by
  induction es generalizing p with
  | nil =>
    simp only [List.map_nil, List.flatten_nil, List.prefix_nil] at hp hne
    exact absurd hp hne
  | cons e es ih =>
    simp only [List.map_cons, List.flatten_cons] at hp hne
    rcases prefix_append_cases p _ _ hp with ⟨h1, h2⟩ | ⟨r, h1, h2⟩
    · exact ⟨[], e, es, p, rfl, rfl, h1, h2⟩
    · have hr : r ≠ (es.map tok).flatten := by
        intro h
        rw [h] at h1
        exact hne h1
      obtain ⟨es1, x, es2, q, h3, h4, h5, h6⟩ := ih r h2 hr
      refine ⟨e :: es1, x, es2, q, by rw [h3]; rfl, ?_, h5, h6⟩
      rw [h1, h4]
      simp

/-- What the reader of a container does with a truncated container, given
what the body of its loop does with a truncated entry. -/
theorem truncated_of_errors_reach_caller {α σ ε : Type} (decoder : List Tok → Except Err α)
    (header : Option Nat → Tok) (body : σ → List Tok → Res σ) (f : σ → ε → σ)
    (tok : ε → List Tok) (es : List ε) (s : σ)
    (hne : ∀ e ∈ es, ∃ t ts, tok e = t :: ts ∧ t ≠ .brk)
    (htr : ∀ e ∈ es, ∀ s, RejectsTruncated (body s) (tok e))
    (hreach : ∀ es1 es2, es = es1 ++ es2 →
      ErrorsReachCaller decoder header body (es1.map tok) (es1.foldl f s)) :
    RejectsTruncated decoder (header (some (es.map tok).length) :: (es.map tok).flatten)
    ∧ RejectsTruncated decoder (header none :: ((es.map tok).flatten ++ [.brk])) := by
  have hmain : ∀ p, p <+: (es.map tok).flatten → p ≠ (es.map tok).flatten →
      (∀ n, es.length ≤ n → decoder (header (some n) :: p) = .error .cbor_end_of_input)
      ∧ decoder (header none :: p) = .error .cbor_end_of_input := by
    intro p hp hpne
    obtain ⟨es1, e, es2, q, h1, h2, h3, h4⟩ := prefix_flatten_cases tok es p hp hpne
    have hr := hreach es1 (e :: es2) h1
    have he : e ∈ es := by rw [h1]; simp
    have hq := htr e he (es1.foldl f s) q h3 h4
    obtain ⟨_, r2, _, r4⟩ := hr
    have r5 := r4 q _ (Or.inl rfl) hq
    subst h2
    refine ⟨fun n hn => r5.1 n (by
      rw [h1] at hn
      simp only [List.length_append, List.length_cons, List.length_map] at hn ⊢
      omega), ?_⟩
    cases q with
    | nil => simpa using r2
    | cons t ts =>
      refine r5.2 ⟨t, ts, rfl, ?_⟩
      obtain ⟨t0, ts0, ht0, hb⟩ := hne e he
      rw [ht0] at h3
      obtain ⟨r, hr⟩ := h3
      simp only [List.cons_append, List.cons.injEq] at hr
      rw [hr.1]
      exact hb
  have hall := hreach es [] (by simp)
  constructor
  · intro p hp hpne
    rcases List.prefix_cons_iff.mp hp with h0 | ⟨p1, h1, h2⟩
    · subst h0
      exact hall.1
    · subst h1
      have h3 : p1 ≠ (es.map tok).flatten := by
        intro h
        rw [h] at hpne
        exact hpne rfl
      exact (hmain p1 h2 h3).1 _ (by simp)
  · intro p hp hpne
    rcases List.prefix_cons_iff.mp hp with h0 | ⟨p1, h1, h2⟩
    · subst h0
      exact hall.1
    · subst h1
      rcases prefix_append_cases p1 _ _ h2 with ⟨h3, h4⟩ | ⟨r, h3, h4⟩
      · exact (hmain p1 h3 h4).2
      · rcases List.prefix_cons_iff.mp h4 with h5 | ⟨r1, h5, h6⟩
        · subst h5
          simp only [List.append_nil] at h3
          subst h3
          exact hall.2.1
        · simp only [List.prefix_nil] at h6
          subst h6
          subst h5
          subst h3
          exact absurd rfl hpne

theorem prefix_singleton_proper (q : List Tok) (x : Tok) (hq : q <+: [x]) (hne : q ≠ [x]) :
    q = [] := by
  rcases List.prefix_cons_iff.mp hq with h | ⟨t, h1, h2⟩
  · exact h
  · simp only [List.prefix_nil] at h2
    subst h2
    exact absurd h1 hne

/-- An entry that starts with its key, cut short: nothing at all, or the key
and a proper prefix of the value. -/
theorem keyed_truncated {α : Type} (body : List Tok → Except Err α) (key : Nat)
    (vtoks : List Tok) (hempty : body [] = .error .cbor_end_of_input)
    (hval : ∀ q, q <+: vtoks → q ≠ vtoks → body (.uint key :: q) = .error .cbor_end_of_input) :
    RejectsTruncated body (.uint key :: vtoks) := by
  intro p hp hne
  rcases List.prefix_cons_iff.mp hp with h | ⟨q, h1, h2⟩
  · subst h
    exact hempty
  · subst h1
    exact hval q h2 (fun h => hne (by rw [h]))

theorem class_type_entry_truncated (fields : FileVersionFields) (e : WireEntry)
    (he : ClassTypeEntry.WellTyped fields e) (s : ClassType) :
    RejectsTruncated (ClassType.read_entry fields s) e.toks := by
  obtain ⟨key, v⟩ := e
  refine keyed_truncated _ key v.toks rfl ?_
  intro q hq hqne
  unfold ClassTypeEntry.WellTyped at he
  cases v with
  | unsigned n =>
    have h0 := prefix_singleton_proper q _ hq hqne
    subst h0
    cases hf : fields.class_type_field key <;>
      simp [ClassType.read_entry, read_unsigned, hf, skip, skip_go, drop_done]
  | other ts =>
    cases hf : fields.class_type_field key <;> simp only [hf] at he
    have h1 := skip_truncated ts he q hq hqne
    simp [ClassType.read_entry, read_unsigned, hf, h1]

theorem question_entry_truncated (fields : FileVersionFields) (e : WireEntry)
    (he : QuestionEntry.WellTyped fields e) (s : Question) :
    RejectsTruncated (Question.read_entry fields s) e.toks := by
  obtain ⟨key, v⟩ := e
  refine keyed_truncated _ key v.toks rfl ?_
  intro q hq hqne
  unfold QuestionEntry.WellTyped at he
  cases v with
  | unsigned n =>
    have h0 := prefix_singleton_proper q _ hq hqne
    subst h0
    cases hf : fields.question_field key <;>
      simp [Question.read_entry, read_unsigned, hf, skip, skip_go, drop_done]
  | other ts =>
    cases hf : fields.question_field key <;> simp only [hf] at he
    have h1 := skip_truncated ts he q hq hqne
    simp [Question.read_entry, read_unsigned, hf, h1]

theorem rr_entry_truncated (fields : FileVersionFields) (e : WireEntry)
    (he : RREntry.WellTyped fields e) (s : ResourceRecord) :
    RejectsTruncated (ResourceRecord.read_entry fields s) e.toks := by
  obtain ⟨key, v⟩ := e
  refine keyed_truncated _ key v.toks rfl ?_
  intro q hq hqne
  unfold RREntry.WellTyped at he
  cases v with
  | unsigned n =>
    have h0 := prefix_singleton_proper q _ hq hqne
    subst h0
    cases hf : fields.rr_field key <;>
      simp [ResourceRecord.read_entry, read_unsigned, hf, skip, skip_go, drop_done]
  | other ts =>
    cases hf : fields.rr_field key <;> simp only [hf] at he
    have h1 := skip_truncated ts he q hq hqne
    simp [ResourceRecord.read_entry, read_unsigned, hf, h1]

theorem signature_entry_truncated (fields : FileVersionFields) (e : WireEntry)
    (he : SignatureEntry.WellTyped fields e) (s : QuerySignature) :
    RejectsTruncated (QuerySignature.read_entry fields s) e.toks := by
  obtain ⟨key, v⟩ := e
  refine keyed_truncated _ key v.toks rfl ?_
  intro q hq hqne
  unfold SignatureEntry.WellTyped at he
  cases v with
  | unsigned n =>
    have h0 := prefix_singleton_proper q _ hq hqne
    subst h0
    cases hf : fields.query_signature_field key <;>
      simp [QuerySignature.read_entry, read_unsigned, hf, skip, skip_go, drop_done]
  | other ts =>
    cases hf : fields.query_signature_field key <;> simp only [hf] at he
    have h1 := skip_truncated ts he q hq hqne
    simp [QuerySignature.read_entry, read_unsigned, hf, h1]

theorem address_event_entry_truncated (fields : FileVersionFields) (e : WireEntry)
    (he : AddressEventEntry.WellTyped fields e) (s : AddressEventCount) :
    RejectsTruncated (AddressEventCount.read_entry fields s) e.toks := by
  obtain ⟨key, v⟩ := e
  refine keyed_truncated _ key v.toks rfl ?_
  intro q hq hqne
  unfold AddressEventEntry.WellTyped at he
  cases v with
  | unsigned n =>
    have h0 := prefix_singleton_proper q _ hq hqne
    subst h0
    cases hf : fields.address_event_count_field key <;>
      simp [AddressEventCount.read_entry, read_unsigned, hf, skip, skip_go, drop_done]
  | other ts =>
    cases hf : fields.address_event_count_field key <;> simp only [hf] at he
    have h1 := skip_truncated ts he q hq hqne
    simp [AddressEventCount.read_entry, read_unsigned, hf, h1]

theorem stats_entry_truncated (fields : FileVersionFields) (e : WireEntry)
    (he : StatEntry.WellTyped fields e) (s : PacketStatistics) :
    RejectsTruncated (BlockData.readStats_entry fields s) e.toks := by
  obtain ⟨key, v⟩ := e
  refine keyed_truncated _ key v.toks rfl ?_
  intro q hq hqne
  unfold StatEntry.WellTyped at he
  cases v with
  | unsigned n =>
    have h0 := prefix_singleton_proper q _ hq hqne
    subst h0
    cases hf : fields.block_statistics_field key <;>
      simp [BlockData.readStats_entry, read_unsigned, hf, skip, skip_go, drop_done]
  | other ts =>
    cases hf : fields.block_statistics_field key <;> simp only [hf] at he
    have h1 := skip_truncated ts he q hq hqne
    simp [BlockData.readStats_entry, read_unsigned, hf, h1]

theorem extra_info_entry_truncated (fields : FileVersionFields) (e : WireEntry)
    (he : ExtEntry.WellTyped fields e) (s : QueryResponseExtraInfo) :
    RejectsTruncated (readExtraInfo_entry fields s) e.toks := by
  obtain ⟨key, v⟩ := e
  refine keyed_truncated _ key v.toks rfl ?_
  intro q hq hqne
  unfold ExtEntry.WellTyped at he
  cases v with
  | unsigned n =>
    have h0 := prefix_singleton_proper q _ hq hqne
    subst h0
    cases hf : fields.query_response_extended_field key <;>
      simp [readExtraInfo_entry, read_unsigned, hf, skip, skip_go, drop_done]
  | other ts =>
    cases hf : fields.query_response_extended_field key <;> simp only [hf] at he
    have h1 := skip_truncated ts he q hq hqne
    simp [readExtraInfo_entry, read_unsigned, hf, h1]

theorem wire_map_truncated {α σ ε : Type} (decoder : List Tok → Except Err α)
    (body : σ → List Tok → Res σ) (f : σ → ε → σ) (tok : ε → List Tok) (es : List ε)
    (s : σ) (hne : ∀ e ∈ es, ∃ t ts, tok e = t :: ts ∧ t ≠ .brk)
    (htr : ∀ e ∈ es, ∀ s, RejectsTruncated (body s) (tok e))
    (hreach : ∀ es1 es2, es = es1 ++ es2 →
      ErrorsReachCaller decoder Tok.map body (es1.map tok) (es1.foldl f s))
    (indef : Bool) : RejectsTruncated decoder (wire_map indef (es.map tok)) := by
  have h := truncated_of_errors_reach_caller decoder Tok.map body f tok es s hne htr hreach
  cases indef
  · exact h.1
  · exact h.2

theorem wire_array_truncated {α σ ε : Type} (decoder : List Tok → Except Err α)
    (body : σ → List Tok → Res σ) (f : σ → ε → σ) (tok : ε → List Tok) (es : List ε)
    (s : σ) (hne : ∀ e ∈ es, ∃ t ts, tok e = t :: ts ∧ t ≠ .brk)
    (htr : ∀ e ∈ es, ∀ s, RejectsTruncated (body s) (tok e))
    (hreach : ∀ es1 es2, es = es1 ++ es2 →
      ErrorsReachCaller decoder Tok.arr body (es1.map tok) (es1.foldl f s))
    (indef : Bool) : RejectsTruncated decoder (wire_array indef (es.map tok)) := by
  have h := truncated_of_errors_reach_caller decoder Tok.arr body f tok es s hne htr hreach
  cases indef
  · exact h.1
  · exact h.2

theorem mem_of_append_left {ε : Type} {es es1 es2 : List ε} (h : es = es1 ++ es2) :
    ∀ e ∈ es1, e ∈ es := by
  intro e he
  rw [h]
  exact List.mem_append_left _ he

theorem class_type_truncated (fields : FileVersionFields) (self : ClassType) (indef : Bool)
    (es : List WireEntry) (hes : ∀ e ∈ es, ClassTypeEntry.WellTyped fields e) :
    RejectsTruncated (ClassType.readCbor fields self)
      (wire_map indef (es.map WireEntry.toks)) :=
  wire_map_truncated _ (ClassType.read_entry fields) (ClassTypeEntry.apply fields)
    WireEntry.toks es self (fun e _ => wire_entry_toks_head e)
    (fun e he s => class_type_entry_truncated fields e (hes e he) s)
    (fun es1 _ h => class_type_errors fields self es1
      (fun e he => hes e (mem_of_append_left h e he))) indef

theorem question_truncated (fields : FileVersionFields) (self : Question) (indef : Bool)
    (es : List WireEntry) (hes : ∀ e ∈ es, QuestionEntry.WellTyped fields e) :
    RejectsTruncated (Question.readCbor fields self)
      (wire_map indef (es.map WireEntry.toks)) :=
  wire_map_truncated _ (Question.read_entry fields) (QuestionEntry.apply fields)
    WireEntry.toks es self (fun e _ => wire_entry_toks_head e)
    (fun e he s => question_entry_truncated fields e (hes e he) s)
    (fun es1 _ h => question_errors fields self es1
      (fun e he => hes e (mem_of_append_left h e he))) indef

theorem rr_truncated (fields : FileVersionFields) (self : ResourceRecord) (indef : Bool)
    (es : List WireEntry) (hes : ∀ e ∈ es, RREntry.WellTyped fields e) :
    RejectsTruncated (ResourceRecord.readCbor fields self)
      (wire_map indef (es.map WireEntry.toks)) :=
  wire_map_truncated _ (ResourceRecord.read_entry fields) (RREntry.apply fields)
    WireEntry.toks es self (fun e _ => wire_entry_toks_head e)
    (fun e he s => rr_entry_truncated fields e (hes e he) s)
    (fun es1 _ h => rr_errors fields self es1
      (fun e he => hes e (mem_of_append_left h e he))) indef

theorem signature_truncated (fields : FileVersionFields) (self : QuerySignature)
    (indef : Bool) (es : List WireEntry)
    (hes : ∀ e ∈ es, SignatureEntry.WellTyped fields e) :
    RejectsTruncated (QuerySignature.readCbor fields self)
      (wire_map indef (es.map WireEntry.toks)) :=
  wire_map_truncated _ (QuerySignature.read_entry fields) (SignatureEntry.apply fields)
    WireEntry.toks es self (fun e _ => wire_entry_toks_head e)
    (fun e he s => signature_entry_truncated fields e (hes e he) s)
    (fun es1 _ h => signature_errors fields self es1
      (fun e he => hes e (mem_of_append_left h e he))) indef

theorem address_event_truncated (fields : FileVersionFields) (self : AddressEventCount)
    (indef : Bool) (es : List WireEntry)
    (hes : ∀ e ∈ es, AddressEventEntry.WellTyped fields e) :
    RejectsTruncated (AddressEventCount.readCbor fields self)
      (wire_map indef (es.map WireEntry.toks)) :=
  wire_map_truncated _ (AddressEventCount.read_entry fields) (AddressEventEntry.apply fields)
    WireEntry.toks es { self with aei := { self.aei with code := 0 } }
    (fun e _ => wire_entry_toks_head e)
    (fun e he s => address_event_entry_truncated fields e (hes e he) s)
    (fun es1 _ h => address_event_errors fields self es1
      (fun e he => hes e (mem_of_append_left h e he))) indef

theorem extra_info_truncated (fields : FileVersionFields) (indef : Bool)
    (es : List WireEntry) (hes : ∀ e ∈ es, ExtEntry.WellTyped fields e) :
    RejectsTruncated (readExtraInfo fields) (wire_map indef (es.map WireEntry.toks)) :=
  wire_map_truncated _ (readExtraInfo_entry fields) (ExtEntry.apply fields)
    WireEntry.toks es
    { questions_list := 0, answers_list := 0, authority_list := 0, additional_list := 0 }
    (fun e _ => wire_entry_toks_head e)
    (fun e he s => extra_info_entry_truncated fields e (hes e he) s)
    (fun es1 _ h => extra_info_errors fields es1
      (fun e he => hes e (mem_of_append_left h e he))) indef

theorem stats_truncated (fields : FileVersionFields) (self : BlockData) (indef : Bool)
    (es : List WireEntry) (hes : ∀ e ∈ es, StatEntry.WellTyped fields e) :
    RejectsTruncated (BlockData.readStats fields self)
      (wire_map indef (es.map WireEntry.toks)) :=
  wire_map_truncated _ (BlockData.readStats_entry fields) (StatEntry.apply fields)
    WireEntry.toks es self.last_packet_statistics (fun e _ => wire_entry_toks_head e)
    (fun e he s => stats_entry_truncated fields e (hes e he) s)
    (fun es1 _ h => stats_errors fields self es1
      (fun e he => hes e (mem_of_append_left h e he))) indef

theorem index_vector_truncated (index_bits : Nat) (self : IndexVectorItem) (indef : Bool)
    (xs : List Nat) :
    RejectsTruncated (IndexVectorItem.readCbor index_bits self)
      (wire_array indef (xs.map fun x => [.uint x])) :=
  wire_array_truncated _ (IndexVectorItem.read_element index_bits)
    (fun (s : IndexVectorItem) x => { s with vec := s.vec ++ [to_index_t index_bits x] })
    (fun x => [.uint x]) xs self (fun x _ => ⟨.uint x, [], rfl, by simp⟩)
    (fun x _ s p hp hne => by
      have h0 := prefix_singleton_proper p _ hp hne
      subst h0
      rfl)
    (fun xs1 _ _ => by
      have h := index_vector_errors index_bits self xs1
      rw [← foldl_push_index] at h
      exact h) indef

theorem query_response_entry_truncated (fields : FileVersionFields) (ticks : Nat)
    (earliest_time : Int) (e : QREntry) (he : QREntry.WellTyped fields e)
    (s : QueryResponseItem) :
    RejectsTruncated (QueryResponseItem.read_entry fields ticks earliest_time s) e.toks := by
  obtain ⟨key, v⟩ := e
  refine keyed_truncated _ key v.toks rfl ?_
  intro q hq hqne
  unfold QREntry.WellTyped at he
  cases v with
  | unsigned n =>
    have h0 := prefix_singleton_proper q _ hq hqne
    subst h0
    cases hf : fields.query_response_field key <;>
      simp [QueryResponseItem.read_entry, read_unsigned, read_signed, hf, skip, skip_go,
        drop_done, readExtraInfo, read_map, readMapHeader]
  | signed n =>
    have h0 := prefix_singleton_proper q _ hq hqne
    subst h0
    cases hf : fields.query_response_field key <;>
      simp [QueryResponseItem.read_entry, read_unsigned, read_signed, hf, skip, skip_go,
        drop_done, readExtraInfo, read_map, readMapHeader]
  | extra indef es =>
    cases hf : fields.query_response_field key <;> simp only [hf] at he
    all_goals first
      | (have h1 := skip_truncated _ he q hq hqne
         simp [QueryResponseItem.read_entry, read_unsigned, hf, h1])
      | (have h1 := extra_info_truncated fields indef es he q hq hqne
         simp [QueryResponseItem.read_entry, read_unsigned, hf, h1])
  | other ts =>
    cases hf : fields.query_response_field key <;> simp only [hf] at he
    have h1 := skip_truncated ts he q hq hqne
    simp [QueryResponseItem.read_entry, read_unsigned, hf, h1]

theorem query_response_truncated (fields : FileVersionFields) (ticks : Nat)
    (earliest_time : Int) (self : QueryResponseItem) (indef : Bool) (es : List QREntry)
    (hes : ∀ e ∈ es, QREntry.WellTyped fields e) :
    RejectsTruncated (QueryResponseItem.readCbor fields ticks earliest_time self)
      (wire_map indef (es.map QREntry.toks)) :=
  wire_map_truncated _ (QueryResponseItem.read_entry fields ticks earliest_time)
    (QREntry.apply fields ticks earliest_time) QREntry.toks es { self with qr_flags := 0 }
    (fun e _ => qr_toks_head e)
    (fun e he s => query_response_entry_truncated fields ticks earliest_time e (hes e he) s)
    (fun es1 _ h => query_response_errors fields ticks earliest_time self es1
      (fun e he => hes e (mem_of_append_left h e he))) indef

theorem items_truncated (fields : FileVersionFields) (ticks : Nat)
    (fresh : QueryResponseItem) (self : BlockData) (indef : Bool) (ms : List QRMap)
    (hms : ∀ m ∈ ms, ∀ e ∈ m.2, QREntry.WellTyped fields e) :
    RejectsTruncated (BlockData.readItems fields ticks fresh self)
      (wire_array indef (ms.map QRMap.toks)) :=
  wire_array_truncated _ (BlockData.readItems_element fields ticks fresh)
    (fun (s : BlockData) (m : QRMap) =>
      { s with query_response_items := s.query_response_items
          ++ [item_of_entries fields ticks s.earliest_time fresh m.2] })
    QRMap.toks ms self (fun m _ => wire_map_head _ _)
    (fun m hm s p hp hne => by
      have h1 := query_response_truncated fields ticks s.earliest_time fresh m.1 m.2
        (hms m hm) p hp hne
      simp only [BlockData.readItems_element, h1])
    (fun ms1 _ h => by
      have h1 := items_errors fields ticks fresh self ms1
        (fun m hm => hms m (mem_of_append_left h m hm))
      rw [← foldl_push_item] at h1
      exact h1) indef

theorem address_events_truncated (fields : FileVersionFields) (self : BlockData)
    (indef : Bool) (ms : List WireMap)
    (hms : ∀ m ∈ ms, ∀ e ∈ m.2, AddressEventEntry.WellTyped fields e) :
    RejectsTruncated (BlockData.readAddressEventCounts fields self)
      (wire_array indef (ms.map WireMap.toks)) :=
  wire_array_truncated _ (BlockData.readAddressEventCounts_element fields)
    (fun (s : BlockData) (m : WireMap) =>
      { s with
        address_event_counts :=
          assign_count s.address_event_counts (address_event_of fields m).aei
            (address_event_of fields m).count })
    WireMap.toks ms self (fun m _ => wire_map_head _ _)
    (fun m hm s p hp hne => by
      have h1 := address_event_truncated fields
        { aei := { type := 0, code := 0, address := 0 }, count := 0 } m.1 m.2
        (hms m hm) p hp hne
      simp only [BlockData.readAddressEventCounts_element, h1])
    (fun ms1 _ h => by
      have h1 := address_events_errors fields self ms1
        (fun m hm => hms m (mem_of_append_left h m hm))
      rw [← foldl_assign_counts] at h1
      exact h1) indef

theorem read_time_truncated (ticks secs usecs : Nat) :
    RejectsTruncated (read_time ticks) (PreambleValue.time secs usecs).toks := by
  intro p hp hne
  simp only [PreambleValue.toks] at hp hne
  rcases List.prefix_cons_iff.mp hp with h | ⟨p1, h1, hp1⟩
  · subst h
    rfl
  · subst h1
    rcases List.prefix_cons_iff.mp hp1 with h | ⟨p2, h2, hp2⟩
    · subst h
      rfl
    · subst h2
      rcases List.prefix_cons_iff.mp hp2 with h | ⟨p3, h3, hp3⟩
      · subst h
        rfl
      · subst h3
        simp only [List.prefix_nil] at hp3
        subst hp3
        exact absurd rfl hne

theorem preamble_entry_truncated (fields : FileVersionFields) (ticks : Nat)
    (e : PreambleEntry) (he : PreambleEntry.WellTyped fields e) (s : BlockData) :
    RejectsTruncated (BlockData.readBlockPreamble_entry fields ticks s) e.toks := by
  obtain ⟨key, v⟩ := e
  refine keyed_truncated _ key v.toks rfl ?_
  intro q hq hqne
  unfold PreambleEntry.WellTyped at he
  cases v with
  | time secs usecs =>
    cases hf : fields.block_preamble_field key <;> simp only [hf] at he
    all_goals first
      | (have h1 := skip_truncated _ he q hq hqne
         simp [BlockData.readBlockPreamble_entry, read_unsigned, hf, h1])
      | (have h1 := read_time_truncated ticks secs usecs q hq hqne
         simp [BlockData.readBlockPreamble_entry, read_unsigned, hf, h1])
  | other ts =>
    cases hf : fields.block_preamble_field key <;> simp only [hf] at he
    have h1 := skip_truncated ts he q hq hqne
    simp [BlockData.readBlockPreamble_entry, read_unsigned, hf, h1]

theorem preamble_truncated (fields : FileVersionFields) (ticks : Nat) (self : BlockData)
    (indef : Bool) (es : List PreambleEntry)
    (hes : ∀ e ∈ es, PreambleEntry.WellTyped fields e) :
    RejectsTruncated (BlockData.readBlockPreamble fields ticks self)
      (wire_map indef (es.map PreambleEntry.toks)) :=
  wire_map_truncated _ (BlockData.readBlockPreamble_entry fields ticks)
    (PreambleEntry.apply fields ticks) PreambleEntry.toks es self
    (fun e _ => preamble_toks_head e)
    (fun e he s => preamble_entry_truncated fields ticks e (hes e he) s)
    (fun es1 _ h => preamble_errors fields ticks self es1
      (fun e he => hes e (mem_of_append_left h e he))) indef

/-- A truncated list of a table: the end-of-input error, given that the
decoder of the items rejects a truncated item. -/
theorem header_list_truncated {ε T : Type} (item_readCbor : T → List Tok → Res T)
    (fresh : T) (tok : ε → List Tok) (decode : ε → T) (es : List ε)
    (hitem : ∀ e ∈ es, ∀ rest, item_readCbor fresh (tok e ++ rest) = .ok (decode e, rest))
    (hne : ∀ e ∈ es, ∃ t ts, tok e = t :: ts ∧ t ≠ .brk)
    (hempty : item_readCbor fresh [] = .error .cbor_end_of_input)
    (htr : ∀ e ∈ es, RejectsTruncated (item_readCbor fresh) (tok e))
    (indef : Bool) (self : List T) :
    RejectsTruncated (HeaderList.readCbor item_readCbor fresh self)
      (wire_array indef (es.map tok)) :=
  wire_array_truncated _ (HeaderList.read_item item_readCbor fresh)
    (fun (s : List T) e => s ++ [decode e]) tok es self hne
    (fun e he s p hp hpne => by
      simp only [HeaderList.read_item, htr e he p hp hpne])
    (fun es1 _ h =>
      read_array_errors_reach_caller (HeaderList.read_item item_readCbor fresh)
        (fun (s : List T) e => s ++ [decode e]) tok es1
        (fun e he s rest => by
          simp [HeaderList.read_item, hitem e (mem_of_append_left h e he) rest])
        (fun e he => hne e (mem_of_append_left h e he))
        (fun s => by simp only [HeaderList.read_item, hempty]) self) indef

theorem table_entry_truncated (fields : FileVersionFields) (env : TableEnv) (e : TableEntry)
    (he : TableEntry.WellTyped fields env e) (s : BlockData) :
    RejectsTruncated (BlockData.readHeaders_entry fields env s) e.toks := by
  obtain ⟨key, v⟩ := e
  refine keyed_truncated _ key v.toks rfl ?_
  intro q hq hqne
  unfold TableEntry.WellTyped at he
  cases hf : fields.block_tables_field key <;> cases v <;>
    simp only [hf] at he <;> try exact he.elim
  case ip_address.byte_strings indef items =>
    have h1 := header_list_truncated (IPAddressItem.readCbor env.IPAddress) { addr := [] }
      (fun b => [.bytes b]) (address_of env) items
      (fun b hb rest => ip_address_toks env _ b (he b hb) rest)
      (fun b _ => ⟨_, _, rfl, by simp⟩) rfl
      (fun b _ p hp hne => by
        have h0 := prefix_singleton_proper p _ hp hne
        subst h0
        rfl)
      indef s.ip_addresses q hq hqne
    simp [BlockData.readHeaders_entry, read_unsigned, hf, h1]
  case name_rdata.byte_strings indef items =>
    have h1 := header_list_truncated ByteStringItem.readCbor { str := [] }
      (fun b => [.bytes b]) (fun b => { str := b }) items
      (fun b _ rest => byte_string_toks _ b rest)
      (fun b _ => ⟨_, _, rfl, by simp⟩) rfl
      (fun b _ p hp hne => by
        have h0 := prefix_singleton_proper p _ hp hne
        subst h0
        rfl)
      indef s.names_rdatas q hq hqne
    simp [BlockData.readHeaders_entry, read_unsigned, hf, h1]
  case classtype.maps indef items =>
    have h1 := header_list_truncated (ClassType.readCbor fields) env.fresh_class_type
      WireMap.toks (fun m => m.2.foldl (ClassTypeEntry.apply fields) env.fresh_class_type)
      items
      (fun m hm rest => class_type_wire_map fields _ m.1 m.2 (he m hm) rest)
      (fun m _ => wire_map_head _ _) rfl
      (fun m hm => class_type_truncated fields _ m.1 m.2 (he m hm))
      indef s.class_types q hq hqne
    simp [BlockData.readHeaders_entry, read_unsigned, hf, h1]
  case query_signature.maps indef items =>
    have h1 := header_list_truncated (QuerySignature.readCbor fields)
      env.fresh_query_signature WireMap.toks
      (fun m => m.2.foldl (SignatureEntry.apply fields) env.fresh_query_signature) items
      (fun m hm rest => signature_wire_map fields _ m.1 m.2 (he m hm) rest)
      (fun m _ => wire_map_head _ _) rfl
      (fun m hm => signature_truncated fields _ m.1 m.2 (he m hm))
      indef s.query_signatures q hq hqne
    simp [BlockData.readHeaders_entry, read_unsigned, hf, h1]
  case question_rr.maps indef items =>
    have h1 := header_list_truncated (Question.readCbor fields) env.fresh_question
      WireMap.toks (fun m => m.2.foldl (QuestionEntry.apply fields) env.fresh_question)
      items
      (fun m hm rest => question_wire_map fields _ m.1 m.2 (he m hm) rest)
      (fun m _ => wire_map_head _ _) rfl
      (fun m hm => question_truncated fields _ m.1 m.2 (he m hm))
      indef s.questions q hq hqne
    simp [BlockData.readHeaders_entry, read_unsigned, hf, h1]
  case rr.maps indef items =>
    have h1 := header_list_truncated (ResourceRecord.readCbor fields)
      env.fresh_resource_record WireMap.toks
      (fun m => m.2.foldl (RREntry.apply fields) env.fresh_resource_record) items
      (fun m hm rest => rr_wire_map fields _ m.1 m.2 (he m hm) rest)
      (fun m _ => wire_map_head _ _) rfl
      (fun m hm => rr_truncated fields _ m.1 m.2 (he m hm))
      indef s.resource_records q hq hqne
    simp [BlockData.readHeaders_entry, read_unsigned, hf, h1]
  case question_list.index_vectors indef items =>
    have h1 := header_list_truncated (IndexVectorItem.readCbor env.index_bits) { vec := [] }
      WireIndexes.toks (fun v => { vec := v.2.map (to_index_t env.index_bits) }) items
      (fun v _ rest => by
        simp only [WireIndexes.toks]
        rw [index_vector_wire_array]
        rfl)
      (fun v _ => wire_array_head _ _) rfl
      (fun v _ => index_vector_truncated env.index_bits _ v.1 v.2)
      indef s.questions_lists q hq hqne
    simp [BlockData.readHeaders_entry, read_unsigned, hf, h1]
  case rr_list.index_vectors indef items =>
    have h1 := header_list_truncated (IndexVectorItem.readCbor env.index_bits) { vec := [] }
      WireIndexes.toks (fun v => { vec := v.2.map (to_index_t env.index_bits) }) items
      (fun v _ rest => by
        simp only [WireIndexes.toks]
        rw [index_vector_wire_array]
        rfl)
      (fun v _ => wire_array_head _ _) rfl
      (fun v _ => index_vector_truncated env.index_bits _ v.1 v.2)
      indef s.rrs_lists q hq hqne
    simp [BlockData.readHeaders_entry, read_unsigned, hf, h1]
  all_goals
    have h1 := skip_truncated _ he q hq hqne
    simp [BlockData.readHeaders_entry, read_unsigned, hf, h1]

theorem headers_truncated (fields : FileVersionFields) (env : TableEnv) (self : BlockData)
    (indef : Bool) (es : List TableEntry)
    (hes : ∀ e ∈ es, TableEntry.WellTyped fields env e) :
    RejectsTruncated (BlockData.readHeaders fields env self)
      (wire_map indef (es.map TableEntry.toks)) :=
  wire_map_truncated _ (BlockData.readHeaders_entry fields env) (TableEntry.apply fields env)
    TableEntry.toks es self (fun e _ => table_toks_head e)
    (fun e he s => table_entry_truncated fields env e (hes e he) s)
    (fun es1 _ h => headers_errors fields env self es1
      (fun e he => hes e (mem_of_append_left h e he))) indef

theorem block_entry_truncated (fields : FileVersionFields) (ticks : Nat)
    (fresh : QueryResponseItem) (env : TableEnv) (e : BlockEntry)
    (he : BlockEntry.WellTyped fields env e) (s : BlockData) :
    RejectsTruncated (BlockData.readCbor_entry fields ticks fresh env s) e.toks := by
  obtain ⟨key, v⟩ := e
  refine keyed_truncated _ key v.toks rfl ?_
  intro q hq hqne
  unfold BlockEntry.WellTyped at he
  cases hf : fields.block_field key <;> cases v <;>
    simp only [hf] at he <;> try exact he.elim
  case preamble.preamble indef es =>
    have h1 := preamble_truncated fields ticks s indef es he q hq hqne
    simp [BlockData.readCbor_entry, read_unsigned, hf, h1]
  case statistics.statistics indef es =>
    have h1 := stats_truncated fields s indef es he q hq hqne
    simp [BlockData.readCbor_entry, read_unsigned, hf, h1]
  case tables.tables indef es =>
    have h1 := headers_truncated fields env s indef es he q hq hqne
    simp [BlockData.readCbor_entry, read_unsigned, hf, h1]
  case queries.queries indef ms =>
    have h1 := items_truncated fields ticks fresh s indef ms he q hq hqne
    simp [BlockData.readCbor_entry, read_unsigned, hf, h1]
  case address_event_counts.address_events indef ms =>
    have h1 := address_events_truncated fields s indef ms he q hq hqne
    simp [BlockData.readCbor_entry, read_unsigned, hf, h1]
  all_goals
    have h1 := skip_truncated _ he q hq hqne
    simp [BlockData.readCbor_entry, read_unsigned, hf, h1]

theorem byte_string_passes (self : ByteStringItem) (dec : List Tok) (e : Err)
    (he : StreamError e) :
    ByteStringItem.readCbor self dec = .error e ↔ read_binary dec = .error e := by
  unfold ByteStringItem.readCbor
  rw [catch_passes _ _ e he]
  cases read_binary dec with
  | error x => simp
  | ok r => simp

theorem ip_address_passes (IPAddress : List Nat → Except Err (List Nat))
    (self : IPAddressItem) (dec : List Tok) (e : Err) (he : StreamError e)
    (h : read_binary dec = .error e) :
    IPAddressItem.readCbor IPAddress self dec = .error e := by
  unfold IPAddressItem.readCbor
  rw [catch_passes _ _ e he, h]

/-! ## Extended info: written and read back -/

theorem writeExtraInfo_tail (cur : CurrentIndex) (id : Int) (ei : QueryResponseExtraInfo) :
    (writeExtraInfo cur id ei).tail = wire_map true ((ext_entries cur ei).map WireEntry.toks) := by
  unfold writeExtraInfo ext_entries
  simp only [wire_map, if_true]
  split_ifs <;> simp [WireEntry.toks, WireValue.toks]


/-- The members of the item decoded from what `writeCbor` wrote for `x`, over
an item `self`: the members written are those of `x`, the others are those
of `self`. -/
theorem item_of_qr_entries_members (cur : CurrentIndex) (fields : FileVersionFields)
    (h : Resolves cur fields) (ticks : Nat) (earliest_time : Int)
    (x self : QueryResponseItem) :
    (item_of_entries fields ticks earliest_time self
        (qr_entries cur ticks earliest_time x)).client_address = x.client_address
    ∧ (item_of_entries fields ticks earliest_time self
        (qr_entries cur ticks earliest_time x)).client_port = x.client_port
    ∧ (item_of_entries fields ticks earliest_time self
        (qr_entries cur ticks earliest_time x)).id = x.id
    ∧ (item_of_entries fields ticks earliest_time self
        (qr_entries cur ticks earliest_time x)).signature = x.signature
    ∧ (item_of_entries fields ticks earliest_time self
        (qr_entries cur ticks earliest_time x)).hoplimit
      = (if x.qr_flags &&& QUERY_ONLY ≠ 0 then x.hoplimit else self.hoplimit)
    ∧ (item_of_entries fields ticks earliest_time self
        (qr_entries cur ticks earliest_time x)).response_delay
      = (if x.qr_flags &&& QUERY_ONLY ≠ 0 ∧ x.qr_flags &&& RESPONSE_ONLY ≠ 0 then
          x.response_delay
        else self.response_delay)
    ∧ (item_of_entries fields ticks earliest_time self
        (qr_entries cur ticks earliest_time x)).qname
      = (if x.qr_flags &&& QR_HAS_QUESTION ≠ 0 then x.qname else self.qname)
    ∧ (item_of_entries fields ticks earliest_time self
        (qr_entries cur ticks earliest_time x)).query_size
      = (if x.qr_flags &&& QUERY_ONLY ≠ 0 then x.query_size else self.query_size)
    ∧ (item_of_entries fields ticks earliest_time self
        (qr_entries cur ticks earliest_time x)).response_size
      = (if x.qr_flags &&& RESPONSE_ONLY ≠ 0 then x.response_size else self.response_size)
    ∧ (item_of_entries fields ticks earliest_time self
        (qr_entries cur ticks earliest_time x)).query_extra_info
      = (match x.query_extra_info with
        | some ei => some ei
        | none => self.query_extra_info)
    ∧ (item_of_entries fields ticks earliest_time self
        (qr_entries cur ticks earliest_time x)).response_extra_info
      = (match x.response_extra_info with
        | some ei => some ei
        | none => self.response_extra_info) := by
  by_cases hQ : x.qr_flags &&& QUERY_ONLY = 0 <;>
    by_cases hR : x.qr_flags &&& RESPONSE_ONLY = 0 <;>
    by_cases hH : x.qr_flags &&& QR_HAS_QUESTION = 0 <;>
    cases hq : x.query_extra_info <;> cases hr : x.response_extra_info <;>
    simp [item_of_entries, qr_entries, qr_written_fields, qr_written_value, QREntry.apply,
      h.query_response, hQ, hR, hH, hq, hr, ext_of_ext_entries cur fields h]

/-- C21: `writeExtraInfo` emits the key it is given, the header of an
indefinite map, then for each of the question, answer, authority and
additional list indexes that is not 0, in this order, its key and its value,
then a break.  `QueryResponseItem::writeCbor` writes such a map for the query
side exactly when `query_extra_info` is present and for the response side
exactly when `response_extra_info` is present: its output is that of the item
without the two, with the maps of those present put in front of the closing
break, and an item decoded from it into a cleared item has each extended info
exactly when the item written had it, with the same contents.  And
`readExtraInfo` applied to the map written for an extended info `ei` gives
`ei` back in all four indexes. -/
theorem C21_extra_info_written_and_read (cur : CurrentIndex) (fields : FileVersionFields)
    (h : Resolves cur fields) :
    (∀ (id : Int) (ei : QueryResponseExtraInfo),
      writeExtraInfo cur id ei
        = write_signed id :: .map none ::
            ((((ext_index_pairs cur ei).filter (fun p => p.2 ≠ 0)).flatMap
                (fun p => [.uint p.1, .uint p.2])) ++ [.brk]))
    ∧ (∀ (ticks : Nat) (earliest_time : Int) (x : QueryResponseItem),
        QueryResponseItem.writeCbor cur ticks earliest_time x
          = (QueryResponseItem.writeCbor cur ticks earliest_time
                { x with query_extra_info := none, response_extra_info := none }).dropLast
            ++ (match x.query_extra_info with
                | some ei =>
                  writeExtraInfo cur (cur.find_query_response_index .query_extended : Int) ei
                | none => [])
            ++ (match x.response_extra_info with
                | some ei =>
                  writeExtraInfo cur (cur.find_query_response_index .response_extended : Int)
                    ei
                | none => [])
            ++ [.brk])
    ∧ (∀ (ticks : Nat) (earliest_time : Int) (x self : QueryResponseItem) (rest : List Tok),
        ∃ y, QueryResponseItem.readCbor fields ticks earliest_time self.clear
              (QueryResponseItem.writeCbor cur ticks earliest_time x ++ rest) = .ok (y, rest)
          ∧ y.query_extra_info = x.query_extra_info
          ∧ y.response_extra_info = x.response_extra_info)
    ∧ (∀ (id : Int) (ei : QueryResponseExtraInfo) (rest : List Tok),
        readExtraInfo fields ((writeExtraInfo cur id ei).tail ++ rest) = .ok (ei, rest)) := by
  refine ⟨?_, ?_, ?_, ?_⟩
  · intro id ei
    unfold writeExtraInfo ext_index_pairs
    by_cases ha : ei.questions_list = 0 <;> by_cases hb : ei.answers_list = 0 <;>
      by_cases hc : ei.authority_list = 0 <;> by_cases hd : ei.additional_list = 0 <;>
      simp [ha, hb, hc, hd, List.filter_cons, List.flatMap_cons]
  · intro ticks earliest_time x
    unfold QueryResponseItem.writeCbor
    simp only [← List.append_assoc, List.dropLast_concat, List.append_nil]
    try rfl
  · intro ticks earliest_time x self rest
    refine ⟨_, query_response_round_trip cur fields h ticks earliest_time x self.clear rest,
      ?_, ?_⟩
    · rw [(item_of_qr_entries_members cur fields h ticks earliest_time x
        self.clear).2.2.2.2.2.2.2.2.2.1]
      cases x.query_extra_info <;> rfl
    · rw [(item_of_qr_entries_members cur fields h ticks earliest_time x
        self.clear).2.2.2.2.2.2.2.2.2.2]
      cases x.response_extra_info <;> rfl
  · intro id ei rest
    rw [writeExtraInfo_tail, readExtraInfo_wire_map fields true _
      (ext_entries_well_typed cur fields h ei) rest, ext_of_ext_entries cur fields h]

/-- C21 at the sample mapping: an extended info with indexes 3, 0, 0, 7 under
the key 10 is written as the key, an indefinite map with the question index
and the additional index, and a break, and reads back as it was. -/
theorem C21_extra_info_written_and_read_witness :
    Resolves sample_index sample_fields
    ∧ writeExtraInfo sample_index 10 sample_extra_info
        = [.uint 10, .map none, .uint 0, .uint 3, .uint 3, .uint 7, .brk]
    ∧ readExtraInfo sample_fields
        ((writeExtraInfo sample_index 10 sample_extra_info).tail ++ [.uint 5])
      = .ok (sample_extra_info, [.uint 5]) :=
  ⟨sample_resolves, by decide,
    (C21_extra_info_written_and_read sample_index sample_fields sample_resolves).2.2.2 10
      sample_extra_info [.uint 5]⟩

/-! ## Address events: decode after encode -/

/-- C24: decoding what `AddressEventCount::writeCbor` wrote for `x` gives `x`
back in type, code, address and count, whatever the object decoded into held
(`self`) and whatever follows the map.  When the code of `x` is 0 the code key
is not written, and the decoder, which sets the code to 0 first, still gives
code 0. -/
theorem C24_address_event_round_trip (cur : CurrentIndex) (fields : FileVersionFields)
    (h : Resolves cur fields) (x self : AddressEventCount) (rest : List Tok) :
    AddressEventCount.readCbor fields self (AddressEventCount.writeCbor cur x ++ rest)
      = .ok (x, rest)
    ∧ (x.aei.code = 0 →
        AddressEventCount.writeCbor cur x
          = [.map none,
              .uint (cur.find_address_event_count_index .ae_type), .uint x.aei.type,
              .uint (cur.find_address_event_count_index .ae_address_index),
              .uint x.aei.address,
              .uint (cur.find_address_event_count_index .ae_count), .uint x.count,
              .brk]) := by
  obtain ⟨⟨t, c, a⟩, n⟩ := x
  constructor
  · by_cases hc : c = 0
    · subst hc
      simp [AddressEventCount.readCbor, AddressEventCount.writeCbor,
        AddressEventCount.read_entry, read_map, readMapHeader, container_loop, read_unsigned,
        h.address_event_count, catch_logic_error]
    · simp [AddressEventCount.readCbor, AddressEventCount.writeCbor,
        AddressEventCount.read_entry, read_map, readMapHeader, container_loop, read_unsigned,
        h.address_event_count, catch_logic_error, hc]
  · intro hc
    simp only at hc
    subst hc
    simp [AddressEventCount.writeCbor]

/-- C24 at the sample mapping: an event with code 0 and one with code 3, each
decoded over an object holding other values. -/
theorem C24_address_event_round_trip_witness :
    Resolves sample_index sample_fields
    ∧ AddressEventCount.writeCbor sample_index
        { aei := { type := 2, code := 0, address := 5 }, count := 11 }
      = [.map none, .uint 0, .uint 2, .uint 2, .uint 5, .uint 3, .uint 11, .brk]
    ∧ AddressEventCount.readCbor sample_fields
        { aei := { type := 9, code := 9, address := 9 }, count := 9 }
        (AddressEventCount.writeCbor sample_index
          { aei := { type := 2, code := 0, address := 5 }, count := 11 } ++ [.uint 7])
      = .ok ({ aei := { type := 2, code := 0, address := 5 }, count := 11 }, [.uint 7])
    ∧ AddressEventCount.readCbor sample_fields
        { aei := { type := 9, code := 9, address := 9 }, count := 9 }
        (AddressEventCount.writeCbor sample_index
          { aei := { type := 2, code := 3, address := 5 }, count := 11 } ++ [])
      = .ok ({ aei := { type := 2, code := 3, address := 5 }, count := 11 }, []) :=
  ⟨sample_resolves, by decide,
    (C24_address_event_round_trip sample_index sample_fields sample_resolves
      { aei := { type := 2, code := 0, address := 5 }, count := 11 }
      { aei := { type := 9, code := 9, address := 9 }, count := 9 } [.uint 7]).1,
    (C24_address_event_round_trip sample_index sample_fields sample_resolves
      { aei := { type := 2, code := 3, address := 5 }, count := 11 }
      { aei := { type := 9, code := 9, address := 9 }, count := 9 } []).1⟩

/-! ## Query signatures: what is written -/

/-- C25: `QuerySignature::writeCbor` emits the header of an indefinite map,
then key and value of each member of `signature_written`: server address,
server port, transport flags, DNS flags, signature flags and qdcount always;
the query class/type iff `QR_HAS_QUESTION` is set; query rcode, opcode,
ancount, arcount and nscount iff `QUERY_ONLY` is set; EDNS version, UDP payload
size and OPT rdata index iff `QUERY_ONLY` and `QUERY_HAS_OPT` are both set; the
response rcode iff `RESPONSE_ONLY` is set; then a break.  Every key written is
one of these sixteen and none is written twice. -/
theorem C25_signature_written_groups (cur : CurrentIndex) (x : QuerySignature) :
    QuerySignature.writeCbor cur x
      = .map none ::
          ((signature_written x).flatMap
              (fun p => [.uint (cur.find_query_signature_index p.1), .uint p.2])
            ++ [.brk])
    ∧ ((signature_written x).map Prod.fst).Nodup
    ∧ ∀ p ∈ signature_written x, p.1 ≠ .unknown := by
  by_cases hH : x.qr_flags &&& QR_HAS_QUESTION = 0 <;>
    by_cases hQ : x.qr_flags &&& QUERY_ONLY = 0 <;>
    by_cases hO : x.qr_flags &&& QUERY_HAS_OPT = 0 <;>
    by_cases hR : x.qr_flags &&& RESPONSE_ONLY = 0 <;>
    simp [QuerySignature.writeCbor, signature_written, hH, hQ, hO, hR, List.flatMap_cons]

/-- C25 at two signatures: with all four flags set all sixteen members are
written; with `QUERY_HAS_OPT` alone only the six that are always written. -/
theorem C25_signature_written_groups_witness :
    QuerySignature.writeCbor sample_index sample_signature
      = [.map none, .uint 0, .uint 1, .uint 1, .uint 53, .uint 2, .uint 2, .uint 3, .uint 17,
          .uint 4, .uint 15, .uint 5, .uint 1, .uint 6, .uint 2, .uint 7, .uint 0, .uint 8,
          .uint 0, .uint 9, .uint 0, .uint 10, .uint 1, .uint 11, .uint 0, .uint 12, .uint 0,
          .uint 13, .uint 4096, .uint 14, .uint 3, .uint 15, .uint 3, .brk]
    ∧ QuerySignature.writeCbor sample_index signature_opt_without_query
      = [.map none, .uint 0, .uint 0, .uint 1, .uint 0, .uint 2, .uint 0, .uint 3, .uint 0,
          .uint 4, .uint 8, .uint 5, .uint 0, .brk]
    ∧ (signature_written signature_opt_without_query).map Prod.fst
      = [.server_address_index, .server_port, .transport_flags, .qr_dns_flags,
          .qr_sig_flags, .query_qd_count] :=
  ⟨(C25_signature_written_groups sample_index sample_signature).1.trans (by decide),
    (C25_signature_written_groups sample_index signature_opt_without_query).1.trans
      (by decide),
    by decide⟩

/-! ## Query signatures: what is hashed -/

theorem hash_of_hashed_members (boost : BoostHash) (qs : QuerySignature) :
    QuerySignature.hash_value boost qs
      = (hashed_members qs).tail.foldl boost.hash_combine
          (boost.hash_value qs.server_address) := by
  unfold QuerySignature.hash_value hashed_members
  by_cases hH : qs.qr_flags &&& QR_HAS_QUESTION = 0 <;>
    by_cases hQ : qs.qr_flags &&& QUERY_ONLY = 0 <;>
    by_cases hO : qs.qr_flags &&& QUERY_HAS_OPT = 0 <;>
    by_cases hR : qs.qr_flags &&& RESPONSE_ONLY = 0 <;>
    simp [hH, hQ, hO, hR]

theorem hashed_members_of_agree (a b : QuerySignature) (h : MeaningfulAgree a b) :
    hashed_members a = hashed_members b := by
  obtain ⟨hflags, haddr, hport, htr, hdns, hqd, hquestion, hquery, hresponse, hopt⟩ := h
  unfold hashed_members
  rw [← hflags, ← haddr, ← hport, ← htr, ← hdns, ← hqd]
  by_cases hH : a.qr_flags &&& QR_HAS_QUESTION = 0 <;>
    by_cases hQ : a.qr_flags &&& QUERY_ONLY = 0 <;>
    by_cases hO : a.qr_flags &&& QUERY_HAS_OPT = 0 <;>
    by_cases hR : a.qr_flags &&& RESPONSE_ONLY = 0 <;>
    simp_all

/-- C26: the hash of a signature is a function of the members meaningful
under its flags alone: it is the fold of `hash_combine` over `hashed_members`,
and two signatures that agree in those members (same flags, same always-hashed
members, same members of each group whose flag is set) have the same list of
hashed members and so the same hash, whatever their other members hold. -/
theorem C26_hash_depends_on_meaningful_members (boost : BoostHash) (a b : QuerySignature)
    (h : MeaningfulAgree a b) :
    QuerySignature.hash_value boost a
      = (hashed_members a).tail.foldl boost.hash_combine (boost.hash_value a.server_address)
    ∧ hashed_members a = hashed_members b
    ∧ QuerySignature.hash_value boost a = QuerySignature.hash_value boost b := by
  have hm := hashed_members_of_agree a b h
  refine ⟨hash_of_hashed_members boost a, hm, ?_⟩
  rw [hash_of_hashed_members boost a, hash_of_hashed_members boost b, hm, h.2.1]

/-- C26 at two signatures with flags `QR_HAS_QUESTION` that differ in all nine
members of the query, response and EDNS groups: they agree in the meaningful
members and hash the same. -/
theorem C26_hash_depends_on_meaningful_members_witness :
    MeaningfulAgree sample_question_signature sample_question_signature_other
    ∧ sample_question_signature ≠ sample_question_signature_other
    ∧ hashed_members sample_question_signature = [1, 53, 2, 17, 4, 1, 2]
    ∧ QuerySignature.hash_value boost_hash sample_question_signature
      = QuerySignature.hash_value boost_hash sample_question_signature_other :=
  ⟨⟨rfl, rfl, rfl, rfl, rfl, rfl, fun _ => rfl, fun h => absurd (by decide) h,
      fun h => absurd (by decide) h, fun h => absurd (by decide) h⟩,
    by decide, by decide,
    (C26_hash_depends_on_meaningful_members boost_hash sample_question_signature
      sample_question_signature_other
      ⟨rfl, rfl, rfl, rfl, rfl, rfl, fun _ => rfl, fun h => absurd (by decide) h,
        fun h => absurd (by decide) h, fun h => absurd (by decide) h⟩).2.2⟩

/-! ## Statistics: decode after encode -/

theorem add_sub_u64 (a b : Nat) (hab : a ≤ b) (hb : b < 2 ^ 64) :
    add_u64 a (sub_u64 b a) = b := by
  rw [sub_u64_of_le b a hab hb]
  unfold add_u64
  rw [Nat.add_sub_cancel' hab]
  exact Nat.mod_eq_of_lt hb

theorem sub_u64_zero (a : Nat) : sub_u64 a 0 = a % 2 ^ 64 := by
  unfold sub_u64
  simp

theorem add_u64_eq_right (l d : Nat) (hl : l < 2 ^ 64) (hd : d < 2 ^ 64) :
    add_u64 l d = d ↔ l = 0 := by
  unfold add_u64
  constructor
  · intro h
    by_cases hlt : l + d < 2 ^ 64
    · rw [Nat.mod_eq_of_lt hlt] at h
      omega
    · have h1 : (l + d) % 2 ^ 64 = l + d - 2 ^ 64 := by
        rw [Nat.mod_eq_sub_mod (by omega)]
        exact Nat.mod_eq_of_lt (by omega)
      omega
  · intro h
    subst h
    rw [Nat.zero_add]
    exact Nat.mod_eq_of_lt hd

theorem writeStats_eq_stats_map (cur : CurrentIndex) (self : BlockData) :
    BlockData.writeStats cur self = stats_map cur self.stats_delta :=
  rfl

/-- What `readStats` makes of a statistics map with all ten keys: the start
statistics are zero, every running total has grown by the value under its
key. -/
theorem read_stats_map (cur : CurrentIndex) (fields : FileVersionFields)
    (h : Resolves cur fields) (d : BlockStatisticsField → Nat) (target : BlockData)
    (rest : List Tok) :
    BlockData.readStats fields target (stats_map cur d ++ rest)
      = .ok ({ target with
                start_packet_statistics := PacketStatistics.zero,
                last_packet_statistics := target.last_packet_statistics.add d }, rest) := by
  simp [BlockData.readStats, stats_map, statistics_fields, wire_map,
    BlockData.readStats_entry, read_map, readMapHeader, container_loop, read_unsigned,
    h.block_statistics, PacketStatistics.add]

theorem counter_add (st : PacketStatistics) (d : BlockStatisticsField → Nat)
    (f : BlockStatisticsField) (hf : f ≠ .unknown) :
    (st.add d).counter f = add_u64 (st.counter f) (d f) := by
  cases f <;> first | rfl | exact absurd rfl hf

theorem packet_statistics_ext (a b : PacketStatistics)
    (h : ∀ f, f ≠ .unknown → a.counter f = b.counter f) : a = b := by
  obtain ⟨a1, a2, a3, a4, a5, a6, a7, a8, a9, a10⟩ := a
  obtain ⟨b1, b2, b3, b4, b5, b6, b7, b8, b9, b10⟩ := b
  have h1 := h .total_packets (by decide)
  have h2 := h .total_pairs (by decide)
  have h3 := h .unmatched_queries (by decide)
  have h4 := h .unmatched_responses (by decide)
  have h5 := h .completely_malformed_packets (by decide)
  have h6 := h .compactor_non_dns_packets (by decide)
  have h7 := h .compactor_out_of_order_packets (by decide)
  have h8 := h .compactor_missing_pairs (by decide)
  have h9 := h .compactor_missing_packets (by decide)
  have h10 := h .compactor_missing_non_dns (by decide)
  simp only [PacketStatistics.counter] at h1 h2 h3 h4 h5 h6 h7 h8 h9 h10
  subst h1 h2 h3 h4 h5 h6 h7 h8 h9 h10
  rfl

/-- C27: for two snapshots with `last ≥ start` in every counter (64-bit
values), decoding the map that `writeStats` produces into a block whose
running total is `start` succeeds and leaves a running total equal to `last`
in every counter: each counter is `start + (last - start)`, the difference
having been written under the key of that same counter. -/
theorem C27_stats_delta_round_trip (cur : CurrentIndex) (fields : FileVersionFields)
    (h : Resolves cur fields) (writer target : BlockData) (rest : List Tok)
    (hstart : target.last_packet_statistics = writer.start_packet_statistics)
    (hle : ∀ f, writer.start_packet_statistics.counter f
      ≤ writer.last_packet_statistics.counter f)
    (hlt : writer.last_packet_statistics.InRange) :
    ∃ b, BlockData.readStats fields target (BlockData.writeStats cur writer ++ rest)
        = .ok (b, rest)
      ∧ b.last_packet_statistics = writer.last_packet_statistics
      ∧ ∀ f, b.last_packet_statistics.counter f
          = writer.start_packet_statistics.counter f
            + (writer.last_packet_statistics.counter f
              - writer.start_packet_statistics.counter f) := by
  have hlast : target.last_packet_statistics.add writer.stats_delta
      = writer.last_packet_statistics := by
    apply packet_statistics_ext
    intro f hf
    rw [counter_add _ _ f hf, hstart]
    exact add_sub_u64 _ _ (hle f) (hlt f)
  refine ⟨_, by rw [writeStats_eq_stats_map]; exact read_stats_map cur fields h _ target rest,
    hlast, ?_⟩
  intro f
  simp only [hlast]
  have := hle f
  omega

/-- C27 at the sample mapping: start 40 raw packets and 7 pairs, last 90 and
27; the map carries 50 and 20, and a block that had counted 40 and 7 ends at
90 and 27. -/
theorem C27_stats_delta_round_trip_witness :
    Resolves sample_index sample_fields
    ∧ BlockData.writeStats sample_index sample_writer_block
      = [.map none, .uint 0, .uint 50, .uint 1, .uint 20, .uint 2, .uint 0, .uint 3, .uint 0,
         .uint 4, .uint 0, .uint 5, .uint 0, .uint 6, .uint 0, .uint 7, .uint 0, .uint 8,
         .uint 0, .uint 9, .uint 0, .brk]
    ∧ ∃ b, BlockData.readStats sample_fields sample_target_block
          (BlockData.writeStats sample_index sample_writer_block ++ []) = .ok (b, [])
        ∧ b.last_packet_statistics = sample_writer_block.last_packet_statistics
        ∧ b.last_packet_statistics.raw_packet_count = 90 :=
  ⟨sample_resolves, by decide,
    match C27_stats_delta_round_trip sample_index sample_fields sample_resolves
        sample_writer_block sample_target_block [] rfl
        (by intro f; cases f <;> decide) (by intro f; cases f <;> decide) with
    | ⟨b, hb, hl, _⟩ => ⟨b, hb, hl, by rw [hl]; rfl⟩⟩

theorem readStats_resets_start (fields : FileVersionFields) (self b : BlockData)
    (dec rest : List Tok) (h : BlockData.readStats fields self dec = .ok (b, rest)) :
    b.start_packet_statistics = PacketStatistics.zero := by
  unfold BlockData.readStats at h
  simp only [] at h
  split at h
  · simp at h
  · simp only [Except.ok.injEq, Prod.mk.injEq] at h
    rw [← h.1]

theorem stats_map_injective (cur : CurrentIndex) (d1 d2 : BlockStatisticsField → Nat)
    (h : stats_map cur d1 = stats_map cur d2) :
    ∀ f, f ∈ statistics_fields → d1 f = d2 f := by
  simp only [stats_map, statistics_fields, wire_map, if_true, List.map_cons, List.map_nil,
    List.flatten_cons, List.flatten_nil, List.cons_append, List.nil_append, List.cons.injEq,
    Tok.uint.injEq, true_and, and_true] at h
  intro f hf
  simp only [statistics_fields, List.mem_cons, List.mem_singleton, List.not_mem_nil,
    or_false] at hf
  obtain ⟨h1, h2, h3, h4, h5, h6, h7, h8, h9, h10⟩ := h
  rcases hf with rfl | rfl | rfl | rfl | rfl | rfl | rfl | rfl | rfl | rfl <;> assumption

/-- C28: `readStats` leaves `start_packet_statistics` all zero on every input
it accepts, whatever the map holds.  So `writeStats` applied to the block right
after `readStats` writes, for each counter, the running total itself (as a
64-bit value), not a difference.  For a statistics map carrying the values `d`
read into a block with running totals `L`, what is written afterwards is
`L + d` under each key, and that is the map just read exactly when every
running total was zero before the read. -/
theorem C28_stats_written_after_read (cur : CurrentIndex) (fields : FileVersionFields)
    (h : Resolves cur fields) :
    (∀ (self b : BlockData) (dec rest : List Tok),
      BlockData.readStats fields self dec = .ok (b, rest) →
      b.start_packet_statistics = PacketStatistics.zero
      ∧ BlockData.writeStats cur b
        = stats_map cur (fun f => b.last_packet_statistics.counter f % 2 ^ 64))
    ∧ (∀ (d : BlockStatisticsField → Nat) (target : BlockData) (rest : List Tok),
        (∀ f, d f < 2 ^ 64) → target.last_packet_statistics.InRange →
        ∃ b, BlockData.readStats fields target (stats_map cur d ++ rest) = .ok (b, rest)
          ∧ BlockData.writeStats cur b
            = stats_map cur (fun f => add_u64 (target.last_packet_statistics.counter f) (d f))
          ∧ (BlockData.writeStats cur b = stats_map cur d
              ↔ target.last_packet_statistics = PacketStatistics.zero)) := by
  have hwrite : ∀ (self b : BlockData) (dec rest : List Tok),
      BlockData.readStats fields self dec = .ok (b, rest) →
      BlockData.writeStats cur b
        = stats_map cur (fun f => b.last_packet_statistics.counter f % 2 ^ 64) := by
    intro self b dec rest hb
    have h0 := readStats_resets_start fields self b dec rest hb
    rw [writeStats_eq_stats_map]
    unfold BlockData.stats_delta
    rw [h0]
    simp only [stats_map, statistics_fields, List.map_cons, List.map_nil,
      PacketStatistics.counter, PacketStatistics.zero, sub_u64_zero]
  refine ⟨fun self b dec rest hb =>
    ⟨readStats_resets_start fields self b dec rest hb, hwrite self b dec rest hb⟩, ?_⟩
  intro d target rest hd hL
  have hread := read_stats_map cur fields h d target rest
  have hw := hwrite _ _ _ _ hread
  have hmaps : stats_map cur (fun f => (target.last_packet_statistics.add d).counter f % 2 ^ 64)
      = stats_map cur (fun f => add_u64 (target.last_packet_statistics.counter f) (d f)) := by
    simp only [stats_map, statistics_fields, List.map_cons, List.map_nil,
      PacketStatistics.counter, PacketStatistics.add, add_u64, Nat.mod_mod]
  simp only [] at hw
  rw [hmaps] at hw
  refine ⟨_, hread, hw, ?_⟩
  rw [hw]
  constructor
  · intro heq
    apply packet_statistics_ext
    intro f hf
    have hmem : f ∈ statistics_fields := by
      cases f <;> first | exact absurd rfl hf | decide
    have h1 := stats_map_injective cur _ _ heq f hmem
    simp only [] at h1
    rw [(add_u64_eq_right _ _ (hL f) (hd f)).mp h1]
    cases f <;> rfl
  · intro hz
    rw [hz]
    congr 1
    funext f
    have h0 : PacketStatistics.zero.counter f = 0 := by cases f <;> rfl
    rw [h0]
    unfold add_u64
    rw [Nat.zero_add]
    exact Nat.mod_eq_of_lt (hd f)

/-- C28 at the sample mapping.  The map with 50 under the total-packets key and
20 under the total-pairs key, read into a block that had counted 40 packets and
7 pairs, is followed by a written map with 90 and 27: the totals, not the
differences just read.  Read into a block with nothing counted, the written map
is the map read. -/
theorem C28_stats_written_after_read_witness :
    Resolves sample_index sample_fields
    ∧ (∃ b, BlockData.readStats sample_fields sample_target_block
          (stats_map sample_index sample_writer_block.stats_delta ++ []) = .ok (b, [])
        ∧ b.start_packet_statistics = PacketStatistics.zero
        ∧ BlockData.writeStats sample_index b
          = [.map none, .uint 0, .uint 90, .uint 1, .uint 27, .uint 2, .uint 0, .uint 3,
              .uint 0, .uint 4, .uint 0, .uint 5, .uint 0, .uint 6, .uint 0, .uint 7, .uint 0,
              .uint 8, .uint 0, .uint 9, .uint 0, .brk]
        ∧ BlockData.writeStats sample_index b
          ≠ stats_map sample_index sample_writer_block.stats_delta)
    ∧ (∃ b, BlockData.readStats sample_fields empty_block
          (stats_map sample_index sample_writer_block.stats_delta ++ []) = .ok (b, [])
        ∧ BlockData.writeStats sample_index b
          = stats_map sample_index sample_writer_block.stats_delta) :=
  ⟨sample_resolves,
    match (C28_stats_written_after_read sample_index sample_fields sample_resolves).2
        sample_writer_block.stats_delta sample_target_block []
        (by intro f; cases f <;> decide) (by intro f; cases f <;> decide) with
    | ⟨b, hb, hw, hiff⟩ =>
      ⟨b, hb,
        ((C28_stats_written_after_read sample_index sample_fields sample_resolves).1
          sample_target_block b _ [] hb).1,
        hw.trans (by decide), fun heq => absurd (hiff.mp heq) (by decide)⟩,
    match (C28_stats_written_after_read sample_index sample_fields sample_resolves).2
        sample_writer_block.stats_delta empty_block []
        (by intro f; cases f <;> decide) (by intro f; cases f <;> decide) with
    | ⟨b, hb, _, hiff⟩ => ⟨b, hb, hiff.mpr rfl⟩⟩

/-! ## The mapping from address events to counts -/

theorem lookup_nil (key : AddressEventItem) : lookup_count [] key = none := rfl

theorem lookup_cons (p : AddressEventItem × Nat) (m : List (AddressEventItem × Nat))
    (key : AddressEventItem) :
    lookup_count (p :: m) key = if p.1 = key then some p.2 else lookup_count m key := by
  unfold lookup_count
  rw [List.find?_cons]
  by_cases hp : p.1 = key
  · simp [hp]
  · simp [hp]

theorem lookup_append_single (m : List (AddressEventItem × Nat)) (q : AddressEventItem × Nat)
    (key : AddressEventItem) :
    lookup_count (m ++ [q]) key
      = match lookup_count m key with
        | some c => some c
        | none => if q.1 = key then some q.2 else none := by
  induction m with
  | nil => simp only [List.nil_append, lookup_cons, lookup_nil]
  | cons p m ih =>
    rw [List.cons_append, lookup_cons, lookup_cons, ih]
    by_cases hp : p.1 = key
    · simp only [hp, if_true]
    · simp only [hp, if_false]

theorem lookup_none_of_not_any (m : List (AddressEventItem × Nat)) (key : AddressEventItem)
    (h : (m.any fun p => decide (p.1 = key)) = false) : lookup_count m key = none := by
  induction m with
  | nil => rfl
  | cons p m ih =>
    simp only [List.any_cons, Bool.or_eq_false_iff, decide_eq_false_iff_not] at h
    rw [lookup_cons, if_neg h.1, ih h.2]

theorem lookup_replaced_same (m : List (AddressEventItem × Nat)) (key : AddressEventItem)
    (count : Nat) (h : (m.any fun p => decide (p.1 = key)) = true) :
    lookup_count (m.map fun p => if p.1 = key then (key, count) else p) key = some count := by
  induction m with
  | nil => simp at h
  | cons p m ih =>
    rw [List.map_cons, lookup_cons]
    by_cases hp : p.1 = key
    · simp only [hp, if_true]
    · simp only [hp, if_false]
      simp only [List.any_cons, hp, decide_False, Bool.false_or] at h
      exact ih h

theorem lookup_replaced_other (m : List (AddressEventItem × Nat))
    (key other : AddressEventItem) (count : Nat) (hne : other ≠ key) :
    lookup_count (m.map fun p => if p.1 = key then (key, count) else p) other
      = lookup_count m other := by
  have hne2 : ¬ key = other := fun h => hne h.symm
  induction m with
  | nil => rfl
  | cons p m ih =>
    rw [List.map_cons, lookup_cons, lookup_cons, ih]
    by_cases hp : p.1 = key
    · have hpo : ¬ p.1 = other := fun h => hne2 (hp.symm.trans h)
      simp only [hp, if_true, hne2, if_false, hpo]
    · simp only [hp, if_false]

theorem lookup_assign_same (m : List (AddressEventItem × Nat)) (key : AddressEventItem)
    (count : Nat) : lookup_count (assign_count m key count) key = some count := by
  unfold assign_count
  cases hany : (m.any fun p => decide (p.1 = key)) with
  | true =>
    simp only [if_true]
    exact lookup_replaced_same m key count hany
  | false =>
    simp only [Bool.false_eq_true, if_false]
    rw [lookup_append_single, lookup_none_of_not_any m key hany]
    simp

theorem lookup_assign_other (m : List (AddressEventItem × Nat)) (key other : AddressEventItem)
    (count : Nat) (hne : other ≠ key) :
    lookup_count (assign_count m key count) other = lookup_count m other := by
  unfold assign_count
  have hne2 : ¬ key = other := fun h => hne h.symm
  cases hany : (m.any fun p => decide (p.1 = key)) with
  | true =>
    simp only [if_true]
    exact lookup_replaced_other m key other count hne
  | false =>
    simp only [Bool.false_eq_true, if_false]
    rw [lookup_append_single]
    cases lookup_count m other with
    | none => simp [hne2]
    | some c => rfl

theorem last_count_concat (events : List AddressEventCount) (a : AddressEventCount)
    (key : AddressEventItem) :
    last_count (events ++ [a]) key
      = if a.aei = key then some a.count else last_count events key := by
  unfold last_count
  rw [List.reverse_append, List.reverse_singleton, List.singleton_append, List.find?_cons]
  by_cases ha : a.aei = key
  · simp [ha]
  · simp [ha]

/-- The mapping after a sequence of assignments: an event that occurs in the
sequence has the count of its last occurrence, any other event the count it
had. -/
theorem lookup_foldl_assign (events : List AddressEventCount)
    (m : List (AddressEventItem × Nat)) (key : AddressEventItem) :
    lookup_count (events.foldl (fun counts a => assign_count counts a.aei a.count) m) key
      = match last_count events key with
        | some c => some c
        | none => lookup_count m key := by
  induction events using List.reverseRecOn with
  | nil => rfl
  | append_singleton events a ih =>
    rw [List.foldl_append, List.foldl_cons, List.foldl_nil, last_count_concat]
    by_cases ha : a.aei = key
    · simp only [ha, if_true]
      rw [← ha]
      exact lookup_assign_same _ _ _
    · simp only [ha, if_false]
      rw [lookup_assign_other _ _ _ _ (fun h => ha h.symm)]
      exact ih

theorem assign_count_keys_nodup (m : List (AddressEventItem × Nat)) (key : AddressEventItem)
    (count : Nat) (h : (m.map Prod.fst).Nodup) :
    ((assign_count m key count).map Prod.fst).Nodup := by
  unfold assign_count
  cases hany : (m.any fun p => decide (p.1 = key)) with
  | true =>
    simp only [if_true]
    have hkeys : (m.map fun p => if p.1 = key then (key, count) else p).map Prod.fst
        = m.map Prod.fst := by
      rw [List.map_map]
      apply List.map_congr_left
      intro p _
      by_cases hp : p.1 = key
      · simp [hp]
      · simp [hp]
    rw [hkeys]
    exact h
  | false =>
    simp only [Bool.false_eq_true, if_false, List.map_append, List.map_cons, List.map_nil]
    rw [List.nodup_append]
    refine ⟨h, List.nodup_singleton _, ?_⟩
    intro k hk
    simp only [List.mem_singleton]
    intro hkey
    subst hkey
    obtain ⟨p, hp, hpk⟩ := List.mem_map.mp hk
    have : (m.any fun p => decide (p.1 = k)) = true :=
      List.any_eq_true.mpr ⟨p, hp, by simp [hpk]⟩
    rw [hany] at this
    exact absurd this (by decide)

theorem foldl_assign_keys_nodup (events : List AddressEventCount)
    (m : List (AddressEventItem × Nat)) (h : (m.map Prod.fst).Nodup) :
    ((events.foldl (fun counts a => assign_count counts a.aei a.count) m).map
      Prod.fst).Nodup := by
  induction events generalizing m with
  | nil => exact h
  | cons a events ih =>
    rw [List.foldl_cons]
    exact ih _ (assign_count_keys_nodup m a.aei a.count h)

theorem sample_event_maps_well_typed :
    ∀ m ∈ sample_event_maps, ∀ e ∈ m.2, AddressEventEntry.WellTyped sample_fields e := by
  intro m hm e he
  simp only [sample_event_maps, List.mem_cons, List.mem_singleton, List.not_mem_nil,
    or_false] at hm
  rcases hm with rfl | rfl | rfl <;>
    · simp only [List.mem_cons, List.mem_singleton, List.not_mem_nil, or_false] at he
      rcases he with rfl | rfl | rfl | rfl <;> exact True.intro

/-- C22: `BlockData::readAddressEventCounts` assigns, it does not add.  After
reading an array of well-typed address event maps, in either form, the mapping
holds for every event that occurs in the array the count of its last
occurrence, and for every other event the count it held before (none if it
held none); the counts of several entries for one event are never summed, nor
added to the count the mapping held.  A mapping with one pair per event still
has one pair per event. -/
theorem C22_last_count_wins (fields : FileVersionFields) (self : BlockData) (indef : Bool)
    (ms : List WireMap) (rest : List Tok)
    (hms : ∀ m ∈ ms, ∀ e ∈ m.2, AddressEventEntry.WellTyped fields e) :
    ∃ b, BlockData.readAddressEventCounts fields self
          (wire_array indef (ms.map WireMap.toks) ++ rest) = .ok (b, rest)
      ∧ (∀ key, lookup_count b.address_event_counts key
          = match last_count (ms.map (address_event_of fields)) key with
            | some c => some c
            | none => lookup_count self.address_event_counts key)
      ∧ ((self.address_event_counts.map Prod.fst).Nodup →
          (b.address_event_counts.map Prod.fst).Nodup) := by
  refine ⟨_, address_events_wire_array fields self indef ms hms rest, ?_, ?_⟩
  · intro key
    have h := lookup_foldl_assign (ms.map (address_event_of fields))
      self.address_event_counts key
    rw [List.foldl_map] at h
    exact h
  · intro hn
    have h := foldl_assign_keys_nodup (ms.map (address_event_of fields))
      self.address_event_counts hn
    rw [List.foldl_map] at h
    exact h

/-- C22 at the sample mapping: the event (2, 0, 5) comes with count 5 and
later with count 7 into a mapping that held 100 for it; afterwards the mapping
holds 7 (not 12 and not 112), 4 for the event (3, 1, 6) of the array, and still
9 for the event (1, 0, 1), which the array does not mention. -/
theorem C22_last_count_wins_witness :
    (∀ m ∈ sample_event_maps, ∀ e ∈ m.2, AddressEventEntry.WellTyped sample_fields e)
    ∧ ∃ b, BlockData.readAddressEventCounts sample_fields sample_events_block
          (wire_array true (sample_event_maps.map WireMap.toks) ++ [.uint 7])
        = .ok (b, [.uint 7])
      ∧ lookup_count b.address_event_counts { type := 2, code := 0, address := 5 } = some 7
      ∧ lookup_count b.address_event_counts { type := 3, code := 1, address := 6 } = some 4
      ∧ lookup_count b.address_event_counts { type := 1, code := 0, address := 1 } = some 9
      ∧ lookup_count b.address_event_counts { type := 4, code := 0, address := 0 } = none :=
  ⟨sample_event_maps_well_typed,
    match C22_last_count_wins sample_fields sample_events_block true sample_event_maps
        [.uint 7] sample_event_maps_well_typed with
    | ⟨b, hb, hl, _⟩ =>
      ⟨b, hb, (hl _).trans (by decide), (hl _).trans (by decide), (hl _).trans (by decide),
        (hl _).trans (by decide)⟩⟩

/-! ## Items as the decoder leaves them -/

theorem or_and_zero_small :
    ∀ a < 8, ∀ b < 8, ∀ m < 8, (a ||| b) &&& m = 0 → a &&& m = 0 ∧ b &&& m = 0 := by
  decide

theorem or_and_zero (a b m : Nat) (ha : a < 8) (hb : b < 8) (hm : m < 8)
    (h : (a ||| b) &&& m = 0) : a &&& m = 0 ∧ b &&& m = 0 :=
  or_and_zero_small a ha b hb m hm h

theorem flag_of_field_lt (f : QueryResponseField) : flag_of_field f < 8 := by
  cases f <;> decide

theorem apply_cover_query (fields : FileVersionFields) (ticks : Nat) (earliest_time : Int)
    (s : QueryResponseItem) (e : QREntry) (h3 : s.hoplimit = 0 ∧ s.query_size = 0)
    (h2 : flag_of_field (fields.query_response_field e.1) &&& QUERY_ONLY = 0) :
    (QREntry.apply fields ticks earliest_time s e).hoplimit = 0
    ∧ (QREntry.apply fields ticks earliest_time s e).query_size = 0 := by
  obtain ⟨key, v⟩ := e
  unfold QREntry.apply
  cases hf : fields.query_response_field key <;> cases v <;>
    simp_all [flag_of_field, QUERY_ONLY]

theorem apply_cover_delay (fields : FileVersionFields) (ticks : Nat) (earliest_time : Int)
    (s : QueryResponseItem) (e : QREntry) (h3 : s.response_delay = 0)
    (h2 : ¬ (flag_of_field (fields.query_response_field e.1) &&& QUERY_ONLY ≠ 0
        ∧ flag_of_field (fields.query_response_field e.1) &&& RESPONSE_ONLY ≠ 0)) :
    (QREntry.apply fields ticks earliest_time s e).response_delay = 0 := by
  obtain ⟨key, v⟩ := e
  unfold QREntry.apply
  cases hf : fields.query_response_field key <;> cases v <;>
    simp_all [flag_of_field, QUERY_ONLY, RESPONSE_ONLY, QUERY_AND_RESPONSE]

theorem apply_cover_question (fields : FileVersionFields) (ticks : Nat) (earliest_time : Int)
    (s : QueryResponseItem) (e : QREntry) (h3 : s.qname = 0)
    (h2 : flag_of_field (fields.query_response_field e.1) &&& QR_HAS_QUESTION = 0) :
    (QREntry.apply fields ticks earliest_time s e).qname = 0 := by
  obtain ⟨key, v⟩ := e
  unfold QREntry.apply
  cases hf : fields.query_response_field key <;> cases v <;>
    simp_all [flag_of_field, QR_HAS_QUESTION]

theorem apply_cover_response (fields : FileVersionFields) (ticks : Nat) (earliest_time : Int)
    (s : QueryResponseItem) (e : QREntry) (h3 : s.response_size = 0)
    (h2 : flag_of_field (fields.query_response_field e.1) &&& RESPONSE_ONLY = 0) :
    (QREntry.apply fields ticks earliest_time s e).response_size = 0 := by
  obtain ⟨key, v⟩ := e
  unfold QREntry.apply
  cases hf : fields.query_response_field key <;> cases v <;>
    simp_all [flag_of_field, RESPONSE_ONLY]

theorem apply_flags_cover (fields : FileVersionFields) (ticks : Nat) (earliest_time : Int)
    (s : QueryResponseItem) (e : QREntry) (hs : s.FlagsCover) :
    (QREntry.apply fields ticks earliest_time s e).FlagsCover := by
  have hfl := apply_qr_flags fields ticks earliest_time s e
  have hc := flag_of_field_lt (fields.query_response_field e.1)
  obtain ⟨hlt, hq, hd, hh, hr⟩ := hs
  refine ⟨?_, ?_, ?_, ?_, ?_⟩
  · rw [hfl]
    exact Nat.or_lt_two_pow (n := 3) hlt hc
  · intro h
    rw [hfl] at h
    obtain ⟨h1, h2⟩ := or_and_zero _ _ _ hlt hc (by decide) h
    exact apply_cover_query fields ticks earliest_time s e (hq h1) h2
  · intro h
    rw [hfl] at h
    have h3 : s.response_delay = 0 := by
      apply hd
      intro ⟨hq1, hr1⟩
      apply h
      constructor
      · intro h0
        exact hq1 (or_and_zero _ _ _ hlt hc (by decide) h0).1
      · intro h0
        exact hr1 (or_and_zero _ _ _ hlt hc (by decide) h0).1
    have h4 : ¬ (flag_of_field (fields.query_response_field e.1) &&& QUERY_ONLY ≠ 0
        ∧ flag_of_field (fields.query_response_field e.1) &&& RESPONSE_ONLY ≠ 0) := by
      intro ⟨hq1, hr1⟩
      apply h
      constructor
      · intro h0
        exact hq1 (or_and_zero _ _ _ hlt hc (by decide) h0).2
      · intro h0
        exact hr1 (or_and_zero _ _ _ hlt hc (by decide) h0).2
    exact apply_cover_delay fields ticks earliest_time s e h3 h4
  · intro h
    rw [hfl] at h
    obtain ⟨h1, h2⟩ := or_and_zero _ _ _ hlt hc (by decide) h
    exact apply_cover_question fields ticks earliest_time s e (hh h1) h2
  · intro h
    rw [hfl] at h
    obtain ⟨h1, h2⟩ := or_and_zero _ _ _ hlt hc (by decide) h
    exact apply_cover_response fields ticks earliest_time s e (hr h1) h2

theorem apply_aligned_time (fields : FileVersionFields) (ticks : Nat) (earliest_time : Int)
    (s : QueryResponseItem) (e : QREntry) (he : QREntry.WellTyped fields e)
    (hk : fields.query_response_field e.1 = .time_useconds) :
    (QREntry.apply fields ticks earliest_time s e).Aligned ticks earliest_time := by
  obtain ⟨key, v⟩ := e
  unfold QREntry.WellTyped at he
  simp only at hk
  simp only [hk] at he
  unfold QueryResponseItem.Aligned QREntry.apply
  cases v with
  | signed off =>
    simp only [hk]
    exact ⟨off, by ring⟩
  | _ => exact he.elim

theorem apply_aligned (fields : FileVersionFields) (ticks : Nat) (earliest_time : Int)
    (s : QueryResponseItem) (e : QREntry) (he : QREntry.WellTyped fields e)
    (hs : s.Aligned ticks earliest_time) :
    (QREntry.apply fields ticks earliest_time s e).Aligned ticks earliest_time := by
  by_cases hk : fields.query_response_field e.1 = .time_useconds
  · exact apply_aligned_time fields ticks earliest_time s e he hk
  · unfold QueryResponseItem.Aligned
    rw [apply_tstamp_frame fields ticks earliest_time s e hk]
    exact hs

theorem foldl_aligned (fields : FileVersionFields) (ticks : Nat) (earliest_time : Int)
    (es : List QREntry) (hes : ∀ e ∈ es, QREntry.WellTyped fields e) (s : QueryResponseItem)
    (h : s.Aligned ticks earliest_time ∨ HasTimeKey fields es) :
    (es.foldl (QREntry.apply fields ticks earliest_time) s).Aligned ticks earliest_time := by
  induction es generalizing s with
  | nil =>
    rcases h with h | ⟨e, he, _⟩
    · exact h
    · simp at he
  | cons e es ih =>
    rw [List.foldl_cons]
    have hes2 : ∀ x ∈ es, QREntry.WellTyped fields x :=
      fun x hx => hes x (List.mem_cons_of_mem _ hx)
    have he1 := hes e (List.mem_cons_self _ _)
    rcases h with h | ⟨x, hx, hk⟩
    · exact ih hes2 _ (Or.inl (apply_aligned fields ticks earliest_time s e he1 h))
    · rcases List.mem_cons.mp hx with rfl | hx2
      · exact ih hes2 _ (Or.inl (apply_aligned_time fields ticks earliest_time s x he1 hk))
      · exact ih hes2 _ (Or.inr ⟨x, hx2, hk⟩)

theorem foldl_flags_cover (fields : FileVersionFields) (ticks : Nat) (earliest_time : Int)
    (es : List QREntry) (s : QueryResponseItem) (hs : s.FlagsCover) :
    (es.foldl (QREntry.apply fields ticks earliest_time) s).FlagsCover := by
  induction es generalizing s with
  | nil => exact hs
  | cons e es ih =>
    rw [List.foldl_cons]
    exact ih _ (apply_flags_cover fields ticks earliest_time s e hs)

theorem and_seven_small : ∀ a < 8, a &&& (QUERY_ONLY ||| RESPONSE_ONLY ||| QR_HAS_QUESTION) = a := by
  decide

theorem query_response_item_ext (a b : QueryResponseItem) (h1 : a.qr_flags = b.qr_flags)
    (h2 : a.client_address = b.client_address) (h3 : a.client_port = b.client_port)
    (h4 : a.hoplimit = b.hoplimit) (h5 : a.id = b.id) (h6 : a.tstamp = b.tstamp)
    (h7 : a.response_delay = b.response_delay) (h8 : a.qname = b.qname)
    (h9 : a.signature = b.signature) (h10 : a.query_size = b.query_size)
    (h11 : a.response_size = b.response_size)
    (h12 : a.query_extra_info = b.query_extra_info)
    (h13 : a.response_extra_info = b.response_extra_info) : a = b := by
  cases a
  cases b
  simp only at h1 h2 h3 h4 h5 h6 h7 h8 h9 h10 h11 h12 h13
  subst h1 h2 h3 h4 h5 h6 h7 h8 h9 h10 h11 h12 h13
  rfl

/-- An item that the decoder left, written and decoded again into a cleared
item, is the item itself. -/
theorem written_item_fixed (cur : CurrentIndex) (fields : FileVersionFields)
    (h : Resolves cur fields) (ticks : Nat) (earliest_time : Int)
    (y self : QueryResponseItem) (hc : y.FlagsCover) (ha : y.Aligned ticks earliest_time) :
    item_of_entries fields ticks earliest_time self.clear
      (qr_entries cur ticks earliest_time y) = y := by
  obtain ⟨hlt, hq, hd, hh, hr⟩ := hc
  obtain ⟨m1, m2, m3, m4, m5, m6, m7, m8, m9, m10, m11⟩ :=
    item_of_qr_entries_members cur fields h ticks earliest_time y self.clear
  apply query_response_item_ext
  · rw [item_of_entries_qr_flags, qr_entries_fields cur fields h, flags_of_written_fields]
    exact and_seven_small _ hlt
  · exact m1
  · exact m2
  · rw [m5]
    by_cases hQ : y.qr_flags &&& QUERY_ONLY = 0
    · rw [if_neg (not_not.mpr hQ)]
      exact (hq hQ).1.symm
    · rw [if_pos hQ]
  · exact m3
  · rw [item_of_qr_entries_tstamp cur fields h, Int.tdiv_mul_cancel ha]
    omega
  · rw [m6]
    by_cases hQR : y.qr_flags &&& QUERY_ONLY ≠ 0 ∧ y.qr_flags &&& RESPONSE_ONLY ≠ 0
    · rw [if_pos hQR]
    · rw [if_neg hQR]
      exact (hd hQR).symm
  · rw [m7]
    by_cases hH : y.qr_flags &&& QR_HAS_QUESTION = 0
    · rw [if_neg (not_not.mpr hH)]
      exact (hh hH).symm
    · rw [if_pos hH]
  · exact m4
  · rw [m8]
    by_cases hQ : y.qr_flags &&& QUERY_ONLY = 0
    · rw [if_neg (not_not.mpr hQ)]
      exact (hq hQ).2.symm
    · rw [if_pos hQ]
  · rw [m9]
    by_cases hR : y.qr_flags &&& RESPONSE_ONLY = 0
    · rw [if_neg (not_not.mpr hR)]
      exact (hr hR).symm
    · rw [if_pos hR]
  · rw [m10]
    cases y.query_extra_info <;> rfl
  · rw [m11]
    cases y.response_extra_info <;> rfl

/-- C29 (as stated) fails for a map without the time offset key when the
earliest time is not a whole number of microseconds.  With a nanosecond clock
(1000 ticks to the microsecond) and the earliest time 1500 ticks, the empty map
decodes into a cleared item as the item with time stamp 0; `writeCbor` writes
for it the offset -1 (-1500 ticks cast to microseconds, rounded towards zero),
and decoding that gives the time stamp 500, not 0. -/
theorem C29_time_stamp_moves_without_time_key :
    Resolves sample_index sample_fields
    ∧ (∀ e ∈ ([] : List QREntry), QREntry.WellTyped sample_fields e)
    ∧ ∃ y y2,
      QueryResponseItem.readCbor sample_fields 1000 1500 sample_stale_item.clear
          (wire_map false (([] : List QREntry).map QREntry.toks)) = .ok (y, [])
      ∧ QueryResponseItem.writeCbor sample_index 1000 1500 y
        = [.map none, .uint 0, .nint 0, .uint 1, .uint 0, .uint 2, .uint 0, .uint 3, .uint 0,
            .uint 4, .uint 0, .brk]
      ∧ QueryResponseItem.readCbor sample_fields 1000 1500 sample_stale_item.clear
          (QueryResponseItem.writeCbor sample_index 1000 1500 y) = .ok (y2, [])
      ∧ y.tstamp = 0 ∧ y2.tstamp = 500 ∧ y2 ≠ y :=
  ⟨sample_resolves, fun _ he => absurd he (List.not_mem_nil _),
    _, _, rfl, by decide, rfl, by decide, by decide, by decide⟩

/-- C29 (amended): an item decoded from a well-typed map into a cleared item is
a fixed point of encode-then-decode whenever the map carries the time offset key
or the earliest time is a whole number of microseconds: writing the item with
the same earliest time and decoding the output into a cleared item gives the
same item, in every member. -/
theorem C29_decoded_item_fixed_point (cur : CurrentIndex) (fields : FileVersionFields)
    (h : Resolves cur fields) (ticks : Nat) (earliest_time : Int)
    (self self2 : QueryResponseItem) (indef : Bool) (es : List QREntry)
    (rest rest2 : List Tok) (hes : ∀ e ∈ es, QREntry.WellTyped fields e)
    (htime : HasTimeKey fields es ∨ (ticks : Int) ∣ earliest_time) :
    ∃ y, QueryResponseItem.readCbor fields ticks earliest_time self.clear
          (wire_map indef (es.map QREntry.toks) ++ rest) = .ok (y, rest)
      ∧ QueryResponseItem.readCbor fields ticks earliest_time self2.clear
          (QueryResponseItem.writeCbor cur ticks earliest_time y ++ rest2) = .ok (y, rest2) := by
  refine ⟨_, query_response_wire_map fields ticks earliest_time self.clear indef es hes rest,
    ?_⟩
  rw [query_response_round_trip cur fields h ticks earliest_time _ self2.clear rest2]
  have hc : (item_of_entries fields ticks earliest_time self.clear es).FlagsCover := by
    unfold item_of_entries
    apply foldl_flags_cover
    exact ⟨Nat.succ_pos 7, fun _ => ⟨rfl, rfl⟩, fun _ => rfl, fun _ => rfl, fun _ => rfl⟩
  have ha : (item_of_entries fields ticks earliest_time self.clear es).Aligned ticks
      earliest_time := by
    unfold item_of_entries
    apply foldl_aligned fields ticks earliest_time es hes
    rcases htime with ht | ht
    · exact Or.inr ht
    · left
      unfold QueryResponseItem.Aligned
      simp only [QueryResponseItem.clear, zero_sub]
      exact (Int.dvd_neg).mpr ht
  rw [written_item_fixed cur fields h ticks earliest_time _ self2 hc ha]

/-- C29 (amended) at the sample mapping, with a nanosecond clock and the
earliest time 1500 ticks: the sample query map, which carries a time offset, is
decoded into a cleared item, written and decoded again to the same item. -/
theorem C29_decoded_item_fixed_point_witness :
    Resolves sample_index sample_fields
    ∧ (∀ e ∈ sample_query_map, QREntry.WellTyped sample_fields e)
    ∧ HasTimeKey sample_fields sample_query_map
    ∧ ∃ y, QueryResponseItem.readCbor sample_fields 1000 1500 sample_stale_item.clear
          (wire_map false (sample_query_map.map QREntry.toks) ++ [.uint 7]) = .ok (y, [.uint 7])
      ∧ QueryResponseItem.readCbor sample_fields 1000 1500 sample_stale_item.clear
          (QueryResponseItem.writeCbor sample_index 1000 1500 y ++ []) = .ok (y, []) :=
  ⟨sample_resolves, sample_query_map_well_typed, ⟨(0, .signed (-5)), by decide, by decide⟩,
    C29_decoded_item_fixed_point sample_index sample_fields sample_resolves 1000 1500
      sample_stale_item sample_stale_item false sample_query_map [.uint 7] []
      sample_query_map_well_typed (Or.inl ⟨(0, .signed (-5)), by decide, by decide⟩)⟩

/-! ## Termination -/

theorem advances_error {α : Type} (dec : List Tok) (e : Err) (he : e ≠ .out_of_fuel) :
    Advances dec (.error e : Res α) :=
  ⟨fun h => he (Except.error.inj h), fun _ _ h => Except.noConfusion h⟩

theorem advances_ok {α : Type} (dec rest : List Tok) (v : α) (hs : rest <:+ dec)
    (hl : rest.length < dec.length) : Advances dec (.ok (v, rest) : Res α) := by
  refine ⟨fun h => Except.noConfusion h, ?_⟩
  intro w r h
  simp only [Except.ok.injEq, Prod.mk.injEq] at h
  rw [← h.2]
  exact ⟨hs, hl⟩

/-- The error branch of a step: the error of a result that advances. -/
theorem advances_of_error {α β : Type} (dec0 dec : List Tok) (r : Res α) (e : Err)
    (heq : r = .error e) (hr : Advances dec r) : Advances dec0 (.error e : Res β) :=
  advances_error dec0 e (fun h => hr.1 (by rw [heq, h]))

/-- The value branch of a step: the tokens left by a result that advances from
a suffix of the input. -/
theorem advances_of_ok {α β : Type} (dec0 dec : List Tok) (r : Res α) (v : α) (d : List Tok)
    (heq : r = .ok (v, d)) (hr : Advances dec r) (hs : dec <:+ dec0) (w : β) :
    Advances dec0 (.ok (w, d) : Res β) := by
  obtain ⟨h1, h2⟩ := hr.2 v d heq
  exact advances_ok dec0 d w (h1.trans hs) (lt_of_lt_of_le h2 hs.length_le)

/-- A result that advances from a suffix of the input advances from the
input. -/
theorem advances_mono {α : Type} (dec0 dec : List Tok) (r : Res α) (hr : Advances dec r)
    (hs : dec <:+ dec0) : Advances dec0 r :=
  ⟨hr.1, fun v rest h =>
    ⟨((hr.2 v rest h).1).trans hs, lt_of_lt_of_le (hr.2 v rest h).2 hs.length_le⟩⟩

theorem read_unsigned_advances (dec : List Tok) : Advances dec (read_unsigned dec) := by
  unfold read_unsigned
  split
  · exact advances_error _ _ (by decide)
  · exact advances_ok _ _ _ (List.suffix_cons _ _) (by simp)
  · exact advances_error _ _ (by decide)

theorem read_signed_advances (dec : List Tok) : Advances dec (read_signed dec) := by
  unfold read_signed
  split
  · exact advances_error _ _ (by decide)
  · exact advances_ok _ _ _ (List.suffix_cons _ _) (by simp)
  · exact advances_ok _ _ _ (List.suffix_cons _ _) (by simp)
  · exact advances_error _ _ (by decide)

theorem read_binary_advances (dec : List Tok) : Advances dec (read_binary dec) := by
  unfold read_binary
  split
  · exact advances_error _ _ (by decide)
  · exact advances_ok _ _ _ (List.suffix_cons _ _) (by simp)
  · exact advances_error _ _ (by decide)

theorem skip_go_suffix (ts : List Tok) (st : List (Option Nat)) (rest : List Tok)
    (h : skip_go st ts = .ok rest) : rest <:+ ts := by
  induction ts generalizing st with
  | nil =>
    unfold skip_go at h
    split at h
    · simp only [Except.ok.injEq] at h
      rw [← h]
    · simp at h
  | cons t ts ih =>
    unfold skip_go at h
    split at h
    · simp only [Except.ok.injEq] at h
      rw [← h]
    · rename_i top below hd
      cases t with
      | brk =>
        cases top with
        | none => exact (ih _ h).trans (List.suffix_cons _ _)
        | some n => simp at h
      | _ => exact (ih _ h).trans (List.suffix_cons _ _)

theorem skip_go_not_fuel (ts : List Tok) (st : List (Option Nat)) :
    skip_go st ts ≠ .error .out_of_fuel := by
  induction ts generalizing st with
  | nil =>
    unfold skip_go
    split <;> simp
  | cons t ts ih =>
    unfold skip_go
    split
    · simp
    · rename_i top below hd
      cases t with
      | brk =>
        cases top with
        | none => exact ih _
        | some n => simp
      | _ => exact ih _

theorem skip_go_suffix_tail (t : Tok) (ts : List Tok) (st : List (Option Nat))
    (rest : List Tok) (hst : drop_done st ≠ []) (h : skip_go st (t :: ts) = .ok rest) :
    rest <:+ ts := by
  unfold skip_go at h
  split at h
  · rename_i hd
    exact absurd hd hst
  · rename_i top below hd
    cases t with
    | brk =>
      cases top with
      | none => exact skip_go_suffix _ _ _ h
      | some n => simp at h
    | _ => exact skip_go_suffix _ _ _ h

theorem skip_advances (dec : List Tok) : Advances dec (skip dec) := by
  unfold skip
  split
  · rename_i rest heq
    cases dec with
    | nil =>
      simp [skip_go, drop_done] at heq
    | cons t ts =>
      have hs : rest <:+ ts := skip_go_suffix_tail t ts _ rest (by simp [drop_done]) heq
      exact advances_ok _ _ _ (hs.trans (List.suffix_cons _ _))
        (lt_of_le_of_lt hs.length_le (by simp))
  · rename_i e heq
    exact advances_error _ _ (fun h => skip_go_not_fuel dec _ (by rw [heq, h]))

/-- The loop with enough fuel never stops for lack of it, and leaves a suffix
of its input, when every run of its body advances. -/
theorem container_loop_advances {σ : Type} (body : σ → List Tok → Res σ)
    (hbody : ∀ s ts, Advances ts (body s ts)) (fuel : Nat) (indef : Bool) (n_elems : Nat)
    (s : σ) (ts : List Tok) (hfuel : ts.length < fuel) :
    container_loop body fuel indef n_elems s ts ≠ .error .out_of_fuel
    ∧ ∀ v rest, container_loop body fuel indef n_elems s ts = .ok (v, rest) → rest <:+ ts := by
  induction fuel generalizing n_elems s ts with
  | zero => omega
  | succ fuel ih =>
    cases indef with
    | true =>
      cases ts with
      | nil => simp [container_loop]
      | cons t ts =>
        cases t <;> simp only [container_loop]
        case brk =>
          refine ⟨by simp, ?_⟩
          intro v rest h
          simp only [Except.ok.injEq, Prod.mk.injEq] at h
          rw [← h.2]
          exact List.suffix_cons _ _
        all_goals
          split
          · rename_i s1 ts1 heq
            obtain ⟨h1, h2⟩ := (hbody _ _).2 _ _ heq
            have h3 := ih n_elems s1 ts1 (by simp only [List.length_cons] at hfuel h2; omega)
            exact ⟨h3.1, fun v rest h => (h3.2 v rest h).trans h1⟩
          · rename_i e heq
            refine ⟨fun h => (hbody _ _).1 (by rw [heq, h]), ?_⟩
            intro v rest h
            simp at h
    | false =>
      simp only [container_loop]
      split
      · split
        · rename_i s1 ts1 heq
          obtain ⟨h1, h2⟩ := (hbody _ _).2 _ _ heq
          have h3 := ih (n_elems - 1) s1 ts1 (by omega)
          exact ⟨h3.1, fun v rest h => (h3.2 v rest h).trans h1⟩
        · rename_i e heq
          refine ⟨fun h => (hbody _ _).1 (by rw [heq, h]), ?_⟩
          intro v rest h
          simp at h
      · refine ⟨by simp, ?_⟩
        intro v rest h
        simp only [Except.ok.injEq, Prod.mk.injEq] at h
        rw [← h.2]

/-- A definite loop that is to run more often than there are tokens does not
return a value. -/
theorem container_loop_definite_short {σ : Type} (body : σ → List Tok → Res σ)
    (hbody : ∀ s ts, Advances ts (body s ts)) (fuel : Nat) (n_elems : Nat)
    (s : σ) (ts : List Tok) (hn : ts.length < n_elems) (v : σ × List Tok) :
    container_loop body fuel false n_elems s ts ≠ .ok v := by
  induction fuel generalizing n_elems s ts with
  | zero => simp [container_loop]
  | succ fuel ih =>
    have hpos : n_elems > 0 := by omega
    simp only [container_loop, hpos, if_true]
    split
    · rename_i s1 ts1 heq
      obtain ⟨_, h2⟩ := (hbody _ _).2 _ _ heq
      exact ih (n_elems - 1) s1 ts1 (by omega)
    · simp

/-- An indefinite loop over tokens without a break does not return a value. -/
theorem container_loop_indefinite_no_break {σ : Type} (body : σ → List Tok → Res σ)
    (hbody : ∀ s ts, Advances ts (body s ts)) (fuel : Nat) (n_elems : Nat)
    (s : σ) (ts : List Tok) (hb : Tok.brk ∉ ts) (v : σ × List Tok) :
    container_loop body fuel true n_elems s ts ≠ .ok v := by
  induction fuel generalizing s ts with
  | zero => simp [container_loop]
  | succ fuel ih =>
    cases ts with
    | nil => simp [container_loop]
    | cons t ts =>
      cases t <;> simp only [container_loop]
      case brk => exact absurd (List.mem_cons_self _ _) hb
      all_goals
        split
        · rename_i s1 ts1 heq
          obtain ⟨h1, _⟩ := (hbody _ _).2 _ _ heq
          exact ih s1 ts1 (fun hm => hb (h1.subset hm))
        · simp

theorem error_of_not_ok {α : Type} (r : Res α) (h1 : r ≠ .error .out_of_fuel)
    (h2 : ∀ v, r ≠ .ok v) : ∃ e, r = .error e ∧ e ≠ .out_of_fuel := by
  cases r with
  | error e => exact ⟨e, rfl, fun h => h1 (by rw [h])⟩
  | ok v => exact absurd rfl (h2 v)

theorem read_map_terminates {σ : Type} (body : σ → List Tok → Res σ)
    (hbody : ∀ s ts, Advances ts (body s ts)) (s : σ) :
    Terminates (read_map body s) ∧ EndsInError (read_map body s) Tok.map := by
  refine ⟨?_, ?_, ?_⟩
  · intro dec
    unfold read_map readMapHeader
    cases dec with
    | nil => exact advances_error _ _ (by decide)
    | cons t ts =>
      cases t <;> try exact advances_error _ _ (by decide)
      case map k =>
        cases k with
        | none =>
          have h := container_loop_advances body hbody (ts.length + 1) true 0 s ts (by omega)
          exact ⟨h.1, fun v rest hv =>
            ⟨(h.2 v rest hv).trans (List.suffix_cons _ _),
              lt_of_le_of_lt (h.2 v rest hv).length_le (by simp)⟩⟩
        | some n =>
          have h := container_loop_advances body hbody (ts.length + 1) false n s ts (by omega)
          exact ⟨h.1, fun v rest hv =>
            ⟨(h.2 v rest hv).trans (List.suffix_cons _ _),
              lt_of_le_of_lt (h.2 v rest hv).length_le (by simp)⟩⟩
  · intro n ts hn
    apply error_of_not_ok
    · exact (container_loop_advances body hbody (ts.length + 1) false n s ts (by omega)).1
    · exact container_loop_definite_short body hbody _ n s ts hn
  · intro ts hb
    apply error_of_not_ok
    · exact (container_loop_advances body hbody (ts.length + 1) true 0 s ts (by omega)).1
    · exact container_loop_indefinite_no_break body hbody _ 0 s ts hb

theorem read_array_terminates {σ : Type} (body : σ → List Tok → Res σ)
    (hbody : ∀ s ts, Advances ts (body s ts)) (s : σ) :
    Terminates (read_array body s) ∧ EndsInError (read_array body s) Tok.arr := by
  refine ⟨?_, ?_, ?_⟩
  · intro dec
    unfold read_array readArrayHeader
    cases dec with
    | nil => exact advances_error _ _ (by decide)
    | cons t ts =>
      cases t <;> try exact advances_error _ _ (by decide)
      case arr k =>
        cases k with
        | none =>
          have h := container_loop_advances body hbody (ts.length + 1) true 0 s ts (by omega)
          exact ⟨h.1, fun v rest hv =>
            ⟨(h.2 v rest hv).trans (List.suffix_cons _ _),
              lt_of_le_of_lt (h.2 v rest hv).length_le (by simp)⟩⟩
        | some n =>
          have h := container_loop_advances body hbody (ts.length + 1) false n s ts (by omega)
          exact ⟨h.1, fun v rest hv =>
            ⟨(h.2 v rest hv).trans (List.suffix_cons _ _),
              lt_of_le_of_lt (h.2 v rest hv).length_le (by simp)⟩⟩
  · intro n ts hn
    apply error_of_not_ok
    · exact (container_loop_advances body hbody (ts.length + 1) false n s ts (by omega)).1
    · exact container_loop_definite_short body hbody _ n s ts hn
  · intro ts hb
    apply error_of_not_ok
    · exact (container_loop_advances body hbody (ts.length + 1) true 0 s ts (by omega)).1
    · exact container_loop_indefinite_no_break body hbody _ 0 s ts hb

theorem catch_advances {α : Type} (what : String) (dec : List Tok) (r : Res α)
    (hr : Advances dec r) : Advances dec (catch_logic_error what r) := by
  unfold catch_logic_error
  split
  · exact advances_error _ _ (by simp)
  · exact hr

theorem catch_terminates {α : Type} (what : String) (inner : List Tok → Res α)
    (header : Option Nat → Tok) (h : Terminates inner ∧ EndsInError inner header) :
    Terminates (fun dec => catch_logic_error what (inner dec))
    ∧ EndsInError (fun dec => catch_logic_error what (inner dec)) header := by
  obtain ⟨h1, h2, h3⟩ := h
  refine ⟨fun dec => catch_advances what dec _ (h1 dec), ?_, ?_⟩
  · intro n ts hn
    obtain ⟨e, he, hne⟩ := h2 n ts hn
    simp only [he]
    apply error_of_not_ok
    · exact (catch_advances what [] (.error e) (advances_error _ _ hne)).1
    · intro v
      unfold catch_logic_error
      split <;> simp
  · intro ts hb
    obtain ⟨e, he, hne⟩ := h3 ts hb
    simp only [he]
    apply error_of_not_ok
    · exact (catch_advances what [] (.error e) (advances_error _ _ hne)).1
    · intro v
      unfold catch_logic_error
      split <;> simp

theorem class_type_entry_advances (fields : FileVersionFields) (s : ClassType)
    (dec : List Tok) : Advances dec (ClassType.read_entry fields s dec) := by
  unfold ClassType.read_entry
  split
  · rename_i e heq
    exact advances_of_error dec dec _ e heq (read_unsigned_advances dec)
  · rename_i key dec1 heq
    have hs := ((read_unsigned_advances dec).2 _ _ heq).1
    split <;> split <;> rename_i heq2 <;>
      first
      | exact advances_of_error dec dec1 _ _ heq2 (read_unsigned_advances dec1)
      | exact advances_of_error dec dec1 _ _ heq2 (skip_advances dec1)
      | exact advances_of_ok dec dec1 _ _ _ heq2 (read_unsigned_advances dec1) hs _
      | exact advances_of_ok dec dec1 _ _ _ heq2 (skip_advances dec1) hs _

theorem question_entry_advances (fields : FileVersionFields) (s : Question)
    (dec : List Tok) : Advances dec (Question.read_entry fields s dec) := by
  unfold Question.read_entry
  split
  · rename_i e heq
    exact advances_of_error dec dec _ e heq (read_unsigned_advances dec)
  · rename_i key dec1 heq
    have hs := ((read_unsigned_advances dec).2 _ _ heq).1
    split <;> split <;> rename_i heq2 <;>
      first
      | exact advances_of_error dec dec1 _ _ heq2 (read_unsigned_advances dec1)
      | exact advances_of_error dec dec1 _ _ heq2 (skip_advances dec1)
      | exact advances_of_ok dec dec1 _ _ _ heq2 (read_unsigned_advances dec1) hs _
      | exact advances_of_ok dec dec1 _ _ _ heq2 (skip_advances dec1) hs _

theorem rr_entry_advances (fields : FileVersionFields) (s : ResourceRecord)
    (dec : List Tok) : Advances dec (ResourceRecord.read_entry fields s dec) := by
  unfold ResourceRecord.read_entry
  split
  · rename_i e heq
    exact advances_of_error dec dec _ e heq (read_unsigned_advances dec)
  · rename_i key dec1 heq
    have hs := ((read_unsigned_advances dec).2 _ _ heq).1
    split <;> split <;> rename_i heq2 <;>
      first
      | exact advances_of_error dec dec1 _ _ heq2 (read_unsigned_advances dec1)
      | exact advances_of_error dec dec1 _ _ heq2 (skip_advances dec1)
      | exact advances_of_ok dec dec1 _ _ _ heq2 (read_unsigned_advances dec1) hs _
      | exact advances_of_ok dec dec1 _ _ _ heq2 (skip_advances dec1) hs _

theorem signature_entry_advances (fields : FileVersionFields) (s : QuerySignature)
    (dec : List Tok) : Advances dec (QuerySignature.read_entry fields s dec) := by
  unfold QuerySignature.read_entry
  split
  · rename_i e heq
    exact advances_of_error dec dec _ e heq (read_unsigned_advances dec)
  · rename_i key dec1 heq
    have hs := ((read_unsigned_advances dec).2 _ _ heq).1
    split <;> split <;> rename_i heq2 <;>
      first
      | exact advances_of_error dec dec1 _ _ heq2 (read_unsigned_advances dec1)
      | exact advances_of_error dec dec1 _ _ heq2 (skip_advances dec1)
      | exact advances_of_ok dec dec1 _ _ _ heq2 (read_unsigned_advances dec1) hs _
      | exact advances_of_ok dec dec1 _ _ _ heq2 (skip_advances dec1) hs _

theorem address_event_entry_advances (fields : FileVersionFields) (s : AddressEventCount)
    (dec : List Tok) : Advances dec (AddressEventCount.read_entry fields s dec) := by
  unfold AddressEventCount.read_entry
  split
  · rename_i e heq
    exact advances_of_error dec dec _ e heq (read_unsigned_advances dec)
  · rename_i key dec1 heq
    have hs := ((read_unsigned_advances dec).2 _ _ heq).1
    split <;> split <;> rename_i heq2 <;>
      first
      | exact advances_of_error dec dec1 _ _ heq2 (read_unsigned_advances dec1)
      | exact advances_of_error dec dec1 _ _ heq2 (skip_advances dec1)
      | exact advances_of_ok dec dec1 _ _ _ heq2 (read_unsigned_advances dec1) hs _
      | exact advances_of_ok dec dec1 _ _ _ heq2 (skip_advances dec1) hs _

theorem stats_entry_advances (fields : FileVersionFields) (s : PacketStatistics)
    (dec : List Tok) : Advances dec (BlockData.readStats_entry fields s dec) := by
  unfold BlockData.readStats_entry
  split
  · rename_i e heq
    exact advances_of_error dec dec _ e heq (read_unsigned_advances dec)
  · rename_i key dec1 heq
    have hs := ((read_unsigned_advances dec).2 _ _ heq).1
    split <;> split <;> rename_i heq2 <;>
      first
      | exact advances_of_error dec dec1 _ _ heq2 (read_unsigned_advances dec1)
      | exact advances_of_error dec dec1 _ _ heq2 (skip_advances dec1)
      | exact advances_of_ok dec dec1 _ _ _ heq2 (read_unsigned_advances dec1) hs _
      | exact advances_of_ok dec dec1 _ _ _ heq2 (skip_advances dec1) hs _

theorem extra_info_entry_advances (fields : FileVersionFields) (s : QueryResponseExtraInfo)
    (dec : List Tok) : Advances dec (readExtraInfo_entry fields s dec) := by
  unfold readExtraInfo_entry
  split
  · rename_i e heq
    exact advances_of_error dec dec _ e heq (read_unsigned_advances dec)
  · rename_i key dec1 heq
    have hs := ((read_unsigned_advances dec).2 _ _ heq).1
    split <;> split <;> rename_i heq2 <;>
      first
      | exact advances_of_error dec dec1 _ _ heq2 (read_unsigned_advances dec1)
      | exact advances_of_error dec dec1 _ _ heq2 (skip_advances dec1)
      | exact advances_of_ok dec dec1 _ _ _ heq2 (read_unsigned_advances dec1) hs _
      | exact advances_of_ok dec dec1 _ _ _ heq2 (skip_advances dec1) hs _

theorem class_type_terminates (fields : FileVersionFields) (self : ClassType) :
    Terminates (ClassType.readCbor fields self) ∧ EndsInError (ClassType.readCbor fields self) Tok.map :=
  catch_terminates _ _ _
    (read_map_terminates (ClassType.read_entry fields) (class_type_entry_advances fields) self)

theorem question_terminates (fields : FileVersionFields) (self : Question) :
    Terminates (Question.readCbor fields self) ∧ EndsInError (Question.readCbor fields self) Tok.map :=
  catch_terminates _ _ _
    (read_map_terminates (Question.read_entry fields) (question_entry_advances fields) self)

theorem rr_terminates (fields : FileVersionFields) (self : ResourceRecord) :
    Terminates (ResourceRecord.readCbor fields self) ∧ EndsInError (ResourceRecord.readCbor fields self) Tok.map :=
  catch_terminates _ _ _
    (read_map_terminates (ResourceRecord.read_entry fields) (rr_entry_advances fields) self)

theorem signature_terminates (fields : FileVersionFields) (self : QuerySignature) :
    Terminates (QuerySignature.readCbor fields self) ∧ EndsInError (QuerySignature.readCbor fields self) Tok.map :=
  catch_terminates _ _ _
    (read_map_terminates (QuerySignature.read_entry fields) (signature_entry_advances fields) self)

theorem address_event_terminates (fields : FileVersionFields) (self : AddressEventCount) :
    Terminates (AddressEventCount.readCbor fields self) ∧ EndsInError (AddressEventCount.readCbor fields self) Tok.map :=
  catch_terminates _ _ _
    (read_map_terminates (AddressEventCount.read_entry fields) (address_event_entry_advances fields) { self with aei := { self.aei with code := 0 } })

theorem extra_info_terminates (fields : FileVersionFields) :
    Terminates (readExtraInfo fields) ∧ EndsInError (readExtraInfo fields) Tok.map :=
  read_map_terminates (readExtraInfo_entry fields) (extra_info_entry_advances fields) _

theorem index_element_advances (index_bits : Nat) (s : IndexVectorItem) (dec : List Tok) :
    Advances dec (IndexVectorItem.read_element index_bits s dec) := by
  unfold IndexVectorItem.read_element
  split
  · rename_i e heq
    exact advances_of_error dec dec _ e heq (read_unsigned_advances dec)
  · rename_i v dec1 heq
    exact advances_of_ok dec dec _ _ _ heq (read_unsigned_advances dec) List.suffix_rfl _

theorem index_vector_terminates (index_bits : Nat) (self : IndexVectorItem) :
    Terminates (IndexVectorItem.readCbor index_bits self)
    ∧ EndsInError (IndexVectorItem.readCbor index_bits self) Tok.arr :=
  catch_terminates _ _ _
    (read_array_terminates (IndexVectorItem.read_element index_bits)
      (index_element_advances index_bits) self)

theorem byte_string_terminates (self : ByteStringItem) :
    Terminates (ByteStringItem.readCbor self) := by
  intro dec
  unfold ByteStringItem.readCbor
  apply catch_advances
  split
  · rename_i e heq
    exact advances_of_error dec dec _ e heq (read_binary_advances dec)
  · rename_i v dec1 heq
    exact advances_of_ok dec dec _ _ _ heq (read_binary_advances dec) List.suffix_rfl _

theorem ip_address_terminates (IPAddress : List Nat → Except Err (List Nat))
    (hip : ∀ b, IPAddress b ≠ .error .out_of_fuel) (self : IPAddressItem) :
    Terminates (IPAddressItem.readCbor IPAddress self) := by
  intro dec
  unfold IPAddressItem.readCbor
  apply catch_advances
  split
  · rename_i e heq
    exact advances_of_error dec dec _ e heq (read_binary_advances dec)
  · rename_i b dec1 heq
    split
    · rename_i e heq2
      exact advances_error _ _ (fun h => hip b (by rw [heq2, h]))
    · rename_i a heq2
      exact advances_of_ok dec dec _ _ _ heq (read_binary_advances dec) List.suffix_rfl _

theorem query_response_entry_advances (fields : FileVersionFields) (ticks : Nat)
    (earliest_time : Int) (s : QueryResponseItem) (dec : List Tok) :
    Advances dec (QueryResponseItem.read_entry fields ticks earliest_time s dec) := by
  unfold QueryResponseItem.read_entry
  split
  · rename_i e heq
    exact advances_of_error dec dec _ e heq (read_unsigned_advances dec)
  · rename_i key dec1 heq
    have hs := ((read_unsigned_advances dec).2 _ _ heq).1
    split <;> split <;> rename_i heq2 <;>
      first
      | exact advances_of_error dec dec1 _ _ heq2 (read_unsigned_advances dec1)
      | exact advances_of_error dec dec1 _ _ heq2 (read_signed_advances dec1)
      | exact advances_of_error dec dec1 _ _ heq2 ((extra_info_terminates fields).1 dec1)
      | exact advances_of_error dec dec1 _ _ heq2 (skip_advances dec1)
      | exact advances_of_ok dec dec1 _ _ _ heq2 (read_unsigned_advances dec1) hs _
      | exact advances_of_ok dec dec1 _ _ _ heq2 (read_signed_advances dec1) hs _
      | exact advances_of_ok dec dec1 _ _ _ heq2 ((extra_info_terminates fields).1 dec1) hs _
      | exact advances_of_ok dec dec1 _ _ _ heq2 (skip_advances dec1) hs _

theorem query_response_terminates (fields : FileVersionFields) (ticks : Nat)
    (earliest_time : Int) (self : QueryResponseItem) :
    Terminates (QueryResponseItem.readCbor fields ticks earliest_time self)
    ∧ EndsInError (QueryResponseItem.readCbor fields ticks earliest_time self) Tok.map :=
  catch_terminates _ _ _
    (read_map_terminates (QueryResponseItem.read_entry fields ticks earliest_time)
      (query_response_entry_advances fields ticks earliest_time) { self with qr_flags := 0 })

theorem read_time_advances (ticks : Nat) (dec : List Tok) :
    Advances dec (read_time ticks dec) := by
  unfold read_time readArrayHeader
  cases dec with
  | nil => exact advances_error _ _ (by decide)
  | cons t ts =>
    cases t <;> try exact advances_error _ _ (by decide)
    case arr k =>
      cases k with
      | none => exact advances_error _ _ (by decide)
      | some n =>
        simp only [Bool.false_or]
        split
        · exact advances_error _ _ (by decide)
        · split
          · rename_i e heq
            exact advances_of_error _ ts _ e heq (read_unsigned_advances ts)
          · rename_i secs dec1 heq
            have hs := ((read_unsigned_advances ts).2 _ _ heq).1
            split
            · rename_i e heq2
              exact advances_of_error _ dec1 _ e heq2 (read_unsigned_advances dec1)
            · rename_i usecs dec2 heq2
              exact advances_of_ok _ dec1 _ _ _ heq2 (read_unsigned_advances dec1)
                (hs.trans (List.suffix_cons _ _)) _

theorem preamble_entry_advances (fields : FileVersionFields) (ticks : Nat) (s : BlockData)
    (dec : List Tok) : Advances dec (BlockData.readBlockPreamble_entry fields ticks s dec) := by
  unfold BlockData.readBlockPreamble_entry
  split
  · rename_i e heq
    exact advances_of_error dec dec _ e heq (read_unsigned_advances dec)
  · rename_i key dec1 heq
    have hs := ((read_unsigned_advances dec).2 _ _ heq).1
    split <;> split <;> rename_i heq2 <;>
      first
      | exact advances_of_error dec dec1 _ _ heq2 (read_time_advances ticks dec1)
      | exact advances_of_error dec dec1 _ _ heq2 (skip_advances dec1)
      | exact advances_of_ok dec dec1 _ _ _ heq2 (read_time_advances ticks dec1) hs _
      | exact advances_of_ok dec dec1 _ _ _ heq2 (skip_advances dec1) hs _

theorem preamble_terminates (fields : FileVersionFields) (ticks : Nat) (self : BlockData) :
    Terminates (BlockData.readBlockPreamble fields ticks self)
    ∧ EndsInError (BlockData.readBlockPreamble fields ticks self) Tok.map :=
  read_map_terminates (BlockData.readBlockPreamble_entry fields ticks)
    (preamble_entry_advances fields ticks) self

theorem header_list_terminates {T : Type} (item_readCbor : T → List Tok → Res T) (fresh : T)
    (hitem : Terminates (item_readCbor fresh)) (self : List T) :
    Terminates (HeaderList.readCbor item_readCbor fresh self)
    ∧ EndsInError (HeaderList.readCbor item_readCbor fresh self) Tok.arr :=
  read_array_terminates (HeaderList.read_item item_readCbor fresh)
    (fun s dec => by
      unfold HeaderList.read_item
      split
      · rename_i e heq
        exact advances_of_error dec dec _ e heq (hitem dec)
      · rename_i v dec1 heq
        exact advances_of_ok dec dec _ _ _ heq (hitem dec) List.suffix_rfl _) self

theorem headers_entry_advances (fields : FileVersionFields) (env : TableEnv)
    (hip : ∀ b, env.IPAddress b ≠ .error .out_of_fuel) (s : BlockData) (dec : List Tok) :
    Advances dec (BlockData.readHeaders_entry fields env s dec) := by
  unfold BlockData.readHeaders_entry
  split
  · rename_i e heq
    exact advances_of_error dec dec _ e heq (read_unsigned_advances dec)
  · rename_i key dec1 heq
    have hs := ((read_unsigned_advances dec).2 _ _ heq).1
    have h1 := fun self => (header_list_terminates (IPAddressItem.readCbor env.IPAddress)
      { addr := [] } (ip_address_terminates env.IPAddress hip _) self).1 dec1
    have h2 := fun self => (header_list_terminates (ClassType.readCbor fields)
      env.fresh_class_type (class_type_terminates fields _).1 self).1 dec1
    have h3 := fun self => (header_list_terminates ByteStringItem.readCbor
      { str := [] } (byte_string_terminates _) self).1 dec1
    have h4 := fun self => (header_list_terminates (QuerySignature.readCbor fields)
      env.fresh_query_signature (signature_terminates fields _).1 self).1 dec1
    have h5 := fun self => (header_list_terminates (IndexVectorItem.readCbor env.index_bits)
      { vec := [] } (index_vector_terminates env.index_bits _).1 self).1 dec1
    have h6 := fun self => (header_list_terminates (Question.readCbor fields)
      env.fresh_question (question_terminates fields _).1 self).1 dec1
    have h7 := fun self => (header_list_terminates (ResourceRecord.readCbor fields)
      env.fresh_resource_record (rr_terminates fields _).1 self).1 dec1
    split <;> split <;> rename_i heq2 <;>
      first
      | exact advances_of_error dec dec1 _ _ heq2 (h1 _)
      | exact advances_of_error dec dec1 _ _ heq2 (h2 _)
      | exact advances_of_error dec dec1 _ _ heq2 (h3 _)
      | exact advances_of_error dec dec1 _ _ heq2 (h4 _)
      | exact advances_of_error dec dec1 _ _ heq2 (h5 _)
      | exact advances_of_error dec dec1 _ _ heq2 (h6 _)
      | exact advances_of_error dec dec1 _ _ heq2 (h7 _)
      | exact advances_of_error dec dec1 _ _ heq2 (skip_advances dec1)
      | exact advances_of_ok dec dec1 _ _ _ heq2 (h1 _) hs _
      | exact advances_of_ok dec dec1 _ _ _ heq2 (h2 _) hs _
      | exact advances_of_ok dec dec1 _ _ _ heq2 (h3 _) hs _
      | exact advances_of_ok dec dec1 _ _ _ heq2 (h4 _) hs _
      | exact advances_of_ok dec dec1 _ _ _ heq2 (h5 _) hs _
      | exact advances_of_ok dec dec1 _ _ _ heq2 (h6 _) hs _
      | exact advances_of_ok dec dec1 _ _ _ heq2 (h7 _) hs _
      | exact advances_of_ok dec dec1 _ _ _ heq2 (skip_advances dec1) hs _

theorem headers_terminates (fields : FileVersionFields) (env : TableEnv)
    (hip : ∀ b, env.IPAddress b ≠ .error .out_of_fuel) (self : BlockData) :
    Terminates (BlockData.readHeaders fields env self)
    ∧ EndsInError (BlockData.readHeaders fields env self) Tok.map :=
  read_map_terminates (BlockData.readHeaders_entry fields env)
    (headers_entry_advances fields env hip) self

theorem stats_terminates (fields : FileVersionFields) (self : BlockData) :
    Terminates (BlockData.readStats fields self)
    ∧ EndsInError (BlockData.readStats fields self) Tok.map := by
  obtain ⟨h1, h2, h3⟩ := read_map_terminates (BlockData.readStats_entry fields)
    (stats_entry_advances fields) self.last_packet_statistics
  refine ⟨?_, ?_, ?_⟩
  · intro dec
    unfold BlockData.readStats
    simp only []
    split
    · rename_i e heq
      exact advances_of_error dec dec _ e heq (h1 dec)
    · rename_i v dec1 heq
      exact advances_of_ok dec dec _ _ _ heq (h1 dec) List.suffix_rfl _
  · intro n ts hn
    obtain ⟨e, he, hne⟩ := h2 n ts hn
    exact ⟨e, by simp only [BlockData.readStats, he], hne⟩
  · intro ts hb
    obtain ⟨e, he, hne⟩ := h3 ts hb
    exact ⟨e, by simp only [BlockData.readStats, he], hne⟩

theorem items_element_advances (fields : FileVersionFields) (ticks : Nat)
    (fresh : QueryResponseItem) (s : BlockData) (dec : List Tok) :
    Advances dec (BlockData.readItems_element fields ticks fresh s dec) := by
  unfold BlockData.readItems_element
  split
  · rename_i e heq
    exact advances_of_error dec dec _ e heq
      ((query_response_terminates fields ticks s.earliest_time fresh).1 dec)
  · rename_i v dec1 heq
    exact advances_of_ok dec dec _ _ _ heq
      ((query_response_terminates fields ticks s.earliest_time fresh).1 dec)
      List.suffix_rfl _

theorem items_terminates (fields : FileVersionFields) (ticks : Nat)
    (fresh : QueryResponseItem) (self : BlockData) :
    Terminates (BlockData.readItems fields ticks fresh self)
    ∧ EndsInError (BlockData.readItems fields ticks fresh self) Tok.arr :=
  read_array_terminates (BlockData.readItems_element fields ticks fresh)
    (items_element_advances fields ticks fresh) self

theorem address_events_element_advances (fields : FileVersionFields) (s : BlockData)
    (dec : List Tok) :
    Advances dec (BlockData.readAddressEventCounts_element fields s dec) := by
  unfold BlockData.readAddressEventCounts_element
  split
  · rename_i e heq
    exact advances_of_error dec dec _ e heq ((address_event_terminates fields _).1 dec)
  · rename_i v dec1 heq
    exact advances_of_ok dec dec _ _ _ heq ((address_event_terminates fields _).1 dec)
      List.suffix_rfl _

theorem address_events_terminates (fields : FileVersionFields) (self : BlockData) :
    Terminates (BlockData.readAddressEventCounts fields self)
    ∧ EndsInError (BlockData.readAddressEventCounts fields self) Tok.arr :=
  read_array_terminates (BlockData.readAddressEventCounts_element fields)
    (address_events_element_advances fields) self

theorem block_entry_advances (fields : FileVersionFields) (ticks : Nat)
    (fresh : QueryResponseItem) (env : TableEnv)
    (hip : ∀ b, env.IPAddress b ≠ .error .out_of_fuel) (s : BlockData) (dec : List Tok) :
    Advances dec (BlockData.readCbor_entry fields ticks fresh env s dec) := by
  unfold BlockData.readCbor_entry
  split
  · rename_i e heq
    exact advances_of_error dec dec _ e heq (read_unsigned_advances dec)
  · rename_i key dec1 heq
    have hs := ((read_unsigned_advances dec).2 _ _ heq).1
    split
    · exact advances_mono dec dec1 _ ((preamble_terminates fields ticks s).1 dec1) hs
    · exact advances_mono dec dec1 _ ((headers_terminates fields env hip s).1 dec1) hs
    · exact advances_mono dec dec1 _ ((stats_terminates fields s).1 dec1) hs
    · exact advances_mono dec dec1 _ ((items_terminates fields ticks fresh s).1 dec1) hs
    · exact advances_mono dec dec1 _ ((address_events_terminates fields s).1 dec1) hs
    · split
      · rename_i e heq2
        exact advances_of_error dec dec1 _ e heq2 (skip_advances dec1)
      · rename_i u dec2 heq2
        exact advances_of_ok dec dec1 _ _ _ heq2 (skip_advances dec1) hs _

theorem block_terminates (fields : FileVersionFields) (ticks : Nat)
    (fresh : QueryResponseItem) (env : TableEnv)
    (hip : ∀ b, env.IPAddress b ≠ .error .out_of_fuel) (self : BlockData) :
    Terminates (BlockData.readCbor fields ticks fresh env self)
    ∧ EndsInError (BlockData.readCbor fields ticks fresh env self) Tok.map :=
  read_map_terminates (BlockData.readCbor_entry fields ticks fresh env)
    (block_entry_advances fields ticks fresh env hip) self

/-- The bound on the iterations does not decide the result: with a body that
reads at least one token, every bound above the number of tokens left gives
the result of the bound the callers pass. -/
theorem container_loop_fuel {σ : Type} (body : σ → List Tok → Res σ)
    (hbody : ∀ s ts, Advances ts (body s ts)) (fuel fuel2 : Nat) (indef : Bool) (n_elems : Nat)
    (s : σ) (ts : List Tok) (h1 : ts.length < fuel) (h2 : ts.length < fuel2) :
    container_loop body fuel indef n_elems s ts
      = container_loop body fuel2 indef n_elems s ts := by
  induction fuel generalizing fuel2 n_elems s ts with
  | zero => omega
  | succ fuel ih =>
    cases fuel2 with
    | zero => omega
    | succ fuel2 =>
      cases indef with
      | true =>
        cases ts with
        | nil => simp [container_loop]
        | cons t ts =>
          cases t <;> simp only [container_loop]
          all_goals
            split
            · rename_i s1 ts1 heq
              obtain ⟨_, h3⟩ := (hbody _ _).2 _ _ heq
              simp only [List.length_cons] at h1 h2 h3
              exact ih fuel2 n_elems s1 ts1 (by omega) (by omega)
            · rfl
      | false =>
        simp only [container_loop]
        split
        · split
          · rename_i s1 ts1 heq
            obtain ⟨_, h3⟩ := (hbody _ _).2 _ _ heq
            exact ih fuel2 (n_elems - 1) s1 ts1 (by omega) (by omega)
          · rfl
        · rfl

/-- C30: every decoder of the file terminates on every token stream.  First
part: each pass of the loop of a map or array decoder reads at least one token
or fails with one of the C++ exceptions, for the fourteen loop bodies of the
file.  Second part: for a body of that kind the bound on the iterations is
never what ends the loop, any bound above the number of tokens left gives the
same result.  Third part: each decoder, on every stream, returns a value
leaving a proper suffix of its input or fails with a C++ exception, never with
the marker of a loop cut off; and each container decoder ends in an error when
a definite header announces more entries than there are tokens behind it and
when an indefinite header is followed by tokens without a break.  The external
address constructor is taken to return or throw. -/
theorem C30_decoders_terminate (fields : FileVersionFields) (ticks : Nat)
    (earliest_time : Int) (fresh : QueryResponseItem) (env : TableEnv)
    (hip : ∀ b, env.IPAddress b ≠ .error .out_of_fuel) :
    (∀ dec : List Tok,
      (∀ s, Advances dec (IndexVectorItem.read_element env.index_bits s dec))
      ∧ (∀ s, Advances dec (ClassType.read_entry fields s dec))
      ∧ (∀ s, Advances dec (Question.read_entry fields s dec))
      ∧ (∀ s, Advances dec (ResourceRecord.read_entry fields s dec))
      ∧ (∀ s, Advances dec (QuerySignature.read_entry fields s dec))
      ∧ (∀ s, Advances dec (readExtraInfo_entry fields s dec))
      ∧ (∀ s, Advances dec (QueryResponseItem.read_entry fields ticks earliest_time s dec))
      ∧ (∀ s, Advances dec (AddressEventCount.read_entry fields s dec))
      ∧ (∀ s, Advances dec (BlockData.readBlockPreamble_entry fields ticks s dec))
      ∧ (∀ s, Advances dec (BlockData.readHeaders_entry fields env s dec))
      ∧ (∀ s, Advances dec (BlockData.readStats_entry fields s dec))
      ∧ (∀ s, Advances dec (BlockData.readItems_element fields ticks fresh s dec))
      ∧ (∀ s, Advances dec (BlockData.readAddressEventCounts_element fields s dec))
      ∧ (∀ s, Advances dec (BlockData.readCbor_entry fields ticks fresh env s dec)))
    ∧ (∀ (σ : Type) (body : σ → List Tok → Res σ), (∀ s ts, Advances ts (body s ts)) →
        ∀ (fuel : Nat) (indef : Bool) (n_elems : Nat) (s : σ) (ts : List Tok),
          ts.length < fuel →
          container_loop body fuel indef n_elems s ts
            = container_loop body (ts.length + 1) indef n_elems s ts)
    ∧ Terminates skip
    ∧ Terminates (read_time ticks)
    ∧ (∀ self, Terminates (ByteStringItem.readCbor self))
    ∧ (∀ self, Terminates (IPAddressItem.readCbor env.IPAddress self))
    ∧ (∀ self, Terminates (IndexVectorItem.readCbor env.index_bits self)
        ∧ EndsInError (IndexVectorItem.readCbor env.index_bits self) Tok.arr)
    ∧ (∀ self, Terminates (ClassType.readCbor fields self)
        ∧ EndsInError (ClassType.readCbor fields self) Tok.map)
    ∧ (∀ self, Terminates (Question.readCbor fields self)
        ∧ EndsInError (Question.readCbor fields self) Tok.map)
    ∧ (∀ self, Terminates (ResourceRecord.readCbor fields self)
        ∧ EndsInError (ResourceRecord.readCbor fields self) Tok.map)
    ∧ (∀ self, Terminates (QuerySignature.readCbor fields self)
        ∧ EndsInError (QuerySignature.readCbor fields self) Tok.map)
    ∧ (Terminates (readExtraInfo fields) ∧ EndsInError (readExtraInfo fields) Tok.map)
    ∧ (∀ self, Terminates (QueryResponseItem.readCbor fields ticks earliest_time self)
        ∧ EndsInError (QueryResponseItem.readCbor fields ticks earliest_time self) Tok.map)
    ∧ (∀ self, Terminates (AddressEventCount.readCbor fields self)
        ∧ EndsInError (AddressEventCount.readCbor fields self) Tok.map)
    ∧ (∀ (T : Type) (item_readCbor : T → List Tok → Res T) (fresh_item : T),
        Terminates (item_readCbor fresh_item) →
        ∀ self, Terminates (HeaderList.readCbor item_readCbor fresh_item self)
          ∧ EndsInError (HeaderList.readCbor item_readCbor fresh_item self) Tok.arr)
    ∧ (∀ self, Terminates (BlockData.readBlockPreamble fields ticks self)
        ∧ EndsInError (BlockData.readBlockPreamble fields ticks self) Tok.map)
    ∧ (∀ self, Terminates (BlockData.readHeaders fields env self)
        ∧ EndsInError (BlockData.readHeaders fields env self) Tok.map)
    ∧ (∀ self, Terminates (BlockData.readStats fields self)
        ∧ EndsInError (BlockData.readStats fields self) Tok.map)
    ∧ (∀ self, Terminates (BlockData.readItems fields ticks fresh self)
        ∧ EndsInError (BlockData.readItems fields ticks fresh self) Tok.arr)
    ∧ (∀ self, Terminates (BlockData.readAddressEventCounts fields self)
        ∧ EndsInError (BlockData.readAddressEventCounts fields self) Tok.arr)
    ∧ (∀ self, Terminates (BlockData.readCbor fields ticks fresh env self)
        ∧ EndsInError (BlockData.readCbor fields ticks fresh env self) Tok.map) :=
  ⟨fun dec =>
    ⟨fun s => index_element_advances env.index_bits s dec,
     fun s => class_type_entry_advances fields s dec,
     fun s => question_entry_advances fields s dec,
     fun s => rr_entry_advances fields s dec,
     fun s => signature_entry_advances fields s dec,
     fun s => extra_info_entry_advances fields s dec,
     fun s => query_response_entry_advances fields ticks earliest_time s dec,
     fun s => address_event_entry_advances fields s dec,
     fun s => preamble_entry_advances fields ticks s dec,
     fun s => headers_entry_advances fields env hip s dec,
     fun s => stats_entry_advances fields s dec,
     fun s => ((items_element_advances fields ticks fresh) s dec),
     fun s => ((address_events_element_advances fields) s dec),
     fun s => block_entry_advances fields ticks fresh env hip s dec⟩,
   fun _ body hbody fuel indef n_elems s ts h =>
     container_loop_fuel body hbody fuel (ts.length + 1) indef n_elems s ts h
       (Nat.lt_succ_self _),
   skip_advances,
   read_time_advances ticks,
   byte_string_terminates,
   ip_address_terminates env.IPAddress hip,
   index_vector_terminates env.index_bits,
   class_type_terminates fields,
   question_terminates fields,
   rr_terminates fields,
   signature_terminates fields,
   extra_info_terminates fields,
   query_response_terminates fields ticks earliest_time,
   address_event_terminates fields,
   fun _ item_readCbor fresh_item hitem self =>
     header_list_terminates item_readCbor fresh_item hitem self,
   preamble_terminates fields ticks,
   headers_terminates fields env hip,
   stats_terminates fields,
   items_terminates fields ticks fresh,
   address_events_terminates fields,
   block_terminates fields ticks fresh env hip⟩

/-- C30 at the sample mapping, whose address constructor takes any bytes: a
block map announcing five entries with three tokens behind the header, and an
indefinite block map of two entries under unknown keys with no break, both end
in an error that is a C++ exception; and decoding the sample block, with a
token behind it, returns leaving a proper suffix of the input.  The last two
lines evaluate the decoder: the short definite map is the end of the input,
and so is an indefinite block map whose queries array is indefinite too and
takes the only break. -/
theorem C30_decoders_terminate_witness :
    (∀ b, sample_env.IPAddress b ≠ .error .out_of_fuel)
    ∧ (∃ e, BlockData.readCbor sample_fields 1000 sample_stale_item sample_env empty_block
          [.map (some 5), .uint 3, .arr (some 9), .map (some 0)] = .error e
        ∧ e ≠ .out_of_fuel)
    ∧ (∃ e, BlockData.readCbor sample_fields 1000 sample_stale_item sample_env empty_block
          [.map none, .uint 77, .uint 1, .uint 78, .text [104, 105]] = .error e
        ∧ e ≠ .out_of_fuel)
    ∧ Advances (wire_map true (sample_block_map.map BlockEntry.toks) ++ [.uint 7])
        (BlockData.readCbor sample_fields 1000 sample_stale_item sample_env empty_block
          (wire_map true (sample_block_map.map BlockEntry.toks) ++ [.uint 7]))
    ∧ BlockData.readCbor sample_fields 1000 sample_stale_item sample_env empty_block
          [.map (some 5), .uint 3, .arr (some 9), .map (some 0)] = .error .cbor_end_of_input
    ∧ BlockData.readCbor sample_fields 1000 sample_stale_item sample_env empty_block
          [.map none, .uint 3, .arr none, .brk] = .error .cbor_end_of_input :=
  have hip : ∀ b, sample_env.IPAddress b ≠ .error .out_of_fuel := fun b h => by
    simp [sample_env] at h
  ⟨hip,
   (((C30_decoders_terminate sample_fields 1000 0 sample_stale_item sample_env
      hip).2.2.2.2.2.2.2.2.2.2.2.2.2.2.2.2.2.2.2.2 empty_block).2).1 5 _ (by decide),
   (((C30_decoders_terminate sample_fields 1000 0 sample_stale_item sample_env
      hip).2.2.2.2.2.2.2.2.2.2.2.2.2.2.2.2.2.2.2.2 empty_block).2).2 _ (by decide),
   ((C30_decoders_terminate sample_fields 1000 0 sample_stale_item sample_env
      hip).2.2.2.2.2.2.2.2.2.2.2.2.2.2.2.2.2.2.2.2 empty_block).1 _,
   rfl, rfl⟩

/-! ## One complete item, inside a container -/

theorem drop_done_nil : drop_done [] = [] := by simp [drop_done]

theorem drop_done_zero (st : List (Option Nat)) : drop_done (some 0 :: st) = drop_done st := by
  simp [drop_done]

theorem drop_done_none (st : List (Option Nat)) : drop_done (none :: st) = none :: st := by
  simp [drop_done]

theorem drop_done_succ (n : Nat) (st : List (Option Nat)) :
    drop_done (some (n + 1) :: st) = some (n + 1) :: st := by
  simp [drop_done]

theorem drop_done_of_ne (top : Option Nat) (st : List (Option Nat)) (h : top ≠ some 0) :
    drop_done (top :: st) = top :: st := by
  cases top with
  | none => exact drop_done_none st
  | some n =>
    cases n with
    | zero => exact absurd rfl h
    | succ n => exact drop_done_succ n st

theorem drop_done_append (st x : List (Option Nat)) :
    drop_done (st ++ x) = if drop_done st = [] then drop_done x else drop_done st ++ x := by
  induction st with
  | nil => simp [drop_done_nil]
  | cons a st ih =>
    cases a with
    | none => simp [drop_done_none]
    | some n =>
      cases n with
      | zero => simpa [drop_done_zero] using ih
      | succ n => simp [drop_done_succ]

theorem drop_done_head (st : List (Option Nat)) (top : Option Nat) (b : List (Option Nat))
    (h : drop_done st = top :: b) : top ≠ some 0 := by
  induction st with
  | nil => simp [drop_done_nil] at h
  | cons a st ih =>
    cases a with
    | none =>
      rw [drop_done_none] at h
      simp only [List.cons.injEq] at h
      rw [← h.1]
      simp
    | some n =>
      cases n with
      | zero =>
        rw [drop_done_zero] at h
        exact ih h
      | succ n =>
        rw [drop_done_succ] at h
        simp only [List.cons.injEq] at h
        rw [← h.1]
        simp

theorem drop_done_idem (st : List (Option Nat)) : drop_done (drop_done st) = drop_done st := by
  cases h : drop_done st with
  | nil => exact drop_done_nil
  | cons top b => exact drop_done_of_ne top b (drop_done_head st top b h)

/-- The worker of `skip` looks at its pending containers only after dropping
the complete ones. -/
theorem skip_go_drop_done (st : List (Option Nat)) (ts : List Tok) :
    skip_go (drop_done st) ts = skip_go st ts := by
  cases ts with
  | nil => simp only [skip_go, drop_done_idem]
  | cons t ts => simp only [skip_go, drop_done_idem]

theorem skip_go_step (st : List (Option Nat)) (top : Option Nat) (b : List (Option Nat))
    (h : drop_done st = top :: b) (t : Tok) (ts : List Tok) :
    skip_go st (t :: ts)
      = match t with
        | .brk =>
          match top with
          | none => skip_go b ts
          | some _ => .error .cbor_decode_error
        | .arr k => skip_go (k :: one_less top :: b) ts
        | .map k => skip_go (k.map (2 * ·) :: one_less top :: b) ts
        | .tag _ => skip_go (some 1 :: one_less top :: b) ts
        | _ => skip_go (one_less top :: b) ts := by
  rw [skip_go]
  simp only [h]
  cases t <;> first | rfl | (cases top <;> rfl)

/-- Pending containers below the ones being read do not change what is read:
when the containers `st` are complete after `ts` up to `rest`, the worker goes
on below them at `rest`. -/
theorem skip_go_frame (ts : List Tok) (st below : List (Option Nat)) (rest : List Tok)
    (h : skip_go (st ++ [some 0]) ts = .ok rest) :
    skip_go (st ++ below) ts = skip_go below rest := by
  induction ts generalizing st with
  | nil =>
    have hd : drop_done st = [] := by
      by_contra hne
      rw [skip_go, drop_done_append, if_neg hne] at h
      simp at h
    have hr : rest = [] := by
      rw [skip_go_done _ (by rw [drop_done_append, if_pos hd, drop_done_zero, drop_done_nil])] at h
      simp only [Except.ok.injEq] at h
      exact h.symm
    rw [hr, ← skip_go_drop_done (st ++ below), drop_done_append, if_pos hd, skip_go_drop_done]
  | cons t ts ih =>
    cases hd : drop_done st with
    | nil =>
      rw [skip_go_done _ (by rw [drop_done_append, if_pos hd, drop_done_zero, drop_done_nil])] at h
      simp only [Except.ok.injEq] at h
      rw [← h, ← skip_go_drop_done (st ++ below), drop_done_append, if_pos hd,
        skip_go_drop_done]
    | cons top st1 =>
      have h1 : drop_done (st ++ [some 0]) = top :: (st1 ++ [some 0]) := by
        rw [drop_done_append, if_neg (by rw [hd]; simp), hd, List.cons_append]
      have h2 : drop_done (st ++ below) = top :: (st1 ++ below) := by
        rw [drop_done_append, if_neg (by rw [hd]; simp), hd, List.cons_append]
      rw [skip_go_step _ _ _ h1] at h
      rw [skip_go_step _ _ _ h2]
      cases t with
      | brk =>
        cases top with
        | none => exact ih st1 h
        | some n => simp at h
      | arr k => exact ih (k :: one_less top :: st1) h
      | map k => exact ih (k.map (2 * ·) :: one_less top :: st1) h
      | tag n => exact ih (some 1 :: one_less top :: st1) h
      | uint n => exact ih (one_less top :: st1) h
      | nint n => exact ih (one_less top :: st1) h
      | bytes n => exact ih (one_less top :: st1) h
      | text n => exact ih (one_less top :: st1) h
      | simple n => exact ih (one_less top :: st1) h

/-- One complete item inside a pending container: the worker of `skip` reads
it and counts one item less to come. -/
theorem skip_go_item (ts : List Tok) (hts : Skippable ts) (top : Option Nat)
    (htop : top ≠ some 0) (below : List (Option Nat)) (rest : List Tok) :
    skip_go (top :: below) (ts ++ rest) = skip_go (one_less top :: below) rest := by
  have h := hts rest
  unfold skip at h
  split at h
  · rename_i r heq
    simp only [Except.ok.injEq, Prod.mk.injEq, true_and] at h
    rw [h] at heq
    cases ts with
    | nil =>
      exfalso
      have h0 := hts []
      simp [skip, skip_go, drop_done] at h0
    | cons t ts =>
      rw [List.cons_append] at heq ⊢
      rw [skip_go_step _ _ _ (drop_done_succ 0 [])] at heq
      rw [skip_go_step _ _ _ (drop_done_of_ne top below htop)]
      cases t with
      | brk => simp at heq
      | arr k => exact skip_go_frame _ [k] (one_less top :: below) rest heq
      | map k => exact skip_go_frame _ [k.map (2 * ·)] (one_less top :: below) rest heq
      | tag n => exact skip_go_frame _ [some 1] (one_less top :: below) rest heq
      | uint n => exact skip_go_frame _ [] (one_less top :: below) rest heq
      | nint n => exact skip_go_frame _ [] (one_less top :: below) rest heq
      | bytes n => exact skip_go_frame _ [] (one_less top :: below) rest heq
      | text n => exact skip_go_frame _ [] (one_less top :: below) rest heq
      | simple n => exact skip_go_frame _ [] (one_less top :: below) rest heq
  · simp at h

theorem skip_go_items_definite (items : List (List Tok)) (hitems : ∀ i ∈ items, Skippable i)
    (m : Nat) (below : List (Option Nat)) (rest : List Tok) :
    skip_go (some (items.length + m) :: below) (items.flatten ++ rest)
      = skip_go (some m :: below) rest := by
  induction items with
  | nil => simp
  | cons i items ih =>
    have h1 := skip_go_item i (hitems i (List.mem_cons_self _ _)) (some (items.length + m + 1))
      (by simp) below (items.flatten ++ rest)
    have h2 := ih (fun x hx => hitems x (List.mem_cons_of_mem _ hx))
    have e : (i :: items).length + m = items.length + m + 1 := by
      simp only [List.length_cons]; omega
    rw [e, List.flatten_cons, List.append_assoc, h1]
    simpa [one_less] using h2

theorem skip_go_items_indefinite (items : List (List Tok))
    (hitems : ∀ i ∈ items, Skippable i) (below : List (Option Nat)) (rest : List Tok) :
    skip_go (none :: below) (items.flatten ++ rest) = skip_go (none :: below) rest := by
  induction items with
  | nil => simp
  | cons i items ih =>
    have h1 := skip_go_item i (hitems i (List.mem_cons_self _ _)) none (by simp) below
      (items.flatten ++ rest)
    have h2 := ih (fun x hx => hitems x (List.mem_cons_of_mem _ hx))
    rw [List.flatten_cons, List.append_assoc, h1]
    simpa [one_less] using h2

/-- An array of complete items is one complete item, in both forms. -/
theorem skippable_wire_array (indef : Bool) (items : List (List Tok))
    (hitems : ∀ i ∈ items, Skippable i) : Skippable (wire_array indef items) := by
  intro rest
  unfold skip
  cases indef with
  | true =>
    simp only [wire_array, if_true, List.cons_append, List.append_assoc]
    rw [skip_go_step _ _ _ (drop_done_succ 0 [])]
    simp only []
    rw [skip_go_items_indefinite items hitems, skip_go_step _ _ _ (drop_done_none _)]
    simp [one_less, skip_go_done, drop_done]
  | false =>
    simp only [wire_array, Bool.false_eq_true, if_false, List.cons_append]
    rw [skip_go_step _ _ _ (drop_done_succ 0 [])]
    simp only []
    have h := skip_go_items_definite items hitems 0 [one_less (some 1)] rest
    simp only [Nat.add_zero] at h
    simp only [h]
    simp [one_less, skip_go_done, drop_done]

/-- A map whose entries are each a complete key followed by a complete value
is one complete item, in both forms. -/
theorem skippable_wire_map (indef : Bool) (entries : List (List Tok))
    (hentries : ∀ g ∈ entries, ∃ k v, g = k ++ v ∧ Skippable k ∧ Skippable v) :
    Skippable (wire_map indef entries) := by
  have hsplit : ∃ items : List (List Tok), items.flatten = entries.flatten
      ∧ items.length = 2 * entries.length ∧ ∀ i ∈ items, Skippable i := by
    induction entries with
    | nil => exact ⟨[], rfl, rfl, by simp⟩
    | cons g gs ih =>
      obtain ⟨items, h1, h2, h3⟩ := ih (fun x hx => hentries x (List.mem_cons_of_mem _ hx))
      obtain ⟨k, v, hg, hk, hv⟩ := hentries g (List.mem_cons_self _ _)
      refine ⟨k :: v :: items, ?_, ?_, ?_⟩
      · simp [h1, hg]
      · simp only [List.length_cons, h2]; omega
      · intro i hi
        simp only [List.mem_cons] at hi
        rcases hi with hi | hi | hi
        · rw [hi]; exact hk
        · rw [hi]; exact hv
        · exact h3 i hi
  obtain ⟨items, h1, h2, h3⟩ := hsplit
  intro rest
  unfold skip
  cases indef with
  | true =>
    simp only [wire_map, if_true, List.cons_append, List.append_assoc]
    rw [skip_go_step _ _ _ (drop_done_succ 0 []), ← h1]
    simp only [Option.map_none']
    rw [skip_go_items_indefinite items h3, skip_go_step _ _ _ (drop_done_none _)]
    simp [one_less, skip_go_done, drop_done]
  | false =>
    simp only [wire_map, Bool.false_eq_true, if_false, List.cons_append]
    rw [skip_go_step _ _ _ (drop_done_succ 0 []), ← h1]
    have h := skip_go_items_definite items h3 0 [one_less (some 1)] rest
    simp only [Nat.add_zero, h2] at h
    simp only [Option.map_some', h]
    simp [one_less, skip_go_done, drop_done]

/-! ## What the encoders write is one complete item -/

theorem skippable_bytes (b : List Nat) : Skippable [.bytes b] := by
  intro rest
  simp [skip, skip_go, drop_done, one_less, skip_go_done]

theorem flatten_map_singleton {α β : Type} (f : α → β) (l : List α) :
    (l.map fun x => [f x]).flatten = l.map f := by
  induction l with
  | nil => rfl
  | cons a l ih => simp [ih]

theorem keyed_group (k : Nat) (v : List Tok) (hv : Skippable v) :
    ∃ a b, Tok.uint k :: v = a ++ b ∧ Skippable a ∧ Skippable b :=
  ⟨[.uint k], v, rfl, skippable_uint k, hv⟩

theorem index_vector_skippable (x : IndexVectorItem) : Skippable (IndexVectorItem.writeCbor x) := by
  have h := skippable_wire_array false (x.vec.map fun v => [Tok.uint v]) (fun i hi => by
    simp only [List.mem_map] at hi
    obtain ⟨v, _, hv⟩ := hi
    rw [← hv]
    exact skippable_uint v)
  simpa [wire_array, IndexVectorItem.writeCbor, flatten_map_singleton] using h

theorem class_type_skippable (cur : CurrentIndex) (x : ClassType) :
    Skippable (ClassType.writeCbor cur x) := by
  intro rest
  simp [ClassType.writeCbor, skip, skip_go, drop_done, one_less, skip_go_done]

theorem question_skippable (cur : CurrentIndex) (x : Question) :
    Skippable (Question.writeCbor cur x) := by
  intro rest
  simp [Question.writeCbor, skip, skip_go, drop_done, one_less, skip_go_done]

theorem resource_record_skippable (cur : CurrentIndex) (x : ResourceRecord) :
    Skippable (ResourceRecord.writeCbor cur x) := by
  intro rest
  simp [ResourceRecord.writeCbor, skip, skip_go, drop_done, one_less, skip_go_done]

theorem signature_skippable (cur : CurrentIndex) (x : QuerySignature) :
    Skippable (QuerySignature.writeCbor cur x) := by
  intro rest
  by_cases hH : x.qr_flags &&& QR_HAS_QUESTION = 0 <;>
    by_cases hQ : x.qr_flags &&& QUERY_ONLY = 0 <;>
    by_cases hO : x.qr_flags &&& QUERY_HAS_OPT = 0 <;>
    by_cases hR : x.qr_flags &&& RESPONSE_ONLY = 0 <;>
    simp [QuerySignature.writeCbor, hH, hQ, hO, hR, skip, skip_go, drop_done, one_less,
      skip_go_done]

theorem address_event_skippable (cur : CurrentIndex) (x : AddressEventCount) :
    Skippable (AddressEventCount.writeCbor cur x) := by
  intro rest
  by_cases hc : x.aei.code = 0 <;>
    simp [AddressEventCount.writeCbor, hc, skip, skip_go, drop_done, one_less, skip_go_done]

theorem ext_entries_skippable (cur : CurrentIndex) (ei : QueryResponseExtraInfo) :
    Skippable (wire_map true ((ext_entries cur ei).map WireEntry.toks)) := by
  apply skippable_wire_map
  intro g hg
  simp only [List.mem_map] at hg
  obtain ⟨e, he, hge⟩ := hg
  rw [← hge]
  have hv : ∃ v, e.2 = .unsigned v := by
    unfold ext_entries at he
    simp only [List.mem_append] at he
    rcases he with ((he | he) | he) | he <;> split at he <;> simp at he <;>
      exact ⟨_, by rw [he]⟩
  obtain ⟨v, hv⟩ := hv
  exact keyed_group e.1 _ (by rw [hv]; exact skippable_uint v)

theorem query_response_skippable (cur : CurrentIndex) (ticks : Nat) (earliest_time : Int)
    (x : QueryResponseItem) :
    Skippable (QueryResponseItem.writeCbor cur ticks earliest_time x) := by
  rw [query_response_written]
  apply skippable_wire_map
  intro g hg
  simp only [List.mem_map, qr_entries] at hg
  obtain ⟨e, ⟨f, hf, hfe⟩, hge⟩ := hg
  rw [← hge, ← hfe]
  apply keyed_group
  simp only []
  cases f with
  | query_extended =>
    cases hq : x.query_extra_info with
    | none => simp [qr_written_fields, hq] at hf
    | some ei =>
      simp only [qr_written_value, hq, QRValue.toks]
      exact ext_entries_skippable cur ei
  | response_extended =>
    cases hq : x.response_extra_info with
    | none => simp [qr_written_fields, hq] at hf
    | some ei =>
      simp only [qr_written_value, hq, QRValue.toks]
      exact ext_entries_skippable cur ei
  | unknown => simp [qr_written_fields] at hf
  | time_useconds => exact skippable_write_signed _
  | delay_useconds => exact skippable_write_signed _
  | _ => exact skippable_uint _

theorem stats_skippable (cur : CurrentIndex) (x : BlockData) :
    Skippable (BlockData.writeStats cur x) := by
  intro rest
  simp [BlockData.writeStats, skip, skip_go, drop_done, one_less, skip_go_done]

theorem items_skippable (cur : CurrentIndex) (ticks : Nat) (x : BlockData) :
    Skippable (BlockData.writeItems cur ticks x) := by
  have h := skippable_wire_array false
    (x.query_response_items.map (QueryResponseItem.writeCbor cur ticks x.earliest_time))
    (fun i hi => by
      simp only [List.mem_map] at hi
      obtain ⟨v, _, hv⟩ := hi
      rw [← hv]
      exact query_response_skippable cur ticks x.earliest_time v)
  simpa [wire_array, BlockData.writeItems, List.flatMap] using h

theorem address_events_skippable (cur : CurrentIndex) (x : BlockData) :
    Skippable (BlockData.writeAddressEventCounts cur x) := by
  have h := skippable_wire_array false
    (x.address_event_counts.map fun aeci =>
      AddressEventCount.writeCbor cur { aei := aeci.1, count := aeci.2 })
    (fun i hi => by
      simp only [List.mem_map] at hi
      obtain ⟨v, _, hv⟩ := hi
      rw [← hv]
      exact address_event_skippable cur _)
  simpa [wire_array, BlockData.writeAddressEventCounts, List.flatMap] using h

theorem header_list_skippable {T : Type} (indef : Bool) (item_writeCbor : T → List Tok)
    (hitem : ∀ x, Skippable (item_writeCbor x)) (self : List T) :
    Skippable (HeaderList.writeCbor indef item_writeCbor self) := by
  unfold HeaderList.writeCbor
  apply skippable_wire_array
  intro i hi
  simp only [List.mem_map] at hi
  obtain ⟨v, _, hv⟩ := hi
  rw [← hv]
  exact hitem v

/-- The tables map that `writeHeaders` writes, entry by entry. -/
theorem headers_written (cur : CurrentIndex) (wenv : EncoderEnv) (x : BlockData) :
    BlockData.writeHeaders cur wenv x
      = wire_map true
          [.uint (cur.find_block_tables_index .ip_address) ::
              HeaderList.writeCbor (wenv.table_indef .ip_address) IPAddressItem.writeCbor
                x.ip_addresses,
           .uint (cur.find_block_tables_index .classtype) ::
              HeaderList.writeCbor (wenv.table_indef .classtype) (ClassType.writeCbor cur)
                x.class_types,
           .uint (cur.find_block_tables_index .name_rdata) ::
              HeaderList.writeCbor (wenv.table_indef .name_rdata) ByteStringItem.writeCbor
                x.names_rdatas,
           .uint (cur.find_block_tables_index .query_signature) ::
              HeaderList.writeCbor (wenv.table_indef .query_signature)
                (QuerySignature.writeCbor cur) x.query_signatures,
           .uint (cur.find_block_tables_index .question_list) ::
              HeaderList.writeCbor (wenv.table_indef .question_list) IndexVectorItem.writeCbor
                x.questions_lists,
           .uint (cur.find_block_tables_index .question_rr) ::
              HeaderList.writeCbor (wenv.table_indef .question_rr) (Question.writeCbor cur)
                x.questions,
           .uint (cur.find_block_tables_index .rr_list) ::
              HeaderList.writeCbor (wenv.table_indef .rr_list) IndexVectorItem.writeCbor
                x.rrs_lists,
           .uint (cur.find_block_tables_index .rr) ::
              HeaderList.writeCbor (wenv.table_indef .rr) (ResourceRecord.writeCbor cur)
                x.resource_records] := by
  simp [BlockData.writeHeaders, wire_map]

theorem headers_skippable (cur : CurrentIndex) (wenv : EncoderEnv) (x : BlockData) :
    Skippable (BlockData.writeHeaders cur wenv x) := by
  rw [headers_written]
  apply skippable_wire_map
  intro g hg
  simp only [List.mem_cons, List.mem_singleton, List.not_mem_nil, or_false] at hg
  rcases hg with hg | hg | hg | hg | hg | hg | hg | hg <;> rw [hg] <;> apply keyed_group
  · exact header_list_skippable _ _ (fun a : IPAddressItem => skippable_bytes a.addr) _
  · exact header_list_skippable _ _ (class_type_skippable cur) _
  · exact header_list_skippable _ _ (fun a : ByteStringItem => skippable_bytes a.str) _
  · exact header_list_skippable _ _ (signature_skippable cur) _
  · exact header_list_skippable _ _ index_vector_skippable _
  · exact header_list_skippable _ _ (question_skippable cur) _
  · exact header_list_skippable _ _ index_vector_skippable _
  · exact header_list_skippable _ _ (resource_record_skippable cur) _

theorem preamble_skippable (cur : CurrentIndex) (wenv : EncoderEnv) (x : BlockData)
    (htime : Skippable (wenv.write_time x.earliest_time)) :
    Skippable (written_preamble cur wenv x) := by
  unfold written_preamble
  apply skippable_wire_map
  intro g hg
  simp only [List.mem_singleton] at hg
  rw [hg]
  exact keyed_group _ _ htime

theorem block_written (cur : CurrentIndex) (ticks : Nat) (wenv : EncoderEnv) (x : BlockData) :
    BlockData.writeCbor cur ticks wenv x
      = wire_map true
          ((written_block_entries cur ticks wenv x).map fun e => .uint e.1 :: e.2) := by
  simp [BlockData.writeCbor, written_block_entries, written_preamble, wire_map]

theorem foldl_keys (es : List (Nat × List Tok)) (keys : List Nat) :
    es.foldl (fun ks e => ks ++ [e.1]) keys = keys ++ es.map Prod.fst := by
  induction es generalizing keys with
  | nil => simp
  | cons e es ih => simp [ih]

/-- The keys of a map of complete values, read back in stream order. -/
theorem map_keys_wire_map (indef : Bool) (es : List (Nat × List Tok))
    (hes : ∀ e ∈ es, Skippable e.2) (rest : List Tok) :
    map_keys (wire_map indef (es.map fun e => .uint e.1 :: e.2) ++ rest)
      = .ok (es.map Prod.fst, rest) := by
  unfold map_keys
  rw [read_wire_map map_keys_entry (fun ks e => ks ++ [e.1]) (fun e => .uint e.1 :: e.2) es
    (fun e he s r => by
      have h := hes e he r
      simp only [map_keys_entry, List.cons_append, read_unsigned, h])
    (fun e _ => ⟨_, _, rfl, by simp⟩) indef [] rest, foldl_keys]
  simp

theorem sample_write_time_skippable (ticks : Nat) (t : Int) :
    Skippable (sample_write_time ticks t) := by
  intro rest
  simp [sample_write_time, skip, skip_go, drop_done, one_less, skip_go_done]

theorem block_keys_resolve (cur : CurrentIndex) (fields : FileVersionFields)
    (h : Resolves cur fields) :
    [cur.find_block_index .preamble, cur.find_block_index .statistics,
      cur.find_block_index .tables, cur.find_block_index .queries,
      cur.find_block_index .address_event_counts].map fields.block_field
      = [.preamble, .statistics, .tables, .queries, .address_event_counts] := by
  simp only [List.map_cons, List.map_nil]
  rw [h.block .preamble (by decide), h.block .statistics (by decide),
    h.block .tables (by decide), h.block .queries (by decide),
    h.block .address_event_counts (by decide)]

/-- C23: `BlockData::writeCbor` emits the header of an indefinite map, the five
entries of `written_block_entries`, each a key followed by its value, and a
break.  The keys are those of the preamble, the statistics, the tables, the
queries and the address event counts, in this order; each value is one
complete item, so that reading the map back key by key gives these five keys
and stops behind the break.  The preamble is the header of a definite map of
one entry, the key of the earliest time and what the time primitive writes for
the earliest time; read back it has this one key.  Under a mapping that
resolves the current keys the five keys are pairwise different and stand for
the five block fields.  The time primitive is taken to write one complete
item. -/
theorem C23_block_written_in_fixed_order (cur : CurrentIndex) (ticks : Nat)
    (wenv : EncoderEnv) (x : BlockData)
    (htime : Skippable (wenv.write_time x.earliest_time)) :
    BlockData.writeCbor cur ticks wenv x
      = .map none ::
          ((written_block_entries cur ticks wenv x).flatMap (fun e => .uint e.1 :: e.2)
            ++ [.brk])
    ∧ (written_block_entries cur ticks wenv x).map Prod.fst
        = [cur.find_block_index .preamble, cur.find_block_index .statistics,
            cur.find_block_index .tables, cur.find_block_index .queries,
            cur.find_block_index .address_event_counts]
    ∧ (∀ e ∈ written_block_entries cur ticks wenv x, Skippable e.2)
    ∧ (∀ rest, map_keys (BlockData.writeCbor cur ticks wenv x ++ rest)
        = .ok ([cur.find_block_index .preamble, cur.find_block_index .statistics,
            cur.find_block_index .tables, cur.find_block_index .queries,
            cur.find_block_index .address_event_counts], rest))
    ∧ written_preamble cur wenv x
        = [.map (some 1), .uint (cur.find_block_preamble_index .earliest_time)]
            ++ wenv.write_time x.earliest_time
    ∧ (∀ rest, map_keys (written_preamble cur wenv x ++ rest)
        = .ok ([cur.find_block_preamble_index .earliest_time], rest))
    ∧ (∀ fields, Resolves cur fields →
        [cur.find_block_index .preamble, cur.find_block_index .statistics,
          cur.find_block_index .tables, cur.find_block_index .queries,
          cur.find_block_index .address_event_counts].Nodup
        ∧ [cur.find_block_index .preamble, cur.find_block_index .statistics,
            cur.find_block_index .tables, cur.find_block_index .queries,
            cur.find_block_index .address_event_counts].map fields.block_field
          = [.preamble, .statistics, .tables, .queries, .address_event_counts]
        ∧ fields.block_preamble_field (cur.find_block_preamble_index .earliest_time)
          = .earliest_time) := by
  have hval : ∀ e ∈ written_block_entries cur ticks wenv x, Skippable e.2 := by
    intro e he
    simp only [written_block_entries, List.mem_cons, List.mem_singleton, List.not_mem_nil,
      or_false] at he
    rcases he with he | he | he | he | he <;> rw [he]
    · exact preamble_skippable cur wenv x htime
    · exact stats_skippable cur x
    · exact headers_skippable cur wenv x
    · exact items_skippable cur ticks x
    · exact address_events_skippable cur x
  refine ⟨?_, rfl, hval, ?_, by simp [written_preamble, wire_map], ?_, ?_⟩
  · rw [block_written]
    simp [wire_map, List.flatMap]
  · intro rest
    rw [block_written, map_keys_wire_map true _ hval rest]
    rfl
  · intro rest
    have h := map_keys_wire_map false
      [(cur.find_block_preamble_index .earliest_time, wenv.write_time x.earliest_time)]
      (fun e he => by
        simp only [List.mem_singleton] at he
        rw [he]
        exact htime) rest
    exact h
  · intro fields h
    have hmap := block_keys_resolve cur fields h
    refine ⟨List.Nodup.of_map fields.block_field ?_, hmap,
      h.block_preamble .earliest_time (by decide)⟩
    rw [hmap]
    decide


/-- C23 at the sample key table and the sample encoder, for a block with one
item, one address, one class/type pair, one name, one list of question indices
and one address event: the tokens written, and the keys read back from them
with a token behind the block. -/
theorem C23_block_written_in_fixed_order_witness :
    Skippable (sample_encoder.write_time sample_full_block.earliest_time)
    ∧ BlockData.writeCbor sample_index 1000 sample_encoder sample_full_block
      = [Tok.map none,
          Tok.uint 0, Tok.map (some 1), Tok.uint 0, Tok.arr (some 2), Tok.uint 1000000000, Tok.uint 0,
          Tok.uint 1, Tok.map none, Tok.uint 0, Tok.uint 2, Tok.uint 1, Tok.uint 0, Tok.uint 2, Tok.uint 0,
            Tok.uint 3, Tok.uint 0, Tok.uint 4, Tok.uint 0, Tok.uint 5, Tok.uint 0, Tok.uint 6, Tok.uint 0,
            Tok.uint 7, Tok.uint 0, Tok.uint 8, Tok.uint 0, Tok.uint 9, Tok.uint 0, Tok.brk,
          Tok.uint 2, Tok.map none,
            Tok.uint 0, Tok.arr (some 1), Tok.bytes [192, 0, 2, 1],
            Tok.uint 1, Tok.arr (some 1), Tok.map (some 2), Tok.uint 0, Tok.uint 1, Tok.uint 1, Tok.uint 1,
            Tok.uint 2, Tok.arr (some 1), Tok.bytes [3, 119, 119, 119],
            Tok.uint 3, Tok.arr (some 0),
            Tok.uint 4, Tok.arr none, Tok.arr (some 1), Tok.uint 0, Tok.brk,
            Tok.uint 5, Tok.arr (some 0),
            Tok.uint 6, Tok.arr none, Tok.brk,
            Tok.uint 7, Tok.arr (some 0),
            Tok.brk,
          Tok.uint 3, Tok.arr (some 1), Tok.map none, Tok.uint 0, Tok.uint 7, Tok.uint 1, Tok.uint 1, Tok.uint 2,
            Tok.uint 5353, Tok.uint 3, Tok.uint 4660, Tok.uint 4, Tok.uint 2, Tok.uint 5, Tok.uint 64, Tok.uint 8,
            Tok.uint 40, Tok.brk,
          Tok.uint 4, Tok.arr (some 1), Tok.map none, Tok.uint 0, Tok.uint 2, Tok.uint 2, Tok.uint 0, Tok.uint 3,
            Tok.uint 5, Tok.brk,
          Tok.brk]
    ∧ map_keys (BlockData.writeCbor sample_index 1000 sample_encoder sample_full_block
          ++ [.uint 9])
      = .ok ([0, 1, 2, 3, 4], [.uint 9])
    ∧ map_keys (written_preamble sample_index sample_encoder sample_full_block ++ [.uint 9])
      = .ok ([0], [.uint 9]) :=
  ⟨sample_write_time_skippable 1000 _,
   (C23_block_written_in_fixed_order sample_index 1000 sample_encoder sample_full_block
      (sample_write_time_skippable 1000 _)).1.trans (by decide),
   (C23_block_written_in_fixed_order sample_index 1000 sample_encoder sample_full_block
      (sample_write_time_skippable 1000 _)).2.2.2.1 [.uint 9],
   (C23_block_written_in_fixed_order sample_index 1000 sample_encoder sample_full_block
      (sample_write_time_skippable 1000 _)).2.2.2.2.2.1 [.uint 9]⟩

/-! ## Decoding into a target that holds contents -/

theorem index_vector_written (x : IndexVectorItem) :
    IndexVectorItem.writeCbor x = wire_array false (x.vec.map fun v => [Tok.uint v]) := by
  simp [wire_array, IndexVectorItem.writeCbor, flatten_map_singleton]

theorem items_written (cur : CurrentIndex) (ticks : Nat) (x : BlockData) :
    BlockData.writeItems cur ticks x
      = wire_array false
          ((x.query_response_items.map fun q =>
            ((true, qr_entries cur ticks x.earliest_time q) : QRMap)).map QRMap.toks) := by
  simp only [BlockData.writeItems, wire_array, Bool.false_eq_true, if_false, List.length_map,
    List.map_map, List.flatMap]
  congr 2
  apply List.map_congr_left
  intro q _
  simp only [Function.comp, QRMap.toks]
  exact query_response_written cur ticks x.earliest_time q

/-- Reading back what `writeItems` wrote appends one item per item written to
the items of the target. -/
theorem items_read_written (cur : CurrentIndex) (fields : FileVersionFields)
    (h : Resolves cur fields) (ticks : Nat) (fresh : QueryResponseItem)
    (self x : BlockData) (rest : List Tok) :
    BlockData.readItems fields ticks fresh self (BlockData.writeItems cur ticks x ++ rest)
      = .ok ({ self with query_response_items := self.query_response_items
                ++ items_read_back cur fields ticks self.earliest_time fresh x }, rest) := by
  rw [items_written, items_wire_array fields ticks fresh self false _ (fun m hm => by
    simp only [List.mem_map] at hm
    obtain ⟨q, _, hq⟩ := hm
    rw [← hq]
    exact qr_entries_well_typed cur fields h ticks x.earliest_time q) rest]
  simp [items_read_back, List.map_map, Function.comp]

theorem items_read_back_length (cur : CurrentIndex) (fields : FileVersionFields) (ticks : Nat)
    (earliest_time : Int) (fresh : QueryResponseItem) (x : BlockData) :
    (items_read_back cur fields ticks earliest_time fresh x).length
      = x.query_response_items.length := by
  simp [items_read_back]

theorem items_read_back_fixed (cur : CurrentIndex) (fields : FileVersionFields)
    (h : Resolves cur fields) (ticks : Nat) (fresh : QueryResponseItem) (x : BlockData)
    (hx : ∀ q ∈ x.query_response_items, q.FlagsCover ∧ q.Aligned ticks x.earliest_time) :
    items_read_back cur fields ticks x.earliest_time fresh.clear x
      = x.query_response_items := by
  unfold items_read_back
  conv_rhs => rw [← List.map_id x.query_response_items]
  apply List.map_congr_left
  intro q hq
  exact written_item_fixed cur fields h ticks x.earliest_time q fresh (hx q hq).1 (hx q hq).2

theorem append_eq_right_length {α : Type} (v w x : List α) (hl : w.length = x.length)
    (h : v ++ w = x) : v = [] := by
  have h1 := congrArg List.length h
  rw [List.length_append] at h1
  exact List.length_eq_zero.mp (by omega)

/-- C31: `IndexVectorItem::readCbor` and `BlockData::readItems` append to what
the target holds.  An array of unsigned integers, in either form, read into an
index vector holding `v` leaves `v` followed by the integers converted to
`index_t`, which are the integers themselves when they fit `index_t`.  An array
of well-typed query/response maps, in either form, read into a block leaves
the items of the block followed by one item per map, in order, and the other
members of the block as they were.  Hence decoding what `writeCbor` wrote for
an index vector `x` gives `v` followed by the indices of `x`, which is `x`
exactly when `v` is empty; and decoding what `writeItems` wrote for a block
`x` gives the items of the target followed by one item per item of `x`, which
can be the items of `x` only when the target held none, and is the items of
`x` exactly when the target held none if the target has the earliest time of
`x`, a default-constructed item is a cleared one, and the items of `x` are as a
decoder leaves them. -/
theorem C31_decoders_append (index_bits : Nat) (fields : FileVersionFields) (ticks : Nat)
    (fresh : QueryResponseItem) :
    (∀ (self : IndexVectorItem) (indef : Bool) (xs : List Nat) (rest : List Tok),
      IndexVectorItem.readCbor index_bits self
          (wire_array indef (xs.map fun x => [.uint x]) ++ rest)
        = .ok ({ vec := self.vec ++ xs.map (to_index_t index_bits) }, rest)
      ∧ ((∀ x ∈ xs, x < 2 ^ index_bits) →
          IndexVectorItem.readCbor index_bits self
              (wire_array indef (xs.map fun x => [.uint x]) ++ rest)
            = .ok ({ vec := self.vec ++ xs }, rest)))
    ∧ (∀ (self : BlockData) (indef : Bool) (ms : List QRMap) (rest : List Tok),
        (∀ m ∈ ms, ∀ e ∈ m.2, QREntry.WellTyped fields e) →
        BlockData.readItems fields ticks fresh self
            (wire_array indef (ms.map QRMap.toks) ++ rest)
          = .ok ({ self with
                    query_response_items := self.query_response_items
                      ++ ms.map (fun m =>
                          item_of_entries fields ticks self.earliest_time fresh m.2) },
                rest))
    ∧ (∀ (self x : IndexVectorItem) (rest : List Tok), (∀ v ∈ x.vec, v < 2 ^ index_bits) →
        IndexVectorItem.readCbor index_bits self (IndexVectorItem.writeCbor x ++ rest)
          = .ok ({ vec := self.vec ++ x.vec }, rest)
        ∧ ((({ vec := self.vec ++ x.vec } : IndexVectorItem) = x) ↔ self.vec = []))
    ∧ (∀ (cur : CurrentIndex), Resolves cur fields →
        ∀ (self x : BlockData) (rest : List Tok),
          BlockData.readItems fields ticks fresh self (BlockData.writeItems cur ticks x ++ rest)
            = .ok ({ self with
                      query_response_items := self.query_response_items
                        ++ items_read_back cur fields ticks self.earliest_time fresh x },
                  rest)
          ∧ (items_read_back cur fields ticks self.earliest_time fresh x).length
              = x.query_response_items.length
          ∧ (self.query_response_items
                ++ items_read_back cur fields ticks self.earliest_time fresh x
              = x.query_response_items → self.query_response_items = [])
          ∧ (fresh = fresh.clear → self.earliest_time = x.earliest_time →
              (∀ q ∈ x.query_response_items,
                q.FlagsCover ∧ q.Aligned ticks x.earliest_time) →
              (self.query_response_items
                  ++ items_read_back cur fields ticks self.earliest_time fresh x
                = x.query_response_items ↔ self.query_response_items = []))) := by
  refine ⟨?_, ?_, ?_, ?_⟩
  · intro self indef xs rest
    refine ⟨index_vector_wire_array index_bits self indef xs rest, ?_⟩
    intro hxs
    rw [index_vector_wire_array, map_to_index_t_of_lt index_bits xs hxs]
  · intro self indef ms rest hms
    exact items_wire_array fields ticks fresh self indef ms hms rest
  · intro self x rest hx
    refine ⟨?_, ?_⟩
    · rw [index_vector_written, index_vector_wire_array,
        map_to_index_t_of_lt index_bits x.vec hx]
    · constructor
      · intro h
        have h1 : self.vec ++ x.vec = x.vec := congrArg IndexVectorItem.vec h
        exact append_eq_right_length _ _ _ rfl h1
      · intro h
        rw [h, List.nil_append]
  · intro cur h self x rest
    refine ⟨items_read_written cur fields h ticks fresh self x rest,
      items_read_back_length cur fields ticks self.earliest_time fresh x, ?_, ?_⟩
    · intro heq
      exact append_eq_right_length _ _ _
        (items_read_back_length cur fields ticks self.earliest_time fresh x) heq
    · intro hfresh htime hx
      constructor
      · intro heq
        exact append_eq_right_length _ _ _
          (items_read_back_length cur fields ticks self.earliest_time fresh x) heq
      · intro hnil
        rw [hnil, List.nil_append, htime, hfresh]
        exact items_read_back_fixed cur fields h ticks fresh x hx

/-- C31 at the sample mapping.  The array 3, 1 read into an index vector that
holds 7 leaves 7, 3, 1, in both forms, and so does decoding what `writeCbor`
wrote for the vector 3, 1; into an empty vector the vector 3, 1 comes back.
What `writeItems` wrote for `sample_full_block`, read into a block that holds
one item, leaves that item followed by the item of `sample_full_block`; read
into a block without items it leaves the item of `sample_full_block`. -/
theorem C31_decoders_append_witness :
    IndexVectorItem.readCbor 32 { vec := [7] } ([.arr (some 2), .uint 3, .uint 1] ++ [])
      = .ok ({ vec := [7, 3, 1] }, [])
    ∧ IndexVectorItem.readCbor 32 { vec := [7] } ([.arr none, .uint 3, .uint 1, .brk] ++ [])
      = .ok ({ vec := [7, 3, 1] }, [])
    ∧ IndexVectorItem.readCbor 32 { vec := [7] }
        (IndexVectorItem.writeCbor { vec := [3, 1] } ++ [.uint 9])
      = .ok ({ vec := [7, 3, 1] }, [.uint 9])
    ∧ IndexVectorItem.readCbor 32 { vec := [] }
        (IndexVectorItem.writeCbor { vec := [3, 1] } ++ [.uint 9])
      = .ok ({ vec := [3, 1] }, [.uint 9])
    ∧ BlockData.readItems sample_fields 1000 sample_stale_item.clear sample_held_block
        (BlockData.writeItems sample_index 1000 sample_full_block ++ [.uint 9])
      = .ok ({ sample_held_block with
                query_response_items :=
                  sample_held_block.query_response_items ++ [sample_query_item] },
            [.uint 9])
    ∧ BlockData.readItems sample_fields 1000 sample_stale_item.clear
        { sample_held_block with query_response_items := [] }
        (BlockData.writeItems sample_index 1000 sample_full_block ++ [.uint 9])
      = .ok ({ sample_held_block with query_response_items := [sample_query_item] },
            [.uint 9]) :=
  ⟨((C31_decoders_append 32 sample_fields 1000 sample_stale_item.clear).1
      { vec := [7] } false [3, 1] []).2 (by decide),
   ((C31_decoders_append 32 sample_fields 1000 sample_stale_item.clear).1
      { vec := [7] } true [3, 1] []).2 (by decide),
   ((C31_decoders_append 32 sample_fields 1000 sample_stale_item.clear).2.2.1
      { vec := [7] } { vec := [3, 1] } [.uint 9] (by decide)).1,
   ((C31_decoders_append 32 sample_fields 1000 sample_stale_item.clear).2.2.1
      { vec := [] } { vec := [3, 1] } [.uint 9] (by decide)).1,
   ((C31_decoders_append 32 sample_fields 1000 sample_stale_item.clear).2.2.2
      sample_index sample_resolves sample_held_block sample_full_block [.uint 9]).1.trans
     rfl,
   ((C31_decoders_append 32 sample_fields 1000 sample_stale_item.clear).2.2.2
      sample_index sample_resolves { sample_held_block with query_response_items := [] }
      sample_full_block [.uint 9]).1.trans rfl⟩

/-! ## The decoders that reserve -/

theorem read_array_reserving_eq {σ : Type} (max_size : Nat) (body : σ → List Tok → Res σ)
    (s : σ) (dec : List Tok) (h : ∀ n ts, dec = Tok.arr (some n) :: ts → n ≤ max_size) :
    read_array_reserving max_size body s dec = read_array body s dec := by
  unfold read_array_reserving read_array
  cases dec with
  | nil => rfl
  | cons t ts =>
    cases t with
    | arr k =>
      cases k with
      | none => simp [readArrayHeader]
      | some n =>
        have hn := h n ts rfl
        simp [readArrayHeader, reserve, Nat.not_lt.mpr hn]
    | _ => rfl

/-- A definite count above `max_size`: `reserve` throws before the loop. -/
theorem read_array_reserving_above {σ : Type} (max_size : Nat) (body : σ → List Tok → Res σ)
    (s : σ) (n : Nat) (ts : List Tok) (hn : max_size < n) :
    read_array_reserving max_size body s (.arr (some n) :: ts) = .error .logic_error := by
  simp [read_array_reserving, readArrayHeader, reserve, hn]

theorem wire_array_header_within (max_size : Nat) (indef : Bool) (items : List (List Tok))
    (hb : indef = false → items.length ≤ max_size) (p : List Tok)
    (hp : p <+: wire_array indef items) :
    ∀ n ts, p = Tok.arr (some n) :: ts → n ≤ max_size := by
  intro n ts hpe
  subst hpe
  cases indef with
  | true =>
    simp only [wire_array, if_true] at hp
    rcases List.prefix_cons_iff.mp hp with h | ⟨q, h1, _⟩
    · simp at h
    · simp at h1
  | false =>
    simp only [wire_array, Bool.false_eq_true, if_false] at hp
    rcases List.prefix_cons_iff.mp hp with h | ⟨q, h1, _⟩
    · simp at h
    · simp only [List.cons.injEq, Tok.arr.injEq, Option.some.injEq] at h1
      rw [h1.1]
      exact hb rfl

theorem errors_within_of_errors {α σ : Type} (max_size : Nat)
    (old new : List Tok → Except Err α) (body : σ → List Tok → Res σ)
    (groups : List (List Tok)) (after : σ)
    (heq : ∀ dec, (∀ n ts, dec = Tok.arr (some n) :: ts → n ≤ max_size) → new dec = old dec)
    (hold : ErrorsReachCaller old Tok.arr body groups after) :
    ErrorsReachCallerWithin max_size new Tok.arr body groups after := by
  obtain ⟨h1, h2, h3, h4⟩ := hold
  have hnone : ∀ ts, new (Tok.arr none :: ts) = old (Tok.arr none :: ts) := fun ts =>
    heq _ (fun n ts1 h => by simp at h)
  have hsome : ∀ n ts, n ≤ max_size →
      new (Tok.arr (some n) :: ts) = old (Tok.arr (some n) :: ts) := fun n ts hn =>
    heq _ (fun m ts1 h => by
      simp only [List.cons.injEq, Tok.arr.injEq, Option.some.injEq] at h
      rw [← h.1]
      exact hn)
  refine ⟨?_, ?_, ?_, ?_⟩
  · rw [heq [] (fun n ts h => by simp at h)]
    exact h1
  · rw [hnone]
    exact h2
  · intro n hn hmax
    rw [hsome n _ hmax]
    exact h3 n hn
  · intro bad e he hbad
    refine ⟨?_, ?_⟩
    · intro n hn hmax
      rw [hsome n _ hmax]
      exact (h4 bad e he hbad).1 n hn
    · intro hb
      rw [hnone]
      exact (h4 bad e he hbad).2 hb

theorem truncated_within_of_truncated {α : Type} (max_size : Nat)
    (old new : List Tok → Except Err α) (indef : Bool) (items : List (List Tok))
    (heq : ∀ dec, (∀ n ts, dec = Tok.arr (some n) :: ts → n ≤ max_size) → new dec = old dec)
    (hb : indef = false → items.length ≤ max_size)
    (hold : RejectsTruncated old (wire_array indef items)) :
    RejectsTruncated new (wire_array indef items) := by
  intro p hp hne
  rw [heq p (wire_array_header_within max_size indef items hb p hp)]
  exact hold p hp hne

theorem index_vector_reserving_eq (max_size index_bits : Nat) (self : IndexVectorItem)
    (dec : List Tok) (h : ∀ n ts, dec = Tok.arr (some n) :: ts → n ≤ max_size) :
    IndexVectorItem.readCbor_reserving max_size index_bits self dec
      = IndexVectorItem.readCbor index_bits self dec := by
  unfold IndexVectorItem.readCbor_reserving IndexVectorItem.readCbor
  rw [read_array_reserving_eq max_size _ self dec h]

theorem items_reserving_eq (max_size : Nat) (fields : FileVersionFields) (ticks : Nat)
    (fresh : QueryResponseItem) (self : BlockData) (dec : List Tok)
    (h : ∀ n ts, dec = Tok.arr (some n) :: ts → n ≤ max_size) :
    BlockData.readItems_reserving max_size fields ticks fresh self dec
      = BlockData.readItems fields ticks fresh self dec := by
  unfold BlockData.readItems_reserving BlockData.readItems
  rw [read_array_reserving_eq max_size _ self dec h]

/-- A definite count above `max_size`: `IndexVectorItem::readCbor` fails with
its format error, whatever follows the header. -/
theorem index_vector_reserving_above (max_size index_bits : Nat) (self : IndexVectorItem)
    (n : Nat) (ts : List Tok) (hn : max_size < n) :
    IndexVectorItem.readCbor_reserving max_size index_bits self (.arr (some n) :: ts)
      = .error (.cbor_file_format_error "Unexpected CBOR item reading index") := by
  unfold IndexVectorItem.readCbor_reserving
  rw [read_array_reserving_above max_size _ self n ts hn]
  rfl

/-- A definite count above `max_size`: the error of `reserve` leaves
`BlockData::readItems` as it is, whatever follows the header. -/
theorem items_reserving_above (max_size : Nat) (fields : FileVersionFields) (ticks : Nat)
    (fresh : QueryResponseItem) (self : BlockData) (n : Nat) (ts : List Tok)
    (hn : max_size < n) :
    BlockData.readItems_reserving max_size fields ticks fresh self (.arr (some n) :: ts)
      = .error .logic_error :=
  read_array_reserving_above max_size _ self n ts hn

theorem wire_array_append_header_within (max_size : Nat) (indef : Bool)
    (items : List (List Tok)) (hb : indef = false → items.length ≤ max_size)
    (rest : List Tok) :
    ∀ n ts, wire_array indef items ++ rest = Tok.arr (some n) :: ts → n ≤ max_size := by
  intro n ts h
  cases indef with
  | true => simp [wire_array] at h
  | false =>
    simp only [wire_array, Bool.false_eq_true, if_false, List.cons_append, List.cons.injEq,
      Tok.arr.injEq, Option.some.injEq] at h
    rw [← h.1]
    exact hb rfl

theorem index_vector_reserving_wire_array (max_size index_bits : Nat)
    (self : IndexVectorItem) (indef : Bool) (xs : List Nat) (rest : List Tok)
    (hb : indef = false → xs.length ≤ max_size) :
    IndexVectorItem.readCbor_reserving max_size index_bits self
        (wire_array indef (xs.map fun x => [.uint x]) ++ rest)
      = .ok ({ vec := self.vec ++ xs.map (to_index_t index_bits) }, rest) := by
  rw [index_vector_reserving_eq max_size index_bits self _
    (wire_array_append_header_within max_size indef _ (by simpa using hb) rest)]
  exact index_vector_wire_array index_bits self indef xs rest

theorem index_vector_reserving_errors (max_size index_bits : Nat) (self : IndexVectorItem)
    (xs : List Nat) :
    ErrorsReachCallerWithin max_size
      (IndexVectorItem.readCbor_reserving max_size index_bits self) Tok.arr
      (IndexVectorItem.read_element index_bits) (xs.map fun x => [.uint x])
      { vec := self.vec ++ xs.map (to_index_t index_bits) } :=
  errors_within_of_errors max_size (IndexVectorItem.readCbor index_bits self) _ _ _ _
    (fun dec h => index_vector_reserving_eq max_size index_bits self dec h)
    (index_vector_errors index_bits self xs)

theorem index_vector_reserving_truncated (max_size index_bits : Nat)
    (self : IndexVectorItem) (indef : Bool) (xs : List Nat)
    (hb : indef = false → xs.length ≤ max_size) :
    RejectsTruncated (IndexVectorItem.readCbor_reserving max_size index_bits self)
      (wire_array indef (xs.map fun x => [.uint x])) :=
  truncated_within_of_truncated max_size (IndexVectorItem.readCbor index_bits self) _ indef _
    (fun dec h => index_vector_reserving_eq max_size index_bits self dec h)
    (by simpa using hb) (index_vector_truncated index_bits self indef xs)

theorem items_reserving_wire_array (max_size : Nat) (fields : FileVersionFields)
    (ticks : Nat) (fresh : QueryResponseItem) (self : BlockData) (indef : Bool)
    (ms : List QRMap) (hms : ∀ m ∈ ms, ∀ e ∈ m.2, QREntry.WellTyped fields e)
    (hb : indef = false → ms.length ≤ max_size) (rest : List Tok) :
    BlockData.readItems_reserving max_size fields ticks fresh self
        (wire_array indef (ms.map QRMap.toks) ++ rest)
      = .ok ({ self with query_response_items := self.query_response_items
                ++ ms.map (fun m =>
                    item_of_entries fields ticks self.earliest_time fresh m.2) }, rest) := by
  rw [items_reserving_eq max_size fields ticks fresh self _
    (wire_array_append_header_within max_size indef _ (by simpa using hb) rest)]
  exact items_wire_array fields ticks fresh self indef ms hms rest

theorem items_reserving_errors (max_size : Nat) (fields : FileVersionFields) (ticks : Nat)
    (fresh : QueryResponseItem) (self : BlockData) (ms : List QRMap)
    (hms : ∀ m ∈ ms, ∀ e ∈ m.2, QREntry.WellTyped fields e) :
    ErrorsReachCallerWithin max_size
      (BlockData.readItems_reserving max_size fields ticks fresh self) Tok.arr
      (BlockData.readItems_element fields ticks fresh) (ms.map QRMap.toks)
      { self with
        query_response_items := self.query_response_items
          ++ ms.map (fun m => item_of_entries fields ticks self.earliest_time fresh m.2) } :=
  errors_within_of_errors max_size (BlockData.readItems fields ticks fresh self) _ _ _ _
    (fun dec h => items_reserving_eq max_size fields ticks fresh self dec h)
    (items_errors fields ticks fresh self ms hms)

theorem items_reserving_truncated (max_size : Nat) (fields : FileVersionFields) (ticks : Nat)
    (fresh : QueryResponseItem) (self : BlockData) (indef : Bool) (ms : List QRMap)
    (hms : ∀ m ∈ ms, ∀ e ∈ m.2, QREntry.WellTyped fields e)
    (hb : indef = false → ms.length ≤ max_size) :
    RejectsTruncated (BlockData.readItems_reserving max_size fields ticks fresh self)
      (wire_array indef (ms.map QRMap.toks)) :=
  truncated_within_of_truncated max_size (BlockData.readItems fields ticks fresh self) _
    indef _ (fun dec h => items_reserving_eq max_size fields ticks fresh self dec h)
    (by simpa using hb) (items_truncated fields ticks fresh self indef ms hms)

theorem headers_entry_reserving_eq (lim : MaxSize) (fields : FileVersionFields)
    (env : TableEnv) (s : BlockData) (dec : List Tok)
    (h : ∀ key ts, dec = Tok.uint key :: ts →
      fields.block_tables_field key ≠ .question_list
      ∧ fields.block_tables_field key ≠ .rr_list) :
    BlockData.readHeaders_entry_reserving lim fields env s dec
      = BlockData.readHeaders_entry fields env s dec := by
  unfold BlockData.readHeaders_entry_reserving BlockData.readHeaders_entry
  cases dec with
  | nil => rfl
  | cons t ts =>
    cases t with
    | uint key =>
      have hk := h key ts rfl
      simp only [read_unsigned]
      cases hf : fields.block_tables_field key <;>
        first | exact absurd hf hk.1 | exact absurd hf hk.2 | rfl
    | _ => rfl

theorem keyed_prefix_key (key : Nat) (vtoks p : List Tok) (hp : p <+: Tok.uint key :: vtoks) :
    ∀ k ts, p = Tok.uint k :: ts → k = key := by
  intro k ts hpe
  subst hpe
  rcases List.prefix_cons_iff.mp hp with h | ⟨q, h1, _⟩
  · simp at h
  · simp only [List.cons.injEq, Tok.uint.injEq] at h1
    exact h1.1

theorem index_table_toks_reserving (max_size index_bits : Nat) (indef : Bool)
    (items : List WireIndexes) (hw : ∀ v ∈ items, v.1 = false → v.2.length ≤ max_size)
    (self : List IndexVectorItem) (rest : List Tok) :
    HeaderList.readCbor (IndexVectorItem.readCbor_reserving max_size index_bits) { vec := [] }
        self (wire_array indef (items.map WireIndexes.toks) ++ rest)
      = .ok (self ++ items.map (fun v => { vec := v.2.map (to_index_t index_bits) }), rest) :=
  header_list_wire_array (IndexVectorItem.readCbor_reserving max_size index_bits)
    { vec := [] } WireIndexes.toks (fun v => { vec := v.2.map (to_index_t index_bits) }) items
    (fun v hv rest => by
      simp only [WireIndexes.toks]
      rw [index_vector_reserving_wire_array max_size index_bits _ v.1 v.2 rest (hw v hv)]
      rfl)
    (fun v _ => wire_array_head _ _) indef self rest

theorem index_table_truncated_reserving (max_size index_bits : Nat) (indef : Bool)
    (items : List WireIndexes) (hw : ∀ v ∈ items, v.1 = false → v.2.length ≤ max_size)
    (self : List IndexVectorItem) :
    RejectsTruncated
      (HeaderList.readCbor (IndexVectorItem.readCbor_reserving max_size index_bits)
        { vec := [] } self)
      (wire_array indef (items.map WireIndexes.toks)) :=
  header_list_truncated (IndexVectorItem.readCbor_reserving max_size index_bits)
    { vec := [] } WireIndexes.toks (fun v => { vec := v.2.map (to_index_t index_bits) }) items
    (fun v hv rest => by
      simp only [WireIndexes.toks]
      rw [index_vector_reserving_wire_array max_size index_bits _ v.1 v.2 rest (hw v hv)]
      rfl)
    (fun v _ => wire_array_head _ _) rfl
    (fun v hv => index_vector_reserving_truncated max_size index_bits _ v.1 v.2 (hw v hv))
    indef self

theorem table_entry_toks_reserving (lim : MaxSize) (fields : FileVersionFields)
    (env : TableEnv) (e : TableEntry) (he : TableEntry.WellTyped fields env e)
    (hw : TableEntry.Within lim.index_vector fields e) (s : BlockData) (rest : List Tok) :
    BlockData.readHeaders_entry_reserving lim fields env s (e.toks ++ rest)
      = .ok (TableEntry.apply fields env s e, rest) := by
  obtain ⟨key, v⟩ := e
  by_cases hq : fields.block_tables_field key = .question_list
  · unfold TableEntry.WellTyped at he
    unfold TableEntry.Within at hw
    cases v <;> simp only [hq] at he hw
    next indef items =>
      simp only [BlockData.readHeaders_entry_reserving, TableEntry.toks, TableEntry.apply,
        List.cons_append, read_unsigned, hq, TableValue.toks]
      rw [index_table_toks_reserving lim.index_vector env.index_bits indef items hw]
  · by_cases hr : fields.block_tables_field key = .rr_list
    · unfold TableEntry.WellTyped at he
      unfold TableEntry.Within at hw
      cases v <;> simp only [hr] at he hw
      next indef items =>
        simp only [BlockData.readHeaders_entry_reserving, TableEntry.toks, TableEntry.apply,
          List.cons_append, read_unsigned, hr, TableValue.toks]
        rw [index_table_toks_reserving lim.index_vector env.index_bits indef items hw]
    · rw [headers_entry_reserving_eq lim fields env s _ (fun k ts h => by
        simp only [TableEntry.toks, List.cons_append, List.cons.injEq, Tok.uint.injEq] at h
        rw [← h.1]
        exact ⟨hq, hr⟩)]
      exact table_entry_toks fields env (key, v) he s rest

theorem table_entry_truncated_reserving (lim : MaxSize) (fields : FileVersionFields)
    (env : TableEnv) (e : TableEntry) (he : TableEntry.WellTyped fields env e)
    (hw : TableEntry.Within lim.index_vector fields e) (s : BlockData) :
    RejectsTruncated (BlockData.readHeaders_entry_reserving lim fields env s) e.toks := by
  obtain ⟨key, v⟩ := e
  by_cases hq : fields.block_tables_field key = .question_list
  · refine keyed_truncated _ key v.toks rfl ?_
    intro q hqp hqne
    unfold TableEntry.WellTyped at he
    unfold TableEntry.Within at hw
    cases v <;> simp only [hq] at he hw
    next indef items =>
      have h1 := index_table_truncated_reserving lim.index_vector env.index_bits indef items
        hw s.questions_lists q hqp hqne
      simp [BlockData.readHeaders_entry_reserving, read_unsigned, hq, h1]
  · by_cases hr : fields.block_tables_field key = .rr_list
    · refine keyed_truncated _ key v.toks rfl ?_
      intro q hqp hqne
      unfold TableEntry.WellTyped at he
      unfold TableEntry.Within at hw
      cases v <;> simp only [hr] at he hw
      next indef items =>
        have h1 := index_table_truncated_reserving lim.index_vector env.index_bits indef
          items hw s.rrs_lists q hqp hqne
        simp [BlockData.readHeaders_entry_reserving, read_unsigned, hr, h1]
    · intro p hp hne
      rw [headers_entry_reserving_eq lim fields env s p (fun k ts h => by
        rw [keyed_prefix_key key v.toks p hp k ts h]
        exact ⟨hq, hr⟩)]
      exact table_entry_truncated fields env (key, v) he s p hp hne

theorem headers_reserving_wire_map (lim : MaxSize) (fields : FileVersionFields)
    (env : TableEnv) (self : BlockData) (indef : Bool) (es : List TableEntry)
    (hes : ∀ e ∈ es, TableEntry.WellTyped fields env e)
    (hws : ∀ e ∈ es, TableEntry.Within lim.index_vector fields e) (rest : List Tok) :
    BlockData.readHeaders_reserving lim fields env self
        (wire_map indef (es.map TableEntry.toks) ++ rest)
      = .ok (es.foldl (TableEntry.apply fields env) self, rest) :=
  read_wire_map (BlockData.readHeaders_entry_reserving lim fields env)
    (TableEntry.apply fields env) TableEntry.toks es
    (fun e he s rest => table_entry_toks_reserving lim fields env e (hes e he) (hws e he) s rest)
    (fun e _ => table_toks_head e) indef self rest

theorem headers_reserving_errors (lim : MaxSize) (fields : FileVersionFields)
    (env : TableEnv) (self : BlockData) (es : List TableEntry)
    (hes : ∀ e ∈ es, TableEntry.WellTyped fields env e)
    (hws : ∀ e ∈ es, TableEntry.Within lim.index_vector fields e) :
    ErrorsReachCaller (BlockData.readHeaders_reserving lim fields env self) Tok.map
      (BlockData.readHeaders_entry_reserving lim fields env) (es.map TableEntry.toks)
      (es.foldl (TableEntry.apply fields env) self) :=
  read_map_errors_reach_caller (BlockData.readHeaders_entry_reserving lim fields env)
    (TableEntry.apply fields env) TableEntry.toks es
    (fun e he s rest => table_entry_toks_reserving lim fields env e (hes e he) (hws e he) s rest)
    (fun e _ => table_toks_head e) (fun _ => rfl) self

theorem headers_reserving_truncated (lim : MaxSize) (fields : FileVersionFields)
    (env : TableEnv) (self : BlockData) (indef : Bool) (es : List TableEntry)
    (hes : ∀ e ∈ es, TableEntry.WellTyped fields env e)
    (hws : ∀ e ∈ es, TableEntry.Within lim.index_vector fields e) :
    RejectsTruncated (BlockData.readHeaders_reserving lim fields env self)
      (wire_map indef (es.map TableEntry.toks)) :=
  wire_map_truncated _ (BlockData.readHeaders_entry_reserving lim fields env)
    (TableEntry.apply fields env) TableEntry.toks es self (fun e _ => table_toks_head e)
    (fun e he s => table_entry_truncated_reserving lim fields env e (hes e he) (hws e he) s)
    (fun es1 _ h => headers_reserving_errors lim fields env self es1
      (fun e he => hes e (mem_of_append_left h e he))
      (fun e he => hws e (mem_of_append_left h e he))) indef

theorem block_entry_reserving_eq (lim : MaxSize) (fields : FileVersionFields) (ticks : Nat)
    (fresh : QueryResponseItem) (env : TableEnv) (s : BlockData) (dec : List Tok)
    (h : ∀ key ts, dec = Tok.uint key :: ts →
      fields.block_field key ≠ .tables ∧ fields.block_field key ≠ .queries) :
    BlockData.readCbor_entry_reserving lim fields ticks fresh env s dec
      = BlockData.readCbor_entry fields ticks fresh env s dec := by
  unfold BlockData.readCbor_entry_reserving BlockData.readCbor_entry
  cases dec with
  | nil => rfl
  | cons t ts =>
    cases t with
    | uint key =>
      have hk := h key ts rfl
      simp only [read_unsigned]
      cases hf : fields.block_field key <;>
        first | exact absurd hf hk.1 | exact absurd hf hk.2 | rfl
    | _ => rfl

theorem block_entry_toks_reserving (lim : MaxSize) (fields : FileVersionFields) (ticks : Nat)
    (fresh : QueryResponseItem) (env : TableEnv) (e : BlockEntry)
    (he : BlockEntry.WellTyped fields env e) (hw : BlockEntry.Within lim fields e)
    (s : BlockData) (rest : List Tok) :
    BlockData.readCbor_entry_reserving lim fields ticks fresh env s (e.toks ++ rest)
      = .ok (BlockEntry.apply fields ticks fresh env s e, rest) := by
  obtain ⟨key, v⟩ := e
  by_cases ht : fields.block_field key = .tables
  · unfold BlockEntry.WellTyped at he
    unfold BlockEntry.Within at hw
    cases v <;> simp only [ht] at he hw
    next indef es =>
      simp only [BlockData.readCbor_entry_reserving, BlockEntry.toks, BlockEntry.apply,
        List.cons_append, read_unsigned, ht, BlockValue.toks]
      exact headers_reserving_wire_map lim fields env s indef es he hw rest
  · by_cases hq : fields.block_field key = .queries
    · unfold BlockEntry.WellTyped at he
      unfold BlockEntry.Within at hw
      cases v <;> simp only [hq] at he hw
      next indef ms =>
        simp only [BlockData.readCbor_entry_reserving, BlockEntry.toks, BlockEntry.apply,
          List.cons_append, read_unsigned, hq, BlockValue.toks]
        exact items_reserving_wire_array lim.query_response_items fields ticks fresh s indef
          ms he hw rest
    · rw [block_entry_reserving_eq lim fields ticks fresh env s _ (fun k ts h => by
        simp only [BlockEntry.toks, List.cons_append, List.cons.injEq, Tok.uint.injEq] at h
        rw [← h.1]
        exact ⟨ht, hq⟩)]
      exact block_entry_toks fields ticks fresh env (key, v) he s rest

theorem block_entry_truncated_reserving (lim : MaxSize) (fields : FileVersionFields)
    (ticks : Nat) (fresh : QueryResponseItem) (env : TableEnv) (e : BlockEntry)
    (he : BlockEntry.WellTyped fields env e) (hw : BlockEntry.Within lim fields e)
    (s : BlockData) :
    RejectsTruncated (BlockData.readCbor_entry_reserving lim fields ticks fresh env s)
      e.toks := by
  obtain ⟨key, v⟩ := e
  by_cases ht : fields.block_field key = .tables
  · refine keyed_truncated _ key v.toks rfl ?_
    intro q hqp hqne
    unfold BlockEntry.WellTyped at he
    unfold BlockEntry.Within at hw
    cases v <;> simp only [ht] at he hw
    next indef es =>
      have h1 := headers_reserving_truncated lim fields env s indef es he hw q hqp hqne
      simp [BlockData.readCbor_entry_reserving, read_unsigned, ht, h1]
  · by_cases hq : fields.block_field key = .queries
    · refine keyed_truncated _ key v.toks rfl ?_
      intro q hqp hqne
      unfold BlockEntry.WellTyped at he
      unfold BlockEntry.Within at hw
      cases v <;> simp only [hq] at he hw
      next indef ms =>
        have h1 := items_reserving_truncated lim.query_response_items fields ticks fresh s
          indef ms he hw q hqp hqne
        simp [BlockData.readCbor_entry_reserving, read_unsigned, hq, h1]
    · intro p hp hne
      rw [block_entry_reserving_eq lim fields ticks fresh env s p (fun k ts h => by
        rw [keyed_prefix_key key v.toks p hp k ts h]
        exact ⟨ht, hq⟩)]
      exact block_entry_truncated fields ticks fresh env (key, v) he s p hp hne

theorem block_reserving_wire_map (lim : MaxSize) (fields : FileVersionFields) (ticks : Nat)
    (fresh : QueryResponseItem) (env : TableEnv) (self : BlockData) (indef : Bool)
    (es : List BlockEntry) (hes : ∀ e ∈ es, BlockEntry.WellTyped fields env e)
    (hws : ∀ e ∈ es, BlockEntry.Within lim fields e) (rest : List Tok) :
    BlockData.readCbor_reserving lim fields ticks fresh env self
        (wire_map indef (es.map BlockEntry.toks) ++ rest)
      = .ok (es.foldl (BlockEntry.apply fields ticks fresh env) self, rest) :=
  read_wire_map (BlockData.readCbor_entry_reserving lim fields ticks fresh env)
    (BlockEntry.apply fields ticks fresh env) BlockEntry.toks es
    (fun e he s rest =>
      block_entry_toks_reserving lim fields ticks fresh env e (hes e he) (hws e he) s rest)
    (fun e _ => block_toks_head e) indef self rest

theorem block_reserving_errors (lim : MaxSize) (fields : FileVersionFields) (ticks : Nat)
    (fresh : QueryResponseItem) (env : TableEnv) (self : BlockData) (es : List BlockEntry)
    (hes : ∀ e ∈ es, BlockEntry.WellTyped fields env e)
    (hws : ∀ e ∈ es, BlockEntry.Within lim fields e) :
    ErrorsReachCaller (BlockData.readCbor_reserving lim fields ticks fresh env self) Tok.map
      (BlockData.readCbor_entry_reserving lim fields ticks fresh env)
      (es.map BlockEntry.toks) (es.foldl (BlockEntry.apply fields ticks fresh env) self) :=
  read_map_errors_reach_caller (BlockData.readCbor_entry_reserving lim fields ticks fresh env)
    (BlockEntry.apply fields ticks fresh env) BlockEntry.toks es
    (fun e he s rest =>
      block_entry_toks_reserving lim fields ticks fresh env e (hes e he) (hws e he) s rest)
    (fun e _ => block_toks_head e) (fun _ => rfl) self

/-- A well-typed block whose reserved arrays are within the limits, cut short
anywhere: `BlockData::readCbor` fails with the end-of-input error. -/
theorem block_reserving_truncated (lim : MaxSize) (fields : FileVersionFields) (ticks : Nat)
    (fresh : QueryResponseItem) (env : TableEnv) (self : BlockData) (indef : Bool)
    (es : List BlockEntry) (hes : ∀ e ∈ es, BlockEntry.WellTyped fields env e)
    (hws : ∀ e ∈ es, BlockEntry.Within lim fields e) :
    RejectsTruncated (BlockData.readCbor_reserving lim fields ticks fresh env self)
      (wire_map indef (es.map BlockEntry.toks)) :=
  wire_map_truncated _ (BlockData.readCbor_entry_reserving lim fields ticks fresh env)
    (BlockEntry.apply fields ticks fresh env) BlockEntry.toks es self
    (fun e _ => block_toks_head e)
    (fun e he s =>
      block_entry_truncated_reserving lim fields ticks fresh env e (hes e he) (hws e he) s)
    (fun es1 _ h => block_reserving_errors lim fields ticks fresh env self es1
      (fun e he => hes e (mem_of_append_left h e he))
      (fun e he => hws e (mem_of_append_left h e he))) indef

/-- A definite count above the limit for the array under the queries key of a
block map with at least one entry: the error of `reserve` leaves
`BlockData::readCbor`, whatever follows the header. -/
theorem block_reserving_above (lim : MaxSize) (fields : FileVersionFields) (ticks : Nat)
    (fresh : QueryResponseItem) (env : TableEnv) (self : BlockData) (k : Option Nat)
    (key n : Nat) (ts : List Tok) (hk : k ≠ some 0)
    (hkey : fields.block_field key = .queries) (hn : lim.query_response_items < n) :
    BlockData.readCbor_reserving lim fields ticks fresh env self
        (.map k :: .uint key :: .arr (some n) :: ts)
      = .error .logic_error := by
  have hbody : BlockData.readCbor_entry_reserving lim fields ticks fresh env self
      (.uint key :: .arr (some n) :: ts) = .error .logic_error := by
    simp only [BlockData.readCbor_entry_reserving, read_unsigned, hkey]
    exact items_reserving_above lim.query_response_items fields ticks fresh self n ts hn
  cases k with
  | none => simp [BlockData.readCbor_reserving, read_map, readMapHeader, container_loop, hbody]
  | some m =>
    cases m with
    | zero => exact absurd rfl hk
    | succ m =>
      simp [BlockData.readCbor_reserving, read_map, readMapHeader, container_loop, hbody]

theorem sample_block_map_within :
    ∀ e ∈ sample_block_map, BlockEntry.Within sample_limits sample_fields e := by
  intro e he
  simp only [sample_block_map, List.mem_cons, List.mem_singleton, List.not_mem_nil,
    or_false] at he
  rcases he with rfl | rfl | rfl | rfl | rfl | rfl
  · exact True.intro
  · exact True.intro
  · intro x hx
    simp only [List.mem_cons, List.mem_singleton, List.not_mem_nil, or_false] at hx
    rcases hx with rfl | rfl
    · exact True.intro
    · intro v hv _
      simp only [List.mem_singleton] at hv
      subst hv
      decide
  · intro _
    decide
  · exact True.intro
  · exact True.intro

/-- C16: the end-of-input error and the decode error of the stream reach the
caller of every decoder of the file as they are.  First, on every input: each
of the nine decoders with a handler fails with such an error exactly when the
body of its `try` block does (for IPAddressItem: whenever the read of the byte
string does); the handler turns neither into the format error nor into a
result.  Second, for each of the fourteen map and array decoders, behind any
well-typed entries: an exhausted stream is the end-of-input error, a stream
error of the loop body on the next entry is the error of the decoder, and so
every proper prefix of a well-typed container, nested containers included, is
refused with the end-of-input error.  The decoders are those with the calls of
`reserve`: for `IndexVectorItem::readCbor` and `BlockData::readItems` the
statements are about the definite counts that `reserve` accepts, and inside a
table or a block about definite arrays of indexes and of queries within these
limits.  Third, above the limit no stream primitive is reached: `reserve`
throws, which is the format error of `IndexVectorItem::readCbor` and a logic
error from `BlockData::readItems` and from `BlockData::readCbor` around it.
The closing examples are a block cut short inside an item, inside a nested
extended-info map and inside a table, a stray break inside a skipped array
(the decode error, from an item and from the block around it), for contrast a
text string as a time offset, which is the format error, and headers that
announce `2 ^ 62` items with nothing behind them. -/
theorem C16_stream_errors_propagate (fields : FileVersionFields) (index_bits ticks : Nat)
    (earliest_time : Int) (IPAddress : List Nat → Except Err (List Nat))
    (fresh : QueryResponseItem) (env : TableEnv) (lim : MaxSize) :
    (∀ dec : List Tok,
      (∀ self : IndexVectorItem,
        PassesStreamErrors
          (read_array_reserving lim.index_vector (IndexVectorItem.read_element index_bits)
            self dec)
          (IndexVectorItem.readCbor_reserving lim.index_vector index_bits self dec))
      ∧ (∀ (self : ByteStringItem) (e : Err), StreamError e →
          (ByteStringItem.readCbor self dec = .error e ↔ read_binary dec = .error e))
      ∧ (∀ (self : IPAddressItem) (e : Err), StreamError e →
          read_binary dec = .error e → IPAddressItem.readCbor IPAddress self dec = .error e)
      ∧ (∀ self : ClassType,
          PassesStreamErrors (read_map (ClassType.read_entry fields) self dec)
            (ClassType.readCbor fields self dec))
      ∧ (∀ self : Question,
          PassesStreamErrors (read_map (Question.read_entry fields) self dec)
            (Question.readCbor fields self dec))
      ∧ (∀ self : ResourceRecord,
          PassesStreamErrors (read_map (ResourceRecord.read_entry fields) self dec)
            (ResourceRecord.readCbor fields self dec))
      ∧ (∀ self : QuerySignature,
          PassesStreamErrors (read_map (QuerySignature.read_entry fields) self dec)
            (QuerySignature.readCbor fields self dec))
      ∧ (∀ self : QueryResponseItem,
          PassesStreamErrors
            (read_map (QueryResponseItem.read_entry fields ticks earliest_time)
              { self with qr_flags := 0 } dec)
            (QueryResponseItem.readCbor fields ticks earliest_time self dec))
      ∧ (∀ self : AddressEventCount,
          PassesStreamErrors
            (read_map (AddressEventCount.read_entry fields)
              { self with aei := { self.aei with code := 0 } } dec)
            (AddressEventCount.readCbor fields self dec)))
    ∧ (∀ (self : IndexVectorItem) (xs : List Nat),
        ErrorsReachCallerWithin lim.index_vector
          (IndexVectorItem.readCbor_reserving lim.index_vector index_bits self) Tok.arr
          (IndexVectorItem.read_element index_bits) (xs.map fun x => [.uint x])
          { vec := self.vec ++ xs.map (to_index_t index_bits) }
        ∧ ∀ indef, (indef = false → xs.length ≤ lim.index_vector) →
            RejectsTruncated
              (IndexVectorItem.readCbor_reserving lim.index_vector index_bits self)
              (wire_array indef (xs.map fun x => [.uint x])))
    ∧ (∀ (self : ClassType) (es : List WireEntry),
        (∀ e ∈ es, ClassTypeEntry.WellTyped fields e) →
        ErrorsReachCaller (ClassType.readCbor fields self) Tok.map
          (ClassType.read_entry fields) (es.map WireEntry.toks)
          (es.foldl (ClassTypeEntry.apply fields) self)
        ∧ ∀ indef, RejectsTruncated (ClassType.readCbor fields self)
            (wire_map indef (es.map WireEntry.toks)))
    ∧ (∀ (self : Question) (es : List WireEntry),
        (∀ e ∈ es, QuestionEntry.WellTyped fields e) →
        ErrorsReachCaller (Question.readCbor fields self) Tok.map
          (Question.read_entry fields) (es.map WireEntry.toks)
          (es.foldl (QuestionEntry.apply fields) self)
        ∧ ∀ indef, RejectsTruncated (Question.readCbor fields self)
            (wire_map indef (es.map WireEntry.toks)))
    ∧ (∀ (self : ResourceRecord) (es : List WireEntry),
        (∀ e ∈ es, RREntry.WellTyped fields e) →
        ErrorsReachCaller (ResourceRecord.readCbor fields self) Tok.map
          (ResourceRecord.read_entry fields) (es.map WireEntry.toks)
          (es.foldl (RREntry.apply fields) self)
        ∧ ∀ indef, RejectsTruncated (ResourceRecord.readCbor fields self)
            (wire_map indef (es.map WireEntry.toks)))
    ∧ (∀ (self : QuerySignature) (es : List WireEntry),
        (∀ e ∈ es, SignatureEntry.WellTyped fields e) →
        ErrorsReachCaller (QuerySignature.readCbor fields self) Tok.map
          (QuerySignature.read_entry fields) (es.map WireEntry.toks)
          (es.foldl (SignatureEntry.apply fields) self)
        ∧ ∀ indef, RejectsTruncated (QuerySignature.readCbor fields self)
            (wire_map indef (es.map WireEntry.toks)))
    ∧ (∀ es : List WireEntry,
        (∀ e ∈ es, ExtEntry.WellTyped fields e) →
        ErrorsReachCaller (readExtraInfo fields) Tok.map (readExtraInfo_entry fields)
          (es.map WireEntry.toks) (ext_of_entries fields es)
        ∧ ∀ indef, RejectsTruncated (readExtraInfo fields)
            (wire_map indef (es.map WireEntry.toks)))
    ∧ (∀ (self : QueryResponseItem) (es : List QREntry),
        (∀ e ∈ es, QREntry.WellTyped fields e) →
        ErrorsReachCaller (QueryResponseItem.readCbor fields ticks earliest_time self)
          Tok.map (QueryResponseItem.read_entry fields ticks earliest_time)
          (es.map QREntry.toks) (item_of_entries fields ticks earliest_time self es)
        ∧ ∀ indef,
          RejectsTruncated (QueryResponseItem.readCbor fields ticks earliest_time self)
            (wire_map indef (es.map QREntry.toks)))
    ∧ (∀ (self : AddressEventCount) (es : List WireEntry),
        (∀ e ∈ es, AddressEventEntry.WellTyped fields e) →
        ErrorsReachCaller (AddressEventCount.readCbor fields self) Tok.map
          (AddressEventCount.read_entry fields) (es.map WireEntry.toks)
          (es.foldl (AddressEventEntry.apply fields)
            { self with aei := { self.aei with code := 0 } })
        ∧ ∀ indef, RejectsTruncated (AddressEventCount.readCbor fields self)
            (wire_map indef (es.map WireEntry.toks)))
    ∧ (∀ (self : BlockData) (es : List PreambleEntry),
        (∀ e ∈ es, PreambleEntry.WellTyped fields e) →
        ErrorsReachCaller (BlockData.readBlockPreamble fields ticks self) Tok.map
          (BlockData.readBlockPreamble_entry fields ticks) (es.map PreambleEntry.toks)
          (es.foldl (PreambleEntry.apply fields ticks) self)
        ∧ ∀ indef, RejectsTruncated (BlockData.readBlockPreamble fields ticks self)
            (wire_map indef (es.map PreambleEntry.toks)))
    ∧ (∀ (self : BlockData) (es : List TableEntry),
        (∀ e ∈ es, TableEntry.WellTyped fields env e) →
        (∀ e ∈ es, TableEntry.Within lim.index_vector fields e) →
        ErrorsReachCaller (BlockData.readHeaders_reserving lim fields env self) Tok.map
          (BlockData.readHeaders_entry_reserving lim fields env) (es.map TableEntry.toks)
          (es.foldl (TableEntry.apply fields env) self)
        ∧ ∀ indef, RejectsTruncated (BlockData.readHeaders_reserving lim fields env self)
            (wire_map indef (es.map TableEntry.toks)))
    ∧ (∀ (self : BlockData) (es : List WireEntry),
        (∀ e ∈ es, StatEntry.WellTyped fields e) →
        ErrorsReachCaller (BlockData.readStats fields self) Tok.map
          (BlockData.readStats_entry fields) (es.map WireEntry.toks)
          (es.foldl (StatEntry.apply fields) self.last_packet_statistics)
        ∧ ∀ indef, RejectsTruncated (BlockData.readStats fields self)
            (wire_map indef (es.map WireEntry.toks)))
    ∧ (∀ (self : BlockData) (ms : List QRMap),
        (∀ m ∈ ms, ∀ e ∈ m.2, QREntry.WellTyped fields e) →
        ErrorsReachCallerWithin lim.query_response_items
          (BlockData.readItems_reserving lim.query_response_items fields ticks fresh self)
          Tok.arr (BlockData.readItems_element fields ticks fresh) (ms.map QRMap.toks)
          { self with
            query_response_items := self.query_response_items
              ++ ms.map (fun m =>
                  item_of_entries fields ticks self.earliest_time fresh m.2) }
        ∧ ∀ indef, (indef = false → ms.length ≤ lim.query_response_items) →
            RejectsTruncated
              (BlockData.readItems_reserving lim.query_response_items fields ticks fresh
                self)
              (wire_array indef (ms.map QRMap.toks)))
    ∧ (∀ (self : BlockData) (ms : List WireMap),
        (∀ m ∈ ms, ∀ e ∈ m.2, AddressEventEntry.WellTyped fields e) →
        ErrorsReachCaller (BlockData.readAddressEventCounts fields self) Tok.arr
          (BlockData.readAddressEventCounts_element fields) (ms.map WireMap.toks)
          { self with
            address_event_counts :=
              ms.foldl (fun counts m =>
                  assign_count counts (address_event_of fields m).aei
                    (address_event_of fields m).count)
                self.address_event_counts }
        ∧ ∀ indef, RejectsTruncated (BlockData.readAddressEventCounts fields self)
            (wire_array indef (ms.map WireMap.toks)))
    ∧ (∀ (self : BlockData) (es : List BlockEntry),
        (∀ e ∈ es, BlockEntry.WellTyped fields env e) →
        (∀ e ∈ es, BlockEntry.Within lim fields e) →
        ErrorsReachCaller (BlockData.readCbor_reserving lim fields ticks fresh env self)
          Tok.map (BlockData.readCbor_entry_reserving lim fields ticks fresh env)
          (es.map BlockEntry.toks) (es.foldl (BlockEntry.apply fields ticks fresh env) self)
        ∧ ∀ indef,
          RejectsTruncated (BlockData.readCbor_reserving lim fields ticks fresh env self)
            (wire_map indef (es.map BlockEntry.toks)))
    ∧ (∀ (self : IndexVectorItem) (n : Nat) (ts : List Tok), lim.index_vector < n →
        IndexVectorItem.readCbor_reserving lim.index_vector index_bits self
            (.arr (some n) :: ts)
          = .error (.cbor_file_format_error "Unexpected CBOR item reading index"))
    ∧ (∀ (self : BlockData) (n : Nat) (ts : List Tok), lim.query_response_items < n →
        BlockData.readItems_reserving lim.query_response_items fields ticks fresh self
            (.arr (some n) :: ts)
          = .error .logic_error)
    ∧ (∀ (self : BlockData) (k : Option Nat) (key n : Nat) (ts : List Tok),
        k ≠ some 0 → fields.block_field key = .queries → lim.query_response_items < n →
        BlockData.readCbor_reserving lim fields ticks fresh env self
            (.map k :: .uint key :: .arr (some n) :: ts)
          = .error .logic_error)
    ∧ BlockData.readCbor_reserving sample_limits sample_fields 1000 sample_stale_item sample_env
        empty_block
        [.map (some 1), .uint 3, .arr none, .map (some 2), .uint 0, .uint 5]
      = .error .cbor_end_of_input
    ∧ BlockData.readCbor_reserving sample_limits sample_fields 1000 sample_stale_item sample_env
        empty_block
        [.map none, .uint 3, .arr (some 1), .map none, .uint 10, .map (some 1), .uint 0]
      = .error .cbor_end_of_input
    ∧ BlockData.readCbor_reserving sample_limits sample_fields 1000 sample_stale_item sample_env
        empty_block
        [.map none, .uint 2, .map (some 1), .uint 1, .arr (some 2), .map (some 1), .uint 0,
          .uint 28]
      = .error .cbor_end_of_input
    ∧ QueryResponseItem.readCbor sample_fields 1000 0 sample_stale_item
        [.map (some 1), .uint 99, .arr (some 2), .uint 1, .brk]
      = .error .cbor_decode_error
    ∧ BlockData.readCbor_reserving sample_limits sample_fields 1000 sample_stale_item sample_env
        empty_block
        [.map (some 1), .uint 3, .arr (some 1), .map (some 1), .uint 99, .arr (some 2),
          .uint 1, .brk]
      = .error .cbor_decode_error
    ∧ QueryResponseItem.readCbor sample_fields 1000 0 sample_stale_item
        [.map (some 1), .uint 0, .text [120]]
      = .error (.cbor_file_format_error "Unexpected CBOR item reading QueryResponseItem")
    ∧ IndexVectorItem.readCbor_reserving sample_limits.index_vector 32 { vec := [] }
        [.arr (some 4611686018427387904)]
      = .error (.cbor_file_format_error "Unexpected CBOR item reading index")
    ∧ BlockData.readItems_reserving sample_limits.query_response_items sample_fields 1000
        sample_stale_item empty_block [.arr (some 4611686018427387904)]
      = .error .logic_error
    ∧ BlockData.readCbor_reserving sample_limits sample_fields 1000 sample_stale_item sample_env
        empty_block [.map (some 1), .uint 3, .arr (some 4611686018427387904)]
      = .error .logic_error
    ∧ BlockData.readCbor_reserving sample_limits sample_fields 1000 sample_stale_item sample_env
        empty_block
        [.map (some 1), .uint 2, .map (some 1), .uint 4, .arr (some 1),
          .arr (some 4611686018427387904)]
      = .error (.cbor_file_format_error "Unexpected CBOR item reading index") :=
  ⟨fun dec =>
    ⟨fun _ => passes_stream_errors _ _,
      fun self e he => byte_string_passes self dec e he,
      fun self e he h => ip_address_passes IPAddress self dec e he h,
      fun _ => passes_stream_errors _ _,
      fun _ => passes_stream_errors _ _,
      fun _ => passes_stream_errors _ _,
      fun _ => passes_stream_errors _ _,
      fun _ => passes_stream_errors _ _,
      fun _ => passes_stream_errors _ _⟩,
    fun self xs => ⟨index_vector_reserving_errors lim.index_vector index_bits self xs,
      fun indef hb =>
        index_vector_reserving_truncated lim.index_vector index_bits self indef xs hb⟩,
    fun self es hes => ⟨class_type_errors fields self es hes,
      fun indef => class_type_truncated fields self indef es hes⟩,
    fun self es hes => ⟨question_errors fields self es hes,
      fun indef => question_truncated fields self indef es hes⟩,
    fun self es hes => ⟨rr_errors fields self es hes,
      fun indef => rr_truncated fields self indef es hes⟩,
    fun self es hes => ⟨signature_errors fields self es hes,
      fun indef => signature_truncated fields self indef es hes⟩,
    fun es hes => ⟨extra_info_errors fields es hes,
      fun indef => extra_info_truncated fields indef es hes⟩,
    fun self es hes => ⟨query_response_errors fields ticks earliest_time self es hes,
      fun indef => query_response_truncated fields ticks earliest_time self indef es hes⟩,
    fun self es hes => ⟨address_event_errors fields self es hes,
      fun indef => address_event_truncated fields self indef es hes⟩,
    fun self es hes => ⟨preamble_errors fields ticks self es hes,
      fun indef => preamble_truncated fields ticks self indef es hes⟩,
    fun self es hes hws => ⟨headers_reserving_errors lim fields env self es hes hws,
      fun indef => headers_reserving_truncated lim fields env self indef es hes hws⟩,
    fun self es hes => ⟨stats_errors fields self es hes,
      fun indef => stats_truncated fields self indef es hes⟩,
    fun self ms hms =>
      ⟨items_reserving_errors lim.query_response_items fields ticks fresh self ms hms,
      fun indef hb =>
        items_reserving_truncated lim.query_response_items fields ticks fresh self indef ms
          hms hb⟩,
    fun self ms hms => ⟨address_events_errors fields self ms hms,
      fun indef => address_events_truncated fields self indef ms hms⟩,
    fun self es hes hws =>
      ⟨block_reserving_errors lim fields ticks fresh env self es hes hws,
      fun indef => block_reserving_truncated lim fields ticks fresh env self indef es hes hws⟩,
    fun self n ts hn => index_vector_reserving_above lim.index_vector index_bits self n ts hn,
    fun self n ts hn =>
      items_reserving_above lim.query_response_items fields ticks fresh self n ts hn,
    fun self k key n ts hk hkey hn =>
      block_reserving_above lim fields ticks fresh env self k key n ts hk hkey hn,
    rfl, rfl, rfl, rfl, rfl, rfl, rfl, rfl, rfl, rfl⟩

/-- C16 at the sample mapping and the sample limits: the sample block, in the
indefinite and in the definite form, cut off after any number of tokens short
of the whole, is refused by `BlockData::readCbor` with the end-of-input error;
so is the sample query/response map by `QueryResponseItem::readCbor`.  Then
the definite sample block cut off inside the earliest time of its preamble;
and a block whose queries array announces `2 ^ 62` items, which is the logic
error of `reserve`, not the end of the input. -/
theorem C16_stream_errors_propagate_witness :
    (∀ indef n, n < (wire_map indef (sample_block_map.map BlockEntry.toks)).length →
      BlockData.readCbor_reserving sample_limits sample_fields 1000 sample_stale_item sample_env
        empty_block
          ((wire_map indef (sample_block_map.map BlockEntry.toks)).take n)
        = .error .cbor_end_of_input)
    ∧ (∀ indef n, n < (wire_map indef (sample_query_map.map QREntry.toks)).length →
      QueryResponseItem.readCbor sample_fields 1000 0 sample_stale_item
          ((wire_map indef (sample_query_map.map QREntry.toks)).take n)
        = .error .cbor_end_of_input)
    ∧ BlockData.readCbor_reserving sample_limits sample_fields 1000 sample_stale_item sample_env
        empty_block
        [.map (some 6), .uint 0, .map (some 1), .uint 0, .arr (some 2), .uint 1000]
      = .error .cbor_end_of_input
    ∧ BlockData.readCbor_reserving sample_limits sample_fields 1000 sample_stale_item sample_env
        empty_block [.map none, .uint 3, .arr (some 4611686018427387904), .map (some 0)]
      = .error .logic_error :=
  ⟨fun indef n hn =>
    ((C16_stream_errors_propagate sample_fields 32 1000 0 sample_env.IPAddress
      sample_stale_item sample_env sample_limits).2.2.2.2.2.2.2.2.2.2.2.2.2.2.1 empty_block
        sample_block_map sample_block_map_well_typed sample_block_map_within).2 indef _
      (List.take_prefix _ _)
      (fun h => by
        have h1 := congrArg List.length h
        rw [List.length_take] at h1
        omega),
    fun indef n hn =>
    ((C16_stream_errors_propagate sample_fields 32 1000 0 sample_env.IPAddress
      sample_stale_item sample_env sample_limits).2.2.2.2.2.2.2.1 sample_stale_item
        sample_query_map sample_query_map_well_typed).2 indef _ (List.take_prefix _ _)
      (fun h => by
        have h1 := congrArg List.length h
        rw [List.length_take] at h1
        omega),
    ((C16_stream_errors_propagate sample_fields 32 1000 0 sample_env.IPAddress
      sample_stale_item sample_env sample_limits).2.2.2.2.2.2.2.2.2.2.2.2.2.2.1 empty_block
        sample_block_map sample_block_map_well_typed sample_block_map_within).2 false _
      (by decide) (by decide),
    (C16_stream_errors_propagate sample_fields 32 1000 0 sample_env.IPAddress
      sample_stale_item sample_env sample_limits).2.2.2.2.2.2.2.2.2.2.2.2.2.2.2.2.2.1
        empty_block none 3 4611686018427387904 [.map (some 0)] (by decide) (by decide)
        (by decide)⟩

end block_cbor
